import Mathlib

/-!
# Public-key read routines (lib/cryptlib/context/key_rdpub.c)

A shallow embedding of the public-key decoders of `key_rdpub.c`.

* Status values are C `int`s, modelled as `Int`.
* The stream, bignum, ASN.1, ECC and kernel routines that the file calls but does
  not define are collected in the record `Ext`: every function of `key_rdpub.c`
  is embedded as a function of an arbitrary `E : Ext σ`, so a theorem stated for
  all `E` holds whatever those routines do.
* Size limits that come from headers are collected in the record `Limits`.
* The build is taken with `USE_PKC`, `USE_INT_ASN1`, `USE_SSH`, `USE_SSL`,
  `USE_PGP`, `USE_ECDH` and `USE_ECDSA` all defined.
* `byteExt` is one concrete choice of the external routines over a byte buffer,
  used to evaluate the decoders on concrete inputs.
* Where a property rests on what the external routines do, it is stated under
  a contract of these routines: `ReaderContract`, the range validation of the
  integer readers; `ErrorLatch`, the persistent error state of a stream;
  `ImportContract`, the validation of an integer held in a buffer;
  `MapContract`, the lookup in a map table; `PrefixContract`, the reads from a
  shortened input; `RestContract`, the reads from two streams with the same
  input left to read. `byteExt` satisfies each of them.
* The functions `directory_exists` and `file_exists` of `source/common.c` are
  embedded over the record `Os` of the operating system calls they make.
-/

namespace KeyRdPub

/-! ## Status codes and the status macros -/

/-- Modelled from the spec: the success status; `cryptlib.h` (not part of the
sources at hand) declares it as zero. -/
def CRYPT_OK : Int := 0

/-- Modelled from the spec: the generic failure value used as the end marker of
a `MAP_TABLE`. -/
def CRYPT_ERROR : Int := -1

/-- Modelled from the spec: the programming-contract violation (internal error)
status. -/
def CRYPT_ERROR_INTERNAL : Int := -16

/-- Modelled from the spec: the not-available error status. -/
def CRYPT_ERROR_NOTAVAIL : Int := -20

/-- Modelled from the spec: the status of a read past the end of the input. -/
def CRYPT_ERROR_UNDERFLOW : Int := -31

/-- Modelled from the spec: the data-format error status. -/
def CRYPT_ERROR_BADDATA : Int := -32

/-- Modelled from the spec: the macro `cryptStatusError( status )`, true for
every status below `CRYPT_OK`. -/
def cryptStatusError (status : Int) : Bool := decide (status < CRYPT_OK)

/-- Modelled from the spec: the macro `cryptStatusOK( status )`. -/
def cryptStatusOK (status : Int) : Bool := decide (status = CRYPT_OK)

/-! ## Enumerations -/

/-- The algorithm identifiers that `key_rdpub.c` distinguishes; every other
algorithm is `CRYPT_ALGO_OTHER`. -/
inductive CRYPT_ALGO_TYPE where
  | CRYPT_ALGO_NONE
  | CRYPT_ALGO_DH
  | CRYPT_ALGO_RSA
  | CRYPT_ALGO_DSA
  | CRYPT_ALGO_ELGAMAL
  | CRYPT_ALGO_ECDSA
  | CRYPT_ALGO_ECDH
  | CRYPT_ALGO_OTHER (id : Nat)
  deriving DecidableEq

/-- The kind of a context; only `CONTEXT_PKC` passes the preconditions. -/
inductive CONTEXT_TYPE where
  | CONTEXT_NONE
  | CONTEXT_CONV
  | CONTEXT_PKC
  | CONTEXT_HASH
  | CONTEXT_MAC
  | CONTEXT_GENERIC
  deriving DecidableEq

/-- The key formats, in the order of the enumeration `KEYFORMAT_TYPE`. -/
inductive KEYFORMAT_TYPE where
  | KEYFORMAT_NONE
  | KEYFORMAT_CERT
  | KEYFORMAT_SSH
  | KEYFORMAT_SSH1
  | KEYFORMAT_SSL
  | KEYFORMAT_PGP
  | KEYFORMAT_PRIVATE
  | KEYFORMAT_PRIVATE_OLD
  | KEYFORMAT_LAST
  deriving DecidableEq

/-- The numeric value of a key format. -/
def KEYFORMAT_TYPE.toNat : KEYFORMAT_TYPE → Nat
  | .KEYFORMAT_NONE => 0
  | .KEYFORMAT_CERT => 1
  | .KEYFORMAT_SSH => 2
  | .KEYFORMAT_SSH1 => 3
  | .KEYFORMAT_SSL => 4
  | .KEYFORMAT_PGP => 5
  | .KEYFORMAT_PRIVATE => 6
  | .KEYFORMAT_PRIVATE_OLD => 7
  | .KEYFORMAT_LAST => 8

/-- Modelled from the spec: the data formats, in the order of the enumeration
`CRYPT_FORMAT_TYPE`; the signature layouts are the native tag-length-value
format, the mail format and the secure-shell format. -/
inductive CRYPT_FORMAT_TYPE where
  | CRYPT_FORMAT_NONE
  | CRYPT_FORMAT_AUTO
  | CRYPT_FORMAT_CRYPTLIB
  | CRYPT_FORMAT_CMS
  | CRYPT_FORMAT_SMIME
  | CRYPT_FORMAT_PGP
  | CRYPT_IFORMAT_SSL
  | CRYPT_IFORMAT_SSH
  | CRYPT_FORMAT_LAST
  deriving DecidableEq

/-- The numeric value of a data format. -/
def CRYPT_FORMAT_TYPE.toNat : CRYPT_FORMAT_TYPE → Nat
  | .CRYPT_FORMAT_NONE => 0
  | .CRYPT_FORMAT_AUTO => 1
  | .CRYPT_FORMAT_CRYPTLIB => 2
  | .CRYPT_FORMAT_CMS => 3
  | .CRYPT_FORMAT_SMIME => 4
  | .CRYPT_FORMAT_PGP => 5
  | .CRYPT_IFORMAT_SSL => 6
  | .CRYPT_IFORMAT_SSH => 7
  | .CRYPT_FORMAT_LAST => 8

/-- The context action messages that carry a permission field. -/
inductive MESSAGE_TYPE where
  | MESSAGE_CTX_ENCRYPT
  | MESSAGE_CTX_DECRYPT
  | MESSAGE_CTX_SIGN
  | MESSAGE_CTX_SIGCHECK
  | MESSAGE_CTX_HASH
  | MESSAGE_CTX_GENKEY
  deriving DecidableEq

/-! ## Permission bitmask -/

/-- Modelled from the spec: the scope "action not available" of one permission
field (an empty field). -/
def ACTION_PERM_NOTAVAIL : Nat := 0

/-- Modelled from the spec: the scope "none" of one permission field, as the
kernel header declares it (`0x01`). -/
def ACTION_PERM_NONE : Nat := 1

/-- Modelled from the spec: the scope "internal-only" of one permission field
(`0x02`). -/
def ACTION_PERM_NONE_EXTERNAL : Nat := 2

/-- Modelled from the spec: the scope "unrestricted" of one permission field
(`0x03`). -/
def ACTION_PERM_ALL : Nat := 3

/-- Modelled from the spec: the width in bits of one permission field. -/
def ACTION_PERM_BITS : Nat := 2

/-- Modelled from the spec: the mask of one permission field. -/
def ACTION_PERM_MASK : Nat := 3

/-- Modelled from the spec: the lower range-check value of a permission
bitmask. -/
def ACTION_PERM_FLAG_NONE : Nat := 0

/-- Modelled from the spec: the upper range-check value of a permission
bitmask. -/
def ACTION_PERM_FLAG_MAX : Nat := 0xFFF

/-- Modelled from the spec: the macro `ACTION_PERM_SHIFT( action )`, the bit
offset of the field of an action; encrypt is the base action. -/
def ACTION_PERM_SHIFT : MESSAGE_TYPE → Nat
  | .MESSAGE_CTX_ENCRYPT => 0 * ACTION_PERM_BITS
  | .MESSAGE_CTX_DECRYPT => 1 * ACTION_PERM_BITS
  | .MESSAGE_CTX_SIGN => 2 * ACTION_PERM_BITS
  | .MESSAGE_CTX_SIGCHECK => 3 * ACTION_PERM_BITS
  | .MESSAGE_CTX_HASH => 4 * ACTION_PERM_BITS
  | .MESSAGE_CTX_GENKEY => 5 * ACTION_PERM_BITS

/-- Modelled from the spec: the macro `MK_ACTION_PERM( action, perm )`. -/
def MK_ACTION_PERM (action : MESSAGE_TYPE) (perm : Nat) : Nat :=
  perm <<< ACTION_PERM_SHIFT action

/-- The scope stored in a bitmask for one action. -/
def actionPerm (actionFlags : Nat) (action : MESSAGE_TYPE) : Nat :=
  (actionFlags >>> ACTION_PERM_SHIFT action) &&& ACTION_PERM_MASK

/-! ## PGP constants -/

/-- Modelled from the spec: the three legacy and current packet versions. -/
def PGP_VERSION_2 : Int := 2

/-- Modelled from the spec: packet version 3. -/
def PGP_VERSION_3 : Int := 3

/-- Modelled from the spec: the OpenPGP packet version. -/
def PGP_VERSION_OPENPGP : Int := 4

/-- Modelled from the spec: the general-purpose RSA usage code. -/
def PGP_ALGO_RSA : Int := 1

/-- Modelled from the spec: the encrypt-only RSA usage code. -/
def PGP_ALGO_RSA_ENCRYPT : Int := 2

/-- Modelled from the spec: the sign-only RSA usage code. -/
def PGP_ALGO_RSA_SIGN : Int := 3

/-- Modelled from the spec: the Elgamal algorithm code. -/
def PGP_ALGO_ELGAMAL : Int := 16

/-- Modelled from the spec: the DSA algorithm code. -/
def PGP_ALGO_DSA : Int := 17

/-- Modelled from the spec: the macro `bytesToBits( bytes )`. -/
def bytesToBits (bytes : Nat) : Nat := bytes <<< 3

/-- The macro `bitsToBytes( bits )`. -/
def bitsToBytes (bits : Nat) : Nat := (bits + 7) >>> 3

/-! ## Curve selectors -/

/-- Modelled from the spec: the curve selectors, numbered in the order of the
enumeration of named curves. -/
def CRYPT_ECCCURVE_NONE : Int := 0

/-- Modelled from the spec: selector of the curve P-192. -/
def CRYPT_ECCCURVE_P192 : Int := 1

/-- Modelled from the spec: selector of the curve P-224. -/
def CRYPT_ECCCURVE_P224 : Int := 2

/-- Modelled from the spec: selector of the curve P-256. -/
def CRYPT_ECCCURVE_P256 : Int := 3

/-- Modelled from the spec: selector of the curve P-384. -/
def CRYPT_ECCCURVE_P384 : Int := 4

/-- Modelled from the spec: selector of the curve P-521. -/
def CRYPT_ECCCURVE_P521 : Int := 5

/-- Modelled from the spec: selector of the curve Brainpool P-256. -/
def CRYPT_ECCCURVE_BRAINPOOL_P256 : Int := 6

/-- Modelled from the spec: selector of the curve Brainpool P-384. -/
def CRYPT_ECCCURVE_BRAINPOOL_P384 : Int := 7

/-- Modelled from the spec: selector of the curve Brainpool P-512. -/
def CRYPT_ECCCURVE_BRAINPOOL_P512 : Int := 8

/-! ## Key object -/

/-- The values of the function pointer `readPublicKeyFunction`: the three
dispatchers of `key_rdpub.c`. -/
inductive READKEY_FUNCTION where
  | readPublicKeyRsaFunction
  | readPublicKeyDlpFunction
  | readPublicKeyEccFunction
  deriving DecidableEq

/-- The values of the function pointer `decodeDLValuesFunction`: the two
signature-pair decoders of `key_rdpub.c`. -/
inductive DECODEDLVALUES_FUNCTION where
  | decodeDLValuesFunction
  | decodeECDLValuesFunction
  deriving DecidableEq

/-- The numeric fields of `PKC_INFO` that the read routines write, and the two
access-method pointers that `initPubKeyRead` sets; bignums are natural
numbers, and a pointer that has not been set is `none`. -/
structure PKC_INFO where
  rsaParam_n : Nat
  rsaParam_e : Nat
  dlpParam_p : Nat
  dlpParam_q : Nat
  dlpParam_g : Nat
  dlpParam_y : Nat
  eccParam_qx : Nat
  eccParam_qy : Nat
  curveType : Int
  pgpCreationTime : Int
  readPublicKeyFunction : Option READKEY_FUNCTION
  decodeDLValuesFunction : Option DECODEDLVALUES_FUNCTION
  deriving DecidableEq

/-- The fields of `CONTEXT_INFO` that the read routines use; `cryptAlgo` stands
for `capabilityInfo->cryptAlgo`. -/
structure CONTEXT_INFO where
  type : CONTEXT_TYPE
  cryptAlgo : CRYPT_ALGO_TYPE
  flags : Nat
  objectHandle : Int
  ctxPKC : PKC_INFO
  deriving DecidableEq

/-- Size limits and flag values declared in headers that are not part of the
sources at hand; they are parameters of every decoder. -/
structure Limits where
  MIN_PKCSIZE_THRESHOLD : Nat
  RSAPARAM_MIN_N : Nat
  RSAPARAM_MAX_N : Nat
  RSAPARAM_MIN_E : Nat
  RSAPARAM_MAX_E : Nat
  DLPPARAM_MIN_P : Nat
  DLPPARAM_MAX_P : Nat
  DLPPARAM_MIN_G : Nat
  DLPPARAM_MAX_G : Nat
  DLPPARAM_MIN_Q : Nat
  DLPPARAM_MAX_Q : Nat
  DLPPARAM_MIN_Y : Nat
  DLPPARAM_MAX_Y : Nat
  MAX_INTLENGTH_SHORT : Nat
  MIN_OID_SIZE : Nat
  MIN_PKCSIZE_ECCPOINT_THRESHOLD : Nat
  MAX_PKCSIZE_ECCPOINT : Nat
  MIN_PKCSIZE_ECC_THRESHOLD : Nat
  CRYPT_MAX_PKCSIZE_ECC : Nat
  CRYPT_MAX_TEXTSIZE : Nat
  CONTEXT_FLAG_STATICCONTEXT : Nat
  DLPPARAM_MIN_SIG_R : Nat
  DLPPARAM_MIN_SIG_S : Nat
  CRYPT_MAX_PKCSIZE : Nat
  ECCPARAM_MIN_SIG_R : Nat
  ECCPARAM_MIN_SIG_S : Nat

/-! ## External routines -/

/-- The outcome of an external read: the returned status, the value stored
through the output pointer, and the stream after the call. -/
structure Out (σ : Type) (α : Type) where
  status : Int
  value : α
  stream : σ

/-- One entry of an object-identifier table. -/
structure OID_INFO where
  oid : List Nat
  selectionID : Int
  deriving DecidableEq

/-- One entry of a `MAP_TABLE`. -/
structure MAP_TABLE where
  source : Int
  destination : Int
  deriving DecidableEq

/-- A message sent to the kernel by `krnlSendMessage` with the message type
`IMESSAGE_SETATTRIBUTE` and the attribute `CRYPT_IATTRIBUTE_ACTIONPERMS`. -/
structure KernelMessage where
  objectHandle : Int
  actionFlags : Nat
  deriving DecidableEq

/-- The routines that `key_rdpub.c` calls and does not define. A bignum reader
gets the present content of the destination bignum and returns its content
after the call; `sgetc`, `readUint16` and `readUint32` return their value as
the status. `sMemConnect` gets the buffer and its size; `importBignum` gets
the bignum, the buffer at the position of the integer, its length, the two
length bounds and the modulus, and is only called with `KEYSIZE_CHECK_NONE`. -/
structure Ext (σ : Type) where
  sMemConnect : List Nat → Int → σ
  importBignum : Nat → List Nat → Int → Nat → Nat → Option Nat → Int × Nat
  sgetc : σ → Out σ Unit
  sread : σ → Nat → Out σ (List Nat)
  sSkip : σ → Nat → Out σ Unit
  readUint16 : σ → Out σ Unit
  readUint32 : σ → Out σ Unit
  readUint32Time : σ → Out σ Int
  readString32 : σ → Nat → Out σ (List Nat × Int)
  readGenericHole : σ → Nat → Out σ Unit
  readBitStringHole : σ → Nat → Out σ Int
  readSequence : σ → Out σ Unit
  readAlgoID : σ → Out σ CRYPT_ALGO_TYPE
  readAlgoIDparam : σ → Out σ (CRYPT_ALGO_TYPE × Int)
  readOID : σ → List OID_INFO → Int → Int → Out σ Int
  readBignum : σ → Nat → Nat → Nat → Option Nat → Out σ Nat
  readBignumChecked : σ → Nat → Nat → Nat → Option Nat → Out σ Nat
  readBignumInteger16U : σ → Nat → Nat → Nat → Option Nat → Out σ Nat
  readBignumInteger16UChecked : σ → Nat → Nat → Nat → Out σ Nat
  readBignumInteger16Ubits : σ → Nat → Nat → Nat → Option Nat → Out σ Nat
  readBignumInteger16UbitsChecked : σ → Nat → Nat → Nat → Out σ Nat
  readBignumInteger32 : σ → Nat → Nat → Nat → Option Nat → Out σ Nat
  readBignumInteger32Checked : σ → Nat → Nat → Nat → Out σ Nat
  getECCOidTbl : Int × List OID_INFO × Int
  getECCFieldSize : Int → Int → Int × Int
  importECCPoint : Nat × Nat → List Nat → Int → Nat → Nat → Int → Int × Nat × Nat
  mapValue : Int → Int → List MAP_TABLE → Int → Int × Int
  krnlSendMessage : List KernelMessage → KernelMessage → Int

/-- Byte values of a C string literal. -/
def cstr (s : String) : List Nat := s.toList.map Char.toNat

/-- The C library routine `memcmp` on the first `n` bytes, zero exactly when
they agree. -/
def memcmp (buffer : List Nat) (literal : List Nat) (n : Nat) : Int :=
  if buffer.take n = literal.take n then 0 else 1

/-- The result of a leaf decoder: status, the value left in `*actionFlags`, the
stream and the context after the call. -/
structure LeafResult (σ : Type) where
  status : Int
  actionFlags : Nat
  stream : σ
  ctx : CONTEXT_INFO

/-- Value of `DUMMY_INIT`, the placeholder initialiser of a local. -/
def DUMMY_INIT : Int := 0

/-! ## Read X.509 public keys -/

/-- The function `readRsaSubjectPublicKey`. -/
def readRsaSubjectPublicKey {σ : Type} (E : Ext σ) (L : Limits) (stream : σ)
    (contextInfoPtr : CONTEXT_INFO) (actionFlags : Nat) : LeafResult σ :=
  let rsaKey := contextInfoPtr.ctxPKC
  if ¬ (contextInfoPtr.type = .CONTEXT_PKC ∧ contextInfoPtr.cryptAlgo = .CRYPT_ALGO_RSA) then
    ⟨CRYPT_ERROR_INTERNAL, actionFlags, stream, contextInfoPtr⟩
  else
  let actionFlags := ACTION_PERM_NONE
  let hole := E.readGenericHole stream (8 + L.MIN_PKCSIZE_THRESHOLD + L.RSAPARAM_MIN_E)
  let algo := E.readAlgoID hole.stream
  if cryptStatusError algo.status then
    ⟨algo.status, actionFlags, algo.stream, contextInfoPtr⟩
  else if algo.value ≠ .CRYPT_ALGO_RSA then
    ⟨CRYPT_ERROR_BADDATA, actionFlags, algo.stream, contextInfoPtr⟩
  else
  let actionFlags :=
    MK_ACTION_PERM .MESSAGE_CTX_ENCRYPT ACTION_PERM_ALL |||
    MK_ACTION_PERM .MESSAGE_CTX_DECRYPT ACTION_PERM_ALL |||
    MK_ACTION_PERM .MESSAGE_CTX_SIGN ACTION_PERM_ALL |||
    MK_ACTION_PERM .MESSAGE_CTX_SIGCHECK ACTION_PERM_ALL
  let bits := E.readBitStringHole algo.stream L.MIN_PKCSIZE_THRESHOLD
  let sq := E.readSequence bits.stream
  let rn := E.readBignumChecked sq.stream rsaKey.rsaParam_n
    L.RSAPARAM_MIN_N L.RSAPARAM_MAX_N none
  let rsaKey := { rsaKey with rsaParam_n := rn.value }
  if cryptStatusOK rn.status then
    let re := E.readBignum rn.stream rsaKey.rsaParam_e
      L.RSAPARAM_MIN_E L.RSAPARAM_MAX_E (some rsaKey.rsaParam_n)
    ⟨re.status, actionFlags, re.stream,
      { contextInfoPtr with ctxPKC := { rsaKey with rsaParam_e := re.value } }⟩
  else
    ⟨rn.status, actionFlags, rn.stream, { contextInfoPtr with ctxPKC := rsaKey }⟩

/-- The macro `hasReversedParams( cryptAlgo )`. -/
def hasReversedParams (cryptAlgo : CRYPT_ALGO_TYPE) : Bool :=
  decide (cryptAlgo = .CRYPT_ALGO_DH ∨ cryptAlgo = .CRYPT_ALGO_ELGAMAL)

/-- The function `readDlpSubjectPublicKey`. The value of `params` is the status
of the two reads after `p` and the content of `g` and `q` after them. -/
def readDlpSubjectPublicKey {σ : Type} (E : Ext σ) (L : Limits) (stream : σ)
    (contextInfoPtr : CONTEXT_INFO) (actionFlags : Nat) : LeafResult σ :=
  let dlpKey := contextInfoPtr.ctxPKC
  if ¬ (contextInfoPtr.type = .CONTEXT_PKC ∧
        (contextInfoPtr.cryptAlgo = .CRYPT_ALGO_DH ∨
         contextInfoPtr.cryptAlgo = .CRYPT_ALGO_DSA ∨
         contextInfoPtr.cryptAlgo = .CRYPT_ALGO_ELGAMAL)) then
    ⟨CRYPT_ERROR_INTERNAL, actionFlags, stream, contextInfoPtr⟩
  else
  let actionFlags := ACTION_PERM_NONE
  let hole := E.readGenericHole stream
    (8 + L.MIN_PKCSIZE_THRESHOLD + L.DLPPARAM_MIN_G + L.DLPPARAM_MIN_Q +
      L.MIN_PKCSIZE_THRESHOLD)
  let algo := E.readAlgoIDparam hole.stream
  let cryptAlgo := algo.value.1
  let extraLength := algo.value.2
  if cryptStatusError algo.status then
    ⟨algo.status, actionFlags, algo.stream, contextInfoPtr⟩
  else if extraLength <
        ((L.MIN_PKCSIZE_THRESHOLD + L.DLPPARAM_MIN_G + L.DLPPARAM_MIN_Q : Nat) : Int) ∨
      extraLength > (L.MAX_INTLENGTH_SHORT : Int) then
    ⟨CRYPT_ERROR_BADDATA, actionFlags, algo.stream, contextInfoPtr⟩
  else if contextInfoPtr.cryptAlgo ≠ cryptAlgo then
    ⟨CRYPT_ERROR_BADDATA, actionFlags, algo.stream, contextInfoPtr⟩
  else
  let sq := E.readSequence algo.stream
  let rp := E.readBignumChecked sq.stream dlpKey.dlpParam_p
    L.DLPPARAM_MIN_P L.DLPPARAM_MAX_P none
  let dlpKey := { dlpKey with dlpParam_p := rp.value }
  if cryptStatusError rp.status then
    ⟨rp.status, actionFlags, rp.stream, { contextInfoPtr with ctxPKC := dlpKey }⟩
  else
  let params : Out σ (Nat × Nat) :=
    if hasReversedParams cryptAlgo then
      let rg := E.readBignum rp.stream dlpKey.dlpParam_g
        L.DLPPARAM_MIN_G L.DLPPARAM_MAX_G (some dlpKey.dlpParam_p)
      if cryptStatusOK rg.status then
        let rq := E.readBignum rg.stream dlpKey.dlpParam_q
          L.DLPPARAM_MIN_Q L.DLPPARAM_MAX_Q (some dlpKey.dlpParam_p)
        ⟨rq.status, (rg.value, rq.value), rq.stream⟩
      else
        ⟨rg.status, (rg.value, dlpKey.dlpParam_q), rg.stream⟩
    else
      let rq := E.readBignum rp.stream dlpKey.dlpParam_q
        L.DLPPARAM_MIN_Q L.DLPPARAM_MAX_Q (some dlpKey.dlpParam_p)
      if cryptStatusOK rq.status then
        let rg := E.readBignum rq.stream dlpKey.dlpParam_g
          L.DLPPARAM_MIN_G L.DLPPARAM_MAX_G (some dlpKey.dlpParam_p)
        ⟨rg.status, (rg.value, rq.value), rg.stream⟩
      else
        ⟨rq.status, (dlpKey.dlpParam_g, rq.value), rq.stream⟩
  let dlpKey := { dlpKey with dlpParam_g := params.value.1, dlpParam_q := params.value.2 }
  if cryptStatusError params.status then
    ⟨params.status, actionFlags, params.stream, { contextInfoPtr with ctxPKC := dlpKey }⟩
  else
  let actionFlags :=
    if cryptAlgo = .CRYPT_ALGO_DSA then
      MK_ACTION_PERM .MESSAGE_CTX_SIGN ACTION_PERM_NONE_EXTERNAL |||
      MK_ACTION_PERM .MESSAGE_CTX_SIGCHECK ACTION_PERM_NONE_EXTERNAL
    else
      MK_ACTION_PERM .MESSAGE_CTX_ENCRYPT ACTION_PERM_NONE_EXTERNAL |||
      MK_ACTION_PERM .MESSAGE_CTX_DECRYPT ACTION_PERM_NONE_EXTERNAL
  let bits := E.readBitStringHole params.stream L.MIN_PKCSIZE_THRESHOLD
  let ry := E.readBignumChecked bits.stream dlpKey.dlpParam_y
    L.DLPPARAM_MIN_Y L.DLPPARAM_MAX_Y (some dlpKey.dlpParam_p)
  ⟨ry.status, actionFlags, ry.stream,
    { contextInfoPtr with ctxPKC := { dlpKey with dlpParam_y := ry.value } }⟩

/-- The function `readEccSubjectPublicKey`. -/
def readEccSubjectPublicKey {σ : Type} (E : Ext σ) (L : Limits) (stream : σ)
    (contextInfoPtr : CONTEXT_INFO) (actionFlags : Nat) : LeafResult σ :=
  let eccKey := contextInfoPtr.ctxPKC
  let fieldSize := DUMMY_INIT
  let selectionID := DUMMY_INIT
  if ¬ (contextInfoPtr.type = .CONTEXT_PKC ∧
        contextInfoPtr.cryptAlgo = .CRYPT_ALGO_ECDSA) then
    ⟨CRYPT_ERROR_INTERNAL, actionFlags, stream, contextInfoPtr⟩
  else
  let actionFlags := ACTION_PERM_NONE
  let hole := E.readGenericHole stream
    (8 + L.MIN_OID_SIZE + L.MIN_PKCSIZE_ECCPOINT_THRESHOLD)
  let algo := E.readAlgoIDparam hole.stream
  let cryptAlgo := algo.value.1
  let extraLength := algo.value.2
  if cryptStatusError algo.status then
    ⟨algo.status, actionFlags, algo.stream, contextInfoPtr⟩
  else if extraLength < (L.MIN_OID_SIZE : Int) ∨
      extraLength > (L.MAX_INTLENGTH_SHORT : Int) then
    ⟨CRYPT_ERROR_BADDATA, actionFlags, algo.stream, contextInfoPtr⟩
  else if contextInfoPtr.cryptAlgo ≠ cryptAlgo then
    ⟨CRYPT_ERROR_BADDATA, actionFlags, algo.stream, contextInfoPtr⟩
  else
  let tbl := E.getECCOidTbl
  let oidTbl := tbl.2.1
  let oidTblSize := tbl.2.2
  let status := tbl.1
  let roid : Out σ Int :=
    if cryptStatusOK status then E.readOID algo.stream oidTbl oidTblSize selectionID
    else ⟨status, selectionID, algo.stream⟩
  let status := roid.status
  let selectionID := roid.value
  let fs : Int × Int :=
    if cryptStatusOK status then E.getECCFieldSize selectionID fieldSize
    else (status, fieldSize)
  let status := fs.1
  let fieldSize := fs.2
  if cryptStatusError status then
    ⟨status, actionFlags, roid.stream, contextInfoPtr⟩
  else
  let eccKey := { eccKey with curveType := selectionID }
  let actionFlags :=
    if cryptAlgo = .CRYPT_ALGO_ECDSA then
      MK_ACTION_PERM .MESSAGE_CTX_SIGN ACTION_PERM_NONE_EXTERNAL |||
      MK_ACTION_PERM .MESSAGE_CTX_SIGCHECK ACTION_PERM_NONE_EXTERNAL
    else
      MK_ACTION_PERM .MESSAGE_CTX_ENCRYPT ACTION_PERM_NONE_EXTERNAL |||
      MK_ACTION_PERM .MESSAGE_CTX_DECRYPT ACTION_PERM_NONE_EXTERNAL
  let bits := E.readBitStringHole roid.stream L.MIN_PKCSIZE_ECCPOINT_THRESHOLD
  let length := bits.value
  if cryptStatusError bits.status then
    ⟨bits.status, actionFlags, bits.stream, { contextInfoPtr with ctxPKC := eccKey }⟩
  else if length < (L.MIN_PKCSIZE_ECCPOINT_THRESHOLD : Int) ∨
      length > (L.MAX_PKCSIZE_ECCPOINT : Int) then
    ⟨CRYPT_ERROR_BADDATA, actionFlags, bits.stream,
      { contextInfoPtr with ctxPKC := eccKey }⟩
  else
  let rd := E.sread bits.stream length.toNat
  if cryptStatusError rd.status then
    ⟨rd.status, actionFlags, rd.stream, { contextInfoPtr with ctxPKC := eccKey }⟩
  else
  let pt := E.importECCPoint (eccKey.eccParam_qx, eccKey.eccParam_qy) rd.value length
    L.MIN_PKCSIZE_ECC_THRESHOLD L.CRYPT_MAX_PKCSIZE_ECC fieldSize
  ⟨pt.1, actionFlags, rd.stream,
    { contextInfoPtr with
      ctxPKC := { eccKey with eccParam_qx := pt.2.1, eccParam_qy := pt.2.2 } }⟩

/-! ## Read SSH public keys -/

/-- The function `readSshRsaPublicKey`. -/
def readSshRsaPublicKey {σ : Type} (E : Ext σ) (L : Limits) (stream : σ)
    (contextInfoPtr : CONTEXT_INFO) (actionFlags : Nat) : LeafResult σ :=
  let rsaKey := contextInfoPtr.ctxPKC
  if ¬ (contextInfoPtr.type = .CONTEXT_PKC ∧ contextInfoPtr.cryptAlgo = .CRYPT_ALGO_RSA) then
    ⟨CRYPT_ERROR_INTERNAL, actionFlags, stream, contextInfoPtr⟩
  else
  let actionFlags := ACTION_PERM_NONE
  let wr := E.readUint32 stream
  let tag := E.readString32 wr.stream 7
  let buffer := tag.value.1
  let length := tag.value.2
  if cryptStatusError tag.status then
    ⟨tag.status, actionFlags, tag.stream, contextInfoPtr⟩
  else if length ≠ 7 ∨ memcmp buffer (cstr "ssh-rsa") 7 ≠ 0 then
    ⟨CRYPT_ERROR_BADDATA, actionFlags, tag.stream, contextInfoPtr⟩
  else
  let actionFlags := MK_ACTION_PERM .MESSAGE_CTX_SIGCHECK ACTION_PERM_NONE_EXTERNAL
  let re := E.readBignumInteger32 tag.stream rsaKey.rsaParam_e
    L.RSAPARAM_MIN_E L.RSAPARAM_MAX_E none
  let rsaKey := { rsaKey with rsaParam_e := re.value }
  if cryptStatusOK re.status then
    let rn := E.readBignumInteger32Checked re.stream rsaKey.rsaParam_n
      L.RSAPARAM_MIN_N L.RSAPARAM_MAX_N
    ⟨rn.status, actionFlags, rn.stream,
      { contextInfoPtr with ctxPKC := { rsaKey with rsaParam_n := rn.value } }⟩
  else
    ⟨re.status, actionFlags, re.stream, { contextInfoPtr with ctxPKC := rsaKey }⟩

/-- The function `readSshDlpPublicKey`. -/
def readSshDlpPublicKey {σ : Type} (E : Ext σ) (L : Limits) (stream : σ)
    (contextInfoPtr : CONTEXT_INFO) (actionFlags : Nat) : LeafResult σ :=
  let dsaKey := contextInfoPtr.ctxPKC
  let isDH : Bool := decide (contextInfoPtr.cryptAlgo = .CRYPT_ALGO_DH)
  if ¬ (contextInfoPtr.type = .CONTEXT_PKC ∧
        (contextInfoPtr.cryptAlgo = .CRYPT_ALGO_DH ∨
         contextInfoPtr.cryptAlgo = .CRYPT_ALGO_DSA)) then
    ⟨CRYPT_ERROR_INTERNAL, actionFlags, stream, contextInfoPtr⟩
  else
  let actionFlags := ACTION_PERM_NONE
  let wr := E.readUint32 stream
  if isDH then
    let tag := E.readString32 wr.stream 6
    let buffer := tag.value.1
    let length := tag.value.2
    if cryptStatusError tag.status then
      ⟨tag.status, actionFlags, tag.stream, contextInfoPtr⟩
    else if length ≠ 6 ∨ memcmp buffer (cstr "ssh-dh") 6 ≠ 0 then
      ⟨CRYPT_ERROR_BADDATA, actionFlags, tag.stream, contextInfoPtr⟩
    else
    let actionFlags :=
      MK_ACTION_PERM .MESSAGE_CTX_ENCRYPT ACTION_PERM_NONE_EXTERNAL |||
      MK_ACTION_PERM .MESSAGE_CTX_DECRYPT ACTION_PERM_NONE_EXTERNAL
    let rp := E.readBignumInteger32Checked tag.stream dsaKey.dlpParam_p
      L.DLPPARAM_MIN_P L.DLPPARAM_MAX_P
    let dsaKey := { dsaKey with dlpParam_p := rp.value }
    if cryptStatusOK rp.status then
      let rg := E.readBignumInteger32 rp.stream dsaKey.dlpParam_g
        L.DLPPARAM_MIN_G L.DLPPARAM_MAX_G (some dsaKey.dlpParam_p)
      ⟨rg.status, actionFlags, rg.stream,
        { contextInfoPtr with ctxPKC := { dsaKey with dlpParam_g := rg.value } }⟩
    else
      ⟨rp.status, actionFlags, rp.stream, { contextInfoPtr with ctxPKC := dsaKey }⟩
  else
  let tag := E.readString32 wr.stream 7
  let buffer := tag.value.1
  let length := tag.value.2
  if cryptStatusError tag.status then
    ⟨tag.status, actionFlags, tag.stream, contextInfoPtr⟩
  else if length ≠ 7 ∨ memcmp buffer (cstr "ssh-dss") 7 ≠ 0 then
    ⟨CRYPT_ERROR_BADDATA, actionFlags, tag.stream, contextInfoPtr⟩
  else
  let actionFlags := MK_ACTION_PERM .MESSAGE_CTX_SIGCHECK ACTION_PERM_NONE_EXTERNAL
  let rp := E.readBignumInteger32Checked tag.stream dsaKey.dlpParam_p
    L.DLPPARAM_MIN_P L.DLPPARAM_MAX_P
  let dsaKey := { dsaKey with dlpParam_p := rp.value }
  let rq : Out σ Nat :=
    if cryptStatusOK rp.status then
      E.readBignumInteger32 rp.stream dsaKey.dlpParam_q
        L.DLPPARAM_MIN_Q L.DLPPARAM_MAX_Q (some dsaKey.dlpParam_p)
    else ⟨rp.status, dsaKey.dlpParam_q, rp.stream⟩
  let dsaKey := { dsaKey with dlpParam_q := rq.value }
  let rg : Out σ Nat :=
    if cryptStatusOK rq.status then
      E.readBignumInteger32 rq.stream dsaKey.dlpParam_g
        L.DLPPARAM_MIN_G L.DLPPARAM_MAX_G (some dsaKey.dlpParam_p)
    else ⟨rq.status, dsaKey.dlpParam_g, rq.stream⟩
  let dsaKey := { dsaKey with dlpParam_g := rg.value }
  let ry : Out σ Nat :=
    if cryptStatusOK rg.status && !isDH then
      E.readBignumInteger32 rg.stream dsaKey.dlpParam_y
        L.DLPPARAM_MIN_Y L.DLPPARAM_MAX_Y (some dsaKey.dlpParam_p)
    else ⟨rg.status, dsaKey.dlpParam_y, rg.stream⟩
  ⟨ry.status, actionFlags, ry.stream,
    { contextInfoPtr with ctxPKC := { dsaKey with dlpParam_y := ry.value } }⟩

/-- The function `readSshEccPublicKey`. The chain of comparisons of the curve
name is the test of its final `else` followed by the choice among the three
names. -/
def readSshEccPublicKey {σ : Type} (E : Ext σ) (L : Limits) (stream : σ)
    (contextInfoPtr : CONTEXT_INFO) (actionFlags : Nat) : LeafResult σ :=
  let eccKey := contextInfoPtr.ctxPKC
  let isECDH : Bool := decide (contextInfoPtr.cryptAlgo = .CRYPT_ALGO_ECDH)
  if ¬ (contextInfoPtr.type = .CONTEXT_PKC ∧
        contextInfoPtr.cryptAlgo = .CRYPT_ALGO_ECDSA) then
    ⟨CRYPT_ERROR_INTERNAL, actionFlags, stream, contextInfoPtr⟩
  else
  let actionFlags :=
    if isECDH then
      MK_ACTION_PERM .MESSAGE_CTX_ENCRYPT ACTION_PERM_NONE_EXTERNAL |||
      MK_ACTION_PERM .MESSAGE_CTX_DECRYPT ACTION_PERM_NONE_EXTERNAL
    else
      MK_ACTION_PERM .MESSAGE_CTX_SIGCHECK ACTION_PERM_NONE_EXTERNAL
  let wr := E.readUint32 stream
  let name := E.readString32 wr.stream L.CRYPT_MAX_TEXTSIZE
  let buffer := name.value.1
  let length := name.value.2
  if cryptStatusError name.status then
    ⟨name.status, actionFlags, name.stream, contextInfoPtr⟩
  else if length < 18 then
    ⟨CRYPT_ERROR_BADDATA, actionFlags, name.stream, contextInfoPtr⟩
  else if isECDH && decide (memcmp buffer (cstr "ecdh-sha2-") 10 ≠ 0) then
    ⟨CRYPT_ERROR_BADDATA, actionFlags, name.stream, contextInfoPtr⟩
  else if !isECDH && decide (memcmp buffer (cstr "ecdsa-sha2-") 11 ≠ 0) then
    ⟨CRYPT_ERROR_BADDATA, actionFlags, name.stream, contextInfoPtr⟩
  else
  let curve := E.readString32 name.stream L.CRYPT_MAX_TEXTSIZE
  let buffer := curve.value.1
  let length := curve.value.2
  if cryptStatusError curve.status then
    ⟨curve.status, actionFlags, curve.stream, contextInfoPtr⟩
  else if length ≠ 8 then
    ⟨CRYPT_ERROR_NOTAVAIL, actionFlags, curve.stream, contextInfoPtr⟩
  else
  if memcmp buffer (cstr "nistp256") 8 ≠ 0 ∧ memcmp buffer (cstr "nistp384") 8 ≠ 0 ∧
      memcmp buffer (cstr "nistp521") 8 ≠ 0 then
    ⟨CRYPT_ERROR_NOTAVAIL, actionFlags, curve.stream, contextInfoPtr⟩
  else
  let curveType :=
    if memcmp buffer (cstr "nistp256") 8 = 0 then CRYPT_ECCCURVE_P256
    else if memcmp buffer (cstr "nistp384") 8 = 0 then CRYPT_ECCCURVE_P384
    else CRYPT_ECCCURVE_P521
  let eccKey := { eccKey with curveType := curveType }
  let fs := E.getECCFieldSize eccKey.curveType DUMMY_INIT
  let fieldSize := fs.2
  if cryptStatusError fs.1 then
    ⟨fs.1, actionFlags, curve.stream, { contextInfoPtr with ctxPKC := eccKey }⟩
  else
  let pb := E.readString32 curve.stream L.MAX_PKCSIZE_ECCPOINT
  let buffer := pb.value.1
  let length := pb.value.2
  if cryptStatusError pb.status then
    ⟨pb.status, actionFlags, pb.stream, { contextInfoPtr with ctxPKC := eccKey }⟩
  else if length < (L.MIN_PKCSIZE_ECCPOINT_THRESHOLD : Int) ∨
      length > (L.MAX_PKCSIZE_ECCPOINT : Int) then
    ⟨CRYPT_ERROR_BADDATA, actionFlags, pb.stream, { contextInfoPtr with ctxPKC := eccKey }⟩
  else
  let pt := E.importECCPoint (eccKey.eccParam_qx, eccKey.eccParam_qy) buffer length
    L.MIN_PKCSIZE_ECC_THRESHOLD L.CRYPT_MAX_PKCSIZE_ECC fieldSize
  ⟨pt.1, actionFlags, pb.stream,
    { contextInfoPtr with
      ctxPKC := { eccKey with eccParam_qx := pt.2.1, eccParam_qy := pt.2.2 } }⟩

/-! ## Read SSL public keys -/

/-- The function `readSslDlpPublicKey`. -/
def readSslDlpPublicKey {σ : Type} (E : Ext σ) (L : Limits) (stream : σ)
    (contextInfoPtr : CONTEXT_INFO) (actionFlags : Nat) : LeafResult σ :=
  let dhKey := contextInfoPtr.ctxPKC
  if ¬ (contextInfoPtr.type = .CONTEXT_PKC ∧ contextInfoPtr.cryptAlgo = .CRYPT_ALGO_DH) then
    ⟨CRYPT_ERROR_INTERNAL, actionFlags, stream, contextInfoPtr⟩
  else
  let actionFlags :=
    MK_ACTION_PERM .MESSAGE_CTX_ENCRYPT ACTION_PERM_NONE_EXTERNAL |||
    MK_ACTION_PERM .MESSAGE_CTX_DECRYPT ACTION_PERM_NONE_EXTERNAL
  let rp := E.readBignumInteger16UChecked stream dhKey.dlpParam_p
    L.DLPPARAM_MIN_P L.DLPPARAM_MAX_P
  let dhKey := { dhKey with dlpParam_p := rp.value }
  if cryptStatusOK rp.status then
    let rg := E.readBignumInteger16U rp.stream dhKey.dlpParam_g
      L.DLPPARAM_MIN_G L.DLPPARAM_MAX_G (some dhKey.dlpParam_p)
    ⟨rg.status, actionFlags, rg.stream,
      { contextInfoPtr with ctxPKC := { dhKey with dlpParam_g := rg.value } }⟩
  else
    ⟨rp.status, actionFlags, rp.stream, { contextInfoPtr with ctxPKC := dhKey }⟩

/-- The table `sslCurveInfo`. -/
def sslCurveInfo : List MAP_TABLE :=
  [ ⟨19, CRYPT_ECCCURVE_P192⟩,
    ⟨21, CRYPT_ECCCURVE_P224⟩,
    ⟨23, CRYPT_ECCCURVE_P256⟩,
    ⟨24, CRYPT_ECCCURVE_P384⟩,
    ⟨25, CRYPT_ECCCURVE_P521⟩,
    ⟨26, CRYPT_ECCCURVE_BRAINPOOL_P256⟩,
    ⟨27, CRYPT_ECCCURVE_BRAINPOOL_P384⟩,
    ⟨28, CRYPT_ECCCURVE_BRAINPOOL_P512⟩,
    ⟨CRYPT_ERROR, 0⟩,
    ⟨CRYPT_ERROR, 0⟩ ]

/-- The macro `FAILSAFE_ARRAYSIZE( array, elementType )`, the number of
elements less the final end marker. -/
def FAILSAFE_ARRAYSIZE {α : Type} (array : List α) : Int := (array.length : Int) - 1

/-- The function `getEccSslInfoTbl`. -/
def getEccSslInfoTbl : Int × List MAP_TABLE × Int :=
  (CRYPT_OK, sslCurveInfo, FAILSAFE_ARRAYSIZE sslCurveInfo)

/-- The function `readSslEccPublicKey`. -/
def readSslEccPublicKey {σ : Type} (E : Ext σ) (_L : Limits) (stream : σ)
    (contextInfoPtr : CONTEXT_INFO) (actionFlags : Nat) : LeafResult σ :=
  let eccKey := contextInfoPtr.ctxPKC
  if ¬ (contextInfoPtr.type = .CONTEXT_PKC ∧
        contextInfoPtr.cryptAlgo = .CRYPT_ALGO_ECDH) then
    ⟨CRYPT_ERROR_INTERNAL, actionFlags, stream, contextInfoPtr⟩
  else
  let actionFlags :=
    MK_ACTION_PERM .MESSAGE_CTX_ENCRYPT ACTION_PERM_NONE_EXTERNAL |||
    MK_ACTION_PERM .MESSAGE_CTX_DECRYPT ACTION_PERM_NONE_EXTERNAL
  let ct := E.sgetc stream
  let value := ct.status
  if cryptStatusError ct.status then
    ⟨ct.status, actionFlags, ct.stream, contextInfoPtr⟩
  else if value ≠ 0x03 then
    ⟨CRYPT_ERROR_BADDATA, actionFlags, ct.stream, contextInfoPtr⟩
  else
  let nc := E.readUint16 ct.stream
  let value := nc.status
  if cryptStatusError nc.status then
    ⟨nc.status, actionFlags, nc.stream, contextInfoPtr⟩
  else
  let tbl := getEccSslInfoTbl
  if cryptStatusError tbl.1 then
    ⟨tbl.1, actionFlags, nc.stream, contextInfoPtr⟩
  else
  let mv := E.mapValue value DUMMY_INIT tbl.2.1 tbl.2.2
  let curveID := mv.2
  if cryptStatusError mv.1 then
    ⟨mv.1, actionFlags, nc.stream, contextInfoPtr⟩
  else
  ⟨CRYPT_OK, actionFlags, nc.stream,
    { contextInfoPtr with ctxPKC := { eccKey with curveType := curveID } }⟩

/-! ## Read PGP public keys -/

/-- The function `readPgpRsaPublicKey`. The `switch` on the usage byte is the
test of its `default` label followed by the choice among its three `case`
labels; the last of them is the `|=` of `PGP_ALGO_RSA_SIGN`. -/
def readPgpRsaPublicKey {σ : Type} (E : Ext σ) (L : Limits) (stream : σ)
    (contextInfoPtr : CONTEXT_INFO) (actionFlags : Nat) : LeafResult σ :=
  let rsaKey := contextInfoPtr.ctxPKC
  if ¬ (contextInfoPtr.type = .CONTEXT_PKC ∧ contextInfoPtr.cryptAlgo = .CRYPT_ALGO_RSA) then
    ⟨CRYPT_ERROR_INTERNAL, actionFlags, stream, contextInfoPtr⟩
  else
  let actionFlags := ACTION_PERM_NONE
  let ver := E.sgetc stream
  let value := ver.status
  if cryptStatusError ver.status then
    ⟨ver.status, actionFlags, ver.stream, contextInfoPtr⟩
  else if value ≠ PGP_VERSION_2 ∧ value ≠ PGP_VERSION_3 ∧ value ≠ PGP_VERSION_OPENPGP then
    ⟨CRYPT_ERROR_BADDATA, actionFlags, ver.stream, contextInfoPtr⟩
  else
  let tm := E.readUint32Time ver.stream
  let creationTime := tm.value
  if cryptStatusError tm.status then
    ⟨tm.status, actionFlags, tm.stream, contextInfoPtr⟩
  else
  let rsaKey := { rsaKey with pgpCreationTime := creationTime }
  let stream :=
    if value = PGP_VERSION_2 ∨ value = PGP_VERSION_3 then (E.sSkip tm.stream 2).stream
    else tm.stream
  let us := E.sgetc stream
  let value := us.status
  if cryptStatusError us.status then
    ⟨us.status, actionFlags, us.stream, { contextInfoPtr with ctxPKC := rsaKey }⟩
  else
  if value ≠ PGP_ALGO_RSA ∧ value ≠ PGP_ALGO_RSA_ENCRYPT ∧ value ≠ PGP_ALGO_RSA_SIGN then
    ⟨CRYPT_ERROR_BADDATA, actionFlags, us.stream, { contextInfoPtr with ctxPKC := rsaKey }⟩
  else
  let actionFlags :=
    if value = PGP_ALGO_RSA then
      MK_ACTION_PERM .MESSAGE_CTX_ENCRYPT ACTION_PERM_ALL |||
      MK_ACTION_PERM .MESSAGE_CTX_DECRYPT ACTION_PERM_ALL |||
      MK_ACTION_PERM .MESSAGE_CTX_SIGCHECK ACTION_PERM_ALL |||
      MK_ACTION_PERM .MESSAGE_CTX_SIGN ACTION_PERM_ALL
    else if value = PGP_ALGO_RSA_ENCRYPT then
      MK_ACTION_PERM .MESSAGE_CTX_ENCRYPT ACTION_PERM_NONE_EXTERNAL |||
      MK_ACTION_PERM .MESSAGE_CTX_DECRYPT ACTION_PERM_NONE_EXTERNAL
    else
      actionFlags |||
        (MK_ACTION_PERM .MESSAGE_CTX_SIGCHECK ACTION_PERM_NONE_EXTERNAL |||
         MK_ACTION_PERM .MESSAGE_CTX_SIGN ACTION_PERM_NONE_EXTERNAL)
  let rn := E.readBignumInteger16UbitsChecked us.stream rsaKey.rsaParam_n
    (bytesToBits L.RSAPARAM_MIN_N) (bytesToBits L.RSAPARAM_MAX_N)
  let rsaKey := { rsaKey with rsaParam_n := rn.value }
  if cryptStatusOK rn.status then
    let re := E.readBignumInteger16Ubits rn.stream rsaKey.rsaParam_e
      (bytesToBits L.RSAPARAM_MIN_E) (bytesToBits L.RSAPARAM_MAX_E)
      (some rsaKey.rsaParam_n)
    ⟨re.status, actionFlags, re.stream,
      { contextInfoPtr with ctxPKC := { rsaKey with rsaParam_e := re.value } }⟩
  else
    ⟨rn.status, actionFlags, rn.stream, { contextInfoPtr with ctxPKC := rsaKey }⟩

/-- The function `readPgpDlpPublicKey`. The `switch` on the algorithm byte is
the test of its `default` label followed by the choice between its two `case`
labels. -/
def readPgpDlpPublicKey {σ : Type} (E : Ext σ) (L : Limits) (stream : σ)
    (contextInfoPtr : CONTEXT_INFO) (actionFlags : Nat) : LeafResult σ :=
  let dlpKey := contextInfoPtr.ctxPKC
  if ¬ (contextInfoPtr.type = .CONTEXT_PKC ∧
        (contextInfoPtr.cryptAlgo = .CRYPT_ALGO_DSA ∨
         contextInfoPtr.cryptAlgo = .CRYPT_ALGO_ELGAMAL)) then
    ⟨CRYPT_ERROR_INTERNAL, actionFlags, stream, contextInfoPtr⟩
  else
  let actionFlags := ACTION_PERM_NONE
  let ver := E.sgetc stream
  let value := ver.status
  if cryptStatusError ver.status then
    ⟨ver.status, actionFlags, ver.stream, contextInfoPtr⟩
  else if value ≠ PGP_VERSION_OPENPGP then
    ⟨CRYPT_ERROR_BADDATA, actionFlags, ver.stream, contextInfoPtr⟩
  else
  let tm := E.readUint32Time ver.stream
  let creationTime := tm.value
  if cryptStatusError tm.status then
    ⟨tm.status, actionFlags, tm.stream, contextInfoPtr⟩
  else
  let dlpKey := { dlpKey with pgpCreationTime := creationTime }
  let al := E.sgetc tm.stream
  let value := al.status
  if cryptStatusError al.status then
    ⟨al.status, actionFlags, al.stream, { contextInfoPtr with ctxPKC := dlpKey }⟩
  else
  if value ≠ PGP_ALGO_DSA ∧ value ≠ PGP_ALGO_ELGAMAL then
    ⟨CRYPT_ERROR_BADDATA, actionFlags, al.stream, { contextInfoPtr with ctxPKC := dlpKey }⟩
  else
  let actionFlags :=
    if value = PGP_ALGO_DSA then
      MK_ACTION_PERM .MESSAGE_CTX_SIGCHECK ACTION_PERM_NONE_EXTERNAL |||
      MK_ACTION_PERM .MESSAGE_CTX_SIGN ACTION_PERM_NONE_EXTERNAL
    else
      MK_ACTION_PERM .MESSAGE_CTX_ENCRYPT ACTION_PERM_NONE_EXTERNAL |||
      MK_ACTION_PERM .MESSAGE_CTX_DECRYPT ACTION_PERM_NONE_EXTERNAL
  let rp := E.readBignumInteger16UbitsChecked al.stream dlpKey.dlpParam_p
    (bytesToBits L.DLPPARAM_MIN_P) (bytesToBits L.DLPPARAM_MAX_P)
  let dlpKey := { dlpKey with dlpParam_p := rp.value }
  let rq : Out σ Nat :=
    if cryptStatusOK rp.status && decide (value = PGP_ALGO_DSA) then
      E.readBignumInteger16Ubits rp.stream dlpKey.dlpParam_q
        (bytesToBits L.DLPPARAM_MIN_Q) (bytesToBits L.DLPPARAM_MAX_Q)
        (some dlpKey.dlpParam_p)
    else ⟨rp.status, dlpKey.dlpParam_q, rp.stream⟩
  let dlpKey := { dlpKey with dlpParam_q := rq.value }
  let rg : Out σ Nat :=
    if cryptStatusOK rq.status then
      E.readBignumInteger16Ubits rq.stream dlpKey.dlpParam_g
        (bytesToBits L.DLPPARAM_MIN_G) (bytesToBits L.DLPPARAM_MAX_G)
        (some dlpKey.dlpParam_p)
    else ⟨rq.status, dlpKey.dlpParam_g, rq.stream⟩
  let dlpKey := { dlpKey with dlpParam_g := rg.value }
  let ry : Out σ Nat :=
    if cryptStatusOK rg.status then
      E.readBignumInteger16Ubits rg.stream dlpKey.dlpParam_y
        (bytesToBits L.DLPPARAM_MIN_Y) (bytesToBits L.DLPPARAM_MAX_Y)
        (some dlpKey.dlpParam_p)
    else ⟨rg.status, dlpKey.dlpParam_y, rg.stream⟩
  ⟨ry.status, actionFlags, ry.stream,
    { contextInfoPtr with ctxPKC := { dlpKey with dlpParam_y := ry.value } }⟩

/-! ## Public-key read interface -/

/-- Names of the leaf decoders, for the record of calls. -/
inductive LeafId where
  | readRsaSubjectPublicKey
  | readDlpSubjectPublicKey
  | readEccSubjectPublicKey
  | readSshRsaPublicKey
  | readSshDlpPublicKey
  | readSshEccPublicKey
  | readSslDlpPublicKey
  | readSslEccPublicKey
  | readPgpRsaPublicKey
  | readPgpDlpPublicKey
  deriving DecidableEq

/-- One call made by a dispatcher: a leaf decoder, or `completePubkeyRead` with
the bitmask passed to it. -/
inductive Call where
  | leaf (f : LeafId)
  | completePubkeyRead (actionFlags : Nat)
  deriving DecidableEq

/-- What is observable outside the key object: the messages sent to the kernel
so far, and the record of the calls made by the dispatchers. -/
structure World where
  sent : List KernelMessage
  calls : List Call
  deriving DecidableEq

/-- The result of a dispatcher: status, stream, context and world after the
call. -/
structure ReadResult (σ : Type) where
  status : Int
  stream : σ
  ctx : CONTEXT_INFO
  world : World

/-- The function `completePubkeyRead`. -/
def completePubkeyRead {σ : Type} (E : Ext σ) (L : Limits)
    (contextInfoPtr : CONTEXT_INFO) (actionFlags : Nat) (w : World) : Int × World :=
  let w := { w with calls := w.calls ++ [Call.completePubkeyRead actionFlags] }
  if ¬ (actionFlags > ACTION_PERM_FLAG_NONE ∧ actionFlags < ACTION_PERM_FLAG_MAX) then
    (CRYPT_ERROR_INTERNAL, w)
  else if contextInfoPtr.flags &&& L.CONTEXT_FLAG_STATICCONTEXT ≠ 0 then
    (CRYPT_OK, w)
  else
    let msg : KernelMessage := ⟨contextInfoPtr.objectHandle, actionFlags⟩
    (E.krnlSendMessage w.sent msg, { w with sent := w.sent ++ [msg] })

/-- The statements after the `switch` of a dispatcher: return the status of the
leaf decoder if it is an error, otherwise complete the read. -/
def finishRead {σ : Type} (E : Ext σ) (L : Limits) (id : LeafId) (r : LeafResult σ)
    (w : World) : ReadResult σ :=
  let w := { w with calls := w.calls ++ [Call.leaf id] }
  if cryptStatusError r.status then
    ⟨r.status, r.stream, r.ctx, w⟩
  else
    let c := completePubkeyRead E L r.ctx r.actionFlags w
    ⟨c.1, r.stream, r.ctx, c.2⟩

/-- The function `readPublicKeyRsaFunction`; `actionFlags` is the content of
the uninitialised local before the call of the leaf decoder. -/
def readPublicKeyRsaFunction {σ : Type} (E : Ext σ) (L : Limits) (stream : σ)
    (contextInfoPtr : CONTEXT_INFO) (formatType : KEYFORMAT_TYPE) (w : World)
    (actionFlags : Nat) : ReadResult σ :=
  if ¬ (contextInfoPtr.type = .CONTEXT_PKC ∧ contextInfoPtr.cryptAlgo = .CRYPT_ALGO_RSA) then
    ⟨CRYPT_ERROR_INTERNAL, stream, contextInfoPtr, w⟩
  else if ¬ (formatType.toNat > KEYFORMAT_TYPE.KEYFORMAT_NONE.toNat ∧
             formatType.toNat < KEYFORMAT_TYPE.KEYFORMAT_LAST.toNat) then
    ⟨CRYPT_ERROR_INTERNAL, stream, contextInfoPtr, w⟩
  else
  match formatType with
  | .KEYFORMAT_CERT =>
    finishRead E L .readRsaSubjectPublicKey
      (readRsaSubjectPublicKey E L stream contextInfoPtr actionFlags) w
  | .KEYFORMAT_SSH =>
    finishRead E L .readSshRsaPublicKey
      (readSshRsaPublicKey E L stream contextInfoPtr actionFlags) w
  | .KEYFORMAT_PGP =>
    finishRead E L .readPgpRsaPublicKey
      (readPgpRsaPublicKey E L stream contextInfoPtr actionFlags) w
  | _ => ⟨CRYPT_ERROR_INTERNAL, stream, contextInfoPtr, w⟩

/-- The function `readPublicKeyDlpFunction`. -/
def readPublicKeyDlpFunction {σ : Type} (E : Ext σ) (L : Limits) (stream : σ)
    (contextInfoPtr : CONTEXT_INFO) (formatType : KEYFORMAT_TYPE) (w : World)
    (actionFlags : Nat) : ReadResult σ :=
  if ¬ (contextInfoPtr.type = .CONTEXT_PKC ∧
        (contextInfoPtr.cryptAlgo = .CRYPT_ALGO_DH ∨
         contextInfoPtr.cryptAlgo = .CRYPT_ALGO_DSA ∨
         contextInfoPtr.cryptAlgo = .CRYPT_ALGO_ELGAMAL)) then
    ⟨CRYPT_ERROR_INTERNAL, stream, contextInfoPtr, w⟩
  else if ¬ (formatType.toNat > KEYFORMAT_TYPE.KEYFORMAT_NONE.toNat ∧
             formatType.toNat < KEYFORMAT_TYPE.KEYFORMAT_LAST.toNat) then
    ⟨CRYPT_ERROR_INTERNAL, stream, contextInfoPtr, w⟩
  else
  match formatType with
  | .KEYFORMAT_CERT =>
    finishRead E L .readDlpSubjectPublicKey
      (readDlpSubjectPublicKey E L stream contextInfoPtr actionFlags) w
  | .KEYFORMAT_SSH =>
    finishRead E L .readSshDlpPublicKey
      (readSshDlpPublicKey E L stream contextInfoPtr actionFlags) w
  | .KEYFORMAT_SSL =>
    finishRead E L .readSslDlpPublicKey
      (readSslDlpPublicKey E L stream contextInfoPtr actionFlags) w
  | .KEYFORMAT_PGP =>
    finishRead E L .readPgpDlpPublicKey
      (readPgpDlpPublicKey E L stream contextInfoPtr actionFlags) w
  | _ => ⟨CRYPT_ERROR_INTERNAL, stream, contextInfoPtr, w⟩

/-- The function `readPublicKeyEccFunction`. -/
def readPublicKeyEccFunction {σ : Type} (E : Ext σ) (L : Limits) (stream : σ)
    (contextInfoPtr : CONTEXT_INFO) (formatType : KEYFORMAT_TYPE) (w : World)
    (actionFlags : Nat) : ReadResult σ :=
  if ¬ (contextInfoPtr.type = .CONTEXT_PKC ∧
        (contextInfoPtr.cryptAlgo = .CRYPT_ALGO_ECDSA ∨
         contextInfoPtr.cryptAlgo = .CRYPT_ALGO_ECDH)) then
    ⟨CRYPT_ERROR_INTERNAL, stream, contextInfoPtr, w⟩
  else if ¬ (formatType = .KEYFORMAT_CERT ∨ formatType = .KEYFORMAT_SSL ∨
             formatType = .KEYFORMAT_SSH) then
    ⟨CRYPT_ERROR_INTERNAL, stream, contextInfoPtr, w⟩
  else
  match formatType with
  | .KEYFORMAT_CERT =>
    finishRead E L .readEccSubjectPublicKey
      (readEccSubjectPublicKey E L stream contextInfoPtr actionFlags) w
  | .KEYFORMAT_SSL =>
    finishRead E L .readSslEccPublicKey
      (readSslEccPublicKey E L stream contextInfoPtr actionFlags) w
  | .KEYFORMAT_SSH =>
    finishRead E L .readSshEccPublicKey
      (readSshEccPublicKey E L stream contextInfoPtr actionFlags) w
  | _ => ⟨CRYPT_ERROR_INTERNAL, stream, contextInfoPtr, w⟩

/-! ## Read DL values -/

/-- The result of a signature-pair decoder: the status and the content of the
two output bignums after the call. -/
structure DLValues where
  status : Int
  value1 : Nat
  value2 : Nat
  deriving DecidableEq

/-- The function `decodeDLValuesFunction`. The `switch` on the format is the
chain of comparisons with its three `case` labels, ending in its `default`
label. `buffer` is the memory at the pointer `buffer` and `bufSize` the size
that the caller gives for it: the stream is connected to the first `bufSize`
bytes, and `importBignum` gets the pointer `buffer` or `buffer + 20`. -/
def decodeDLValuesFunction {σ : Type} (E : Ext σ) (L : Limits) (buffer : List Nat)
    (bufSize : Int) (value1 value2 : Nat) (maxRange : Nat)
    (formatType : CRYPT_FORMAT_TYPE) : DLValues :=
  if ¬ (bufSize ≥ 32 ∧ bufSize < (L.MAX_INTLENGTH_SHORT : Int)) then
    ⟨CRYPT_ERROR_INTERNAL, value1, value2⟩
  else if ¬ (formatType.toNat > CRYPT_FORMAT_TYPE.CRYPT_FORMAT_NONE.toNat ∧
             formatType.toNat < CRYPT_FORMAT_TYPE.CRYPT_FORMAT_LAST.toNat) then
    ⟨CRYPT_ERROR_INTERNAL, value1, value2⟩
  else
  let stream := E.sMemConnect buffer bufSize
  if formatType = .CRYPT_FORMAT_CRYPTLIB then
    let sq := E.readSequence stream
    let r1 := E.readBignum sq.stream value1 L.DLPPARAM_MIN_SIG_R L.CRYPT_MAX_PKCSIZE
      (some maxRange)
    if cryptStatusError r1.status then
      ⟨r1.status, r1.value, value2⟩
    else
    let r2 := E.readBignum r1.stream value2 L.DLPPARAM_MIN_SIG_S L.CRYPT_MAX_PKCSIZE
      (some maxRange)
    ⟨r2.status, r1.value, r2.value⟩
  else if formatType = .CRYPT_FORMAT_PGP then
    let r1 := E.readBignumInteger16Ubits stream value1 L.DLPPARAM_MIN_SIG_R
      (bytesToBits L.CRYPT_MAX_PKCSIZE) (some maxRange)
    if cryptStatusError r1.status then
      ⟨r1.status, r1.value, value2⟩
    else
    let r2 := E.readBignumInteger16Ubits r1.stream value2 L.DLPPARAM_MIN_SIG_S
      (bytesToBits L.CRYPT_MAX_PKCSIZE) (some maxRange)
    ⟨r2.status, r1.value, r2.value⟩
  else if formatType = .CRYPT_IFORMAT_SSH then
    let i1 := E.importBignum value1 buffer 20 L.DLPPARAM_MIN_SIG_R 20 (some maxRange)
    if cryptStatusError i1.1 then
      ⟨i1.1, i1.2, value2⟩
    else
    let i2 := E.importBignum value2 (buffer.drop 20) 20 L.DLPPARAM_MIN_SIG_S 20
      (some maxRange)
    ⟨i2.1, i1.2, i2.2⟩
  else
    ⟨CRYPT_ERROR_INTERNAL, value1, value2⟩

/-- The function `decodeECDLValuesFunction`. -/
def decodeECDLValuesFunction {σ : Type} (E : Ext σ) (L : Limits) (buffer : List Nat)
    (bufSize : Int) (value1 value2 : Nat) (maxRange : Nat)
    (formatType : CRYPT_FORMAT_TYPE) : DLValues :=
  if ¬ (bufSize ≥ 32 ∧ bufSize < (L.MAX_INTLENGTH_SHORT : Int)) then
    ⟨CRYPT_ERROR_INTERNAL, value1, value2⟩
  else if ¬ (formatType.toNat > CRYPT_FORMAT_TYPE.CRYPT_FORMAT_NONE.toNat ∧
             formatType.toNat < CRYPT_FORMAT_TYPE.CRYPT_FORMAT_LAST.toNat) then
    ⟨CRYPT_ERROR_INTERNAL, value1, value2⟩
  else if formatType ≠ .CRYPT_IFORMAT_SSH then
    decodeDLValuesFunction E L buffer bufSize value1 value2 maxRange formatType
  else
  let stream := E.sMemConnect buffer bufSize
  let r1 := E.readBignumInteger32 stream value1 L.ECCPARAM_MIN_SIG_R L.CRYPT_MAX_PKCSIZE_ECC
    (some maxRange)
  if cryptStatusOK r1.status then
    let r2 := E.readBignumInteger32 r1.stream value2 L.ECCPARAM_MIN_SIG_S
      L.CRYPT_MAX_PKCSIZE_ECC (some maxRange)
    ⟨r2.status, r1.value, r2.value⟩
  else
    ⟨r1.status, r1.value, value2⟩

/-! ## Context access routines -/

/-- Modelled from the spec: the macro `isDlpAlgo( algorithm )`, true for the
algorithms DSA, Elgamal and DH. -/
def isDlpAlgo (algorithm : CRYPT_ALGO_TYPE) : Bool :=
  decide (algorithm = .CRYPT_ALGO_DSA ∨ algorithm = .CRYPT_ALGO_ELGAMAL ∨
    algorithm = .CRYPT_ALGO_DH)

/-- Modelled from the spec: the macro `isEccAlgo( algorithm )`, true for the
algorithms ECDSA and ECDH. -/
def isEccAlgo (algorithm : CRYPT_ALGO_TYPE) : Bool :=
  decide (algorithm = .CRYPT_ALGO_ECDSA ∨ algorithm = .CRYPT_ALGO_ECDH)

/-- The function `initPubKeyRead`; the result is the context after the
call. -/
def initPubKeyRead (contextInfoPtr : CONTEXT_INFO) : CONTEXT_INFO :=
  let cryptAlgo := contextInfoPtr.cryptAlgo
  let pkcInfo := contextInfoPtr.ctxPKC
  if ¬ (contextInfoPtr.type = .CONTEXT_PKC) then
    contextInfoPtr
  else if isDlpAlgo cryptAlgo then
    { contextInfoPtr with
      ctxPKC := { pkcInfo with
        readPublicKeyFunction := some .readPublicKeyDlpFunction,
        decodeDLValuesFunction := some .decodeDLValuesFunction } }
  else if isEccAlgo cryptAlgo then
    { contextInfoPtr with
      ctxPKC := { pkcInfo with
        readPublicKeyFunction := some .readPublicKeyEccFunction,
        decodeDLValuesFunction := some .decodeECDLValuesFunction } }
  else
    { contextInfoPtr with
      ctxPKC := { pkcInfo with readPublicKeyFunction := some .readPublicKeyRsaFunction } }

/-- The dispatcher that a value of the pointer `readPublicKeyFunction` stands
for. -/
def READKEY_FUNCTION.call {σ : Type} (f : READKEY_FUNCTION) (E : Ext σ) (L : Limits)
    (stream : σ) (contextInfoPtr : CONTEXT_INFO) (formatType : KEYFORMAT_TYPE) (w : World)
    (actionFlags : Nat) : ReadResult σ :=
  match f with
  | .readPublicKeyRsaFunction =>
    KeyRdPub.readPublicKeyRsaFunction E L stream contextInfoPtr formatType w actionFlags
  | .readPublicKeyDlpFunction =>
    KeyRdPub.readPublicKeyDlpFunction E L stream contextInfoPtr formatType w actionFlags
  | .readPublicKeyEccFunction =>
    KeyRdPub.readPublicKeyEccFunction E L stream contextInfoPtr formatType w actionFlags

/-- The signature-pair decoder that a value of the pointer
`decodeDLValuesFunction` stands for. -/
def DECODEDLVALUES_FUNCTION.call {σ : Type} (f : DECODEDLVALUES_FUNCTION) (E : Ext σ)
    (L : Limits) (buffer : List Nat) (bufSize : Int) (value1 value2 : Nat) (maxRange : Nat)
    (formatType : CRYPT_FORMAT_TYPE) : DLValues :=
  match f with
  | .decodeDLValuesFunction =>
    KeyRdPub.decodeDLValuesFunction E L buffer bufSize value1 value2 maxRange formatType
  | .decodeECDLValuesFunction =>
    KeyRdPub.decodeECDLValuesFunction E L buffer bufSize value1 value2 maxRange formatType

/-! ## A byte-buffer instance of the external routines -/

/-- Modelled from the spec: the wire cursor, a read position over an immutable
input buffer. A failed read leaves the stream in an error state that every
later read returns; the decoders rely on this where they do not inspect the
status of a read. -/
structure STREAM where
  buffer : List Nat
  bufPos : Nat
  status : Int
  deriving DecidableEq

/-- A stream at the start of a buffer. -/
def sMemConnect (buffer : List Nat) : STREAM := ⟨buffer, 0, CRYPT_OK⟩

/-- Modelled from the spec: put a stream into the error state and return the
status. -/
def sSetError {α : Type} (s : STREAM) (status : Int) (value : α) : Out STREAM α :=
  ⟨status, value, { s with status := status }⟩

/-- Big-endian value of a byte string. -/
def beValue (bytes : List Nat) : Nat := bytes.foldl (fun acc b => acc * 256 + b) 0

/-- Modelled from the spec: `sread`, a bounds-checked read of `n` bytes that
advances the cursor by `n` or fails at the end of the buffer. -/
def STREAM.sread (s : STREAM) (n : Nat) : Out STREAM (List Nat) :=
  if cryptStatusError s.status then ⟨s.status, [], s⟩
  else if s.bufPos + n > s.buffer.length then sSetError s CRYPT_ERROR_UNDERFLOW []
  else ⟨CRYPT_OK, (s.buffer.drop s.bufPos).take n, { s with bufPos := s.bufPos + n }⟩

/-- Modelled from the spec: `sgetc`, which returns the next byte as the
status. -/
def STREAM.sgetc (s : STREAM) : Out STREAM Unit :=
  let r := s.sread 1
  if cryptStatusError r.status then ⟨r.status, (), r.stream⟩
  else ⟨(beValue r.value : Int), (), r.stream⟩

/-- Modelled from the spec: `sSkip`, which moves the cursor forward. -/
def STREAM.sSkip (s : STREAM) (n : Nat) : Out STREAM Unit :=
  let r := s.sread n
  ⟨r.status, (), r.stream⟩

/-- Modelled from the spec: `readUint16`, a big-endian 16-bit value returned
as the status. -/
def STREAM.readUint16 (s : STREAM) : Out STREAM Unit :=
  let r := s.sread 2
  if cryptStatusError r.status then ⟨r.status, (), r.stream⟩
  else ⟨(beValue r.value : Int), (), r.stream⟩

/-- Modelled from the spec: `readUint32`, a big-endian 32-bit value returned
as the status; a value that does not fit a non-negative `int` is a
data-format error. -/
def STREAM.readUint32 (s : STREAM) : Out STREAM Unit :=
  let r := s.sread 4
  if cryptStatusError r.status then ⟨r.status, (), r.stream⟩
  else if beValue r.value ≥ 2 ^ 31 then sSetError r.stream CRYPT_ERROR_BADDATA ()
  else ⟨(beValue r.value : Int), (), r.stream⟩

/-- Modelled from the spec: `readUint32Time`, the 4-byte big-endian creation
timestamp. -/
def STREAM.readUint32Time (s : STREAM) : Out STREAM Int :=
  let r := s.sread 4
  if cryptStatusError r.status then ⟨r.status, 0, r.stream⟩
  else ⟨CRYPT_OK, (beValue r.value : Int), r.stream⟩

/-- Modelled from the spec: `readString32`, a string with a 32-bit length
prefix; a declared length above `maxLength` is a data-format error. -/
def STREAM.readString32 (s : STREAM) (maxLength : Nat) : Out STREAM (List Nat × Int) :=
  let len := s.readUint32
  if cryptStatusError len.status then ⟨len.status, ([], 0), len.stream⟩
  else if len.status.toNat > maxLength then sSetError len.stream CRYPT_ERROR_BADDATA ([], 0)
  else
  let r := len.stream.sread len.status.toNat
  if cryptStatusError r.status then ⟨r.status, ([], 0), r.stream⟩
  else ⟨CRYPT_OK, (r.value, len.status), r.stream⟩

/-- Modelled from the spec: the range validation of one decoded integer: the
length must lie in `[minLength, maxLength]` and the value must be strictly
less than the modulus when one is supplied. -/
def importBignum (bignum : Nat) (bytes : List Nat) (minLength maxLength : Nat)
    (maxRange : Option Nat) : Int × Nat :=
  if bytes.length < minLength ∨ bytes.length > maxLength then (CRYPT_ERROR_BADDATA, bignum)
  else
    match maxRange with
    | some m => if beValue bytes ≥ m then (CRYPT_ERROR_BADDATA, beValue bytes)
                else (CRYPT_OK, beValue bytes)
    | none => (CRYPT_OK, beValue bytes)

/-- Finish a bignum read: validate the bytes and set the stream error state if
the validation fails. -/
def finishBignum (s : STREAM) (bignum : Nat) (bytes : List Nat) (minLength maxLength : Nat)
    (maxRange : Option Nat) : Out STREAM Nat :=
  let r := importBignum bignum bytes minLength maxLength maxRange
  if cryptStatusError r.1 then sSetError s r.1 r.2 else ⟨r.1, r.2, s⟩

/-- Remove the leading zero bytes of an encoded integer. -/
def stripZeros : List Nat → List Nat
  | 0 :: rest => stripZeros rest
  | bytes => bytes

/-- Modelled from the spec: `readBignumInteger32`, a big-endian unsigned
integer with a 32-bit length prefix. -/
def STREAM.readBignumInteger32 (s : STREAM) (bignum minLength maxLength : Nat)
    (maxRange : Option Nat) : Out STREAM Nat :=
  let len := s.readUint32
  if cryptStatusError len.status then ⟨len.status, bignum, len.stream⟩
  else
  let r := len.stream.sread len.status.toNat
  if cryptStatusError r.status then ⟨r.status, bignum, r.stream⟩
  else finishBignum r.stream bignum (stripZeros r.value) minLength maxLength maxRange

/-- Modelled from the spec: `readBignumInteger16U`, a big-endian unsigned
integer with a 16-bit length prefix. -/
def STREAM.readBignumInteger16U (s : STREAM) (bignum minLength maxLength : Nat)
    (maxRange : Option Nat) : Out STREAM Nat :=
  let len := s.readUint16
  if cryptStatusError len.status then ⟨len.status, bignum, len.stream⟩
  else
  let r := len.stream.sread len.status.toNat
  if cryptStatusError r.status then ⟨r.status, bignum, r.stream⟩
  else finishBignum r.stream bignum r.value minLength maxLength maxRange

/-- Modelled from the spec: the checked variant of `readBignumInteger16U`,
which also requires byte 0 of the encoding to be non-zero. -/
def STREAM.readBignumInteger16UChecked (s : STREAM) (bignum minLength maxLength : Nat) :
    Out STREAM Nat :=
  let len := s.readUint16
  if cryptStatusError len.status then ⟨len.status, bignum, len.stream⟩
  else
  let r := len.stream.sread len.status.toNat
  if cryptStatusError r.status then ⟨r.status, bignum, r.stream⟩
  else if r.value.head? = some 0 then sSetError r.stream CRYPT_ERROR_BADDATA bignum
  else finishBignum r.stream bignum r.value minLength maxLength none

/-- Modelled from the spec: `readBignumInteger16Ubits`, a big-endian unsigned
integer prefixed by its 16-bit bit count; the bounds are given as bit counts
and the length in bytes is validated against them in bytes. -/
def STREAM.readBignumInteger16Ubits (s : STREAM) (bignum minBits maxBits : Nat)
    (maxRange : Option Nat) : Out STREAM Nat :=
  let bits := s.readUint16
  if cryptStatusError bits.status then ⟨bits.status, bignum, bits.stream⟩
  else
  let r := bits.stream.sread (bitsToBytes bits.status.toNat)
  if cryptStatusError r.status then ⟨r.status, bignum, r.stream⟩
  else finishBignum r.stream bignum r.value (bitsToBytes minBits) (bitsToBytes maxBits) maxRange

/-- Modelled from the spec: the checked variant of
`readBignumInteger16Ubits`, which also requires byte 0 of the encoding to be
non-zero. -/
def STREAM.readBignumInteger16UbitsChecked (s : STREAM) (bignum minBits maxBits : Nat) :
    Out STREAM Nat :=
  let bits := s.readUint16
  if cryptStatusError bits.status then ⟨bits.status, bignum, bits.stream⟩
  else
  let r := bits.stream.sread (bitsToBytes bits.status.toNat)
  if cryptStatusError r.status then ⟨r.status, bignum, r.stream⟩
  else if r.value.head? = some 0 then sSetError r.stream CRYPT_ERROR_BADDATA bignum
  else finishBignum r.stream bignum r.value (bitsToBytes minBits) (bitsToBytes maxBits) none

/-- Modelled from the spec: the checked variant of `readBignumInteger32`. -/
def STREAM.readBignumInteger32Checked (s : STREAM) (bignum minLength maxLength : Nat) :
    Out STREAM Nat :=
  s.readBignumInteger32 bignum minLength maxLength none

/-- Modelled from the spec: the length octets of a tag-length-value header,
in the short form or the long form with one or two length bytes. -/
def STREAM.readLength (s : STREAM) : Out STREAM Nat :=
  let b := s.sgetc
  if cryptStatusError b.status then ⟨b.status, 0, b.stream⟩
  else if b.status < 0x80 then ⟨CRYPT_OK, b.status.toNat, b.stream⟩
  else if b.status = 0x81 then
    let r := b.stream.sread 1
    if cryptStatusError r.status then ⟨r.status, 0, r.stream⟩
    else ⟨CRYPT_OK, beValue r.value, r.stream⟩
  else if b.status = 0x82 then
    let r := b.stream.sread 2
    if cryptStatusError r.status then ⟨r.status, 0, r.stream⟩
    else ⟨CRYPT_OK, beValue r.value, r.stream⟩
  else sSetError b.stream CRYPT_ERROR_BADDATA 0

/-- Modelled from the spec: a tag-length-value header; `tag` is the required
tag, or `none` when any tag is accepted. The value is the declared length. -/
def STREAM.readHeader (s : STREAM) (tag : Option Int) : Out STREAM Nat :=
  let t := s.sgetc
  if cryptStatusError t.status then ⟨t.status, 0, t.stream⟩
  else if tag.isSome ∧ tag ≠ some t.status then sSetError t.stream CRYPT_ERROR_BADDATA 0
  else t.stream.readLength

/-- Modelled from the spec: `readGenericHole` with the default tag, the
enclosing tag-length-value wrapper of at least `minLength` bytes. -/
def STREAM.readGenericHole (s : STREAM) (minLength : Nat) : Out STREAM Unit :=
  let h := s.readHeader none
  if cryptStatusError h.status then ⟨h.status, (), h.stream⟩
  else if h.value < minLength then sSetError h.stream CRYPT_ERROR_BADDATA ()
  else ⟨CRYPT_OK, (), h.stream⟩

/-- Modelled from the spec: `readSequence`, the header of a sequence. -/
def STREAM.readSequence (s : STREAM) : Out STREAM Unit :=
  let h := s.readHeader (some 0x30)
  ⟨h.status, (), h.stream⟩

/-- Modelled from the spec: `readBitStringHole`, the bit-string wrapper with
no unused bits; the value is the length of the content. -/
def STREAM.readBitStringHole (s : STREAM) (minLength : Nat) : Out STREAM Int :=
  let h := s.readHeader (some 0x03)
  if cryptStatusError h.status then ⟨h.status, 0, h.stream⟩
  else
  let u := h.stream.sgetc
  if cryptStatusError u.status then ⟨u.status, 0, u.stream⟩
  else if u.status ≠ 0 ∨ h.value < 1 + minLength then sSetError u.stream CRYPT_ERROR_BADDATA 0
  else ⟨CRYPT_OK, (h.value : Int) - 1, u.stream⟩

/-- Modelled from the spec: the encoded object identifiers of the public-key
algorithms. -/
def algoOidTbl : List (List Nat × CRYPT_ALGO_TYPE) :=
  [ ([0x06, 0x09, 0x2A, 0x86, 0x48, 0x86, 0xF7, 0x0D, 0x01, 0x01, 0x01], .CRYPT_ALGO_RSA),
    ([0x06, 0x07, 0x2A, 0x86, 0x48, 0xCE, 0x38, 0x04, 0x01], .CRYPT_ALGO_DSA),
    ([0x06, 0x07, 0x2A, 0x86, 0x48, 0xCE, 0x3E, 0x02, 0x01], .CRYPT_ALGO_DH),
    ([0x06, 0x0A, 0x2B, 0x06, 0x01, 0x04, 0x01, 0x97, 0x55, 0x01, 0x02, 0x01],
      .CRYPT_ALGO_ELGAMAL),
    ([0x06, 0x07, 0x2A, 0x86, 0x48, 0xCE, 0x3D, 0x02, 0x01], .CRYPT_ALGO_ECDSA),
    ([0x06, 0x05, 0x2B, 0x81, 0x04, 0x01, 0x0C], .CRYPT_ALGO_ECDH) ]

/-- Modelled from the spec: an encoded object identifier, returned with its
tag and length bytes. -/
def STREAM.readRawOID (s : STREAM) : Out STREAM (List Nat) :=
  let h := s.readHeader (some 0x06)
  if cryptStatusError h.status then ⟨h.status, [], h.stream⟩
  else
  let r := h.stream.sread h.value
  if cryptStatusError r.status then ⟨r.status, [], r.stream⟩
  else ⟨CRYPT_OK, 0x06 :: h.value :: r.value, r.stream⟩

/-- Modelled from the spec: `readAlgoIDparam`, the header of the
algorithm-identifier structure; the value is the algorithm and the length of
the parameters that follow the identifier. -/
def STREAM.readAlgoIDparam (s : STREAM) : Out STREAM (CRYPT_ALGO_TYPE × Int) :=
  let h := s.readHeader (some 0x30)
  if cryptStatusError h.status then ⟨h.status, (.CRYPT_ALGO_NONE, 0), h.stream⟩
  else
  let o := h.stream.readRawOID
  if cryptStatusError o.status then ⟨o.status, (.CRYPT_ALGO_NONE, 0), o.stream⟩
  else
    match algoOidTbl.lookup o.value with
    | none => sSetError o.stream CRYPT_ERROR_NOTAVAIL (.CRYPT_ALGO_NONE, 0)
    | some algo => ⟨CRYPT_OK, (algo, (h.value : Int) - (o.value.length : Int)), o.stream⟩

/-- Modelled from the spec: `readAlgoID`, the algorithm-identifier structure
without parameters other than an optional null. -/
def STREAM.readAlgoID (s : STREAM) : Out STREAM CRYPT_ALGO_TYPE :=
  let a := s.readAlgoIDparam
  if cryptStatusError a.status then ⟨a.status, a.value.1, a.stream⟩
  else if a.value.2 = 0 then ⟨CRYPT_OK, a.value.1, a.stream⟩
  else if a.value.2 ≠ 2 then sSetError a.stream CRYPT_ERROR_BADDATA a.value.1
  else
  let n := a.stream.sread 2
  if cryptStatusError n.status then ⟨n.status, a.value.1, n.stream⟩
  else if n.value ≠ [0x05, 0x00] then sSetError n.stream CRYPT_ERROR_BADDATA a.value.1
  else ⟨CRYPT_OK, a.value.1, n.stream⟩

/-- Modelled from the spec: `readOID`, a linear scan of an identifier table to
the first match; no match is a not-available error. -/
def STREAM.readOID (s : STREAM) (oidTbl : List OID_INFO) (oidTblSize : Int)
    (selectionID : Int) : Out STREAM Int :=
  let o := s.readRawOID
  if cryptStatusError o.status then ⟨o.status, selectionID, o.stream⟩
  else
    match (oidTbl.take oidTblSize.toNat).find? (fun e => e.oid = o.value) with
    | none => sSetError o.stream CRYPT_ERROR_NOTAVAIL selectionID
    | some e => ⟨CRYPT_OK, e.selectionID, o.stream⟩

/-- Modelled from the spec: `readBignum`, a tag-length-value big-endian
integer; a single leading zero byte is the sign padding of the encoding. -/
def STREAM.readBignum (s : STREAM) (bignum minLength maxLength : Nat)
    (maxRange : Option Nat) : Out STREAM Nat :=
  let h := s.readHeader (some 0x02)
  if cryptStatusError h.status then ⟨h.status, bignum, h.stream⟩
  else
  let r := h.stream.sread h.value
  if cryptStatusError r.status then ⟨r.status, bignum, r.stream⟩
  else
  let bytes := match r.value with
    | 0 :: b :: rest => b :: rest
    | bytes => bytes
  finishBignum r.stream bignum bytes minLength maxLength maxRange

/-- Modelled from the spec: the checked variant of `readBignum`. -/
def STREAM.readBignumChecked (s : STREAM) (bignum minLength maxLength : Nat)
    (maxRange : Option Nat) : Out STREAM Nat :=
  s.readBignum bignum minLength maxLength maxRange

/-- Modelled from the spec: the table of named curves of the certificate
format, from the encoded object identifier to the curve selector. -/
def eccOidTbl : List OID_INFO :=
  [ ⟨[0x06, 0x08, 0x2A, 0x86, 0x48, 0xCE, 0x3D, 0x03, 0x01, 0x01], CRYPT_ECCCURVE_P192⟩,
    ⟨[0x06, 0x05, 0x2B, 0x81, 0x04, 0x00, 0x21], CRYPT_ECCCURVE_P224⟩,
    ⟨[0x06, 0x08, 0x2A, 0x86, 0x48, 0xCE, 0x3D, 0x03, 0x01, 0x07], CRYPT_ECCCURVE_P256⟩,
    ⟨[0x06, 0x05, 0x2B, 0x81, 0x04, 0x00, 0x22], CRYPT_ECCCURVE_P384⟩,
    ⟨[0x06, 0x05, 0x2B, 0x81, 0x04, 0x00, 0x23], CRYPT_ECCCURVE_P521⟩ ]

/-- Modelled from the spec: `getECCFieldSize`, the field size in bytes of a
named curve; an unknown selector is a not-available error. -/
def getECCFieldSize (curveType : Int) (fieldSize : Int) : Int × Int :=
  if curveType = CRYPT_ECCCURVE_P192 then (CRYPT_OK, 24)
  else if curveType = CRYPT_ECCCURVE_P224 then (CRYPT_OK, 28)
  else if curveType = CRYPT_ECCCURVE_P256 then (CRYPT_OK, 32)
  else if curveType = CRYPT_ECCCURVE_P384 then (CRYPT_OK, 48)
  else if curveType = CRYPT_ECCCURVE_P521 then (CRYPT_OK, 66)
  else if curveType = CRYPT_ECCCURVE_BRAINPOOL_P256 then (CRYPT_OK, 32)
  else if curveType = CRYPT_ECCCURVE_BRAINPOOL_P384 then (CRYPT_OK, 48)
  else if curveType = CRYPT_ECCCURVE_BRAINPOOL_P512 then (CRYPT_OK, 64)
  else (CRYPT_ERROR_NOTAVAIL, fieldSize)

/-- Modelled from the spec: `importECCPoint`, the import of an uncompressed
point: the byte `0x04` followed by two coordinates of the field size. -/
def importECCPoint (q : Nat × Nat) (buffer : List Nat) (length : Int)
    (minLength maxLength : Nat) (fieldSize : Int) : Int × Nat × Nat :=
  if fieldSize < (minLength : Int) ∨ fieldSize > (maxLength : Int) then
    (CRYPT_ERROR_BADDATA, q.1, q.2)
  else if length ≠ 1 + 2 * fieldSize ∨ (buffer.length : Int) ≠ length ∨
      buffer.head? ≠ some 0x04 then
    (CRYPT_ERROR_BADDATA, q.1, q.2)
  else
    (CRYPT_OK, beValue ((buffer.drop 1).take fieldSize.toNat),
      beValue (buffer.drop (1 + fieldSize.toNat)))

/-- Modelled from the spec: `mapValue`, a linear scan of a map table to the
first match, ending at the end marker; no match is a not-available error. -/
def mapValue (srcValue : Int) (destValue : Int) (mapTbl : List MAP_TABLE)
    (mapTblSize : Int) : Int × Int :=
  match ((mapTbl.take mapTblSize.toNat).takeWhile (fun e => e.source ≠ CRYPT_ERROR)).find?
      (fun e => e.source = srcValue) with
  | none => (CRYPT_ERROR_NOTAVAIL, destValue)
  | some e => (CRYPT_OK, e.destination)

/-- The external routines over a byte buffer; the kernel accepts every
message to an object with a non-negative handle. -/
def byteExt : Ext STREAM where
  sMemConnect := fun buffer bufSize => sMemConnect (buffer.take bufSize.toNat)
  importBignum := fun bignum buffer length minLength maxLength maxRange =>
    importBignum bignum (buffer.take length.toNat) minLength maxLength maxRange
  sgetc := STREAM.sgetc
  sread := STREAM.sread
  sSkip := STREAM.sSkip
  readUint16 := STREAM.readUint16
  readUint32 := STREAM.readUint32
  readUint32Time := STREAM.readUint32Time
  readString32 := STREAM.readString32
  readGenericHole := STREAM.readGenericHole
  readBitStringHole := STREAM.readBitStringHole
  readSequence := STREAM.readSequence
  readAlgoID := STREAM.readAlgoID
  readAlgoIDparam := STREAM.readAlgoIDparam
  readOID := STREAM.readOID
  readBignum := STREAM.readBignum
  readBignumChecked := STREAM.readBignumChecked
  readBignumInteger16U := STREAM.readBignumInteger16U
  readBignumInteger16UChecked := STREAM.readBignumInteger16UChecked
  readBignumInteger16Ubits := STREAM.readBignumInteger16Ubits
  readBignumInteger16UbitsChecked := STREAM.readBignumInteger16UbitsChecked
  readBignumInteger32 := STREAM.readBignumInteger32
  readBignumInteger32Checked := STREAM.readBignumInteger32Checked
  getECCOidTbl := (CRYPT_OK, eccOidTbl, (eccOidTbl.length : Int))
  getECCFieldSize := getECCFieldSize
  importECCPoint := importECCPoint
  mapValue := mapValue
  krnlSendMessage := fun _ msg =>
    if msg.objectHandle < 0 then CRYPT_ERROR_INTERNAL else CRYPT_OK

/-- Sample limits of the size that the toolkit uses. -/
def sampleLimits : Limits where
  MIN_PKCSIZE_THRESHOLD := 63
  RSAPARAM_MIN_N := 127
  RSAPARAM_MAX_N := 512
  RSAPARAM_MIN_E := 1
  RSAPARAM_MAX_E := 4
  DLPPARAM_MIN_P := 127
  DLPPARAM_MAX_P := 512
  DLPPARAM_MIN_G := 1
  DLPPARAM_MAX_G := 512
  DLPPARAM_MIN_Q := 16
  DLPPARAM_MAX_Q := 512
  DLPPARAM_MIN_Y := 16
  DLPPARAM_MAX_Y := 512
  MAX_INTLENGTH_SHORT := 16384
  MIN_OID_SIZE := 5
  MIN_PKCSIZE_ECCPOINT_THRESHOLD := 31
  MAX_PKCSIZE_ECCPOINT := 145
  MIN_PKCSIZE_ECC_THRESHOLD := 15
  CRYPT_MAX_PKCSIZE_ECC := 72
  CRYPT_MAX_TEXTSIZE := 64
  CONTEXT_FLAG_STATICCONTEXT := 0x1000
  DLPPARAM_MIN_SIG_R := 16
  DLPPARAM_MIN_SIG_S := 16
  CRYPT_MAX_PKCSIZE := 512
  ECCPARAM_MIN_SIG_R := 16
  ECCPARAM_MIN_SIG_S := 16

/-! ## The dispatch table -/

/-- The three algorithm families, one per dispatcher. -/
inductive Family where
  | rsa
  | dlp
  | ecc
  deriving DecidableEq

/-- The dispatcher of a family, the function that `initPubKeyRead` stores in
`readPublicKeyFunction`. -/
def readPublicKeyFunction {σ : Type} (fam : Family) (E : Ext σ) (L : Limits) (stream : σ)
    (contextInfoPtr : CONTEXT_INFO) (formatType : KEYFORMAT_TYPE) (w : World)
    (actionFlags : Nat) : ReadResult σ :=
  match fam with
  | .rsa => readPublicKeyRsaFunction E L stream contextInfoPtr formatType w actionFlags
  | .dlp => readPublicKeyDlpFunction E L stream contextInfoPtr formatType w actionFlags
  | .ecc => readPublicKeyEccFunction E L stream contextInfoPtr formatType w actionFlags

/-- The leaf decoder behind a name. -/
def runLeaf {σ : Type} (id : LeafId) (E : Ext σ) (L : Limits) (stream : σ)
    (contextInfoPtr : CONTEXT_INFO) (actionFlags : Nat) : LeafResult σ :=
  match id with
  | .readRsaSubjectPublicKey => readRsaSubjectPublicKey E L stream contextInfoPtr actionFlags
  | .readDlpSubjectPublicKey => readDlpSubjectPublicKey E L stream contextInfoPtr actionFlags
  | .readEccSubjectPublicKey => readEccSubjectPublicKey E L stream contextInfoPtr actionFlags
  | .readSshRsaPublicKey => readSshRsaPublicKey E L stream contextInfoPtr actionFlags
  | .readSshDlpPublicKey => readSshDlpPublicKey E L stream contextInfoPtr actionFlags
  | .readSshEccPublicKey => readSshEccPublicKey E L stream contextInfoPtr actionFlags
  | .readSslDlpPublicKey => readSslDlpPublicKey E L stream contextInfoPtr actionFlags
  | .readSslEccPublicKey => readSslEccPublicKey E L stream contextInfoPtr actionFlags
  | .readPgpRsaPublicKey => readPgpRsaPublicKey E L stream contextInfoPtr actionFlags
  | .readPgpDlpPublicKey => readPgpDlpPublicKey E L stream contextInfoPtr actionFlags

/-- The compatibility matrix: the leaf decoder of each (family, format) pair
that has one, and `none` for every other pair. -/
def selectedLeaf : Family → KEYFORMAT_TYPE → Option LeafId
  | .rsa, .KEYFORMAT_CERT => some .readRsaSubjectPublicKey
  | .rsa, .KEYFORMAT_SSH => some .readSshRsaPublicKey
  | .rsa, .KEYFORMAT_PGP => some .readPgpRsaPublicKey
  | .dlp, .KEYFORMAT_CERT => some .readDlpSubjectPublicKey
  | .dlp, .KEYFORMAT_SSH => some .readSshDlpPublicKey
  | .dlp, .KEYFORMAT_SSL => some .readSslDlpPublicKey
  | .dlp, .KEYFORMAT_PGP => some .readPgpDlpPublicKey
  | .ecc, .KEYFORMAT_CERT => some .readEccSubjectPublicKey
  | .ecc, .KEYFORMAT_SSL => some .readSslEccPublicKey
  | .ecc, .KEYFORMAT_SSH => some .readSshEccPublicKey
  | _, _ => none

/-- The legal formats of each family, in the words of the specification. -/
def legalFormats : Family → List KEYFORMAT_TYPE
  | .rsa => [.KEYFORMAT_CERT, .KEYFORMAT_SSH, .KEYFORMAT_PGP]
  | .dlp => [.KEYFORMAT_CERT, .KEYFORMAT_SSH, .KEYFORMAT_SSL, .KEYFORMAT_PGP]
  | .ecc => [.KEYFORMAT_CERT, .KEYFORMAT_SSL, .KEYFORMAT_SSH]

/-- The precondition of the dispatcher of a family on the key object. -/
def familyContext (fam : Family) (ctx : CONTEXT_INFO) : Prop :=
  ctx.type = .CONTEXT_PKC ∧
  match fam with
  | .rsa => ctx.cryptAlgo = .CRYPT_ALGO_RSA
  | .dlp => ctx.cryptAlgo = .CRYPT_ALGO_DH ∨ ctx.cryptAlgo = .CRYPT_ALGO_DSA ∨
      ctx.cryptAlgo = .CRYPT_ALGO_ELGAMAL
  | .ecc => ctx.cryptAlgo = .CRYPT_ALGO_ECDSA ∨ ctx.cryptAlgo = .CRYPT_ALGO_ECDH

/-- The fields of the key object outside the parameter set of a family agree
in two states of the key object. -/
def sameOutsideFamily (fam : Family) (a b : PKC_INFO) : Prop :=
  match fam with
  | .rsa =>
    a.dlpParam_p = b.dlpParam_p ∧ a.dlpParam_q = b.dlpParam_q ∧ a.dlpParam_g = b.dlpParam_g ∧
    a.dlpParam_y = b.dlpParam_y ∧ a.eccParam_qx = b.eccParam_qx ∧
    a.eccParam_qy = b.eccParam_qy ∧ a.curveType = b.curveType ∧
    a.readPublicKeyFunction = b.readPublicKeyFunction ∧
    a.decodeDLValuesFunction = b.decodeDLValuesFunction
  | .dlp =>
    a.rsaParam_n = b.rsaParam_n ∧ a.rsaParam_e = b.rsaParam_e ∧
    a.eccParam_qx = b.eccParam_qx ∧ a.eccParam_qy = b.eccParam_qy ∧
    a.curveType = b.curveType ∧
    a.readPublicKeyFunction = b.readPublicKeyFunction ∧
    a.decodeDLValuesFunction = b.decodeDLValuesFunction
  | .ecc =>
    a.rsaParam_n = b.rsaParam_n ∧ a.rsaParam_e = b.rsaParam_e ∧
    a.dlpParam_p = b.dlpParam_p ∧ a.dlpParam_q = b.dlpParam_q ∧ a.dlpParam_g = b.dlpParam_g ∧
    a.dlpParam_y = b.dlpParam_y ∧ a.pgpCreationTime = b.pgpCreationTime ∧
    a.readPublicKeyFunction = b.readPublicKeyFunction ∧
    a.decodeDLValuesFunction = b.decodeDLValuesFunction

/-- The context is the same but for its parameter set. -/
def sameHeader (a b : CONTEXT_INFO) : Prop :=
  a.type = b.type ∧ a.cryptAlgo = b.cryptAlgo ∧ a.flags = b.flags ∧
  a.objectHandle = b.objectHandle

/-- The bitmask with unrestricted encrypt, decrypt, sign and verify. -/
def permAllFour : Nat :=
  MK_ACTION_PERM .MESSAGE_CTX_ENCRYPT ACTION_PERM_ALL |||
  MK_ACTION_PERM .MESSAGE_CTX_DECRYPT ACTION_PERM_ALL |||
  MK_ACTION_PERM .MESSAGE_CTX_SIGN ACTION_PERM_ALL |||
  MK_ACTION_PERM .MESSAGE_CTX_SIGCHECK ACTION_PERM_ALL

/-- The bitmask with internal-only encrypt and decrypt. -/
def permInternalCrypt : Nat :=
  MK_ACTION_PERM .MESSAGE_CTX_ENCRYPT ACTION_PERM_NONE_EXTERNAL |||
  MK_ACTION_PERM .MESSAGE_CTX_DECRYPT ACTION_PERM_NONE_EXTERNAL

/-- The bitmask with internal-only sign and verify. -/
def permInternalSig : Nat :=
  MK_ACTION_PERM .MESSAGE_CTX_SIGN ACTION_PERM_NONE_EXTERNAL |||
  MK_ACTION_PERM .MESSAGE_CTX_SIGCHECK ACTION_PERM_NONE_EXTERNAL

/-- The bitmask with internal-only verify alone. -/
def permInternalVerify : Nat :=
  MK_ACTION_PERM .MESSAGE_CTX_SIGCHECK ACTION_PERM_NONE_EXTERNAL

/-- A leaf result leaves the context outside its parameter set, and the
parameter set outside the fields of the family, as they were. -/
def keptOutside {σ : Type} (fam : Family) (ctx : CONTEXT_INFO) (r : LeafResult σ) : Prop :=
  sameHeader r.ctx ctx ∧ sameOutsideFamily fam ctx.ctxPKC r.ctx.ctxPKC

/-- A leaf result that is not an error comes with the precondition `req` and
with the bitmask `F`. -/
def successWith {σ : Type} (req : Prop) (F : Nat) (r : LeafResult σ) : Prop :=
  cryptStatusError r.status = false → req ∧ r.actionFlags = F

/-- The usage byte that `readPgpRsaPublicKey` reads: the byte after the
version, the creation time and, for the versions 2 and 3, the validity
period. -/
def pgpRsaUsageByte {σ : Type} (E : Ext σ) (stream : σ) : Int :=
  let ver := E.sgetc stream
  let tm := E.readUint32Time ver.stream
  let stream :=
    if ver.status = PGP_VERSION_2 ∨ ver.status = PGP_VERSION_3 then (E.sSkip tm.stream 2).stream
    else tm.stream
  (E.sgetc stream).status

/-- The bitmask that `readPgpRsaPublicKey` computes from a usage byte that is
one of the three usage codes. -/
def pgpRsaFlags (usage : Int) : Nat :=
  if usage = PGP_ALGO_RSA then permAllFour
  else if usage = PGP_ALGO_RSA_ENCRYPT then permInternalCrypt
  else ACTION_PERM_NONE ||| permInternalSig

/-- The algorithm byte that `readPgpDlpPublicKey` reads: the byte after the
version and the creation time. -/
def pgpDlpAlgoByte {σ : Type} (E : Ext σ) (stream : σ) : Int :=
  (E.sgetc (E.readUint32Time (E.sgetc stream).stream).stream).status

/-- The bitmask that each leaf decoder returns with a status that is not an
error. -/
def leafFlags {σ : Type} (id : LeafId) (E : Ext σ) (stream : σ) (ctx : CONTEXT_INFO) : Nat :=
  match id with
  | .readRsaSubjectPublicKey => permAllFour
  | .readDlpSubjectPublicKey =>
    if ctx.cryptAlgo = .CRYPT_ALGO_DSA then permInternalSig else permInternalCrypt
  | .readEccSubjectPublicKey => permInternalSig
  | .readSshRsaPublicKey => permInternalVerify
  | .readSshDlpPublicKey =>
    if ctx.cryptAlgo = .CRYPT_ALGO_DH then permInternalCrypt else permInternalVerify
  | .readSshEccPublicKey => permInternalVerify
  | .readSslDlpPublicKey => permInternalCrypt
  | .readSslEccPublicKey => permInternalCrypt
  | .readPgpRsaPublicKey => pgpRsaFlags (pgpRsaUsageByte E stream)
  | .readPgpDlpPublicKey =>
    if pgpDlpAlgoByte E stream = PGP_ALGO_DSA then permInternalSig else permInternalCrypt

/-- The precondition (`REQUIRES`) of each leaf decoder. -/
def leafRequires (id : LeafId) (ctx : CONTEXT_INFO) : Prop :=
  ctx.type = .CONTEXT_PKC ∧
  match id with
  | .readRsaSubjectPublicKey => ctx.cryptAlgo = .CRYPT_ALGO_RSA
  | .readDlpSubjectPublicKey =>
    ctx.cryptAlgo = .CRYPT_ALGO_DH ∨ ctx.cryptAlgo = .CRYPT_ALGO_DSA ∨
      ctx.cryptAlgo = .CRYPT_ALGO_ELGAMAL
  | .readEccSubjectPublicKey => ctx.cryptAlgo = .CRYPT_ALGO_ECDSA
  | .readSshRsaPublicKey => ctx.cryptAlgo = .CRYPT_ALGO_RSA
  | .readSshDlpPublicKey =>
    ctx.cryptAlgo = .CRYPT_ALGO_DH ∨ ctx.cryptAlgo = .CRYPT_ALGO_DSA
  | .readSshEccPublicKey => ctx.cryptAlgo = .CRYPT_ALGO_ECDSA
  | .readSslDlpPublicKey => ctx.cryptAlgo = .CRYPT_ALGO_DH
  | .readSslEccPublicKey => ctx.cryptAlgo = .CRYPT_ALGO_ECDH
  | .readPgpRsaPublicKey => ctx.cryptAlgo = .CRYPT_ALGO_RSA
  | .readPgpDlpPublicKey =>
    ctx.cryptAlgo = .CRYPT_ALGO_DSA ∨ ctx.cryptAlgo = .CRYPT_ALGO_ELGAMAL

/-- The family that a leaf decoder belongs to. -/
def leafFamily : LeafId → Family
  | .readRsaSubjectPublicKey => .rsa
  | .readSshRsaPublicKey => .rsa
  | .readPgpRsaPublicKey => .rsa
  | .readDlpSubjectPublicKey => .dlp
  | .readSshDlpPublicKey => .dlp
  | .readSslDlpPublicKey => .dlp
  | .readPgpDlpPublicKey => .dlp
  | .readEccSubjectPublicKey => .ecc
  | .readSshEccPublicKey => .ecc
  | .readSslEccPublicKey => .ecc

/-! ## The reads of the decoders before the integers -/

/-- The read of the enclosing wrapper in `readRsaSubjectPublicKey`. -/
def rsaCertHole {σ : Type} (E : Ext σ) (L : Limits) (stream : σ) : Out σ Unit :=
  E.readGenericHole stream (8 + L.MIN_PKCSIZE_THRESHOLD + L.RSAPARAM_MIN_E)

/-- The read of the algorithm identifier in `readRsaSubjectPublicKey`. -/
def rsaCertAlgoID {σ : Type} (E : Ext σ) (L : Limits) (stream : σ) : Out σ CRYPT_ALGO_TYPE :=
  E.readAlgoID (rsaCertHole E L stream).stream

/-- The read of the bit-string wrapper in `readRsaSubjectPublicKey`. -/
def rsaCertBits {σ : Type} (E : Ext σ) (L : Limits) (stream : σ) : Out σ Int :=
  E.readBitStringHole (rsaCertAlgoID E L stream).stream L.MIN_PKCSIZE_THRESHOLD

/-- The read of the inner sequence header in `readRsaSubjectPublicKey`. -/
def rsaCertSeq {σ : Type} (E : Ext σ) (L : Limits) (stream : σ) : Out σ Unit :=
  E.readSequence (rsaCertBits E L stream).stream

/-- The read of the enclosing wrapper in `readDlpSubjectPublicKey`. -/
def dlpCertHole {σ : Type} (E : Ext σ) (L : Limits) (stream : σ) : Out σ Unit :=
  E.readGenericHole stream
    (8 + L.MIN_PKCSIZE_THRESHOLD + L.DLPPARAM_MIN_G + L.DLPPARAM_MIN_Q +
      L.MIN_PKCSIZE_THRESHOLD)

/-- The read of the algorithm identifier in `readDlpSubjectPublicKey`. -/
def dlpCertAlgoID {σ : Type} (E : Ext σ) (L : Limits) (stream : σ) :
    Out σ (CRYPT_ALGO_TYPE × Int) :=
  E.readAlgoIDparam (dlpCertHole E L stream).stream

/-- The read of the sequence header of the domain parameters in
`readDlpSubjectPublicKey`. -/
def dlpCertSeq {σ : Type} (E : Ext σ) (L : Limits) (stream : σ) : Out σ Unit :=
  E.readSequence (dlpCertAlgoID E L stream).stream

/-- The read of `p` in `readDlpSubjectPublicKey`. -/
def dlpCertReadP {σ : Type} (E : Ext σ) (L : Limits) (stream : σ)
    (contextInfoPtr : CONTEXT_INFO) : Out σ Nat :=
  E.readBignumChecked (dlpCertSeq E L stream).stream contextInfoPtr.ctxPKC.dlpParam_p
    L.DLPPARAM_MIN_P L.DLPPARAM_MAX_P none

/-- The two reads after `p` in `readDlpSubjectPublicKey`: the status of the
last of them, the content of `g` and `q` after them and the stream that they
leave. -/
def dlpCertParams {σ : Type} (E : Ext σ) (L : Limits) (stream : σ)
    (contextInfoPtr : CONTEXT_INFO) : Out σ (Nat × Nat) :=
  let dlpKey := contextInfoPtr.ctxPKC
  let cryptAlgo := (dlpCertAlgoID E L stream).value.1
  let rp := dlpCertReadP E L stream contextInfoPtr
  if hasReversedParams cryptAlgo then
    let rg := E.readBignum rp.stream dlpKey.dlpParam_g
      L.DLPPARAM_MIN_G L.DLPPARAM_MAX_G (some rp.value)
    if cryptStatusOK rg.status then
      let rq := E.readBignum rg.stream dlpKey.dlpParam_q
        L.DLPPARAM_MIN_Q L.DLPPARAM_MAX_Q (some rp.value)
      ⟨rq.status, (rg.value, rq.value), rq.stream⟩
    else
      ⟨rg.status, (rg.value, dlpKey.dlpParam_q), rg.stream⟩
  else
    let rq := E.readBignum rp.stream dlpKey.dlpParam_q
      L.DLPPARAM_MIN_Q L.DLPPARAM_MAX_Q (some rp.value)
    if cryptStatusOK rq.status then
      let rg := E.readBignum rq.stream dlpKey.dlpParam_g
        L.DLPPARAM_MIN_G L.DLPPARAM_MAX_G (some rp.value)
      ⟨rg.status, (rg.value, rq.value), rg.stream⟩
    else
      ⟨rq.status, (dlpKey.dlpParam_g, rq.value), rq.stream⟩

/-- The read of the bit-string wrapper in `readDlpSubjectPublicKey`. -/
def dlpCertBits {σ : Type} (E : Ext σ) (L : Limits) (stream : σ)
    (contextInfoPtr : CONTEXT_INFO) : Out σ Int :=
  E.readBitStringHole (dlpCertParams E L stream contextInfoPtr).stream L.MIN_PKCSIZE_THRESHOLD

/-- The read of the enclosing wrapper in `readEccSubjectPublicKey`. -/
def eccCertHole {σ : Type} (E : Ext σ) (L : Limits) (stream : σ) : Out σ Unit :=
  E.readGenericHole stream (8 + L.MIN_OID_SIZE + L.MIN_PKCSIZE_ECCPOINT_THRESHOLD)

/-- The read of the algorithm identifier in `readEccSubjectPublicKey`. -/
def eccCertAlgoID {σ : Type} (E : Ext σ) (L : Limits) (stream : σ) :
    Out σ (CRYPT_ALGO_TYPE × Int) :=
  E.readAlgoIDparam (eccCertHole E L stream).stream

/-- The read of the curve identifier in `readEccSubjectPublicKey`. -/
def eccCertOID {σ : Type} (E : Ext σ) (L : Limits) (stream : σ) : Out σ Int :=
  let tbl := E.getECCOidTbl
  if cryptStatusOK tbl.1 then
    E.readOID (eccCertAlgoID E L stream).stream tbl.2.1 tbl.2.2 DUMMY_INIT
  else ⟨tbl.1, DUMMY_INIT, (eccCertAlgoID E L stream).stream⟩

/-- The read of the bit-string wrapper in `readEccSubjectPublicKey`. -/
def eccCertBits {σ : Type} (E : Ext σ) (L : Limits) (stream : σ) : Out σ Int :=
  E.readBitStringHole (eccCertOID E L stream).stream L.MIN_PKCSIZE_ECCPOINT_THRESHOLD

/-- The read of the algorithm tag in the ssh decoders, after the outer length;
`maxLength` is the length of the tag that the decoder requires. -/
def sshTag {σ : Type} (E : Ext σ) (stream : σ) (maxLength : Nat) : Out σ (List Nat × Int) :=
  E.readString32 (E.readUint32 stream).stream maxLength

/-- The read of the usage byte in `readPgpRsaPublicKey`: the byte after the
version, the creation time and, for the versions 2 and 3, the validity
period. -/
def pgpRsaUsage {σ : Type} (E : Ext σ) (stream : σ) : Out σ Unit :=
  let ver := E.sgetc stream
  let tm := E.readUint32Time ver.stream
  let stream :=
    if ver.status = PGP_VERSION_2 ∨ ver.status = PGP_VERSION_3 then (E.sSkip tm.stream 2).stream
    else tm.stream
  E.sgetc stream

/-- The read of the algorithm byte in `readPgpDlpPublicKey`: the byte after
the version and the creation time. -/
def pgpDlpAlgo {σ : Type} (E : Ext σ) (stream : σ) : Out σ Unit :=
  E.sgetc (E.readUint32Time (E.sgetc stream).stream).stream

/-- The read of the algorithm name in `readSshEccPublicKey`, after the outer
length. -/
def sshEccName {σ : Type} (E : Ext σ) (L : Limits) (stream : σ) : Out σ (List Nat × Int) :=
  E.readString32 (E.readUint32 stream).stream L.CRYPT_MAX_TEXTSIZE

/-- The read of the curve name in `readSshEccPublicKey`. -/
def sshEccCurve {σ : Type} (E : Ext σ) (L : Limits) (stream : σ) : Out σ (List Nat × Int) :=
  E.readString32 (sshEccName E L stream).stream L.CRYPT_MAX_TEXTSIZE

/-- The read of the point in `readSshEccPublicKey`. -/
def sshEccPoint {σ : Type} (E : Ext σ) (L : Limits) (stream : σ) : Out σ (List Nat × Int) :=
  E.readString32 (sshEccCurve E L stream).stream L.MAX_PKCSIZE_ECCPOINT

/-- The algorithm name that `readSshEccPublicKey` accepts for an ECDSA key: it
is read without an error, has at least 18 bytes and starts with
"ecdsa-sha2-". -/
def sshEccNameAccepted {σ : Type} (E : Ext σ) (L : Limits) (stream : σ) : Prop :=
  cryptStatusError (sshEccName E L stream).status = false ∧
  ¬ (sshEccName E L stream).value.2 < 18 ∧
  memcmp (sshEccName E L stream).value.1 (cstr "ecdsa-sha2-") 11 = 0

/-- The curve name that `readSshEccPublicKey` compares with the three names: it
is read without an error and has 8 bytes. -/
def sshEccCurveRead {σ : Type} (E : Ext σ) (L : Limits) (stream : σ) : Prop :=
  cryptStatusError (sshEccCurve E L stream).status = false ∧
  (sshEccCurve E L stream).value.2 = 8

/-- The chain of comparisons of the curve name in `readSshEccPublicKey`: the
curve selector of the name, if it is one of the three. -/
def sshEccSelector (buffer : List Nat) : Option Int :=
  if memcmp buffer (cstr "nistp256") 8 = 0 then some CRYPT_ECCCURVE_P256
  else if memcmp buffer (cstr "nistp384") 8 = 0 then some CRYPT_ECCCURVE_P384
  else if memcmp buffer (cstr "nistp521") 8 = 0 then some CRYPT_ECCCURVE_P521
  else none

/-- The algorithm identifier that `readEccSubjectPublicKey` accepts: it is read
without an error, the length of its parameters is in range and its algorithm
is the one of the key object. -/
def eccCertAlgoAccepted {σ : Type} (E : Ext σ) (L : Limits) (stream : σ)
    (contextInfoPtr : CONTEXT_INFO) : Prop :=
  cryptStatusError (eccCertAlgoID E L stream).status = false ∧
  ¬ ((eccCertAlgoID E L stream).value.2 < (L.MIN_OID_SIZE : Int) ∨
     (eccCertAlgoID E L stream).value.2 > (L.MAX_INTLENGTH_SHORT : Int)) ∧
  contextInfoPtr.cryptAlgo = (eccCertAlgoID E L stream).value.1

/-! ## Contracts of the external routines -/

/-- Modelled from the spec: the outcome of one range-validated read of an
integer. The status is `CRYPT_OK` or an error, and a read that returns
`CRYPT_OK` with a modulus supplied has stored a value strictly less than that
modulus. -/
def rangeChecked {σ : Type} (maxRange : Option Nat) (r : Out σ Nat) : Prop :=
  (r.status = CRYPT_OK ∨ cryptStatusError r.status = true) ∧
  (r.status = CRYPT_OK → ∀ m, maxRange = some m → r.value < m)

/-- Modelled from the spec: the contract of the range-validated integer
reader, for each of the encodings that take a modulus. -/
structure ReaderContract {σ : Type} (E : Ext σ) : Prop where
  readBignum : ∀ s b mn mx r, rangeChecked r (E.readBignum s b mn mx r)
  readBignumChecked : ∀ s b mn mx r, rangeChecked r (E.readBignumChecked s b mn mx r)
  readBignumInteger16U : ∀ s b mn mx r, rangeChecked r (E.readBignumInteger16U s b mn mx r)
  readBignumInteger16Ubits :
    ∀ s b mn mx r, rangeChecked r (E.readBignumInteger16Ubits s b mn mx r)
  readBignumInteger32 : ∀ s b mn mx r, rangeChecked r (E.readBignumInteger32 s b mn mx r)

/-- A read from the stream `s` that honours the error state `failed` of a
stream: a read from a failed stream fails, and a read that fails leaves a
failed stream. -/
def latched {σ α : Type} (failed : σ → Prop) (s : σ) (r : Out σ α) : Prop :=
  (failed s → cryptStatusError r.status = true) ∧
  (cryptStatusError r.status = true → failed r.stream)

/-- The persistent error state of a stream, for the routines that the
certificate-format decoders and the signature-pair decoder call around a read
whose status they do not inspect. -/
structure ErrorLatch {σ : Type} (E : Ext σ) (failed : σ → Prop) : Prop where
  readGenericHole : ∀ s n, latched failed s (E.readGenericHole s n)
  readBitStringHole : ∀ s n, latched failed s (E.readBitStringHole s n)
  readSequence : ∀ s, latched failed s (E.readSequence s)
  readAlgoID : ∀ s, latched failed s (E.readAlgoID s)
  readAlgoIDparam : ∀ s, latched failed s (E.readAlgoIDparam s)
  readBignum : ∀ s b mn mx r, latched failed s (E.readBignum s b mn mx r)
  readBignumChecked : ∀ s b mn mx r, latched failed s (E.readBignumChecked s b mn mx r)

/-- A leaf result that is an error whenever `c` holds. -/
def errorWhen {σ : Type} (c : Prop) (r : LeafResult σ) : Prop :=
  c → cryptStatusError r.status = true

/-- The error state of a byte stream. -/
def STREAM.failed (s : STREAM) : Prop := cryptStatusError s.status = true

/-! ## What a decoder has read when it returns `CRYPT_OK` -/

/-- The result `r` of `readDlpSubjectPublicKey`, where `rp` is the read of `p`:
when the status is `CRYPT_OK` the stored `p` is the value read, `q`, `g` and
`y` are below it, and the two integers after `p` were read in the order of the
algorithm, each with the bounds of the field it is stored in. -/
def dlpCertDecoded {σ : Type} (E : Ext σ) (L : Limits) (rp : Out σ Nat) (old : PKC_INFO)
    (cryptAlgo : CRYPT_ALGO_TYPE) (r : LeafResult σ) : Prop :=
  r.status = CRYPT_OK →
    r.ctx.ctxPKC.dlpParam_p = rp.value ∧
    r.ctx.ctxPKC.dlpParam_q < rp.value ∧
    r.ctx.ctxPKC.dlpParam_g < rp.value ∧
    r.ctx.ctxPKC.dlpParam_y < rp.value ∧
    (cryptAlgo = .CRYPT_ALGO_DH ∨ cryptAlgo = .CRYPT_ALGO_ELGAMAL →
      let rg := E.readBignum rp.stream old.dlpParam_g L.DLPPARAM_MIN_G L.DLPPARAM_MAX_G
        (some rp.value)
      let rq := E.readBignum rg.stream old.dlpParam_q L.DLPPARAM_MIN_Q L.DLPPARAM_MAX_Q
        (some rp.value)
      rg.status = CRYPT_OK ∧ rq.status = CRYPT_OK ∧
      r.ctx.ctxPKC.dlpParam_g = rg.value ∧ r.ctx.ctxPKC.dlpParam_q = rq.value) ∧
    (cryptAlgo = .CRYPT_ALGO_DSA →
      let rq := E.readBignum rp.stream old.dlpParam_q L.DLPPARAM_MIN_Q L.DLPPARAM_MAX_Q
        (some rp.value)
      let rg := E.readBignum rq.stream old.dlpParam_g L.DLPPARAM_MIN_G L.DLPPARAM_MAX_G
        (some rp.value)
      rq.status = CRYPT_OK ∧ rg.status = CRYPT_OK ∧
      r.ctx.ctxPKC.dlpParam_q = rq.value ∧ r.ctx.ctxPKC.dlpParam_g = rg.value)

/-- A result `r` that comes from the two reads `first` and `second`, in this
order: both returned `CRYPT_OK`, the stream is the one after the second read
and the key is `key`. -/
def twoReads {σ : Type} (first second : Out σ Nat) (key : PKC_INFO) (r : LeafResult σ) :
    Prop :=
  first.status = CRYPT_OK ∧ second.status = CRYPT_OK ∧ r.stream = second.stream ∧
  r.ctx.ctxPKC = key

/-- The result `r` of an RSA decoder that reads `n` as `rn` and then `e` as
`re`, when its status is `CRYPT_OK`; `time` is the creation time that it
stores. -/
def rsaDecoded {σ : Type} (rn re : Out σ Nat) (old : PKC_INFO) (time : Int)
    (r : LeafResult σ) : Prop :=
  r.status = CRYPT_OK →
    twoReads rn re
      { old with rsaParam_n := rn.value, rsaParam_e := re.value, pgpCreationTime := time } r

/-- The result `r` of `readSshRsaPublicKey`, which reads `e` as `re` and then
`n` as `rn`, when its status is `CRYPT_OK`. -/
def sshRsaDecoded {σ : Type} (re rn : Out σ Nat) (old : PKC_INFO) (r : LeafResult σ) : Prop :=
  r.status = CRYPT_OK →
    twoReads re rn { old with rsaParam_e := re.value, rsaParam_n := rn.value } r

/-- The result `r` of a DLP decoder that reads `p` as `rp` and then only `g`
as `rg`: the fields `q` and `y` are never written, and when the status is
`CRYPT_OK` the key holds the two values read. -/
def dhDecoded {σ : Type} (rp rg : Out σ Nat) (old : PKC_INFO) (r : LeafResult σ) : Prop :=
  (r.ctx.ctxPKC.dlpParam_q = old.dlpParam_q ∧ r.ctx.ctxPKC.dlpParam_y = old.dlpParam_y) ∧
  (r.status = CRYPT_OK →
    twoReads rp rg { old with dlpParam_p := rp.value, dlpParam_g := rg.value } r)

/-- A result `r` that comes from the reads of `p`, `q`, `g` and `y` in this
order as `rp`, `rq`, `rg` and `ry`: the four reads returned `CRYPT_OK`, the
stream is the one after `y` and the key holds the four values, with `time` as
the creation time. -/
def dsaRead {σ : Type} (rp rq rg ry : Out σ Nat) (old : PKC_INFO) (time : Int)
    (r : LeafResult σ) : Prop :=
  rp.status = CRYPT_OK ∧ rq.status = CRYPT_OK ∧ rg.status = CRYPT_OK ∧
  ry.status = CRYPT_OK ∧ r.stream = ry.stream ∧
  r.ctx.ctxPKC =
    { old with dlpParam_p := rp.value, dlpParam_q := rq.value, dlpParam_g := rg.value,
               dlpParam_y := ry.value, pgpCreationTime := time }

/-- The result `r` of a DLP decoder that reads `p`, `q`, `g` and `y` in this
order, when its status is `CRYPT_OK`. -/
def dsaDecoded {σ : Type} (rp rq rg ry : Out σ Nat) (old : PKC_INFO) (time : Int)
    (r : LeafResult σ) : Prop :=
  r.status = CRYPT_OK → dsaRead rp rq rg ry old time r

/-- A result `r` that comes from the reads of `p`, `g` and `y` in this order as
`rp`, `rg` and `ry`, with `q` not read: the three reads returned `CRYPT_OK`,
the stream is the one after `y` and the key holds the three values, with
`time` as the creation time. -/
def elgamalRead {σ : Type} (rp rg ry : Out σ Nat) (old : PKC_INFO) (time : Int)
    (r : LeafResult σ) : Prop :=
  rp.status = CRYPT_OK ∧ rg.status = CRYPT_OK ∧ ry.status = CRYPT_OK ∧
  r.stream = ry.stream ∧
  r.ctx.ctxPKC =
    { old with dlpParam_p := rp.value, dlpParam_g := rg.value, dlpParam_y := ry.value,
               pgpCreationTime := time }

/-- The result `r` of `readSshDlpPublicKey` after the tag, where `tag` is the
stream after it: the reads of a DH key for the algorithm DH and the reads of a
DSA key otherwise. -/
def sshDlpDecoded {σ : Type} (E : Ext σ) (L : Limits) (tag : σ) (ctx : CONTEXT_INFO)
    (r : LeafResult σ) : Prop :=
  let old := ctx.ctxPKC
  let rp := E.readBignumInteger32Checked tag old.dlpParam_p L.DLPPARAM_MIN_P L.DLPPARAM_MAX_P
  (ctx.cryptAlgo = .CRYPT_ALGO_DH →
    dhDecoded rp
      (E.readBignumInteger32 rp.stream old.dlpParam_g L.DLPPARAM_MIN_G L.DLPPARAM_MAX_G
        (some rp.value)) old r) ∧
  (ctx.cryptAlgo ≠ .CRYPT_ALGO_DH →
    let rq := E.readBignumInteger32 rp.stream old.dlpParam_q L.DLPPARAM_MIN_Q L.DLPPARAM_MAX_Q
      (some rp.value)
    let rg := E.readBignumInteger32 rq.stream old.dlpParam_g L.DLPPARAM_MIN_G L.DLPPARAM_MAX_G
      (some rp.value)
    let ry := E.readBignumInteger32 rg.stream old.dlpParam_y L.DLPPARAM_MIN_Y L.DLPPARAM_MAX_Y
      (some rp.value)
    dsaDecoded rp rq rg ry old old.pgpCreationTime r)

/-- The result `r` of `readPgpRsaPublicKey` on the stream `s`: when the status
is `CRYPT_OK` the version byte is one of the three versions, the usage byte is
one of the three usage codes, and the key holds the creation time, then `n`
and `e` read after the usage byte. -/
def pgpRsaDecoded {σ : Type} (E : Ext σ) (L : Limits) (s : σ) (ctx : CONTEXT_INFO)
    (r : LeafResult σ) : Prop :=
  let old := ctx.ctxPKC
  let ver := E.sgetc s
  let tm := E.readUint32Time ver.stream
  let us := pgpRsaUsage E s
  let rn := E.readBignumInteger16UbitsChecked us.stream old.rsaParam_n
    (bytesToBits L.RSAPARAM_MIN_N) (bytesToBits L.RSAPARAM_MAX_N)
  let re := E.readBignumInteger16Ubits rn.stream old.rsaParam_e
    (bytesToBits L.RSAPARAM_MIN_E) (bytesToBits L.RSAPARAM_MAX_E) (some rn.value)
  r.status = CRYPT_OK →
    (ver.status = PGP_VERSION_2 ∨ ver.status = PGP_VERSION_3 ∨
      ver.status = PGP_VERSION_OPENPGP) ∧
    (us.status = PGP_ALGO_RSA ∨ us.status = PGP_ALGO_RSA_ENCRYPT ∨
      us.status = PGP_ALGO_RSA_SIGN) ∧
    twoReads rn re
      { old with rsaParam_n := rn.value, rsaParam_e := re.value,
                 pgpCreationTime := tm.value } r

/-- The result `r` of `readPgpDlpPublicKey` on the stream `s`: when the status
is `CRYPT_OK` the version byte is the OpenPGP version and the key holds the
creation time, then the reads of a DSA key for the algorithm byte of DSA and
the reads of an Elgamal key, without `q`, for the algorithm byte of
Elgamal. -/
def pgpDlpDecoded {σ : Type} (E : Ext σ) (L : Limits) (s : σ) (ctx : CONTEXT_INFO)
    (r : LeafResult σ) : Prop :=
  let old := ctx.ctxPKC
  let ver := E.sgetc s
  let tm := E.readUint32Time ver.stream
  let al := pgpDlpAlgo E s
  let rp := E.readBignumInteger16UbitsChecked al.stream old.dlpParam_p
    (bytesToBits L.DLPPARAM_MIN_P) (bytesToBits L.DLPPARAM_MAX_P)
  r.status = CRYPT_OK →
    ver.status = PGP_VERSION_OPENPGP ∧
    (al.status = PGP_ALGO_DSA ∨ al.status = PGP_ALGO_ELGAMAL) ∧
    (al.status = PGP_ALGO_DSA →
      let rq := E.readBignumInteger16Ubits rp.stream old.dlpParam_q
        (bytesToBits L.DLPPARAM_MIN_Q) (bytesToBits L.DLPPARAM_MAX_Q) (some rp.value)
      let rg := E.readBignumInteger16Ubits rq.stream old.dlpParam_g
        (bytesToBits L.DLPPARAM_MIN_G) (bytesToBits L.DLPPARAM_MAX_G) (some rp.value)
      let ry := E.readBignumInteger16Ubits rg.stream old.dlpParam_y
        (bytesToBits L.DLPPARAM_MIN_Y) (bytesToBits L.DLPPARAM_MAX_Y) (some rp.value)
      dsaRead rp rq rg ry old tm.value r) ∧
    (al.status ≠ PGP_ALGO_DSA →
      let rg := E.readBignumInteger16Ubits rp.stream old.dlpParam_g
        (bytesToBits L.DLPPARAM_MIN_G) (bytesToBits L.DLPPARAM_MAX_G) (some rp.value)
      let ry := E.readBignumInteger16Ubits rg.stream old.dlpParam_y
        (bytesToBits L.DLPPARAM_MIN_Y) (bytesToBits L.DLPPARAM_MAX_Y) (some rp.value)
      elgamalRead rp rg ry old tm.value r)

/-- The result `r` of `readSslEccPublicKey` on the stream `s`: the coordinates
of the point are never written, and when the status is `CRYPT_OK` the curve
type byte is 3, the read of the 16-bit curve code did not fail, the stream is
the one after that read and the key differs from the one before only in the
curve selector that `mapValue` returns for the code. -/
def sslEccDecoded {σ : Type} (E : Ext σ) (s : σ) (ctx : CONTEXT_INFO)
    (r : LeafResult σ) : Prop :=
  let old := ctx.ctxPKC
  let ct := E.sgetc s
  let nc := E.readUint16 ct.stream
  (r.ctx.ctxPKC.eccParam_qx = old.eccParam_qx ∧ r.ctx.ctxPKC.eccParam_qy = old.eccParam_qy) ∧
  (r.status = CRYPT_OK →
    ct.status = 0x03 ∧ cryptStatusError nc.status = false ∧ r.stream = nc.stream ∧
    r.ctx.ctxPKC =
      { old with curveType :=
          (E.mapValue nc.status DUMMY_INIT getEccSslInfoTbl.2.1 getEccSslInfoTbl.2.2).2 })

/-- Modelled from the spec: the contract of `importBignum`, the range
validation of an integer held in a buffer. The status is `CRYPT_OK` or an
error; the routine reads the `length` bytes at the start of the buffer and no
others; and on `CRYPT_OK` the bignum is the big-endian value of these bytes,
strictly less than the modulus when one is supplied. -/
structure ImportContract {σ : Type} (E : Ext σ) : Prop where
  sound : ∀ b buf len mn mx r,
    (E.importBignum b buf len mn mx r).1 = CRYPT_OK ∨
      cryptStatusError (E.importBignum b buf len mn mx r).1 = true
  value : ∀ b buf len mn mx r, (E.importBignum b buf len mn mx r).1 = CRYPT_OK →
    (E.importBignum b buf len mn mx r).2 = beValue (buf.take len.toNat)
  range : ∀ b buf len mn mx m, (E.importBignum b buf len mn mx (some m)).1 = CRYPT_OK →
    (E.importBignum b buf len mn mx (some m)).2 < m
  bytes : ∀ b buf len mn mx r,
    E.importBignum b buf len mn mx r = E.importBignum b (buf.take len.toNat) len mn mx r

/-- Modelled from the spec: the contract of `mapValue`, a linear scan of the
table to the first match with the not-available error when there is none. -/
def MapContract {σ : Type} (E : Ext σ) : Prop :=
  ∀ srcValue destValue mapTbl mapTblSize,
    E.mapValue srcValue destValue mapTbl mapTblSize =
      mapValue srcValue destValue mapTbl mapTblSize

/-- The result `r` of a signature-pair decoder whose first read returned the
status and value `r1` and whose second read, made after it, returned `r2`: when
the first read fails its status is the result and the second integer is as
before the call, and when it succeeds the status of the second is the
result. -/
def firstFailure (r1 r2 : Int × Nat) (value2 : Nat) (r : DLValues) : Prop :=
  (cryptStatusError r1.1 = true → r = ⟨r1.1, r1.2, value2⟩) ∧
  (r1.1 = CRYPT_OK → r = ⟨r2.1, r1.2, r2.2⟩)

/-! ## Runs on a shortened input -/

/-- The streams of two runs of a decoder, `s` on an input and `t` on a
shortened input: the stream on the shortened input has failed, or it is the
shortened form `cut s t` of the other. -/
def shortOf {σ : Type} (failed : σ → Prop) (cut : σ → σ → Prop) (s t : σ) : Prop :=
  failed t ∨ cut s t

/-- The outcomes `r` and `t` of one read in the two runs: the read on the
shortened input has failed and left a failed stream, or it has not failed and
has returned the status and the value of the other read, with its stream the
shortened form of the other stream. -/
def shortRead {σ α : Type} (failed : σ → Prop) (cut : σ → σ → Prop) (r t : Out σ α) : Prop :=
  (cryptStatusError t.status = true ∧ failed t.stream) ∨
  (cryptStatusError t.status = false ∧ t.status = r.status ∧ t.value = r.value ∧
    cut r.stream t.stream)

/-- Modelled from the spec: the contract of the stream readers on a shortened
input. Every read from a stream that has failed or is the shortened form of
another either fails and leaves a failed stream, or returns what the read from
the other stream returns and leaves the shortened form of its stream. -/
structure PrefixContract {σ : Type} (E : Ext σ) (failed : σ → Prop) (cut : σ → σ → Prop) :
    Prop where
  sgetc : ∀ s t, shortOf failed cut s t → shortRead failed cut (E.sgetc s) (E.sgetc t)
  sread : ∀ s t n, shortOf failed cut s t → shortRead failed cut (E.sread s n) (E.sread t n)
  sSkip : ∀ s t n, shortOf failed cut s t → shortRead failed cut (E.sSkip s n) (E.sSkip t n)
  readUint16 : ∀ s t, shortOf failed cut s t →
    shortRead failed cut (E.readUint16 s) (E.readUint16 t)
  readUint32 : ∀ s t, shortOf failed cut s t →
    shortRead failed cut (E.readUint32 s) (E.readUint32 t)
  readUint32Time : ∀ s t, shortOf failed cut s t →
    shortRead failed cut (E.readUint32Time s) (E.readUint32Time t)
  readString32 : ∀ s t n, shortOf failed cut s t →
    shortRead failed cut (E.readString32 s n) (E.readString32 t n)
  readGenericHole : ∀ s t n, shortOf failed cut s t →
    shortRead failed cut (E.readGenericHole s n) (E.readGenericHole t n)
  readBitStringHole : ∀ s t n, shortOf failed cut s t →
    shortRead failed cut (E.readBitStringHole s n) (E.readBitStringHole t n)
  readSequence : ∀ s t, shortOf failed cut s t →
    shortRead failed cut (E.readSequence s) (E.readSequence t)
  readAlgoID : ∀ s t, shortOf failed cut s t →
    shortRead failed cut (E.readAlgoID s) (E.readAlgoID t)
  readAlgoIDparam : ∀ s t, shortOf failed cut s t →
    shortRead failed cut (E.readAlgoIDparam s) (E.readAlgoIDparam t)
  readOID : ∀ s t tbl n d, shortOf failed cut s t →
    shortRead failed cut (E.readOID s tbl n d) (E.readOID t tbl n d)
  readBignum : ∀ s t b mn mx r, shortOf failed cut s t →
    shortRead failed cut (E.readBignum s b mn mx r) (E.readBignum t b mn mx r)
  readBignumChecked : ∀ s t b mn mx r, shortOf failed cut s t →
    shortRead failed cut (E.readBignumChecked s b mn mx r) (E.readBignumChecked t b mn mx r)
  readBignumInteger16U : ∀ s t b mn mx r, shortOf failed cut s t →
    shortRead failed cut (E.readBignumInteger16U s b mn mx r)
      (E.readBignumInteger16U t b mn mx r)
  readBignumInteger16UChecked : ∀ s t b mn mx, shortOf failed cut s t →
    shortRead failed cut (E.readBignumInteger16UChecked s b mn mx)
      (E.readBignumInteger16UChecked t b mn mx)
  readBignumInteger16Ubits : ∀ s t b mn mx r, shortOf failed cut s t →
    shortRead failed cut (E.readBignumInteger16Ubits s b mn mx r)
      (E.readBignumInteger16Ubits t b mn mx r)
  readBignumInteger16UbitsChecked : ∀ s t b mn mx, shortOf failed cut s t →
    shortRead failed cut (E.readBignumInteger16UbitsChecked s b mn mx)
      (E.readBignumInteger16UbitsChecked t b mn mx)
  readBignumInteger32 : ∀ s t b mn mx r, shortOf failed cut s t →
    shortRead failed cut (E.readBignumInteger32 s b mn mx r)
      (E.readBignumInteger32 t b mn mx r)
  readBignumInteger32Checked : ∀ s t b mn mx, shortOf failed cut s t →
    shortRead failed cut (E.readBignumInteger32Checked s b mn mx)
      (E.readBignumInteger32Checked t b mn mx)

/-- The results `r` and `t` of a leaf decoder in the two runs: the run on the
shortened input has returned an error, or it has returned the status of the
other run with its stream the shortened form of the other stream. -/
def shortLeaf {σ : Type} (cut : σ → σ → Prop) (r t : LeafResult σ) : Prop :=
  cryptStatusError t.status = true ∨ (t.status = r.status ∧ cut r.stream t.stream)

/-- The byte stream `t` is the stream `s` over the first `n` bytes of its
buffer: the same position, within these bytes, and the same state. -/
def cutAt (n : Nat) (s t : STREAM) : Prop :=
  t.buffer = s.buffer.take n ∧ t.bufPos = s.bufPos ∧ t.status = s.status ∧
  t.bufPos ≤ t.buffer.length

/-! ## Runs on inputs with the same rest -/

/-- The outcomes `r` and `t` of one read in two runs: the same status and the
same value, and the streams that the reads leave are related by `rel`. -/
def sameRead {σ α : Type} (rel : σ → σ → Prop) (r t : Out σ α) : Prop :=
  t.status = r.status ∧ t.value = r.value ∧ rel r.stream t.stream

/-- Modelled from the spec: the contract of the readers of the ssh format on
two streams related by `rel`, which stands for two streams in the same state
with the same input left to read. A read returns the same status and the same
value from both and leaves them related. -/
structure RestContract {σ : Type} (E : Ext σ) (rel : σ → σ → Prop) : Prop where
  readString32 : ∀ s t n, rel s t → sameRead rel (E.readString32 s n) (E.readString32 t n)
  readBignumInteger32 : ∀ s t b mn mx r, rel s t →
    sameRead rel (E.readBignumInteger32 s b mn mx r) (E.readBignumInteger32 t b mn mx r)
  readBignumInteger32Checked : ∀ s t b mn mx, rel s t →
    sameRead rel (E.readBignumInteger32Checked s b mn mx)
      (E.readBignumInteger32Checked t b mn mx)

/-- The results `r` and `t` of a leaf decoder in two runs: the same status, the
same bitmask and the same context, and the streams that the runs leave are
related by `rel`. -/
def sameLeaf {σ : Type} (rel : σ → σ → Prop) (r t : LeafResult σ) : Prop :=
  t.status = r.status ∧ t.actionFlags = r.actionFlags ∧ t.ctx = r.ctx ∧
  rel r.stream t.stream

/-- The byte streams `s` and `t` are in the same state and have the same bytes
left to read; the bytes before the position of each may differ. -/
def sameRest (s t : STREAM) : Prop :=
  t.status = s.status ∧ t.buffer.drop t.bufPos = s.buffer.drop s.bufPos ∧
  s.bufPos ≤ s.buffer.length ∧ t.bufPos ≤ t.buffer.length

/-- The statements of `readSshEccPublicKey` after the tests of the algorithm
name, on the stream that the read of the name has left and with the bitmask
set before it. -/
def sshEccAfterName {σ : Type} (E : Ext σ) (L : Limits) (stream : σ)
    (contextInfoPtr : CONTEXT_INFO) (actionFlags : Nat) : LeafResult σ :=
  let eccKey := contextInfoPtr.ctxPKC
  let curve := E.readString32 stream L.CRYPT_MAX_TEXTSIZE
  let buffer := curve.value.1
  let length := curve.value.2
  if cryptStatusError curve.status then
    ⟨curve.status, actionFlags, curve.stream, contextInfoPtr⟩
  else if length ≠ 8 then
    ⟨CRYPT_ERROR_NOTAVAIL, actionFlags, curve.stream, contextInfoPtr⟩
  else
  if memcmp buffer (cstr "nistp256") 8 ≠ 0 ∧ memcmp buffer (cstr "nistp384") 8 ≠ 0 ∧
      memcmp buffer (cstr "nistp521") 8 ≠ 0 then
    ⟨CRYPT_ERROR_NOTAVAIL, actionFlags, curve.stream, contextInfoPtr⟩
  else
  let curveType :=
    if memcmp buffer (cstr "nistp256") 8 = 0 then CRYPT_ECCCURVE_P256
    else if memcmp buffer (cstr "nistp384") 8 = 0 then CRYPT_ECCCURVE_P384
    else CRYPT_ECCCURVE_P521
  let eccKey := { eccKey with curveType := curveType }
  let fs := E.getECCFieldSize eccKey.curveType DUMMY_INIT
  let fieldSize := fs.2
  if cryptStatusError fs.1 then
    ⟨fs.1, actionFlags, curve.stream, { contextInfoPtr with ctxPKC := eccKey }⟩
  else
  let pb := E.readString32 curve.stream L.MAX_PKCSIZE_ECCPOINT
  let buffer := pb.value.1
  let length := pb.value.2
  if cryptStatusError pb.status then
    ⟨pb.status, actionFlags, pb.stream, { contextInfoPtr with ctxPKC := eccKey }⟩
  else if length < (L.MIN_PKCSIZE_ECCPOINT_THRESHOLD : Int) ∨
      length > (L.MAX_PKCSIZE_ECCPOINT : Int) then
    ⟨CRYPT_ERROR_BADDATA, actionFlags, pb.stream, { contextInfoPtr with ctxPKC := eccKey }⟩
  else
  let pt := E.importECCPoint (eccKey.eccParam_qx, eccKey.eccParam_qy) buffer length
    L.MIN_PKCSIZE_ECC_THRESHOLD L.CRYPT_MAX_PKCSIZE_ECC fieldSize
  ⟨pt.1, actionFlags, pb.stream,
    { contextInfoPtr with
      ctxPKC := { eccKey with eccParam_qx := pt.2.1, eccParam_qy := pt.2.2 } }⟩

/-- The results `r` and `t` of a leaf decoder in two runs have the same status,
the same bitmask and the same context, with the key that the decoder has
filled. -/
def sameOutcome {σ : Type} (r t : LeafResult σ) : Prop :=
  t.status = r.status ∧ t.actionFlags = r.actionFlags ∧ t.ctx = r.ctx

/-! ## File tests of `source/common.c` -/

/-- The values of `Q_BOOL`. -/
inductive Q_BOOL where
  | Q_FALSE
  | Q_TRUE
  deriving DecidableEq

/-- The routines of the operating system that `directory_exists` and
`file_exists` call: `access` in the POSIX build and `GetFileAttributesA` in the
build with `Q_PDCURSES_WIN32`, and `stat`, which gives its return value and
the value of `errno` after the call. -/
structure Os where
  access : String → Int → Int
  GetFileAttributesA : String → Nat
  stat : String → Int × Int

/-- Modelled from the spec: the mode `F_OK` of `access`, the test for the
existence of the file. -/
def F_OK : Int := 0

/-- Modelled from the spec: the attribute bit of a directory. -/
def FILE_ATTRIBUTE_DIRECTORY : Nat := 0x10

/-- The function `directory_exists`; `win32` tells whether the build defines
`Q_PDCURSES_WIN32`. -/
def directory_exists (os : Os) (win32 : Bool) (path : String) : Q_BOOL :=
  if win32 then
    let dwAttrib := os.GetFileAttributesA path
    if dwAttrib ≠ 0xFFFFFFFF ∧ dwAttrib &&& FILE_ATTRIBUTE_DIRECTORY ≠ 0 then .Q_TRUE
    else .Q_FALSE
  else
    if os.access path F_OK = 0 then .Q_TRUE
    else .Q_FALSE

/-- Modelled from the spec: the value `ENOENT` of `errno`, no such file or
directory. -/
def ENOENT : Int := 2

/-- Modelled from the spec: the value `EACCES` of `errno`, permission
denied. -/
def EACCES : Int := 13

/-- The function `file_exists`; the two returns of `Q_TRUE` are the single
`return` after the outer `if`. -/
def file_exists (os : Os) (filename : String) : Q_BOOL :=
  let st := os.stat filename
  let rc := st.1
  let errno := st.2
  if rc < 0 then
    if errno = ENOENT then .Q_FALSE
    else .Q_TRUE
  else .Q_TRUE

/-- Modelled from the spec: what a path names. -/
inductive FileKind where
  | regular
  | directory
  deriving DecidableEq

/-- Modelled from the spec: the operating system over a file system that maps
a path to what it names, if it names anything. `access` with `F_OK` returns 0
exactly for a path that exists; `GetFileAttributesA` returns `0xFFFFFFFF` for
a path that does not exist, the directory bit for a directory and the bit of a
normal file for a regular file; `stat` returns 0 for a path that exists and
fails with `ENOENT` for a path that does not. -/
def fsOs (fs : String → Option FileKind) : Os where
  access := fun path _ => if (fs path).isSome then 0 else -1
  GetFileAttributesA := fun path =>
    match fs path with
    | none => 0xFFFFFFFF
    | some .directory => FILE_ATTRIBUTE_DIRECTORY
    | some .regular => 0x80
  stat := fun path => if (fs path).isSome then (0, 0) else (-1, ENOENT)

/-- A file system with the directory `/etc` and the regular file
`/etc/passwd`. -/
def sampleFs (path : String) : Option FileKind :=
  if path = "/etc" then some .directory
  else if path = "/etc/passwd" then some .regular
  else none

/-- The operating system over `sampleFs` in which `stat` fails with `EACCES`
for the path `/root/secret`. -/
def deniedOs : Os :=
  { fsOs sampleFs with
    stat := fun path =>
      if path = "/root/secret" then (-1, EACCES) else (fsOs sampleFs).stat path }

/-! ## Sample inputs -/

/-- A key object with an empty parameter set. -/
def emptyKey : PKC_INFO := ⟨0, 0, 0, 0, 0, 0, 0, 0, 0, 0, none, none⟩

/-- A public-key context of an algorithm, bound to the object with handle 5. -/
def sampleContext (cryptAlgo : CRYPT_ALGO_TYPE) : CONTEXT_INFO :=
  ⟨.CONTEXT_PKC, cryptAlgo, 0, 5, emptyKey⟩

/-- The world before any call. -/
def emptyWorld : World := ⟨[], []⟩

/-- A 1024-bit modulus, 2^1023 + 1, as 128 bytes. -/
def sampleModulus : List Nat := 0x80 :: (List.replicate 126 0 ++ [1])

/-- A 160-bit subgroup order, as 20 bytes. -/
def sampleOrder : List Nat := 0x80 :: (List.replicate 18 0 ++ [1])

/-- An RSA key in the certificate format: modulus `sampleModulus`, exponent
65537. -/
def sampleRsaCert : List Nat :=
  [0x30, 0x81, 0x9F,
   0x30, 0x0D, 0x06, 0x09, 0x2A, 0x86, 0x48, 0x86, 0xF7, 0x0D, 0x01, 0x01, 0x01, 0x05, 0x00,
   0x03, 0x81, 0x8D, 0x00,
   0x30, 0x81, 0x89,
   0x02, 0x81, 0x81, 0x00] ++ sampleModulus ++ [0x02, 0x03, 0x01, 0x00, 0x01]

/-- An RSA key in the mail-packet format: version 4, creation time
`0x5F000000`, the given usage byte, modulus `sampleModulus` (1024 bits),
exponent 65537 (17 bits). -/
def samplePgpRsa (usage : Nat) : List Nat :=
  [4, 0x5F, 0, 0, 0, usage, 0x04, 0x00] ++ sampleModulus ++ [0x00, 0x11, 0x01, 0x00, 0x01]

/-- A mail-packet header with version 4, creation time `0x5F000000` and the
unassigned usage byte 99. -/
def samplePgpBadUsage : List Nat := [4, 0x5F, 0, 0, 0, 99]

/-- A public-key context with the static-context flag set. -/
def sampleStaticContext (cryptAlgo : CRYPT_ALGO_TYPE) : CONTEXT_INFO :=
  ⟨.CONTEXT_PKC, cryptAlgo, 0x1000, 5, emptyKey⟩

/-- Length-prefixed string of the ssh format: a 32-bit length and the bytes. -/
def sshString (bytes : List Nat) : List Nat :=
  [bytes.length / 16777216 % 256, bytes.length / 65536 % 256, bytes.length / 256 % 256,
   bytes.length % 256] ++ bytes

/-- A public value below `sampleModulus`, 2^1022, as 128 bytes. -/
def samplePublicValue : List Nat := 0x40 :: List.replicate 127 0

/-- A DSA key in the ssh format: the outer length, the tag "ssh-dss", then
p = `sampleModulus`, q = `sampleOrder`, g = 2 and y = `samplePublicValue`, the
first two with the leading zero byte of a positive integer whose top bit is
set. -/
def sampleSshDss : List Nat :=
  sshString (sshString (cstr "ssh-dss") ++ sshString (0 :: sampleModulus) ++
    sshString (0 :: sampleOrder) ++ sshString [2] ++ sshString samplePublicValue)

/-- The x coordinate of the base point of the curve P-256. -/
def sampleP256X : List Nat :=
  [0x6B, 0x17, 0xD1, 0xF2, 0xE1, 0x2C, 0x42, 0x47, 0xF8, 0xBC, 0xE6, 0xE5, 0x63, 0xA4, 0x40, 0xF2,
   0x77, 0x03, 0x7D, 0x81, 0x2D, 0xEB, 0x33, 0xA0, 0xF4, 0xA1, 0x39, 0x45, 0xD8, 0x98, 0xC2, 0x96]

/-- The y coordinate of the base point of the curve P-256. -/
def sampleP256Y : List Nat :=
  [0x4F, 0xE3, 0x42, 0xE2, 0xFE, 0x1A, 0x7F, 0x9B, 0x8E, 0xE7, 0xEB, 0x4A, 0x7C, 0x0F, 0x9E, 0x16,
   0x2B, 0xCE, 0x33, 0x57, 0x6B, 0x31, 0x5E, 0xCE, 0xCB, 0xB6, 0x40, 0x68, 0x37, 0xBF, 0x51, 0xF5]

/-- The uncompressed encoding of the base point of P-256, 65 bytes. -/
def sampleP256Point : List Nat := 0x04 :: (sampleP256X ++ sampleP256Y)

/-- An ECDSA key in the certificate format: the identifier of an elliptic
curve public key, the named curve P-256 and the point `sampleP256Point`. -/
def sampleEcdsaCert : List Nat :=
  [0x30, 0x59,
   0x30, 0x13, 0x06, 0x07, 0x2A, 0x86, 0x48, 0xCE, 0x3D, 0x02, 0x01,
   0x06, 0x08, 0x2A, 0x86, 0x48, 0xCE, 0x3D, 0x03, 0x01, 0x07,
   0x03, 0x42, 0x00] ++ sampleP256Point

/-- An ECDH key in the certificate format: as `sampleEcdsaCert`, with the
identifier of the ECDH algorithm. -/
def sampleEcdhCert : List Nat :=
  [0x30, 0x57,
   0x30, 0x11, 0x06, 0x05, 0x2B, 0x81, 0x04, 0x01, 0x0C,
   0x06, 0x08, 0x2A, 0x86, 0x48, 0xCE, 0x3D, 0x03, 0x01, 0x07,
   0x03, 0x42, 0x00] ++ sampleP256Point

/-- An ECDH key in the ssh format: the outer length, the algorithm name
"ecdh-sha2-nistp256", the curve name "nistp256" and the point
`sampleP256Point`. -/
def sampleSshEcdh : List Nat :=
  sshString (sshString (cstr "ecdh-sha2-nistp256") ++ sshString (cstr "nistp256") ++
    sshString sampleP256Point)

/-- An ECDH key in the ssl format: the curve type "named curve" and the code 23
of the curve P-256. -/
def sampleSslEcdh : List Nat := [0x03, 0x00, 0x17]

/-- A DH key in the ssl format: p = `sampleModulus` and g = 2, each with a
16-bit length. -/
def sampleSslDh : List Nat := [0x00, 0x80] ++ sampleModulus ++ [0x00, 0x01, 0x02]

/-- An RSA key in the ssh format: the outer length, the tag "ssh-rsa", then the
exponent 65537 and the modulus `sampleModulus` with its leading zero byte. -/
def sampleSshRsa : List Nat :=
  sshString (sshString (cstr "ssh-rsa") ++ sshString [1, 0, 1] ++
    sshString (0 :: sampleModulus))

/-- The first 22 bytes of `sampleSshRsa`: the outer length, the tag and the
exponent, cut where the modulus starts. -/
def sampleSshRsaCut : List Nat := sampleSshRsa.take 22

/-- A DH key in the ssh format: the outer length, the tag "ssh-dh", then
p = `sampleModulus` and g = 2. -/
def sampleSshDh : List Nat :=
  sshString (sshString (cstr "ssh-dh") ++ sshString (0 :: sampleModulus) ++ sshString [2])

/-- Length octets of a tag-length-value header. -/
def derLength (n : Nat) : List Nat :=
  if n < 128 then [n] else if n < 256 then [0x81, n] else [0x82, n / 256, n % 256]

/-- A tag-length-value element. -/
def der (tag : Nat) (content : List Nat) : List Nat :=
  tag :: (derLength content.length ++ content)

/-- The encoded object identifier of the DSA algorithm. -/
def dsaOid : List Nat := [0x06, 0x07, 0x2A, 0x86, 0x48, 0xCE, 0x38, 0x04, 0x01]

/-- The encoded object identifier of the DH algorithm. -/
def dhOid : List Nat := [0x06, 0x07, 0x2A, 0x86, 0x48, 0xCE, 0x3E, 0x02, 0x01]

/-- A DLP key in the certificate format: the algorithm identifier `oid` with
the domain parameters p = `sampleModulus` followed by the two given integers,
and the public value `samplePublicValue`. -/
def sampleDlpCert (oid second third : List Nat) : List Nat :=
  der 0x30 (der 0x30 (oid ++ der 0x30 (der 0x02 (0 :: sampleModulus) ++ der 0x02 second ++
    der 0x02 third)) ++ der 0x03 (0 :: der 0x02 samplePublicValue))

/-- A DSA key in the certificate format, with the parameters in the order
p, q = `sampleOrder`, g = 2. -/
def sampleDsaCert : List Nat := sampleDlpCert dsaOid (0 :: sampleOrder) [2]

/-- A DH key in the certificate format, with the parameters in the order
p, g = 2, q = `sampleOrder`. -/
def sampleDhCert : List Nat := sampleDlpCert dhOid [2] (0 :: sampleOrder)

/-- The key material of `sampleRsaCert` under the algorithm identifier of
DSA. -/
def sampleMislabelledCert : List Nat :=
  der 0x30 (der 0x30 (dsaOid ++ [0x05, 0x00]) ++
    der 0x03 (0 :: der 0x30 (der 0x02 (0 :: sampleModulus) ++ der 0x02 [1, 0, 1])))

/-- The bytes of `sampleRsaCert` with an enclosing wrapper that declares a
content of five bytes. -/
def sampleShortWrapperCert : List Nat := [0x30, 0x05] ++ sampleRsaCert.drop 3

/-- An integer of the mail-packet format: the 16-bit bit count and the
bytes. -/
def pgpMpi (bits : Nat) (bytes : List Nat) : List Nat := [bits / 256, bits % 256] ++ bytes

/-- An RSA key in the mail-packet format of version 3: creation time
`0x5F000000`, a validity period of zero days, the given usage byte, modulus
`sampleModulus` and exponent 65537. -/
def samplePgpRsaV3 (usage : Nat) : List Nat :=
  [3, 0x5F, 0, 0, 0, 0, 0, usage] ++ pgpMpi 1024 sampleModulus ++ pgpMpi 17 [1, 0, 1]

/-- A DSA key in the mail-packet format: version 4, creation time
`0x5F000000`, the algorithm byte 17, then p = `sampleModulus`,
q = `sampleOrder`, g = 243 and y = `samplePublicValue`. -/
def samplePgpDsa : List Nat :=
  [4, 0x5F, 0, 0, 0, 17] ++ pgpMpi 1024 sampleModulus ++ pgpMpi 160 sampleOrder ++
    pgpMpi 8 [0xF3] ++ pgpMpi 1023 samplePublicValue

/-- An Elgamal key in the mail-packet format: version 4, creation time
`0x5F000000`, the algorithm byte 16, then p = `sampleModulus`, g = 243 and
y = `samplePublicValue`. -/
def samplePgpElgamal : List Nat :=
  [4, 0x5F, 0, 0, 0, 16] ++ pgpMpi 1024 sampleModulus ++ pgpMpi 8 [0xF3] ++
    pgpMpi 1023 samplePublicValue

/-- A signature pair in the tag-length-value layout: the sequence of
r = `sampleOrder` less one and s = 2^127, padded to 64 bytes. -/
def sampleDlSignature : List Nat :=
  der 0x30 (der 0x02 (0 :: 0x80 :: List.replicate 19 0) ++
    der 0x02 (0 :: 0x80 :: List.replicate 15 0)) ++ List.replicate 20 0

/-- The bytes of `sampleDlSignature` with the tag of a set in place of the tag
of the sequence. -/
def sampleDlSignatureBadTag : List Nat := 0x31 :: sampleDlSignature.drop 1

/-- A signature pair in the ssh layout of the DLP algorithms: r = 2^158 and
s = 2^157, each as a block of 20 bytes. -/
def sampleSshDlSignature : List Nat :=
  (0x40 :: List.replicate 19 0) ++ (0x20 :: List.replicate 19 0)

/-- A signature pair in the ssh layout of the ECC algorithms: r = 2^158 and
s = 2^157, each as 20 bytes with a 32-bit length. -/
def sampleSshEcdlSignature : List Nat :=
  sshString (0x40 :: List.replicate 19 0) ++ sshString (0x20 :: List.replicate 19 0)

/-- A key in the ssh format of the ECC algorithms: the outer length, the
algorithm name, the curve name and the point. -/
def sshEccKey (name curve point : List Nat) : List Nat :=
  sshString (sshString name ++ sshString curve ++ sshString point)

/-- An ECDSA key in the ssh format on the curve P-256 with the point
`sampleP256Point`. -/
def sampleSshEcdsa : List Nat :=
  sshEccKey (cstr "ecdsa-sha2-nistp256") (cstr "nistp256") sampleP256Point

/-- An ECDSA key in the certificate format on a curve that the table of named
curves does not hold: as `sampleEcdsaCert`, with the identifier of the curve
secp256k1. -/
def sampleUnknownCurveCert : List Nat :=
  der 0x30 (der 0x30 ([0x06, 0x07, 0x2A, 0x86, 0x48, 0xCE, 0x3D, 0x02, 0x01] ++
      [0x06, 0x05, 0x2B, 0x81, 0x04, 0x00, 0x0A]) ++
    der 0x03 (0x00 :: sampleP256Point))

/-- The memory at a buffer of 32 bytes in the ssh layout of the DLP
algorithms: r = 2^158 as a block of 20 bytes and the first 12 bytes of s,
followed by the 8 bytes `after` that lie behind the buffer. -/
def sampleShortSshDlSignature (after : List Nat) : List Nat :=
  (0x40 :: List.replicate 19 0) ++ (0x20 :: List.replicate 11 0) ++ after

/-- A signature pair in the mail-packet layout with r = s = 65537, integers of
17 bits, in a buffer of 32 bytes. -/
def samplePgpSmallSignature : List Nat :=
  pgpMpi 17 [1, 0, 1] ++ pgpMpi 17 [1, 0, 1] ++ List.replicate 22 0

/-- The signature pair r = s = 65537 as a DER sequence of two integers, in a
buffer of 32 bytes. -/
def sampleDerSmallSignature : List Nat :=
  der 0x30 (der 0x02 [1, 0, 1] ++ der 0x02 [1, 0, 1]) ++ List.replicate 20 0

/-- The x coordinate of the base point of the curve P-384. -/
def sampleP384X : List Nat :=
  [0xAA, 0x87, 0xCA, 0x22, 0xBE, 0x8B, 0x05, 0x37, 0x8E, 0xB1, 0xC7, 0x1E, 0xF3, 0x20, 0xAD, 0x74,
   0x6E, 0x1D, 0x3B, 0x62, 0x8B, 0xA7, 0x9B, 0x98, 0x59, 0xF7, 0x41, 0xE0, 0x82, 0x54, 0x2A, 0x38,
   0x55, 0x02, 0xF2, 0x5D, 0xBF, 0x55, 0x29, 0x6C, 0x3A, 0x54, 0x5E, 0x38, 0x72, 0x76, 0x0A, 0xB7]

/-- The y coordinate of the base point of the curve P-384. -/
def sampleP384Y : List Nat :=
  [0x36, 0x17, 0xDE, 0x4A, 0x96, 0x26, 0x2C, 0x6F, 0x5D, 0x9E, 0x98, 0xBF, 0x92, 0x92, 0xDC, 0x29,
   0xF8, 0xF4, 0x1D, 0xBD, 0x28, 0x9A, 0x14, 0x7C, 0xE9, 0xDA, 0x31, 0x13, 0xB5, 0xF0, 0xB8, 0xC0,
   0x0A, 0x60, 0xB1, 0xCE, 0x1D, 0x7E, 0x81, 0x9D, 0x7A, 0x43, 0x1D, 0x7C, 0x90, 0xEA, 0x0E, 0x5F]

/-- The uncompressed encoding of the base point of P-384, 97 bytes. -/
def sampleP384Point : List Nat := 0x04 :: (sampleP384X ++ sampleP384Y)

/-- An ECDSA key in the ssh format with the curve name "nistp384" and the
point `sampleP384Point` after the given algorithm name. -/
def sampleSshEcdsaP384 (name : String) : List Nat :=
  sshEccKey (cstr name) (cstr "nistp384") sampleP384Point

/-- The sample RSA key in the ssh format with the four bytes `outer` in the
place of its outer length. -/
def sampleSshRsaOuter (outer : List Nat) : List Nat := outer ++ sampleSshRsa.drop 4

/-- The sample DSA key in the ssh format with the four bytes `outer` in the
place of its outer length. -/
def sampleSshDssOuter (outer : List Nat) : List Nat := outer ++ sampleSshDss.drop 4

/-- The sample ECDSA key in the ssh format with the four bytes `outer` in the
place of its outer length. -/
def sampleSshEcdsaOuter (outer : List Nat) : List Nat := outer ++ sampleSshEcdsa.drop 4

/-! ## Theorems -/

set_option maxRecDepth 100000

/-! ### Reasoning about chains of early returns -/

/-- A property of both branches of a conditional holds of the conditional. -/
theorem ite_ind {α : Type} (P : α → Prop) (c : Prop) [Decidable c] (a b : α)
    (h1 : c → P a) (h2 : ¬ c → P b) : P (if c then a else b) := by
  by_cases h : c
  · rw [if_pos h]; exact h1 h
  · rw [if_neg h]; exact h2 h

theorem status_internal : cryptStatusError CRYPT_ERROR_INTERNAL = true := by decide

theorem status_baddata : cryptStatusError CRYPT_ERROR_BADDATA = true := by decide

theorem status_notavail : cryptStatusError CRYPT_ERROR_NOTAVAIL = true := by decide

theorem status_ok : cryptStatusError CRYPT_OK = false := by decide

/-! ### The leaf decoders change only the fields of their family -/

theorem kept_rsa_cert {σ : Type} (E : Ext σ) (L : Limits) (s : σ) (ctx : CONTEXT_INFO)
    (af : Nat) : keptOutside .rsa ctx (readRsaSubjectPublicKey E L s ctx af) := by
  unfold readRsaSubjectPublicKey
  lift_lets
  intros
  repeat' (apply ite_ind <;> intro _)
  all_goals exact ⟨⟨rfl, rfl, rfl, rfl⟩, ⟨rfl, rfl, rfl, rfl, rfl, rfl, rfl, rfl, rfl⟩⟩

theorem kept_dlp_cert {σ : Type} (E : Ext σ) (L : Limits) (s : σ) (ctx : CONTEXT_INFO)
    (af : Nat) : keptOutside .dlp ctx (readDlpSubjectPublicKey E L s ctx af) := by
  unfold readDlpSubjectPublicKey
  lift_lets
  intros
  repeat' (apply ite_ind <;> intro _)
  all_goals exact ⟨⟨rfl, rfl, rfl, rfl⟩, ⟨rfl, rfl, rfl, rfl, rfl, rfl, rfl⟩⟩

theorem kept_ecc_cert {σ : Type} (E : Ext σ) (L : Limits) (s : σ) (ctx : CONTEXT_INFO)
    (af : Nat) : keptOutside .ecc ctx (readEccSubjectPublicKey E L s ctx af) := by
  unfold readEccSubjectPublicKey
  lift_lets
  intros
  repeat' (apply ite_ind <;> intro _)
  all_goals exact ⟨⟨rfl, rfl, rfl, rfl⟩, ⟨rfl, rfl, rfl, rfl, rfl, rfl, rfl, rfl, rfl⟩⟩

theorem kept_rsa_ssh {σ : Type} (E : Ext σ) (L : Limits) (s : σ) (ctx : CONTEXT_INFO)
    (af : Nat) : keptOutside .rsa ctx (readSshRsaPublicKey E L s ctx af) := by
  unfold readSshRsaPublicKey
  lift_lets
  intros
  repeat' (apply ite_ind <;> intro _)
  all_goals exact ⟨⟨rfl, rfl, rfl, rfl⟩, ⟨rfl, rfl, rfl, rfl, rfl, rfl, rfl, rfl, rfl⟩⟩

theorem kept_dlp_ssh {σ : Type} (E : Ext σ) (L : Limits) (s : σ) (ctx : CONTEXT_INFO)
    (af : Nat) : keptOutside .dlp ctx (readSshDlpPublicKey E L s ctx af) := by
  unfold readSshDlpPublicKey
  lift_lets
  intros
  repeat' (apply ite_ind <;> intro _)
  all_goals exact ⟨⟨rfl, rfl, rfl, rfl⟩, ⟨rfl, rfl, rfl, rfl, rfl, rfl, rfl⟩⟩

theorem kept_ecc_ssh {σ : Type} (E : Ext σ) (L : Limits) (s : σ) (ctx : CONTEXT_INFO)
    (af : Nat) : keptOutside .ecc ctx (readSshEccPublicKey E L s ctx af) := by
  unfold readSshEccPublicKey
  lift_lets
  intros
  repeat' (apply ite_ind <;> intro _)
  all_goals exact ⟨⟨rfl, rfl, rfl, rfl⟩, ⟨rfl, rfl, rfl, rfl, rfl, rfl, rfl, rfl, rfl⟩⟩

theorem kept_dlp_ssl {σ : Type} (E : Ext σ) (L : Limits) (s : σ) (ctx : CONTEXT_INFO)
    (af : Nat) : keptOutside .dlp ctx (readSslDlpPublicKey E L s ctx af) := by
  unfold readSslDlpPublicKey
  lift_lets
  intros
  repeat' (apply ite_ind <;> intro _)
  all_goals exact ⟨⟨rfl, rfl, rfl, rfl⟩, ⟨rfl, rfl, rfl, rfl, rfl, rfl, rfl⟩⟩

theorem kept_ecc_ssl {σ : Type} (E : Ext σ) (L : Limits) (s : σ) (ctx : CONTEXT_INFO)
    (af : Nat) : keptOutside .ecc ctx (readSslEccPublicKey E L s ctx af) := by
  unfold readSslEccPublicKey
  lift_lets
  intros
  repeat' (apply ite_ind <;> intro _)
  all_goals exact ⟨⟨rfl, rfl, rfl, rfl⟩, ⟨rfl, rfl, rfl, rfl, rfl, rfl, rfl, rfl, rfl⟩⟩

theorem kept_rsa_pgp {σ : Type} (E : Ext σ) (L : Limits) (s : σ) (ctx : CONTEXT_INFO)
    (af : Nat) : keptOutside .rsa ctx (readPgpRsaPublicKey E L s ctx af) := by
  unfold readPgpRsaPublicKey
  lift_lets
  intros
  repeat' (apply ite_ind <;> intro _)
  all_goals exact ⟨⟨rfl, rfl, rfl, rfl⟩, ⟨rfl, rfl, rfl, rfl, rfl, rfl, rfl, rfl, rfl⟩⟩

theorem kept_dlp_pgp {σ : Type} (E : Ext σ) (L : Limits) (s : σ) (ctx : CONTEXT_INFO)
    (af : Nat) : keptOutside .dlp ctx (readPgpDlpPublicKey E L s ctx af) := by
  unfold readPgpDlpPublicKey
  lift_lets
  intros
  repeat' (apply ite_ind <;> intro _)
  all_goals exact ⟨⟨rfl, rfl, rfl, rfl⟩, ⟨rfl, rfl, rfl, rfl, rfl, rfl, rfl⟩⟩

/-- Every leaf decoder leaves the context outside its parameter set, and the
fields of the other families, unchanged. -/
theorem runLeaf_kept {σ : Type} (id : LeafId) (E : Ext σ) (L : Limits) (s : σ)
    (ctx : CONTEXT_INFO) (af : Nat) :
    keptOutside (leafFamily id) ctx (runLeaf id E L s ctx af) := by
  cases id
  · exact kept_rsa_cert E L s ctx af
  · exact kept_dlp_cert E L s ctx af
  · exact kept_ecc_cert E L s ctx af
  · exact kept_rsa_ssh E L s ctx af
  · exact kept_dlp_ssh E L s ctx af
  · exact kept_ecc_ssh E L s ctx af
  · exact kept_dlp_ssl E L s ctx af
  · exact kept_ecc_ssl E L s ctx af
  · exact kept_rsa_pgp E L s ctx af
  · exact kept_dlp_pgp E L s ctx af

/-! ### A leaf decoder whose precondition fails returns the internal error -/

theorem rejects_rsa_cert {σ : Type} (E : Ext σ) (L : Limits) (s : σ) (ctx : CONTEXT_INFO)
    (af : Nat) (h : ¬ leafRequires .readRsaSubjectPublicKey ctx) :
    readRsaSubjectPublicKey E L s ctx af = ⟨CRYPT_ERROR_INTERNAL, af, s, ctx⟩ := by
  unfold readRsaSubjectPublicKey
  lift_lets
  intros
  exact if_pos h

theorem rejects_dlp_cert {σ : Type} (E : Ext σ) (L : Limits) (s : σ) (ctx : CONTEXT_INFO)
    (af : Nat) (h : ¬ leafRequires .readDlpSubjectPublicKey ctx) :
    readDlpSubjectPublicKey E L s ctx af = ⟨CRYPT_ERROR_INTERNAL, af, s, ctx⟩ := by
  unfold readDlpSubjectPublicKey
  lift_lets
  intros
  exact if_pos h

theorem rejects_ecc_cert {σ : Type} (E : Ext σ) (L : Limits) (s : σ) (ctx : CONTEXT_INFO)
    (af : Nat) (h : ¬ leafRequires .readEccSubjectPublicKey ctx) :
    readEccSubjectPublicKey E L s ctx af = ⟨CRYPT_ERROR_INTERNAL, af, s, ctx⟩ := by
  unfold readEccSubjectPublicKey
  lift_lets
  intros
  exact if_pos h

theorem rejects_rsa_ssh {σ : Type} (E : Ext σ) (L : Limits) (s : σ) (ctx : CONTEXT_INFO)
    (af : Nat) (h : ¬ leafRequires .readSshRsaPublicKey ctx) :
    readSshRsaPublicKey E L s ctx af = ⟨CRYPT_ERROR_INTERNAL, af, s, ctx⟩ := by
  unfold readSshRsaPublicKey
  lift_lets
  intros
  exact if_pos h

theorem rejects_dlp_ssh {σ : Type} (E : Ext σ) (L : Limits) (s : σ) (ctx : CONTEXT_INFO)
    (af : Nat) (h : ¬ leafRequires .readSshDlpPublicKey ctx) :
    readSshDlpPublicKey E L s ctx af = ⟨CRYPT_ERROR_INTERNAL, af, s, ctx⟩ := by
  unfold readSshDlpPublicKey
  lift_lets
  intros
  exact if_pos h

theorem rejects_ecc_ssh {σ : Type} (E : Ext σ) (L : Limits) (s : σ) (ctx : CONTEXT_INFO)
    (af : Nat) (h : ¬ leafRequires .readSshEccPublicKey ctx) :
    readSshEccPublicKey E L s ctx af = ⟨CRYPT_ERROR_INTERNAL, af, s, ctx⟩ := by
  unfold readSshEccPublicKey
  lift_lets
  intros
  exact if_pos h

theorem rejects_dlp_ssl {σ : Type} (E : Ext σ) (L : Limits) (s : σ) (ctx : CONTEXT_INFO)
    (af : Nat) (h : ¬ leafRequires .readSslDlpPublicKey ctx) :
    readSslDlpPublicKey E L s ctx af = ⟨CRYPT_ERROR_INTERNAL, af, s, ctx⟩ := by
  unfold readSslDlpPublicKey
  lift_lets
  intros
  exact if_pos h

theorem rejects_ecc_ssl {σ : Type} (E : Ext σ) (L : Limits) (s : σ) (ctx : CONTEXT_INFO)
    (af : Nat) (h : ¬ leafRequires .readSslEccPublicKey ctx) :
    readSslEccPublicKey E L s ctx af = ⟨CRYPT_ERROR_INTERNAL, af, s, ctx⟩ := by
  unfold readSslEccPublicKey
  lift_lets
  intros
  exact if_pos h

theorem rejects_rsa_pgp {σ : Type} (E : Ext σ) (L : Limits) (s : σ) (ctx : CONTEXT_INFO)
    (af : Nat) (h : ¬ leafRequires .readPgpRsaPublicKey ctx) :
    readPgpRsaPublicKey E L s ctx af = ⟨CRYPT_ERROR_INTERNAL, af, s, ctx⟩ := by
  unfold readPgpRsaPublicKey
  lift_lets
  intros
  exact if_pos h

theorem rejects_dlp_pgp {σ : Type} (E : Ext σ) (L : Limits) (s : σ) (ctx : CONTEXT_INFO)
    (af : Nat) (h : ¬ leafRequires .readPgpDlpPublicKey ctx) :
    readPgpDlpPublicKey E L s ctx af = ⟨CRYPT_ERROR_INTERNAL, af, s, ctx⟩ := by
  unfold readPgpDlpPublicKey
  lift_lets
  intros
  exact if_pos h

/-- A leaf decoder whose precondition fails returns the internal error and
changes neither `*actionFlags`, the stream nor the context. -/
theorem runLeaf_rejects {σ : Type} (id : LeafId) (E : Ext σ) (L : Limits) (s : σ)
    (ctx : CONTEXT_INFO) (af : Nat) (h : ¬ leafRequires id ctx) :
    runLeaf id E L s ctx af = ⟨CRYPT_ERROR_INTERNAL, af, s, ctx⟩ := by
  cases id
  · exact rejects_rsa_cert E L s ctx af h
  · exact rejects_dlp_cert E L s ctx af h
  · exact rejects_ecc_cert E L s ctx af h
  · exact rejects_rsa_ssh E L s ctx af h
  · exact rejects_dlp_ssh E L s ctx af h
  · exact rejects_ecc_ssh E L s ctx af h
  · exact rejects_dlp_ssl E L s ctx af h
  · exact rejects_ecc_ssl E L s ctx af h
  · exact rejects_rsa_pgp E L s ctx af h
  · exact rejects_dlp_pgp E L s ctx af h

/-! ### The bitmask of a leaf decoder that does not fail -/

theorem pgpRsaFlags_eq (v : Int) :
    (if v = PGP_ALGO_RSA then
        MK_ACTION_PERM .MESSAGE_CTX_ENCRYPT ACTION_PERM_ALL |||
        MK_ACTION_PERM .MESSAGE_CTX_DECRYPT ACTION_PERM_ALL |||
        MK_ACTION_PERM .MESSAGE_CTX_SIGCHECK ACTION_PERM_ALL |||
        MK_ACTION_PERM .MESSAGE_CTX_SIGN ACTION_PERM_ALL
      else if v = PGP_ALGO_RSA_ENCRYPT then
        MK_ACTION_PERM .MESSAGE_CTX_ENCRYPT ACTION_PERM_NONE_EXTERNAL |||
        MK_ACTION_PERM .MESSAGE_CTX_DECRYPT ACTION_PERM_NONE_EXTERNAL
      else
        ACTION_PERM_NONE |||
          (MK_ACTION_PERM .MESSAGE_CTX_SIGCHECK ACTION_PERM_NONE_EXTERNAL |||
           MK_ACTION_PERM .MESSAGE_CTX_SIGN ACTION_PERM_NONE_EXTERNAL)) = pgpRsaFlags v := by
  unfold pgpRsaFlags
  split_ifs <;> decide

theorem pgpDlpFlags_eq (v : Int) :
    (if v = PGP_ALGO_DSA then
        MK_ACTION_PERM .MESSAGE_CTX_SIGCHECK ACTION_PERM_NONE_EXTERNAL |||
        MK_ACTION_PERM .MESSAGE_CTX_SIGN ACTION_PERM_NONE_EXTERNAL
      else
        MK_ACTION_PERM .MESSAGE_CTX_ENCRYPT ACTION_PERM_NONE_EXTERNAL |||
        MK_ACTION_PERM .MESSAGE_CTX_DECRYPT ACTION_PERM_NONE_EXTERNAL) =
      (if v = PGP_ALGO_DSA then permInternalSig else permInternalCrypt) := by
  split_ifs <;> decide

theorem sshEccFlags_eq (a : CRYPT_ALGO_TYPE) (h : a = .CRYPT_ALGO_ECDSA) :
    (if decide (a = .CRYPT_ALGO_ECDH) = true then
        MK_ACTION_PERM .MESSAGE_CTX_ENCRYPT ACTION_PERM_NONE_EXTERNAL |||
        MK_ACTION_PERM .MESSAGE_CTX_DECRYPT ACTION_PERM_NONE_EXTERNAL
      else MK_ACTION_PERM .MESSAGE_CTX_SIGCHECK ACTION_PERM_NONE_EXTERNAL) =
      permInternalVerify := by
  subst h
  rfl

theorem certFlags_eq (a b : CRYPT_ALGO_TYPE) (h : a = b) :
    (if b = .CRYPT_ALGO_DSA then
        MK_ACTION_PERM .MESSAGE_CTX_SIGN ACTION_PERM_NONE_EXTERNAL |||
        MK_ACTION_PERM .MESSAGE_CTX_SIGCHECK ACTION_PERM_NONE_EXTERNAL
      else
        MK_ACTION_PERM .MESSAGE_CTX_ENCRYPT ACTION_PERM_NONE_EXTERNAL |||
        MK_ACTION_PERM .MESSAGE_CTX_DECRYPT ACTION_PERM_NONE_EXTERNAL) =
      (if a = .CRYPT_ALGO_DSA then permInternalSig else permInternalCrypt) := by
  subst h
  rfl

theorem eccCertFlags_eq (a b : CRYPT_ALGO_TYPE) (h : a = b) (ha : a = .CRYPT_ALGO_ECDSA) :
    (if b = .CRYPT_ALGO_ECDSA then
        MK_ACTION_PERM .MESSAGE_CTX_SIGN ACTION_PERM_NONE_EXTERNAL |||
        MK_ACTION_PERM .MESSAGE_CTX_SIGCHECK ACTION_PERM_NONE_EXTERNAL
      else
        MK_ACTION_PERM .MESSAGE_CTX_ENCRYPT ACTION_PERM_NONE_EXTERNAL |||
        MK_ACTION_PERM .MESSAGE_CTX_DECRYPT ACTION_PERM_NONE_EXTERNAL) = permInternalSig := by
  subst h
  subst ha
  rfl

theorem success_rsa_cert {σ : Type} (E : Ext σ) (L : Limits) (s : σ) (ctx : CONTEXT_INFO)
    (af : Nat) :
    successWith (leafRequires .readRsaSubjectPublicKey ctx) (leafFlags .readRsaSubjectPublicKey E s ctx) (readRsaSubjectPublicKey E L s ctx af) := by
  unfold readRsaSubjectPublicKey
  lift_lets
  intros
  apply ite_ind
  · intro _ h
    exact absurd h (by simp [status_internal])
  · intro hreq
    have hr := Classical.not_not.mp hreq
    repeat' (apply ite_ind <;> intro _)
    all_goals intro h
    all_goals first
      | (exfalso; simp_all [status_internal, status_baddata, status_notavail]; done)
      | exact ⟨hr, rfl⟩

theorem success_rsa_ssh {σ : Type} (E : Ext σ) (L : Limits) (s : σ) (ctx : CONTEXT_INFO)
    (af : Nat) :
    successWith (leafRequires .readSshRsaPublicKey ctx) (leafFlags .readSshRsaPublicKey E s ctx) (readSshRsaPublicKey E L s ctx af) := by
  unfold readSshRsaPublicKey
  lift_lets
  intros
  apply ite_ind
  · intro _ h
    exact absurd h (by simp [status_internal])
  · intro hreq
    have hr := Classical.not_not.mp hreq
    repeat' (apply ite_ind <;> intro _)
    all_goals intro h
    all_goals first
      | (exfalso; simp_all [status_internal, status_baddata, status_notavail]; done)
      | exact ⟨hr, rfl⟩

theorem success_dlp_ssl {σ : Type} (E : Ext σ) (L : Limits) (s : σ) (ctx : CONTEXT_INFO)
    (af : Nat) :
    successWith (leafRequires .readSslDlpPublicKey ctx) (leafFlags .readSslDlpPublicKey E s ctx) (readSslDlpPublicKey E L s ctx af) := by
  unfold readSslDlpPublicKey
  lift_lets
  intros
  apply ite_ind
  · intro _ h
    exact absurd h (by simp [status_internal])
  · intro hreq
    have hr := Classical.not_not.mp hreq
    repeat' (apply ite_ind <;> intro _)
    all_goals intro h
    all_goals first
      | (exfalso; simp_all [status_internal, status_baddata, status_notavail]; done)
      | exact ⟨hr, rfl⟩

theorem success_ecc_ssl {σ : Type} (E : Ext σ) (L : Limits) (s : σ) (ctx : CONTEXT_INFO)
    (af : Nat) :
    successWith (leafRequires .readSslEccPublicKey ctx) (leafFlags .readSslEccPublicKey E s ctx) (readSslEccPublicKey E L s ctx af) := by
  unfold readSslEccPublicKey
  lift_lets
  intros
  apply ite_ind
  · intro _ h
    exact absurd h (by simp [status_internal])
  · intro hreq
    have hr := Classical.not_not.mp hreq
    repeat' (apply ite_ind <;> intro _)
    all_goals intro h
    all_goals first
      | (exfalso; simp_all [status_internal, status_baddata, status_notavail]; done)
      | exact ⟨hr, rfl⟩

theorem success_ecc_ssh {σ : Type} (E : Ext σ) (L : Limits) (s : σ) (ctx : CONTEXT_INFO)
    (af : Nat) :
    successWith (leafRequires .readSshEccPublicKey ctx) (leafFlags .readSshEccPublicKey E s ctx) (readSshEccPublicKey E L s ctx af) := by
  unfold readSshEccPublicKey
  lift_lets
  intros
  apply ite_ind
  · intro _ h
    exact absurd h (by simp [status_internal])
  · intro hreq
    have hr := Classical.not_not.mp hreq
    repeat' (apply ite_ind <;> intro _)
    all_goals intro h
    all_goals first
      | (exfalso; simp_all [status_internal, status_baddata, status_notavail]; done)
      | exact ⟨hr, sshEccFlags_eq ctx.cryptAlgo hr.2⟩

theorem success_rsa_pgp {σ : Type} (E : Ext σ) (L : Limits) (s : σ) (ctx : CONTEXT_INFO)
    (af : Nat) :
    successWith (leafRequires .readPgpRsaPublicKey ctx) (leafFlags .readPgpRsaPublicKey E s ctx) (readPgpRsaPublicKey E L s ctx af) := by
  unfold readPgpRsaPublicKey
  lift_lets
  intros
  apply ite_ind
  · intro _ h
    exact absurd h (by simp [status_internal])
  · intro hreq
    have hr := Classical.not_not.mp hreq
    repeat' (apply ite_ind <;> intro _)
    all_goals intro h
    all_goals first
      | (exfalso; simp_all [status_internal, status_baddata, status_notavail]; done)
      | exact ⟨hr, pgpRsaFlags_eq (pgpRsaUsageByte E s)⟩

theorem success_dlp_pgp {σ : Type} (E : Ext σ) (L : Limits) (s : σ) (ctx : CONTEXT_INFO)
    (af : Nat) :
    successWith (leafRequires .readPgpDlpPublicKey ctx) (leafFlags .readPgpDlpPublicKey E s ctx) (readPgpDlpPublicKey E L s ctx af) := by
  unfold readPgpDlpPublicKey
  lift_lets
  intros
  apply ite_ind
  · intro _ h
    exact absurd h (by simp [status_internal])
  · intro hreq
    have hr := Classical.not_not.mp hreq
    repeat' (apply ite_ind <;> intro _)
    all_goals intro h
    all_goals first
      | (exfalso; simp_all [status_internal, status_baddata, status_notavail]; done)
      | exact ⟨hr, pgpDlpFlags_eq (pgpDlpAlgoByte E s)⟩

theorem success_dlp_cert {σ : Type} (E : Ext σ) (L : Limits) (s : σ) (ctx : CONTEXT_INFO)
    (af : Nat) :
    successWith (leafRequires .readDlpSubjectPublicKey ctx) (leafFlags .readDlpSubjectPublicKey E s ctx) (readDlpSubjectPublicKey E L s ctx af) := by
  unfold readDlpSubjectPublicKey
  lift_lets
  intros
  apply ite_ind
  · intro _ h
    exact absurd h (by simp [status_internal])
  · intro hreq
    have hr := Classical.not_not.mp hreq
    apply ite_ind
    · intro he h
      exact absurd h (by simp [he])
    · intro _
      apply ite_ind
      · intro _ h
        exact absurd h (by simp [status_baddata])
      · intro _
        apply ite_ind
        · intro _ h
          exact absurd h (by simp [status_baddata])
        · intro hne
          have hc := Classical.not_not.mp hne
          repeat' (apply ite_ind <;> intro _)
          all_goals intro h
          all_goals first
            | (exfalso; simp_all [status_internal, status_baddata, status_notavail]; done)
            | exact ⟨hr, certFlags_eq _ _ hc⟩

theorem success_ecc_cert {σ : Type} (E : Ext σ) (L : Limits) (s : σ) (ctx : CONTEXT_INFO)
    (af : Nat) :
    successWith (leafRequires .readEccSubjectPublicKey ctx) (leafFlags .readEccSubjectPublicKey E s ctx) (readEccSubjectPublicKey E L s ctx af) := by
  unfold readEccSubjectPublicKey
  lift_lets
  intros
  apply ite_ind
  · intro _ h
    exact absurd h (by simp [status_internal])
  · intro hreq
    have hr := Classical.not_not.mp hreq
    apply ite_ind
    · intro he h
      exact absurd h (by simp [he])
    · intro _
      apply ite_ind
      · intro _ h
        exact absurd h (by simp [status_baddata])
      · intro _
        apply ite_ind
        · intro _ h
          exact absurd h (by simp [status_baddata])
        · intro hne
          have hc := Classical.not_not.mp hne
          repeat' (apply ite_ind <;> intro _)
          all_goals intro h
          all_goals first
            | (exfalso; simp_all [status_internal, status_baddata, status_notavail]; done)
            | exact ⟨hr, eccCertFlags_eq _ _ hc hr.2⟩

theorem success_dlp_ssh {σ : Type} (E : Ext σ) (L : Limits) (s : σ) (ctx : CONTEXT_INFO)
    (af : Nat) :
    successWith (leafRequires .readSshDlpPublicKey ctx)
      (leafFlags .readSshDlpPublicKey E s ctx) (readSshDlpPublicKey E L s ctx af) := by
  unfold readSshDlpPublicKey
  lift_lets
  intros
  apply ite_ind
  · intro _ h
    exact absurd h (by simp [status_internal])
  · intro hreq
    have hr := Classical.not_not.mp hreq
    apply ite_ind
    · intro hdh
      have hd : ctx.cryptAlgo = .CRYPT_ALGO_DH := of_decide_eq_true hdh
      repeat' (apply ite_ind <;> intro _)
      all_goals intro h
      all_goals first
        | (exfalso; simp_all [status_internal, status_baddata, status_notavail]; done)
        | exact ⟨hr, by rw [leafFlags, if_pos hd]; rfl⟩
    · intro hdh
      have hd : ¬ ctx.cryptAlgo = .CRYPT_ALGO_DH := fun hc => hdh (decide_eq_true hc)
      repeat' (apply ite_ind <;> intro _)
      all_goals intro h
      all_goals first
        | (exfalso; simp_all [status_internal, status_baddata, status_notavail]; done)
        | exact ⟨hr, by rw [leafFlags, if_neg hd]; rfl⟩


/-- A leaf decoder that returns a status that is not an error was called with
its precondition satisfied and returns the bitmask `leafFlags`. -/
theorem runLeaf_success {σ : Type} (id : LeafId) (E : Ext σ) (L : Limits) (s : σ)
    (ctx : CONTEXT_INFO) (af : Nat) :
    successWith (leafRequires id ctx) (leafFlags id E s ctx) (runLeaf id E L s ctx af) := by
  cases id
  · exact success_rsa_cert E L s ctx af
  · exact success_dlp_cert E L s ctx af
  · exact success_ecc_cert E L s ctx af
  · exact success_rsa_ssh E L s ctx af
  · exact success_dlp_ssh E L s ctx af
  · exact success_ecc_ssh E L s ctx af
  · exact success_dlp_ssl E L s ctx af
  · exact success_ecc_ssl E L s ctx af
  · exact success_rsa_pgp E L s ctx af
  · exact success_dlp_pgp E L s ctx af

/-! ### The dispatchers -/

theorem leafRequires_family (id : LeafId) (ctx : CONTEXT_INFO) (h : leafRequires id ctx) :
    familyContext (leafFamily id) ctx := by
  cases id <;> simp only [leafRequires, familyContext, leafFamily] at h ⊢ <;> tauto

theorem selectedLeaf_family (fam : Family) (fmt : KEYFORMAT_TYPE) (id : LeafId)
    (h : selectedLeaf fam fmt = some id) : leafFamily id = fam := by
  cases fam <;> cases fmt <;> simp [selectedLeaf] at h <;> subst h <;> rfl

/-- A dispatcher whose precondition on the key object fails returns the
internal error and changes nothing. -/
theorem dispatch_reject {σ : Type} (fam : Family) (E : Ext σ) (L : Limits) (s : σ)
    (ctx : CONTEXT_INFO) (fmt : KEYFORMAT_TYPE) (w : World) (af : Nat)
    (h : ¬ familyContext fam ctx) :
    readPublicKeyFunction fam E L s ctx fmt w af = ⟨CRYPT_ERROR_INTERNAL, s, ctx, w⟩ := by
  cases fam
  · exact if_pos h
  · exact if_pos h
  · exact if_pos h

/-- A dispatcher whose precondition on the key object holds runs the leaf
decoder of the compatibility matrix and finishes the read, or returns the
internal error when the matrix has no entry. -/
theorem dispatch_eq {σ : Type} (fam : Family) (E : Ext σ) (L : Limits) (s : σ)
    (ctx : CONTEXT_INFO) (fmt : KEYFORMAT_TYPE) (w : World) (af : Nat)
    (h : familyContext fam ctx) :
    readPublicKeyFunction fam E L s ctx fmt w af =
      match selectedLeaf fam fmt with
      | some id => finishRead E L id (runLeaf id E L s ctx af) w
      | none => ⟨CRYPT_ERROR_INTERNAL, s, ctx, w⟩ := by
  cases fam
  · have h2 : ¬¬(ctx.type = .CONTEXT_PKC ∧ ctx.cryptAlgo = .CRYPT_ALGO_RSA) := not_not.mpr h
    unfold readPublicKeyFunction readPublicKeyRsaFunction
    rw [if_neg h2]
    cases fmt <;> simp [selectedLeaf, runLeaf, KEYFORMAT_TYPE.toNat]
  · have h2 : ¬¬(ctx.type = .CONTEXT_PKC ∧
        (ctx.cryptAlgo = .CRYPT_ALGO_DH ∨ ctx.cryptAlgo = .CRYPT_ALGO_DSA ∨
          ctx.cryptAlgo = .CRYPT_ALGO_ELGAMAL)) := not_not.mpr h
    unfold readPublicKeyFunction readPublicKeyDlpFunction
    rw [if_neg h2]
    cases fmt <;> simp [selectedLeaf, runLeaf, KEYFORMAT_TYPE.toNat]
  · have h2 : ¬¬(ctx.type = .CONTEXT_PKC ∧
        (ctx.cryptAlgo = .CRYPT_ALGO_ECDSA ∨ ctx.cryptAlgo = .CRYPT_ALGO_ECDH)) :=
      not_not.mpr h
    unfold readPublicKeyFunction readPublicKeyEccFunction
    rw [if_neg h2]
    cases fmt <;> simp [selectedLeaf, runLeaf]

/-- Every bitmask of `leafFlags` passes the range check of
`completePubkeyRead`. -/
theorem leafFlags_range {σ : Type} (id : LeafId) (E : Ext σ) (s : σ) (ctx : CONTEXT_INFO) :
    leafFlags id E s ctx > ACTION_PERM_FLAG_NONE ∧
    leafFlags id E s ctx < ACTION_PERM_FLAG_MAX := by
  cases id <;> simp only [leafFlags, pgpRsaFlags] <;> (try split_ifs) <;> decide

/-- No bitmask of `leafFlags` of a DLP or ECC leaf decoder holds an
unrestricted permission. -/
theorem leafFlags_restricted {σ : Type} (id : LeafId) (E : Ext σ) (s : σ) (ctx : CONTEXT_INFO)
    (h : leafFamily id ≠ .rsa) (action : MESSAGE_TYPE) :
    actionPerm (leafFlags id E s ctx) action ≠ ACTION_PERM_ALL := by
  cases id <;> simp [leafFamily] at h <;> simp only [leafFlags] <;> (try split_ifs) <;>
    cases action <;> decide

/-! ### The claims -/

/-- C1: for each of the three dispatchers (`readPublicKeyFunction` is
`readPublicKeyRsaFunction`, `readPublicKeyDlpFunction` or
`readPublicKeyEccFunction`), every format with a leaf decoder and every input:
if the leaf decoder returns an error status, the dispatcher returns that same
status, sends no message to the kernel and does not call
`completePubkeyRead` (the only call it can have made is the leaf decoder). -/
theorem dispatcher_returns_leaf_error {σ : Type} (fam : Family) (fmt : KEYFORMAT_TYPE)
    (id : LeafId) (E : Ext σ) (L : Limits) (s : σ) (ctx : CONTEXT_INFO) (w : World) (af : Nat)
    (hsel : selectedLeaf fam fmt = some id)
    (herr : cryptStatusError (runLeaf id E L s ctx af).status = true) :
    (readPublicKeyFunction fam E L s ctx fmt w af).status = (runLeaf id E L s ctx af).status ∧
    (readPublicKeyFunction fam E L s ctx fmt w af).world.sent = w.sent ∧
    ((readPublicKeyFunction fam E L s ctx fmt w af).world.calls = w.calls ∨
     (readPublicKeyFunction fam E L s ctx fmt w af).world.calls = w.calls ++ [Call.leaf id]) := by
  by_cases hf : familyContext fam ctx
  · rw [dispatch_eq fam E L s ctx fmt w af hf, hsel]
    simp [finishRead, herr]
  · have hreq : ¬ leafRequires id ctx := fun h =>
      hf (selectedLeaf_family fam fmt id hsel ▸ leafRequires_family id ctx h)
    rw [dispatch_reject fam E L s ctx fmt w af hf, runLeaf_rejects id E L s ctx af hreq]
    exact ⟨rfl, rfl, Or.inl rfl⟩

/-- Witness of C1: the mail-packet RSA decoder fails on a header with an
unassigned usage byte, and the RSA dispatcher returns that status. -/
theorem dispatcher_returns_leaf_error_witness :
    selectedLeaf .rsa .KEYFORMAT_PGP = some .readPgpRsaPublicKey ∧
    cryptStatusError (runLeaf .readPgpRsaPublicKey byteExt sampleLimits
      (sMemConnect samplePgpBadUsage) (sampleContext .CRYPT_ALGO_RSA) 0).status = true ∧
    (readPublicKeyFunction .rsa byteExt sampleLimits (sMemConnect samplePgpBadUsage)
      (sampleContext .CRYPT_ALGO_RSA) .KEYFORMAT_PGP emptyWorld 0).status =
      CRYPT_ERROR_BADDATA ∧
    (readPublicKeyFunction .rsa byteExt sampleLimits (sMemConnect samplePgpBadUsage)
      (sampleContext .CRYPT_ALGO_RSA) .KEYFORMAT_PGP emptyWorld 0).world.sent = [] :=
  have h := dispatcher_returns_leaf_error .rsa .KEYFORMAT_PGP .readPgpRsaPublicKey byteExt
    sampleLimits (sMemConnect samplePgpBadUsage) (sampleContext .CRYPT_ALGO_RSA) emptyWorld 0
    rfl (by decide)
  ⟨rfl, by decide, h.1.trans (by decide), h.2.1⟩

/-- C2: for each dispatcher and every format with a leaf decoder, when the
leaf decoder returns a status that is not an error with the bitmask F, the
dispatcher calls the leaf decoder and then `completePubkeyRead` once with F;
for a context that is not flagged static exactly one message carrying F is
sent to the object of the context and the result is the status of that
message; for a context flagged static no message is sent and the result is
`CRYPT_OK`. -/
theorem dispatcher_commits_leaf_flags {σ : Type} (fam : Family) (fmt : KEYFORMAT_TYPE)
    (id : LeafId) (E : Ext σ) (L : Limits) (s : σ) (ctx : CONTEXT_INFO) (w : World) (af : Nat)
    (hsel : selectedLeaf fam fmt = some id)
    (hok : cryptStatusError (runLeaf id E L s ctx af).status = false) :
    (readPublicKeyFunction fam E L s ctx fmt w af).world.calls =
      w.calls ++ [Call.leaf id, Call.completePubkeyRead (runLeaf id E L s ctx af).actionFlags] ∧
    (ctx.flags &&& L.CONTEXT_FLAG_STATICCONTEXT = 0 →
      (readPublicKeyFunction fam E L s ctx fmt w af).world.sent =
        w.sent ++ [⟨ctx.objectHandle, (runLeaf id E L s ctx af).actionFlags⟩] ∧
      (readPublicKeyFunction fam E L s ctx fmt w af).status =
        E.krnlSendMessage w.sent ⟨ctx.objectHandle, (runLeaf id E L s ctx af).actionFlags⟩) ∧
    (ctx.flags &&& L.CONTEXT_FLAG_STATICCONTEXT ≠ 0 →
      (readPublicKeyFunction fam E L s ctx fmt w af).world.sent = w.sent ∧
      (readPublicKeyFunction fam E L s ctx fmt w af).status = CRYPT_OK) := by
  have hs := runLeaf_success id E L s ctx af hok
  have hf : familyContext fam ctx :=
    selectedLeaf_family fam fmt id hsel ▸ leafRequires_family id ctx hs.1
  have hk := (runLeaf_kept id E L s ctx af).1
  have hr := leafFlags_range id E s ctx
  rw [← hs.2] at hr
  rw [dispatch_eq fam E L s ctx fmt w af hf, hsel]
  simp only [finishRead, hok, completePubkeyRead, hk.2.2.1, hk.2.2.2, hr.1, hr.2,
    and_self, not_true_eq_false, if_false, Bool.false_eq_true]
  refine ⟨?_, ?_, ?_⟩
  · split_ifs <;> simp
  · intro h0
    rw [if_neg (not_not.mpr h0)]
    exact ⟨rfl, rfl⟩
  · intro h1
    rw [if_pos h1]
    exact ⟨rfl, rfl⟩

/-- Witness of C2: the certificate-format decode of the sample RSA key
succeeds; the RSA dispatcher sends its bitmask to the object 5, and for a
context flagged static it sends nothing and returns `CRYPT_OK`. -/
theorem dispatcher_commits_leaf_flags_witness :
    selectedLeaf .rsa .KEYFORMAT_CERT = some .readRsaSubjectPublicKey ∧
    cryptStatusError (runLeaf .readRsaSubjectPublicKey byteExt sampleLimits
      (sMemConnect sampleRsaCert) (sampleContext .CRYPT_ALGO_RSA) 0).status = false ∧
    (readPublicKeyFunction .rsa byteExt sampleLimits (sMemConnect sampleRsaCert)
      (sampleContext .CRYPT_ALGO_RSA) .KEYFORMAT_CERT emptyWorld 0).world.sent =
      [⟨5, 0xFF⟩] ∧
    (readPublicKeyFunction .rsa byteExt sampleLimits (sMemConnect sampleRsaCert)
      (sampleStaticContext .CRYPT_ALGO_RSA) .KEYFORMAT_CERT emptyWorld 0).world.sent = [] ∧
    (readPublicKeyFunction .rsa byteExt sampleLimits (sMemConnect sampleRsaCert)
      (sampleStaticContext .CRYPT_ALGO_RSA) .KEYFORMAT_CERT emptyWorld 0).status = CRYPT_OK :=
  have h := dispatcher_commits_leaf_flags .rsa .KEYFORMAT_CERT .readRsaSubjectPublicKey byteExt
    sampleLimits (sMemConnect sampleRsaCert) (sampleContext .CRYPT_ALGO_RSA) emptyWorld 0
    rfl (by decide)
  have hs := dispatcher_commits_leaf_flags .rsa .KEYFORMAT_CERT .readRsaSubjectPublicKey byteExt
    sampleLimits (sMemConnect sampleRsaCert) (sampleStaticContext .CRYPT_ALGO_RSA) emptyWorld 0
    rfl (by decide)
  ⟨rfl, by decide, (h.2.1 (by decide)).1.trans (by decide), (hs.2.2 (by decide)).1,
    (hs.2.2 (by decide)).2⟩

/-- C3, as stated, fails: the mail-packet RSA decoder stores the creation time
before it reads the usage byte, so a header with an unassigned usage byte makes
the RSA dispatcher fail with a data-format error and a changed key object. -/
theorem failed_decode_changes_key :
    cryptStatusError (readPublicKeyFunction .rsa byteExt sampleLimits
      (sMemConnect samplePgpBadUsage) (sampleContext .CRYPT_ALGO_RSA) .KEYFORMAT_PGP
      emptyWorld 0).status = true ∧
    (sampleContext .CRYPT_ALGO_RSA).ctxPKC.pgpCreationTime = 0 ∧
    (readPublicKeyFunction .rsa byteExt sampleLimits (sMemConnect samplePgpBadUsage)
      (sampleContext .CRYPT_ALGO_RSA) .KEYFORMAT_PGP emptyWorld 0).ctx.ctxPKC.pgpCreationTime =
      0x5F000000 ∧
    (readPublicKeyFunction .rsa byteExt sampleLimits (sMemConnect samplePgpBadUsage)
      (sampleContext .CRYPT_ALGO_RSA) .KEYFORMAT_PGP emptyWorld 0).ctx.ctxPKC ≠
      (sampleContext .CRYPT_ALGO_RSA).ctxPKC := by
  decide

/-- C3, amended: every call of a dispatcher, failing or not, leaves the context
outside its parameter set and every field outside the parameter set of the
family of the dispatcher (RSA: n, e, creation time; DLP: p, q, g, y, creation
time; ECC: curve selector, qx, qy) as it was; and a call in which the
dispatcher runs no leaf decoder returns the internal error and leaves the whole
key object and the stream as they were. -/
theorem dispatcher_frame {σ : Type} (fam : Family) (fmt : KEYFORMAT_TYPE) (E : Ext σ)
    (L : Limits) (s : σ) (ctx : CONTEXT_INFO) (w : World) (af : Nat) :
    sameHeader (readPublicKeyFunction fam E L s ctx fmt w af).ctx ctx ∧
    sameOutsideFamily fam ctx.ctxPKC (readPublicKeyFunction fam E L s ctx fmt w af).ctx.ctxPKC ∧
    ((readPublicKeyFunction fam E L s ctx fmt w af).world.calls = w.calls →
      (readPublicKeyFunction fam E L s ctx fmt w af).status = CRYPT_ERROR_INTERNAL ∧
      (readPublicKeyFunction fam E L s ctx fmt w af).ctx = ctx ∧
      (readPublicKeyFunction fam E L s ctx fmt w af).stream = s) := by
  have hrefl : sameHeader ctx ctx ∧ sameOutsideFamily fam ctx.ctxPKC ctx.ctxPKC := by
    cases fam <;> simp [sameHeader, sameOutsideFamily]
  by_cases hf : familyContext fam ctx
  · rw [dispatch_eq fam E L s ctx fmt w af hf]
    cases hsel : selectedLeaf fam fmt with
    | none => exact ⟨hrefl.1, hrefl.2, fun _ => ⟨rfl, rfl, rfl⟩⟩
    | some id =>
      have hk := runLeaf_kept id E L s ctx af
      rw [selectedLeaf_family fam fmt id hsel] at hk
      have hcalls : ∀ r : LeafResult σ, (finishRead E L id r w).world.calls ≠ w.calls := by
        intro r
        unfold finishRead completePubkeyRead
        intro h
        have hlen := congrArg List.length h
        split_ifs at hlen <;> simp at hlen
      have hctx : ∀ r : LeafResult σ, (finishRead E L id r w).ctx = r.ctx := by
        intro r
        unfold finishRead
        split_ifs <;> rfl
      refine ⟨?_, ?_, fun h => absurd h (hcalls _)⟩
      · show sameHeader (finishRead E L id (runLeaf id E L s ctx af) w).ctx ctx
        rw [hctx]
        exact hk.1
      · show sameOutsideFamily fam ctx.ctxPKC
          (finishRead E L id (runLeaf id E L s ctx af) w).ctx.ctxPKC
        rw [hctx]
        exact hk.2
  · rw [dispatch_reject fam E L s ctx fmt w af hf]
    exact ⟨hrefl.1, hrefl.2, fun _ => ⟨rfl, rfl, rfl⟩⟩

/-- Witness of the amended C3: the RSA dispatcher called with the ssl format
runs no leaf decoder and leaves the key object as it was. -/
theorem dispatcher_frame_witness :
    (readPublicKeyFunction .rsa byteExt sampleLimits (sMemConnect sampleRsaCert)
      (sampleContext .CRYPT_ALGO_RSA) .KEYFORMAT_SSL emptyWorld 0).world.calls =
      emptyWorld.calls ∧
    (readPublicKeyFunction .rsa byteExt sampleLimits (sMemConnect sampleRsaCert)
      (sampleContext .CRYPT_ALGO_RSA) .KEYFORMAT_SSL emptyWorld 0).ctx =
      sampleContext .CRYPT_ALGO_RSA :=
  ⟨by decide,
   ((dispatcher_frame .rsa .KEYFORMAT_SSL byteExt sampleLimits (sMemConnect sampleRsaCert)
      (sampleContext .CRYPT_ALGO_RSA) emptyWorld 0).2.2 (by decide)).2.1⟩

/-- The compatibility matrix has a leaf decoder exactly for the formats that
the specification lists as legal for the family. -/
theorem selectedLeaf_legal (fam : Family) (fmt : KEYFORMAT_TYPE) :
    (selectedLeaf fam fmt).isSome = true ↔ fmt ∈ legalFormats fam := by
  cases fam <;> cases fmt <;> simp [selectedLeaf, legalFormats]

/-- C4: for a key object of the family of the dispatcher, a format of the legal
set of the family (RSA: certificate, ssh, pgp; DLP: certificate, ssh, ssl, pgp;
ECC: certificate, ssl, ssh) makes the dispatcher call exactly the leaf decoder
of the pair, on the stream and key object it was given, and no other leaf
decoder; every other format (such as ssl for RSA and pgp for ECC) makes it
return the internal error with the stream, the key object, the messages sent
and the record of calls unchanged. -/
theorem dispatcher_matrix {σ : Type} (fam : Family) (fmt : KEYFORMAT_TYPE) (E : Ext σ)
    (L : Limits) (s : σ) (ctx : CONTEXT_INFO) (w : World) (af : Nat)
    (hctx : familyContext fam ctx) :
    (fmt ∈ legalFormats fam → ∃ id, selectedLeaf fam fmt = some id) ∧
    (fmt ∉ legalFormats fam → selectedLeaf fam fmt = none) ∧
    (∀ id, selectedLeaf fam fmt = some id →
      (readPublicKeyFunction fam E L s ctx fmt w af).stream = (runLeaf id E L s ctx af).stream ∧
      (readPublicKeyFunction fam E L s ctx fmt w af).ctx = (runLeaf id E L s ctx af).ctx ∧
      ∃ rest, (readPublicKeyFunction fam E L s ctx fmt w af).world.calls =
          w.calls ++ Call.leaf id :: rest ∧
        ∀ other, Call.leaf other ∉ rest) ∧
    (selectedLeaf fam fmt = none →
      (readPublicKeyFunction fam E L s ctx fmt w af).status = CRYPT_ERROR_INTERNAL ∧
      (readPublicKeyFunction fam E L s ctx fmt w af).stream = s ∧
      (readPublicKeyFunction fam E L s ctx fmt w af).ctx = ctx ∧
      (readPublicKeyFunction fam E L s ctx fmt w af).world = w) := by
  refine ⟨?_, ?_, ?_, ?_⟩
  · intro h
    exact Option.isSome_iff_exists.mp ((selectedLeaf_legal fam fmt).mpr h)
  · intro h
    cases hs : selectedLeaf fam fmt with
    | none => rfl
    | some id => exact absurd ((selectedLeaf_legal fam fmt).mp (by rw [hs]; rfl)) h
  · intro id hsel
    rw [dispatch_eq fam E L s ctx fmt w af hctx, hsel]
    simp only [finishRead, completePubkeyRead]
    split_ifs
    · exact ⟨rfl, rfl, [], by simp, by simp⟩
    all_goals exact ⟨rfl, rfl, [Call.completePubkeyRead (runLeaf id E L s ctx af).actionFlags],
      by simp, by simp⟩
  · intro hsel
    rw [dispatch_eq fam E L s ctx fmt w af hctx, hsel]
    exact ⟨rfl, rfl, rfl, rfl⟩

/-- Witness of C4: an RSA key object satisfies the precondition of the RSA
dispatcher; with the ssl format the dispatcher returns the internal error and
nothing changes. -/
theorem dispatcher_matrix_witness :
    familyContext .rsa (sampleContext .CRYPT_ALGO_RSA) ∧
    (readPublicKeyFunction .rsa byteExt sampleLimits (sMemConnect sampleRsaCert)
      (sampleContext .CRYPT_ALGO_RSA) .KEYFORMAT_SSL emptyWorld 0).status =
      CRYPT_ERROR_INTERNAL ∧
    (readPublicKeyFunction .rsa byteExt sampleLimits (sMemConnect sampleRsaCert)
      (sampleContext .CRYPT_ALGO_RSA) .KEYFORMAT_SSL emptyWorld 0).world = emptyWorld :=
  have h := dispatcher_matrix .rsa .KEYFORMAT_SSL byteExt sampleLimits
    (sMemConnect sampleRsaCert) (sampleContext .CRYPT_ALGO_RSA) emptyWorld 0 ⟨rfl, rfl⟩
  ⟨⟨rfl, rfl⟩, (h.2.2.2 rfl).1, (h.2.2.2 rfl).2.2.2⟩

/-- A dispatcher that runs a leaf decoder whose precondition fails returns the
internal error; the stream and the key object are unchanged, no message is
sent and `completePubkeyRead` is not called. -/
theorem dispatch_leaf_rejects {σ : Type} (fam : Family) (fmt : KEYFORMAT_TYPE) (id : LeafId)
    (E : Ext σ) (L : Limits) (s : σ) (ctx : CONTEXT_INFO) (w : World) (af : Nat)
    (hsel : selectedLeaf fam fmt = some id) (hreq : ¬ leafRequires id ctx) :
    (readPublicKeyFunction fam E L s ctx fmt w af).status = CRYPT_ERROR_INTERNAL ∧
    (readPublicKeyFunction fam E L s ctx fmt w af).stream = s ∧
    (readPublicKeyFunction fam E L s ctx fmt w af).ctx = ctx ∧
    (readPublicKeyFunction fam E L s ctx fmt w af).world.sent = w.sent ∧
    ((readPublicKeyFunction fam E L s ctx fmt w af).world.calls = w.calls ∨
     (readPublicKeyFunction fam E L s ctx fmt w af).world.calls = w.calls ++ [Call.leaf id]) := by
  by_cases hf : familyContext fam ctx
  · rw [dispatch_eq fam E L s ctx fmt w af hf, hsel]
    simp only [runLeaf_rejects id E L s ctx af hreq]
    simp [finishRead, status_internal]
  · rw [dispatch_reject fam E L s ctx fmt w af hf]
    exact ⟨rfl, rfl, rfl, rfl, Or.inl rfl⟩

/-- C5: requesting the ssl format through the DLP dispatcher for a DSA or an
Elgamal key, or through the ECC dispatcher for an ECDSA key, yields the
internal error for every input; no message is sent to the kernel,
`completePubkeyRead` is not called, and the stream and the key object are
unchanged. -/
theorem ssl_format_only_for_dh_and_ecdh {σ : Type} (E : Ext σ) (L : Limits) (s : σ)
    (ctx : CONTEXT_INFO) (w : World) (af : Nat) :
    (ctx.cryptAlgo = .CRYPT_ALGO_DSA ∨ ctx.cryptAlgo = .CRYPT_ALGO_ELGAMAL →
      (readPublicKeyDlpFunction E L s ctx .KEYFORMAT_SSL w af).status = CRYPT_ERROR_INTERNAL ∧
      (readPublicKeyDlpFunction E L s ctx .KEYFORMAT_SSL w af).stream = s ∧
      (readPublicKeyDlpFunction E L s ctx .KEYFORMAT_SSL w af).ctx = ctx ∧
      (readPublicKeyDlpFunction E L s ctx .KEYFORMAT_SSL w af).world.sent = w.sent ∧
      ((readPublicKeyDlpFunction E L s ctx .KEYFORMAT_SSL w af).world.calls = w.calls ∨
       (readPublicKeyDlpFunction E L s ctx .KEYFORMAT_SSL w af).world.calls =
         w.calls ++ [Call.leaf .readSslDlpPublicKey])) ∧
    (ctx.cryptAlgo = .CRYPT_ALGO_ECDSA →
      (readPublicKeyEccFunction E L s ctx .KEYFORMAT_SSL w af).status = CRYPT_ERROR_INTERNAL ∧
      (readPublicKeyEccFunction E L s ctx .KEYFORMAT_SSL w af).stream = s ∧
      (readPublicKeyEccFunction E L s ctx .KEYFORMAT_SSL w af).ctx = ctx ∧
      (readPublicKeyEccFunction E L s ctx .KEYFORMAT_SSL w af).world.sent = w.sent ∧
      ((readPublicKeyEccFunction E L s ctx .KEYFORMAT_SSL w af).world.calls = w.calls ∨
       (readPublicKeyEccFunction E L s ctx .KEYFORMAT_SSL w af).world.calls =
         w.calls ++ [Call.leaf .readSslEccPublicKey])) := by
  constructor
  · intro h
    refine dispatch_leaf_rejects .dlp .KEYFORMAT_SSL .readSslDlpPublicKey E L s ctx w af rfl ?_
    rintro ⟨_, hdh⟩
    rcases h with h | h <;> rw [h] at hdh <;> cases hdh
  · intro h
    refine dispatch_leaf_rejects .ecc .KEYFORMAT_SSL .readSslEccPublicKey E L s ctx w af rfl ?_
    rintro ⟨_, hdh⟩
    rw [h] at hdh
    cases hdh

/-- Witness of C5: the ssl format for a DSA key and for an ECDSA key. -/
theorem ssl_format_only_for_dh_and_ecdh_witness :
    (readPublicKeyDlpFunction byteExt sampleLimits (sMemConnect sampleSslDh)
      (sampleContext .CRYPT_ALGO_DSA) .KEYFORMAT_SSL emptyWorld 0).status =
      CRYPT_ERROR_INTERNAL ∧
    (readPublicKeyEccFunction byteExt sampleLimits (sMemConnect sampleSslEcdh)
      (sampleContext .CRYPT_ALGO_ECDSA) .KEYFORMAT_SSL emptyWorld 0).status =
      CRYPT_ERROR_INTERNAL :=
  ⟨((ssl_format_only_for_dh_and_ecdh byteExt sampleLimits (sMemConnect sampleSslDh)
      (sampleContext .CRYPT_ALGO_DSA) emptyWorld 0).1 (Or.inl rfl)).1,
   ((ssl_format_only_for_dh_and_ecdh byteExt sampleLimits (sMemConnect sampleSslEcdh)
      (sampleContext .CRYPT_ALGO_ECDSA) emptyWorld 0).2 rfl).1⟩

/-- The scope of each action in the four bitmasks that the decoders build. -/
theorem actionPerm_values (action : MESSAGE_TYPE) :
    actionPerm permAllFour action =
      (if action = .MESSAGE_CTX_ENCRYPT ∨ action = .MESSAGE_CTX_DECRYPT ∨
          action = .MESSAGE_CTX_SIGN ∨ action = .MESSAGE_CTX_SIGCHECK
        then ACTION_PERM_ALL else ACTION_PERM_NOTAVAIL) ∧
    actionPerm permInternalCrypt action =
      (if action = .MESSAGE_CTX_ENCRYPT ∨ action = .MESSAGE_CTX_DECRYPT
        then ACTION_PERM_NONE_EXTERNAL else ACTION_PERM_NOTAVAIL) ∧
    actionPerm permInternalSig action =
      (if action = .MESSAGE_CTX_SIGN ∨ action = .MESSAGE_CTX_SIGCHECK
        then ACTION_PERM_NONE_EXTERNAL else ACTION_PERM_NOTAVAIL) ∧
    actionPerm permInternalVerify action =
      (if action = .MESSAGE_CTX_SIGCHECK
        then ACTION_PERM_NONE_EXTERNAL else ACTION_PERM_NOTAVAIL) := by
  cases action <;> decide

/-- C6: every certificate-format decode of an RSA key that does not fail yields
the bitmask `0xFF`: unrestricted encrypt, decrypt, sign and verify, and an
empty field for every other action. -/
theorem rsa_cert_unrestricted {σ : Type} (E : Ext σ) (L : Limits) (s : σ) (ctx : CONTEXT_INFO)
    (af : Nat) (hok : cryptStatusError (readRsaSubjectPublicKey E L s ctx af).status = false) :
    (readRsaSubjectPublicKey E L s ctx af).actionFlags = 0xFF ∧
    ∀ action, actionPerm (readRsaSubjectPublicKey E L s ctx af).actionFlags action =
      (if action = .MESSAGE_CTX_ENCRYPT ∨ action = .MESSAGE_CTX_DECRYPT ∨
          action = .MESSAGE_CTX_SIGN ∨ action = .MESSAGE_CTX_SIGCHECK
        then ACTION_PERM_ALL else ACTION_PERM_NOTAVAIL) := by
  have h : (readRsaSubjectPublicKey E L s ctx af).actionFlags = permAllFour :=
    (success_rsa_cert E L s ctx af hok).2
  rw [h]
  exact ⟨by decide, fun action => (actionPerm_values action).1⟩

/-- Witness of C6: the sample RSA certificate key decodes with `CRYPT_OK`. -/
theorem rsa_cert_unrestricted_witness :
    cryptStatusError (readRsaSubjectPublicKey byteExt sampleLimits (sMemConnect sampleRsaCert)
      (sampleContext .CRYPT_ALGO_RSA) 0).status = false ∧
    (readRsaSubjectPublicKey byteExt sampleLimits (sMemConnect sampleRsaCert)
      (sampleContext .CRYPT_ALGO_RSA) 0).actionFlags = 0xFF :=
  ⟨by decide,
   (rsa_cert_unrestricted byteExt sampleLimits (sMemConnect sampleRsaCert)
      (sampleContext .CRYPT_ALGO_RSA) 0 (by decide)).1⟩

/-- C7, at the failing input: a well-formed mail-packet RSA key with the
sign-only usage byte decodes with `CRYPT_OK`, and the bitmask is `0xA1`, not the
bitmask `0xA0` of internal-only sign and verify: the `|=` of the sign-only case
keeps the value `ACTION_PERM_NONE` that `*actionFlags` was cleared to, which
lies in the encrypt field. The encrypt-only and the general-purpose usage bytes
give `0x0A` and `0xFF`. -/
theorem pgp_rsa_sign_only_keeps_cleared_value :
    (readPgpRsaPublicKey byteExt sampleLimits (sMemConnect (samplePgpRsa 3))
      (sampleContext .CRYPT_ALGO_RSA) 0).status = CRYPT_OK ∧
    (readPgpRsaPublicKey byteExt sampleLimits (sMemConnect (samplePgpRsa 3))
      (sampleContext .CRYPT_ALGO_RSA) 0).actionFlags = 0xA1 ∧
    permInternalSig = 0xA0 ∧
    actionPerm (readPgpRsaPublicKey byteExt sampleLimits (sMemConnect (samplePgpRsa 3))
      (sampleContext .CRYPT_ALGO_RSA) 0).actionFlags .MESSAGE_CTX_ENCRYPT = ACTION_PERM_NONE ∧
    actionPerm permInternalSig .MESSAGE_CTX_ENCRYPT = ACTION_PERM_NOTAVAIL ∧
    (readPgpRsaPublicKey byteExt sampleLimits (sMemConnect (samplePgpRsa 2))
      (sampleContext .CRYPT_ALGO_RSA) 0).actionFlags = 0x0A ∧
    (readPgpRsaPublicKey byteExt sampleLimits (sMemConnect (samplePgpRsa 1))
      (sampleContext .CRYPT_ALGO_RSA) 0).actionFlags = 0xFF := by
  decide

/-- C8, as stated, fails: the sample DSA key in the ssh format decodes with
`CRYPT_OK` and the bitmask `0x80`, internal-only verify alone, with an empty
sign field, not the bitmask `0xA0` of internal-only sign and verify. -/
theorem ssh_dsa_gets_verify_only :
    (readSshDlpPublicKey byteExt sampleLimits (sMemConnect sampleSshDss)
      (sampleContext .CRYPT_ALGO_DSA) 0).status = CRYPT_OK ∧
    (readSshDlpPublicKey byteExt sampleLimits (sMemConnect sampleSshDss)
      (sampleContext .CRYPT_ALGO_DSA) 0).actionFlags = 0x80 ∧
    permInternalSig = 0xA0 ∧
    actionPerm (readSshDlpPublicKey byteExt sampleLimits (sMemConnect sampleSshDss)
      (sampleContext .CRYPT_ALGO_DSA) 0).actionFlags .MESSAGE_CTX_SIGN = ACTION_PERM_NOTAVAIL ∧
    actionPerm (readSshDlpPublicKey byteExt sampleLimits (sMemConnect sampleSshDss)
      (sampleContext .CRYPT_ALGO_DSA) 0).actionFlags .MESSAGE_CTX_SIGCHECK =
      ACTION_PERM_NONE_EXTERNAL := by
  decide

/-- C8, amended: for every DLP leaf decoder and every input on which it does
not fail: in the certificate format a DSA key gets exactly internal-only sign
and verify and a DH or Elgamal key exactly internal-only encrypt and decrypt;
in the ssh format a DSA key gets exactly internal-only verify and a DH key
exactly internal-only encrypt and decrypt; in the ssl format the key is a DH
key and gets exactly internal-only encrypt and decrypt; in the pgp format a DSA
key with the DSA algorithm byte gets exactly internal-only sign and verify and
an Elgamal key with the Elgamal algorithm byte exactly internal-only encrypt
and decrypt; and no DLP decode yields an unrestricted permission. -/
theorem dlp_decoders_flags {σ : Type} (E : Ext σ) (L : Limits) (s : σ) (ctx : CONTEXT_INFO)
    (af : Nat) :
    (cryptStatusError (readDlpSubjectPublicKey E L s ctx af).status = false →
      (ctx.cryptAlgo = .CRYPT_ALGO_DSA →
        (readDlpSubjectPublicKey E L s ctx af).actionFlags = permInternalSig) ∧
      (ctx.cryptAlgo = .CRYPT_ALGO_DH ∨ ctx.cryptAlgo = .CRYPT_ALGO_ELGAMAL →
        (readDlpSubjectPublicKey E L s ctx af).actionFlags = permInternalCrypt)) ∧
    (cryptStatusError (readSshDlpPublicKey E L s ctx af).status = false →
      (ctx.cryptAlgo = .CRYPT_ALGO_DSA →
        (readSshDlpPublicKey E L s ctx af).actionFlags = permInternalVerify) ∧
      (ctx.cryptAlgo = .CRYPT_ALGO_DH →
        (readSshDlpPublicKey E L s ctx af).actionFlags = permInternalCrypt)) ∧
    (cryptStatusError (readSslDlpPublicKey E L s ctx af).status = false →
      ctx.cryptAlgo = .CRYPT_ALGO_DH ∧
      (readSslDlpPublicKey E L s ctx af).actionFlags = permInternalCrypt) ∧
    (cryptStatusError (readPgpDlpPublicKey E L s ctx af).status = false →
      (ctx.cryptAlgo = .CRYPT_ALGO_DSA ∧ pgpDlpAlgoByte E s = PGP_ALGO_DSA →
        (readPgpDlpPublicKey E L s ctx af).actionFlags = permInternalSig) ∧
      (ctx.cryptAlgo = .CRYPT_ALGO_ELGAMAL ∧ pgpDlpAlgoByte E s = PGP_ALGO_ELGAMAL →
        (readPgpDlpPublicKey E L s ctx af).actionFlags = permInternalCrypt)) ∧
    (∀ id, leafFamily id = .dlp →
      cryptStatusError (runLeaf id E L s ctx af).status = false →
      ∀ action, actionPerm (runLeaf id E L s ctx af).actionFlags action ≠ ACTION_PERM_ALL) ∧
    (∀ action,
      actionPerm permInternalSig action =
        (if action = .MESSAGE_CTX_SIGN ∨ action = .MESSAGE_CTX_SIGCHECK
          then ACTION_PERM_NONE_EXTERNAL else ACTION_PERM_NOTAVAIL) ∧
      actionPerm permInternalCrypt action =
        (if action = .MESSAGE_CTX_ENCRYPT ∨ action = .MESSAGE_CTX_DECRYPT
          then ACTION_PERM_NONE_EXTERNAL else ACTION_PERM_NOTAVAIL) ∧
      actionPerm permInternalVerify action =
        (if action = .MESSAGE_CTX_SIGCHECK
          then ACTION_PERM_NONE_EXTERNAL else ACTION_PERM_NOTAVAIL)) := by
  refine ⟨?_, ?_, ?_, ?_, ?_, ?_⟩
  · intro hok
    have h : (readDlpSubjectPublicKey E L s ctx af).actionFlags =
        if ctx.cryptAlgo = .CRYPT_ALGO_DSA then permInternalSig else permInternalCrypt :=
      (success_dlp_cert E L s ctx af hok).2
    constructor
    · intro hd
      rw [h, if_pos hd]
    · intro hd
      rw [h, if_neg (by rcases hd with hd | hd <;> rw [hd] <;> decide)]
  · intro hok
    have h : (readSshDlpPublicKey E L s ctx af).actionFlags =
        if ctx.cryptAlgo = .CRYPT_ALGO_DH then permInternalCrypt else permInternalVerify :=
      (success_dlp_ssh E L s ctx af hok).2
    constructor
    · intro hd
      rw [h, if_neg (by rw [hd]; decide)]
    · intro hd
      rw [h, if_pos hd]
  · intro hok
    exact ⟨(success_dlp_ssl E L s ctx af hok).1.2, (success_dlp_ssl E L s ctx af hok).2⟩
  · intro hok
    have h : (readPgpDlpPublicKey E L s ctx af).actionFlags =
        if pgpDlpAlgoByte E s = PGP_ALGO_DSA then permInternalSig else permInternalCrypt :=
      (success_dlp_pgp E L s ctx af hok).2
    constructor
    · intro hd
      rw [h, if_pos hd.2]
    · intro hd
      rw [h, if_neg (by rw [hd.2]; decide)]
  · intro id hfam hok action
    rw [(runLeaf_success id E L s ctx af hok).2]
    exact leafFlags_restricted id E s ctx (by rw [hfam]; decide) action
  · intro action
    exact ⟨(actionPerm_values action).2.2.1, (actionPerm_values action).2.1,
      (actionPerm_values action).2.2.2⟩

/-- Witness of the amended C8: the sample DSA key in the ssh format. -/
theorem dlp_decoders_flags_witness :
    cryptStatusError (readSshDlpPublicKey byteExt sampleLimits (sMemConnect sampleSshDss)
      (sampleContext .CRYPT_ALGO_DSA) 0).status = false ∧
    (readSshDlpPublicKey byteExt sampleLimits (sMemConnect sampleSshDss)
      (sampleContext .CRYPT_ALGO_DSA) 0).actionFlags = permInternalVerify :=
  ⟨by decide,
   ((dlp_decoders_flags byteExt sampleLimits (sMemConnect sampleSshDss)
      (sampleContext .CRYPT_ALGO_DSA) 0).2.1 (by decide)).1 rfl⟩

/-- C9: a certificate-format decode that does not fail is the decode of an
ECDSA key and yields exactly internal-only sign and internal-only verify
(`0xA0`); an ssl-format decode that does not fail is the decode of an ECDH key
and yields exactly internal-only encrypt and internal-only decrypt (`0x0A`). -/
theorem ecc_decoders_flags {σ : Type} (E : Ext σ) (L : Limits) (s : σ) (ctx : CONTEXT_INFO)
    (af : Nat) :
    (cryptStatusError (readEccSubjectPublicKey E L s ctx af).status = false →
      ctx.cryptAlgo = .CRYPT_ALGO_ECDSA ∧
      (readEccSubjectPublicKey E L s ctx af).actionFlags = 0xA0 ∧
      ∀ action, actionPerm (readEccSubjectPublicKey E L s ctx af).actionFlags action =
        (if action = .MESSAGE_CTX_SIGN ∨ action = .MESSAGE_CTX_SIGCHECK
          then ACTION_PERM_NONE_EXTERNAL else ACTION_PERM_NOTAVAIL)) ∧
    (cryptStatusError (readSslEccPublicKey E L s ctx af).status = false →
      ctx.cryptAlgo = .CRYPT_ALGO_ECDH ∧
      (readSslEccPublicKey E L s ctx af).actionFlags = 0x0A ∧
      ∀ action, actionPerm (readSslEccPublicKey E L s ctx af).actionFlags action =
        (if action = .MESSAGE_CTX_ENCRYPT ∨ action = .MESSAGE_CTX_DECRYPT
          then ACTION_PERM_NONE_EXTERNAL else ACTION_PERM_NOTAVAIL)) := by
  constructor
  · intro hok
    have h : (readEccSubjectPublicKey E L s ctx af).actionFlags = permInternalSig :=
      (success_ecc_cert E L s ctx af hok).2
    rw [h]
    exact ⟨(success_ecc_cert E L s ctx af hok).1.2, by decide,
      fun action => (actionPerm_values action).2.2.1⟩
  · intro hok
    have h : (readSslEccPublicKey E L s ctx af).actionFlags = permInternalCrypt :=
      (success_ecc_ssl E L s ctx af hok).2
    rw [h]
    exact ⟨(success_ecc_ssl E L s ctx af hok).1.2, by decide,
      fun action => (actionPerm_values action).2.1⟩

/-- Witness of C9: the sample ECDSA key in the certificate format and the
sample ECDH key in the ssl format decode with `CRYPT_OK`. -/
theorem ecc_decoders_flags_witness :
    (readEccSubjectPublicKey byteExt sampleLimits (sMemConnect sampleEcdsaCert)
      (sampleContext .CRYPT_ALGO_ECDSA) 0).status = CRYPT_OK ∧
    (readEccSubjectPublicKey byteExt sampleLimits (sMemConnect sampleEcdsaCert)
      (sampleContext .CRYPT_ALGO_ECDSA) 0).actionFlags = 0xA0 ∧
    (readSslEccPublicKey byteExt sampleLimits (sMemConnect sampleSslEcdh)
      (sampleContext .CRYPT_ALGO_ECDH) 0).status = CRYPT_OK ∧
    (readSslEccPublicKey byteExt sampleLimits (sMemConnect sampleSslEcdh)
      (sampleContext .CRYPT_ALGO_ECDH) 0).actionFlags = 0x0A :=
  ⟨by decide,
   ((ecc_decoders_flags byteExt sampleLimits (sMemConnect sampleEcdsaCert)
      (sampleContext .CRYPT_ALGO_ECDSA) 0).1 (by decide)).2.1,
   by decide,
   ((ecc_decoders_flags byteExt sampleLimits (sMemConnect sampleSslEcdh)
      (sampleContext .CRYPT_ALGO_ECDH) 0).2 (by decide)).2.1⟩

/-- C10, what the code does: for a key object whose algorithm is ECDH the ECC
dispatcher returns the internal error in the certificate format and in the ssh
format, for every input, without advancing the stream, changing the key object
or sending a message: both leaf decoders require the algorithm ECDSA. -/
theorem ecdh_cert_and_ssh_rejected {σ : Type} (E : Ext σ) (L : Limits) (s : σ)
    (ctx : CONTEXT_INFO) (w : World) (af : Nat) (h : ctx.cryptAlgo = .CRYPT_ALGO_ECDH) :
    (readPublicKeyEccFunction E L s ctx .KEYFORMAT_CERT w af).status = CRYPT_ERROR_INTERNAL ∧
    (readPublicKeyEccFunction E L s ctx .KEYFORMAT_CERT w af).stream = s ∧
    (readPublicKeyEccFunction E L s ctx .KEYFORMAT_CERT w af).ctx = ctx ∧
    (readPublicKeyEccFunction E L s ctx .KEYFORMAT_CERT w af).world.sent = w.sent ∧
    (readPublicKeyEccFunction E L s ctx .KEYFORMAT_SSH w af).status = CRYPT_ERROR_INTERNAL ∧
    (readPublicKeyEccFunction E L s ctx .KEYFORMAT_SSH w af).stream = s ∧
    (readPublicKeyEccFunction E L s ctx .KEYFORMAT_SSH w af).ctx = ctx ∧
    (readPublicKeyEccFunction E L s ctx .KEYFORMAT_SSH w af).world.sent = w.sent := by
  have h1 := dispatch_leaf_rejects .ecc .KEYFORMAT_CERT .readEccSubjectPublicKey E L s ctx w af
    rfl (by rintro ⟨_, hd⟩; rw [h] at hd; cases hd)
  have h2 := dispatch_leaf_rejects .ecc .KEYFORMAT_SSH .readSshEccPublicKey E L s ctx w af
    rfl (by rintro ⟨_, hd⟩; rw [h] at hd; cases hd)
  exact ⟨h1.1, h1.2.1, h1.2.2.1, h1.2.2.2.1, h2.1, h2.2.1, h2.2.2.1, h2.2.2.2.1⟩

/-- C10, at the failing input: the sample ECDH keys in the certificate format
and in the ssh format (algorithm name "ecdh-sha2-nistp256") are rejected with
the internal error and nothing is sent to the kernel. -/
theorem ecdh_cert_and_ssh_rejected_witness :
    (sampleContext .CRYPT_ALGO_ECDH).cryptAlgo = .CRYPT_ALGO_ECDH ∧
    (readPublicKeyEccFunction byteExt sampleLimits (sMemConnect sampleEcdhCert)
      (sampleContext .CRYPT_ALGO_ECDH) .KEYFORMAT_CERT emptyWorld 0).status =
      CRYPT_ERROR_INTERNAL ∧
    (readPublicKeyEccFunction byteExt sampleLimits (sMemConnect sampleSshEcdh)
      (sampleContext .CRYPT_ALGO_ECDH) .KEYFORMAT_SSH emptyWorld 0).status =
      CRYPT_ERROR_INTERNAL ∧
    (readPublicKeyEccFunction byteExt sampleLimits (sMemConnect sampleSshEcdh)
      (sampleContext .CRYPT_ALGO_ECDH) .KEYFORMAT_SSH emptyWorld 0).world.sent = [] :=
  ⟨rfl,
   (ecdh_cert_and_ssh_rejected byteExt sampleLimits (sMemConnect sampleEcdhCert)
      (sampleContext .CRYPT_ALGO_ECDH) emptyWorld 0 rfl).1,
   (ecdh_cert_and_ssh_rejected byteExt sampleLimits (sMemConnect sampleSshEcdh)
      (sampleContext .CRYPT_ALGO_ECDH) emptyWorld 0 rfl).2.2.2.2.1,
   (ecdh_cert_and_ssh_rejected byteExt sampleLimits (sMemConnect sampleSshEcdh)
      (sampleContext .CRYPT_ALGO_ECDH) emptyWorld 0 rfl).2.2.2.2.2.2.2⟩

/-! ### The byte-buffer instance honours the contracts -/

theorem status_underflow : cryptStatusError CRYPT_ERROR_UNDERFLOW = true := by decide

theorem rangeChecked_error {σ : Type} (maxRange : Option Nat) (r : Out σ Nat)
    (h : cryptStatusError r.status = true) : rangeChecked maxRange r := by
  refine ⟨Or.inr h, fun h0 => ?_⟩
  rw [h0, status_ok] at h
  exact absurd h (by decide)

theorem rangeChecked_finishBignum (s : STREAM) (bignum : Nat) (bytes : List Nat)
    (minLength maxLength : Nat) (maxRange : Option Nat) :
    rangeChecked maxRange (finishBignum s bignum bytes minLength maxLength maxRange) := by
  unfold finishBignum importBignum
  by_cases hl : bytes.length < minLength ∨ bytes.length > maxLength
  · simp only [hl, if_true, status_baddata]
    exact rangeChecked_error _ _ status_baddata
  · cases maxRange with
    | none =>
      simp only [hl, if_false, status_ok, Bool.false_eq_true]
      exact ⟨Or.inl rfl, fun _ m hm => by cases hm⟩
    | some m =>
      simp only [hl, if_false]
      by_cases hv : beValue bytes ≥ m
      · simp only [hv, if_true, status_baddata]
        exact rangeChecked_error _ _ status_baddata
      · simp only [hv, if_false, status_ok, Bool.false_eq_true]
        refine ⟨Or.inl rfl, fun _ m1 hm => ?_⟩
        cases hm
        exact Nat.lt_of_not_ge hv

theorem rangeChecked_readBignumInteger32 (s : STREAM) (b mn mx : Nat) (r : Option Nat) :
    rangeChecked r (s.readBignumInteger32 b mn mx r) := by
  unfold STREAM.readBignumInteger32
  lift_lets
  intros
  apply ite_ind
  · exact fun h => rangeChecked_error _ _ h
  · intro _
    apply ite_ind
    · exact fun h => rangeChecked_error _ _ h
    · exact fun _ => rangeChecked_finishBignum _ _ _ _ _ _

theorem rangeChecked_readBignumInteger16U (s : STREAM) (b mn mx : Nat) (r : Option Nat) :
    rangeChecked r (s.readBignumInteger16U b mn mx r) := by
  unfold STREAM.readBignumInteger16U
  lift_lets
  intros
  apply ite_ind
  · exact fun h => rangeChecked_error _ _ h
  · intro _
    apply ite_ind
    · exact fun h => rangeChecked_error _ _ h
    · exact fun _ => rangeChecked_finishBignum _ _ _ _ _ _

theorem rangeChecked_readBignumInteger16Ubits (s : STREAM) (b mn mx : Nat) (r : Option Nat) :
    rangeChecked r (s.readBignumInteger16Ubits b mn mx r) := by
  unfold STREAM.readBignumInteger16Ubits
  lift_lets
  intros
  apply ite_ind
  · exact fun h => rangeChecked_error _ _ h
  · intro _
    apply ite_ind
    · exact fun h => rangeChecked_error _ _ h
    · exact fun _ => rangeChecked_finishBignum _ _ _ _ _ _

theorem rangeChecked_readBignum (s : STREAM) (b mn mx : Nat) (r : Option Nat) :
    rangeChecked r (s.readBignum b mn mx r) := by
  unfold STREAM.readBignum
  lift_lets
  intros
  apply ite_ind
  · exact fun h => rangeChecked_error _ _ h
  · intro _
    apply ite_ind
    · exact fun h => rangeChecked_error _ _ h
    · exact fun _ => rangeChecked_finishBignum _ _ _ _ _ _

theorem byteExt_readerContract : ReaderContract byteExt where
  readBignum := fun s b mn mx r => rangeChecked_readBignum s b mn mx r
  readBignumChecked := fun s b mn mx r => rangeChecked_readBignum s b mn mx r
  readBignumInteger16U := fun s b mn mx r => rangeChecked_readBignumInteger16U s b mn mx r
  readBignumInteger16Ubits := fun s b mn mx r => rangeChecked_readBignumInteger16Ubits s b mn mx r
  readBignumInteger32 := fun s b mn mx r => rangeChecked_readBignumInteger32 s b mn mx r

theorem latched_error (s : STREAM) {α : Type} (status : Int) (value : α) (t : STREAM)
    (h : cryptStatusError status = true) (ht : t.failed) :
    latched STREAM.failed s (⟨status, value, t⟩ : Out STREAM α) :=
  ⟨fun _ => h, fun _ => ht⟩

theorem latched_sSetError (s t : STREAM) {α : Type} (status : Int) (value : α)
    (h : cryptStatusError status = true) :
    latched STREAM.failed s (sSetError t status value) :=
  ⟨fun _ => h, fun _ => h⟩

theorem latched_chain {α β : Type} (s : STREAM) (a : Out STREAM α) (r : Out STREAM β)
    (ha : latched STREAM.failed s a) (hok : ¬ cryptStatusError a.status = true)
    (hr : latched STREAM.failed a.stream r) : latched STREAM.failed s r :=
  ⟨fun hs => absurd (ha.1 hs) hok, hr.2⟩

theorem latched_sread (s : STREAM) (n : Nat) : latched STREAM.failed s (s.sread n) := by
  unfold STREAM.sread
  apply ite_ind
  · exact fun h => ⟨fun _ => h, fun _ => h⟩
  · intro h
    apply ite_ind
    · exact fun _ => ⟨fun _ => status_underflow, fun _ => status_underflow⟩
    · exact fun _ => ⟨fun hs => absurd hs h, fun h0 => absurd h0 (by simp [status_ok])⟩

theorem latched_sgetc (s : STREAM) : latched STREAM.failed s s.sgetc := by
  unfold STREAM.sgetc
  lift_lets
  intros
  apply ite_ind
  · exact fun h => ⟨fun _ => h, fun _ => (latched_sread s 1).2 h⟩
  · intro h
    refine ⟨fun hs => absurd ((latched_sread s 1).1 hs) h, fun h0 => ?_⟩
    exfalso
    have : ¬ ((beValue (s.sread 1).value : Int) < 0) := by
      exact not_lt.mpr (Int.ofNat_nonneg _)
    simp [cryptStatusError, CRYPT_OK] at h0
    exact this h0
theorem latched_fail {α β : Type} (s : STREAM) (a : Out STREAM α) (value : β)
    (ha : latched STREAM.failed s a) (h : cryptStatusError a.status = true) :
    latched STREAM.failed s (⟨a.status, value, a.stream⟩ : Out STREAM β) :=
  ⟨fun _ => h, fun _ => ha.2 h⟩

theorem latched_done {α β : Type} (s : STREAM) (a : Out STREAM α) (r : Out STREAM β)
    (ha : latched STREAM.failed s a) (hok : ¬ cryptStatusError a.status = true)
    (hr : cryptStatusError r.status = true → r.stream.failed) : latched STREAM.failed s r :=
  ⟨fun hs => absurd (ha.1 hs) hok, hr⟩

theorem not_error_ok {P : Prop} : cryptStatusError CRYPT_OK = true → P := by
  intro h
  rw [status_ok] at h
  exact absurd h (by decide)

theorem failed_finishBignum (s : STREAM) (bignum : Nat) (bytes : List Nat)
    (minLength maxLength : Nat) (maxRange : Option Nat) :
    cryptStatusError (finishBignum s bignum bytes minLength maxLength maxRange).status = true →
    (finishBignum s bignum bytes minLength maxLength maxRange).stream.failed := by
  unfold finishBignum
  lift_lets
  intro r
  apply ite_ind (fun o : Out STREAM Nat => cryptStatusError o.status = true → o.stream.failed)
  · exact fun h _ => h
  · exact fun h h0 => absurd h0 h

theorem latched_readLength (s : STREAM) : latched STREAM.failed s s.readLength := by
  unfold STREAM.readLength
  lift_lets
  intro b r1 r2
  have hb := latched_sgetc s
  apply ite_ind
  · exact fun h => latched_fail s b 0 hb h
  · intro hok
    apply ite_ind
    · exact fun _ => latched_done s b _ hb hok not_error_ok
    · intro _
      apply ite_ind
      · intro _
        have hr := latched_sread b.stream 1
        apply ite_ind
        · exact fun h => latched_chain s b _ hb hok (latched_fail _ r1 _ hr h)
        · exact fun _ => latched_done s b _ hb hok not_error_ok
      · intro _
        apply ite_ind
        · intro _
          have hr := latched_sread b.stream 2
          apply ite_ind
          · exact fun h => latched_chain s b _ hb hok (latched_fail _ r2 _ hr h)
          · exact fun _ => latched_done s b _ hb hok not_error_ok
        · exact fun _ => latched_sSetError s _ _ _ status_baddata

theorem latched_readHeader (s : STREAM) (tag : Option Int) :
    latched STREAM.failed s (s.readHeader tag) := by
  unfold STREAM.readHeader
  lift_lets
  intro t
  have ht := latched_sgetc s
  apply ite_ind
  · exact fun h => latched_fail s t 0 ht h
  · intro hok
    apply ite_ind
    · exact fun _ => latched_sSetError s _ _ _ status_baddata
    · exact fun _ => latched_chain s t _ ht hok (latched_readLength t.stream)

theorem latched_readGenericHole (s : STREAM) (n : Nat) :
    latched STREAM.failed s (s.readGenericHole n) := by
  unfold STREAM.readGenericHole
  lift_lets
  intro h
  have hh := latched_readHeader s none
  apply ite_ind
  · exact fun he => latched_fail s h () hh he
  · intro hok
    apply ite_ind
    · exact fun _ => latched_sSetError s _ _ _ status_baddata
    · exact fun _ => latched_done s h _ hh hok not_error_ok

theorem latched_readSequence (s : STREAM) : latched STREAM.failed s s.readSequence :=
  ⟨(latched_readHeader s (some 0x30)).1, (latched_readHeader s (some 0x30)).2⟩

theorem latched_readBitStringHole (s : STREAM) (n : Nat) :
    latched STREAM.failed s (s.readBitStringHole n) := by
  unfold STREAM.readBitStringHole
  lift_lets
  intro h u
  have hh := latched_readHeader s (some 0x03)
  apply ite_ind
  · exact fun he => latched_fail s h 0 hh he
  · intro hok
    have hu := latched_sgetc h.stream
    apply ite_ind
    · exact fun he => latched_chain s h _ hh hok (latched_fail _ u 0 hu he)
    · intro _
      apply ite_ind
      · exact fun _ => latched_sSetError s _ _ _ status_baddata
      · exact fun _ => latched_done s h _ hh hok not_error_ok

theorem latched_readRawOID (s : STREAM) : latched STREAM.failed s s.readRawOID := by
  unfold STREAM.readRawOID
  lift_lets
  intro h r
  have hh := latched_readHeader s (some 0x06)
  apply ite_ind
  · exact fun he => latched_fail s h [] hh he
  · intro hok
    have hr := latched_sread h.stream h.value
    apply ite_ind
    · exact fun he => latched_chain s h _ hh hok (latched_fail _ r [] hr he)
    · exact fun _ => latched_done s h _ hh hok not_error_ok

theorem latched_readAlgoIDparam (s : STREAM) : latched STREAM.failed s s.readAlgoIDparam := by
  unfold STREAM.readAlgoIDparam
  lift_lets
  intro h o
  have hh := latched_readHeader s (some 0x30)
  apply ite_ind
  · exact fun he => latched_fail s h _ hh he
  · intro hok
    have ho := latched_readRawOID h.stream
    apply ite_ind
    · exact fun he => latched_chain s h _ hh hok (latched_fail _ o _ ho he)
    · intro _
      cases algoOidTbl.lookup o.value with
      | none => exact latched_sSetError s _ _ _ status_notavail
      | some algo => exact latched_done s h _ hh hok not_error_ok

theorem latched_readAlgoID (s : STREAM) : latched STREAM.failed s s.readAlgoID := by
  unfold STREAM.readAlgoID
  lift_lets
  intro a n
  have ha := latched_readAlgoIDparam s
  apply ite_ind
  · exact fun he => latched_fail s a _ ha he
  · intro hok
    apply ite_ind
    · exact fun _ => latched_done s a _ ha hok not_error_ok
    · intro _
      apply ite_ind
      · exact fun _ => latched_sSetError s _ _ _ status_baddata
      · intro _
        have hn := latched_sread a.stream 2
        apply ite_ind
        · exact fun he => latched_chain s a _ ha hok (latched_fail _ n _ hn he)
        · intro _
          apply ite_ind
          · exact fun _ => latched_sSetError s _ _ _ status_baddata
          · exact fun _ => latched_done s a _ ha hok not_error_ok

theorem latched_readBignum (s : STREAM) (b mn mx : Nat) (r : Option Nat) :
    latched STREAM.failed s (s.readBignum b mn mx r) := by
  unfold STREAM.readBignum
  lift_lets
  intro h rd bytes
  have hh := latched_readHeader s (some 0x02)
  apply ite_ind
  · exact fun he => latched_fail s h _ hh he
  · intro hok
    have hr := latched_sread h.stream h.value
    apply ite_ind
    · exact fun he => latched_chain s h _ hh hok (latched_fail _ rd _ hr he)
    · intro _
      exact latched_done s h _ hh hok (failed_finishBignum _ _ _ _ _ _)

theorem byteExt_errorLatch : ErrorLatch byteExt STREAM.failed where
  readGenericHole := latched_readGenericHole
  readBitStringHole := latched_readBitStringHole
  readSequence := latched_readSequence
  readAlgoID := latched_readAlgoID
  readAlgoIDparam := latched_readAlgoIDparam
  readBignum := latched_readBignum
  readBignumChecked := latched_readBignum

/-! ### What the decoders have read when they return `CRYPT_OK` -/

theorem ok_not_error {st : Int} (h : st = CRYPT_OK) : ¬ cryptStatusError st = true := by
  rw [h, status_ok]
  decide

theorem contract_ok {σ : Type} {m : Option Nat} {r : Out σ Nat} (h : rangeChecked m r)
    (hne : ¬ cryptStatusError r.status = true) : r.status = CRYPT_OK :=
  h.1.resolve_right hne

theorem contract_lt {σ : Type} {m : Nat} {r : Out σ Nat} (h : rangeChecked (some m) r)
    (hok : r.status = CRYPT_OK) : r.value < m :=
  h.2 hok m rfl

theorem statusOK_iff (st : Int) : cryptStatusOK st = true ↔ st = CRYPT_OK := by
  unfold cryptStatusOK
  exact decide_eq_true_iff

theorem dlp_cert_decoded {σ : Type} (E : Ext σ) (L : Limits) (s : σ) (ctx : CONTEXT_INFO)
    (af : Nat) (hE : ReaderContract E) :
    dlpCertDecoded E L (dlpCertReadP E L s ctx) ctx.ctxPKC ctx.cryptAlgo
      (readDlpSubjectPublicKey E L s ctx af) := by
  unfold readDlpSubjectPublicKey
  lift_lets
  intro dlpKey0 actionFlags0 hole algo cryptAlgo extraLength sq rp dlpKey1 rg1 rq1 rq2 rg2
    params dlpKey2 actionFlags1 bits ry
  apply ite_ind
  · intro _ h
    exact absurd status_internal (ok_not_error h)
  · intro hreq
    apply ite_ind
    · intro he h
      exact absurd he (ok_not_error h)
    · intro _
      apply ite_ind
      · intro _ h
        exact absurd status_baddata (ok_not_error h)
      · intro _
        apply ite_ind
        · intro _ h
          exact absurd status_baddata (ok_not_error h)
        · intro halgo
          apply ite_ind
          · intro he h
            exact absurd he (ok_not_error h)
          · intro hp
            apply ite_ind
            · intro he h
              exact absurd he (ok_not_error h)
            · intro hpar hy
              have hcA : ctx.cryptAlgo = cryptAlgo := not_not.mp halgo
              have hyOK : ry.status = CRYPT_OK := hy
              have hylt : ry.value < rp.value := contract_lt (hE.readBignumChecked _ _ _ _ _) hyOK
              by_cases hrev : hasReversedParams cryptAlgo = true
              · have hpar1 : params =
                    if cryptStatusOK rg1.status = true then
                      ⟨rq1.status, (rg1.value, rq1.value), rq1.stream⟩
                    else ⟨rg1.status, (rg1.value, dlpKey1.dlpParam_q), rg1.stream⟩ := if_pos hrev
                by_cases hg : cryptStatusOK rg1.status = true
                · have hpar2 : params = ⟨rq1.status, (rg1.value, rq1.value), rq1.stream⟩ :=
                    hpar1.trans (if_pos hg)
                  have hgOK : rg1.status = CRYPT_OK := (statusOK_iff _).mp hg
                  have hqOK : rq1.status = CRYPT_OK :=
                    contract_ok (hE.readBignum _ _ _ _ _)
                      (by rw [← (congrArg (fun o => o.status) hpar2 : params.status = _)]; exact hpar)
                  have hglt : rg1.value < rp.value := contract_lt (hE.readBignum _ _ _ _ _) hgOK
                  have hqlt : rq1.value < rp.value := contract_lt (hE.readBignum _ _ _ _ _) hqOK
                  have hv1 : params.value.1 = rg1.value := congrArg (fun o => o.value.1) hpar2
                  have hv2 : params.value.2 = rq1.value := congrArg (fun o => o.value.2) hpar2
                  refine ⟨rfl, hv2.trans_lt hqlt, hv1.trans_lt hglt, hylt, fun _ => ⟨hgOK, hqOK, hv1, hv2⟩, ?_⟩
                  intro hdsa
                  rw [← hcA, hdsa] at hrev
                  exact absurd hrev (by decide)
                · exfalso
                  have hpar2 : params = ⟨rg1.status, (rg1.value, dlpKey1.dlpParam_q), rg1.stream⟩ :=
                    hpar1.trans (if_neg hg)
                  exact hg ((statusOK_iff _).mpr
                    (contract_ok (hE.readBignum _ _ _ _ _)
                      (by rw [← (congrArg (fun o => o.status) hpar2 : params.status = _)]; exact hpar)))
              · have hpar1 : params =
                    if cryptStatusOK rq2.status = true then
                      ⟨rg2.status, (rg2.value, rq2.value), rg2.stream⟩
                    else ⟨rq2.status, (dlpKey1.dlpParam_g, rq2.value), rq2.stream⟩ := if_neg hrev
                by_cases hq : cryptStatusOK rq2.status = true
                · have hpar2 : params = ⟨rg2.status, (rg2.value, rq2.value), rg2.stream⟩ :=
                    hpar1.trans (if_pos hq)
                  have hqOK : rq2.status = CRYPT_OK := (statusOK_iff _).mp hq
                  have hgOK : rg2.status = CRYPT_OK :=
                    contract_ok (hE.readBignum _ _ _ _ _)
                      (by rw [← (congrArg (fun o => o.status) hpar2 : params.status = _)]; exact hpar)
                  have hglt : rg2.value < rp.value := contract_lt (hE.readBignum _ _ _ _ _) hgOK
                  have hqlt : rq2.value < rp.value := contract_lt (hE.readBignum _ _ _ _ _) hqOK
                  have hv1 : params.value.1 = rg2.value := congrArg (fun o => o.value.1) hpar2
                  have hv2 : params.value.2 = rq2.value := congrArg (fun o => o.value.2) hpar2
                  refine ⟨rfl, hv2.trans_lt hqlt, hv1.trans_lt hglt, hylt, ?_, fun _ => ⟨hqOK, hgOK, hv2, hv1⟩⟩
                  intro hr
                  rw [← hcA] at hrev
                  exact absurd (by unfold hasReversedParams; exact decide_eq_true hr) hrev
                · exfalso
                  have hpar2 : params = ⟨rq2.status, (dlpKey1.dlpParam_g, rq2.value), rq2.stream⟩ :=
                    hpar1.trans (if_neg hq)
                  exact hq ((statusOK_iff _).mpr
                    (contract_ok (hE.readBignum _ _ _ _ _)
                      (by rw [← (congrArg (fun o => o.status) hpar2 : params.status = _)]; exact hpar)))

theorem rsa_cert_decoded {σ : Type} (E : Ext σ) (L : Limits) (s : σ) (ctx : CONTEXT_INFO)
    (af : Nat) :
    rsaDecoded
      (E.readBignumChecked (rsaCertSeq E L s).stream ctx.ctxPKC.rsaParam_n
        L.RSAPARAM_MIN_N L.RSAPARAM_MAX_N none)
      (E.readBignum (E.readBignumChecked (rsaCertSeq E L s).stream ctx.ctxPKC.rsaParam_n
          L.RSAPARAM_MIN_N L.RSAPARAM_MAX_N none).stream ctx.ctxPKC.rsaParam_e
        L.RSAPARAM_MIN_E L.RSAPARAM_MAX_E
        (some (E.readBignumChecked (rsaCertSeq E L s).stream ctx.ctxPKC.rsaParam_n
          L.RSAPARAM_MIN_N L.RSAPARAM_MAX_N none).value))
      ctx.ctxPKC ctx.ctxPKC.pgpCreationTime
      (readRsaSubjectPublicKey E L s ctx af) := by
  unfold readRsaSubjectPublicKey
  lift_lets
  intros
  apply ite_ind
  · intro _ h
    exact absurd status_internal (ok_not_error h)
  · intro _
    apply ite_ind
    · intro he h
      exact absurd he (ok_not_error h)
    · intro _
      apply ite_ind
      · intro _ h
        exact absurd status_baddata (ok_not_error h)
      · intro _
        apply ite_ind
        · intro hn h
          exact ⟨(statusOK_iff _).mp hn, h, rfl, rfl⟩
        · intro hn h
          exact absurd ((statusOK_iff _).mpr h) hn

theorem ssh_rsa_decoded {σ : Type} (E : Ext σ) (L : Limits) (s : σ) (ctx : CONTEXT_INFO)
    (af : Nat) :
    sshRsaDecoded
      (E.readBignumInteger32 (sshTag E s 7).stream ctx.ctxPKC.rsaParam_e
        L.RSAPARAM_MIN_E L.RSAPARAM_MAX_E none)
      (E.readBignumInteger32Checked
        (E.readBignumInteger32 (sshTag E s 7).stream ctx.ctxPKC.rsaParam_e
          L.RSAPARAM_MIN_E L.RSAPARAM_MAX_E none).stream ctx.ctxPKC.rsaParam_n
        L.RSAPARAM_MIN_N L.RSAPARAM_MAX_N)
      ctx.ctxPKC (readSshRsaPublicKey E L s ctx af) := by
  unfold readSshRsaPublicKey
  lift_lets
  intros
  apply ite_ind
  · intro _ h
    exact absurd status_internal (ok_not_error h)
  · intro _
    apply ite_ind
    · intro he h
      exact absurd he (ok_not_error h)
    · intro _
      apply ite_ind
      · intro _ h
        exact absurd status_baddata (ok_not_error h)
      · intro _
        apply ite_ind
        · intro hn h
          exact ⟨(statusOK_iff _).mp hn, h, rfl, rfl⟩
        · intro hn h
          exact absurd ((statusOK_iff _).mpr h) hn

theorem ssl_dlp_decoded {σ : Type} (E : Ext σ) (L : Limits) (s : σ) (ctx : CONTEXT_INFO)
    (af : Nat) :
    dhDecoded
      (E.readBignumInteger16UChecked s ctx.ctxPKC.dlpParam_p L.DLPPARAM_MIN_P L.DLPPARAM_MAX_P)
      (E.readBignumInteger16U
        (E.readBignumInteger16UChecked s ctx.ctxPKC.dlpParam_p
          L.DLPPARAM_MIN_P L.DLPPARAM_MAX_P).stream
        ctx.ctxPKC.dlpParam_g L.DLPPARAM_MIN_G L.DLPPARAM_MAX_G
        (some (E.readBignumInteger16UChecked s ctx.ctxPKC.dlpParam_p
          L.DLPPARAM_MIN_P L.DLPPARAM_MAX_P).value))
      ctx.ctxPKC (readSslDlpPublicKey E L s ctx af) := by
  unfold readSslDlpPublicKey
  lift_lets
  intros
  apply ite_ind
  · intro _
    exact ⟨⟨rfl, rfl⟩, fun h => absurd status_internal (ok_not_error h)⟩
  · intro _
    apply ite_ind
    · intro hn
      exact ⟨⟨rfl, rfl⟩, fun h => ⟨(statusOK_iff _).mp hn, h, rfl, rfl⟩⟩
    · intro hn
      exact ⟨⟨rfl, rfl⟩, fun h => absurd ((statusOK_iff _).mpr h) hn⟩

theorem ssh_dlp_decoded {σ : Type} (E : Ext σ) (L : Limits) (s : σ) (ctx : CONTEXT_INFO)
    (af : Nat) :
    sshDlpDecoded E L
      (sshTag E s (if ctx.cryptAlgo = .CRYPT_ALGO_DH then 6 else 7)).stream ctx
      (readSshDlpPublicKey E L s ctx af) := by
  unfold readSshDlpPublicKey
  lift_lets
  intro dsaKey isDH af0 wr tag6 buf6 len6 af6 rp6 key6 rg6 tag buffer length af7 rp key1 rq key2
    rg key3 ry
  apply ite_ind
  · intro _
    refine ⟨fun _ => ⟨⟨rfl, rfl⟩, fun h => absurd status_internal (ok_not_error h)⟩,
      fun _ h => absurd status_internal (ok_not_error h)⟩
  · intro _
    by_cases hdh : ctx.cryptAlgo = .CRYPT_ALGO_DH
    · have hT : isDH = true := decide_eq_true hdh
      rw [if_pos hT]
      refine ⟨fun _ => ?_, fun h => absurd hdh h⟩
      rw [if_pos hdh]
      apply ite_ind
      · intro he
        exact ⟨⟨rfl, rfl⟩, fun h => absurd he (ok_not_error h)⟩
      · intro _
        apply ite_ind
        · intro _
          exact ⟨⟨rfl, rfl⟩, fun h => absurd status_baddata (ok_not_error h)⟩
        · intro _
          apply ite_ind
          · intro hn
            exact ⟨⟨rfl, rfl⟩, fun h => ⟨(statusOK_iff _).mp hn, h, rfl, rfl⟩⟩
          · intro hn
            exact ⟨⟨rfl, rfl⟩, fun h => absurd ((statusOK_iff _).mpr h) hn⟩
    · have hF : ¬ isDH = true := fun h => hdh (of_decide_eq_true h)
      rw [if_neg hF]
      refine ⟨fun h => absurd h hdh, fun _ => ?_⟩
      rw [if_neg hdh]
      intro rq1 rg1 ry1
      apply ite_ind
      · intro he h
        exact absurd he (ok_not_error h)
      · intro _
        apply ite_ind
        · intro _ h
          exact absurd status_baddata (ok_not_error h)
        · intro _ h
          have hy : ry.status = CRYPT_OK := h
          have hD : isDH = false := Bool.eq_false_iff.mpr hF
          by_cases h1 : cryptStatusOK rp.status = true
          · have e1 : rq = rq1 := if_pos h1
            by_cases h2 : cryptStatusOK rq1.status = true
            · have e2 : rg = rg1 := by
                simp only [rg, e1, h2, if_true]
                rfl
              by_cases h3 : cryptStatusOK rg1.status = true
              · have e3 : ry = ry1 := by
                  simp only [ry, e2, h3, hD, Bool.not_false, Bool.and_self, if_true]
                  rfl
                rw [e3] at hy
                refine ⟨(statusOK_iff _).mp h1, (statusOK_iff _).mp h2, (statusOK_iff _).mp h3,
                  hy, ?_, ?_⟩
                · exact congrArg (fun o => o.stream) e3
                · simp only [key3, key2, key1, e1, e2, e3]
                  rfl
              · exfalso
                have e3 : ry.status = rg1.status := by
                  simp only [ry, e2, h3, hD, Bool.not_false, Bool.and_true, if_false,
                    Bool.false_eq_true]
                exact h3 ((statusOK_iff _).mpr (e3 ▸ hy))
            · exfalso
              have e2 : rg.status = rq1.status := by
                simp only [rg, e1, h2, if_false, Bool.false_eq_true]
              have e3 : ry.status = rq1.status := by
                simp only [ry, e2, h2, Bool.false_and, if_false, Bool.false_eq_true]
              exact h2 ((statusOK_iff _).mpr (e3 ▸ hy))
          · exfalso
            have e1 : rq.status = rp.status := by
              simp only [rq, h1, if_false, Bool.false_eq_true]
            have e2 : rg.status = rp.status := by
              simp only [rg, e1, h1, if_false, Bool.false_eq_true]
            have e3 : ry.status = rp.status := by
              simp only [ry, e2, h1, Bool.false_and, if_false, Bool.false_eq_true]
            exact h1 ((statusOK_iff _).mpr (e3 ▸ hy))

theorem pgp_rsa_decoded {σ : Type} (E : Ext σ) (L : Limits) (s : σ) (ctx : CONTEXT_INFO)
    (af : Nat) : pgpRsaDecoded E L s ctx (readPgpRsaPublicKey E L s ctx af) := by
  unfold readPgpRsaPublicKey
  lift_lets
  intros
  apply ite_ind
  · intro _ h
    exact absurd status_internal (ok_not_error h)
  · intro _
    apply ite_ind
    · intro he h
      exact absurd he (ok_not_error h)
    · intro _
      apply ite_ind
      · intro _ h
        exact absurd status_baddata (ok_not_error h)
      · intro hver
        apply ite_ind
        · intro he h
          exact absurd he (ok_not_error h)
        · intro _
          apply ite_ind
          · intro he h
            exact absurd he (ok_not_error h)
          · intro _
            apply ite_ind
            · intro _ h
              exact absurd status_baddata (ok_not_error h)
            · intro hus
              apply ite_ind
              · intro hn h
                exact ⟨by tauto, by tauto, (statusOK_iff _).mp hn, h, rfl, rfl⟩
              · intro hn h
                exact absurd ((statusOK_iff _).mpr h) hn

theorem ssl_ecc_decoded {σ : Type} (E : Ext σ) (L : Limits) (s : σ) (ctx : CONTEXT_INFO)
    (af : Nat) : sslEccDecoded E s ctx (readSslEccPublicKey E L s ctx af) := by
  unfold readSslEccPublicKey
  lift_lets
  intros
  apply ite_ind
  · intro _
    exact ⟨⟨rfl, rfl⟩, fun h => absurd status_internal (ok_not_error h)⟩
  · intro _
    apply ite_ind
    · intro he
      exact ⟨⟨rfl, rfl⟩, fun h => absurd he (ok_not_error h)⟩
    · intro _
      apply ite_ind
      · intro _
        exact ⟨⟨rfl, rfl⟩, fun h => absurd status_baddata (ok_not_error h)⟩
      · intro hct
        apply ite_ind
        · intro he
          exact ⟨⟨rfl, rfl⟩, fun h => absurd he (ok_not_error h)⟩
        · intro hnc
          apply ite_ind
          · intro he
            exact ⟨⟨rfl, rfl⟩, fun h => absurd he (ok_not_error h)⟩
          · intro _
            apply ite_ind
            · intro he
              exact ⟨⟨rfl, rfl⟩, fun h => absurd he (ok_not_error h)⟩
            · intro _
              exact ⟨⟨rfl, rfl⟩,
                fun _ => ⟨not_not.mp hct, Bool.eq_false_iff.mpr hnc, rfl, rfl⟩⟩

theorem pgp_dlp_decoded {σ : Type} (E : Ext σ) (L : Limits) (s : σ) (ctx : CONTEXT_INFO)
    (af : Nat) : pgpDlpDecoded E L s ctx (readPgpDlpPublicKey E L s ctx af) := by
  unfold readPgpDlpPublicKey
  lift_lets
  intro dlpKey0 af0 ver value0 tm creationTime key0 al value af1 rp key1 rq key2 rg key3 ry
  apply ite_ind
  · intro _ h
    exact absurd status_internal (ok_not_error h)
  · intro _
    apply ite_ind
    · intro he h
      exact absurd he (ok_not_error h)
    · intro _
      apply ite_ind
      · intro _ h
        exact absurd status_baddata (ok_not_error h)
      · intro hver
        apply ite_ind
        · intro he h
          exact absurd he (ok_not_error h)
        · intro _
          apply ite_ind
          · intro he h
            exact absurd he (ok_not_error h)
          · intro _
            apply ite_ind
            · intro _ h
              exact absurd status_baddata (ok_not_error h)
            · intro hal h
              have hy : ry.status = CRYPT_OK := h
              have hv : value0 = PGP_VERSION_OPENPGP := not_not.mp hver
              have ha : value = PGP_ALGO_DSA ∨ value = PGP_ALGO_ELGAMAL := by tauto
              refine ⟨hv, ha, ?_, ?_⟩
              · intro hdsa rq1 rg1 ry1
                have hd : decide (value = PGP_ALGO_DSA) = true := decide_eq_true hdsa
                by_cases h1 : cryptStatusOK rp.status = true
                · have e1 : rq = rq1 := by
                    simp only [rq, h1, hd, Bool.and_self, if_true]
                    rfl
                  by_cases h2 : cryptStatusOK rq1.status = true
                  · have e2 : rg = rg1 := by
                      simp only [rg, e1, h2, if_true]
                      rfl
                    by_cases h3 : cryptStatusOK rg1.status = true
                    · have e3 : ry = ry1 := by
                        simp only [ry, e2, h3, if_true]
                        rfl
                      rw [e3] at hy
                      refine ⟨(statusOK_iff _).mp h1, (statusOK_iff _).mp h2,
                        (statusOK_iff _).mp h3, hy, ?_, ?_⟩
                      · exact congrArg (fun o => o.stream) e3
                      · simp only [key3, key2, key1, e1, e2, e3]
                        rfl
                    · exfalso
                      have e3 : ry.status = rg1.status := by
                        simp only [ry, e2, h3, if_false, Bool.false_eq_true]
                      exact h3 ((statusOK_iff _).mpr (e3 ▸ hy))
                  · exfalso
                    have e2 : rg.status = rq1.status := by
                      simp only [rg, e1, h2, if_false, Bool.false_eq_true]
                    have e3 : ry.status = rq1.status := by
                      simp only [ry, e2, h2, if_false, Bool.false_eq_true]
                    exact h2 ((statusOK_iff _).mpr (e3 ▸ hy))
                · exfalso
                  have e1 : rq.status = rp.status := by
                    simp only [rq, h1, Bool.false_and, if_false, Bool.false_eq_true]
                  have e2 : rg.status = rp.status := by
                    simp only [rg, e1, h1, if_false, Bool.false_eq_true]
                  have e3 : ry.status = rp.status := by
                    simp only [ry, e2, h1, if_false, Bool.false_eq_true]
                  exact h1 ((statusOK_iff _).mpr (e3 ▸ hy))
              · intro hnd rg1 ry1
                have hd : decide (value = PGP_ALGO_DSA) = false := decide_eq_false hnd
                have e1 : rq = ⟨rp.status, key1.dlpParam_q, rp.stream⟩ := by
                  simp only [rq, hd, Bool.and_false, if_false, Bool.false_eq_true]
                by_cases h1 : cryptStatusOK rp.status = true
                · have e2 : rg = rg1 := by
                    simp only [rg, e1, h1, if_true]
                    rfl
                  by_cases h3 : cryptStatusOK rg1.status = true
                  · have e3 : ry = ry1 := by
                      simp only [ry, e2, h3, if_true]
                      rfl
                    rw [e3] at hy
                    refine ⟨(statusOK_iff _).mp h1, (statusOK_iff _).mp h3, hy, ?_, ?_⟩
                    · exact congrArg (fun o => o.stream) e3
                    · simp only [key3, key2, key1, e1, e2, e3]
                      rfl
                  · exfalso
                    have e3 : ry.status = rg1.status := by
                      simp only [ry, e2, h3, if_false, Bool.false_eq_true]
                    exact h3 ((statusOK_iff _).mpr (e3 ▸ hy))
                · exfalso
                  have e2 : rg.status = rp.status := by
                    simp only [rg, e1, h1, if_false, Bool.false_eq_true]
                  have e3 : ry.status = rp.status := by
                    simp only [ry, e2, h1, if_false, Bool.false_eq_true]
                  exact h1 ((statusOK_iff _).mpr (e3 ▸ hy))

/-! ### Claims C11 to C20 -/

/-- C11: when the certificate-format DLP decoder returns `CRYPT_OK` and the
integer readers keep their contract, then for the algorithms DH and Elgamal
the integer after `p` is read with the bounds of `g` and stored in `g` and the
next one is read with the bounds of `q` and stored in `q`, and for the
algorithm DSA the integer after `p` is read with the bounds of `q` and stored
in `q` and the next one with the bounds of `g` and stored in `g`. -/
theorem dlp_cert_parameter_order {σ : Type} (E : Ext σ) (L : Limits) (s : σ)
    (ctx : CONTEXT_INFO) (af : Nat) (hE : ReaderContract E)
    (hok : (readDlpSubjectPublicKey E L s ctx af).status = CRYPT_OK) :
    (ctx.cryptAlgo = .CRYPT_ALGO_DH ∨ ctx.cryptAlgo = .CRYPT_ALGO_ELGAMAL →
      let rp := dlpCertReadP E L s ctx
      let rg := E.readBignum rp.stream ctx.ctxPKC.dlpParam_g
        L.DLPPARAM_MIN_G L.DLPPARAM_MAX_G (some rp.value)
      let rq := E.readBignum rg.stream ctx.ctxPKC.dlpParam_q
        L.DLPPARAM_MIN_Q L.DLPPARAM_MAX_Q (some rp.value)
      rg.status = CRYPT_OK ∧ rq.status = CRYPT_OK ∧
      (readDlpSubjectPublicKey E L s ctx af).ctx.ctxPKC.dlpParam_g = rg.value ∧
      (readDlpSubjectPublicKey E L s ctx af).ctx.ctxPKC.dlpParam_q = rq.value) ∧
    (ctx.cryptAlgo = .CRYPT_ALGO_DSA →
      let rp := dlpCertReadP E L s ctx
      let rq := E.readBignum rp.stream ctx.ctxPKC.dlpParam_q
        L.DLPPARAM_MIN_Q L.DLPPARAM_MAX_Q (some rp.value)
      let rg := E.readBignum rq.stream ctx.ctxPKC.dlpParam_g
        L.DLPPARAM_MIN_G L.DLPPARAM_MAX_G (some rp.value)
      rq.status = CRYPT_OK ∧ rg.status = CRYPT_OK ∧
      (readDlpSubjectPublicKey E L s ctx af).ctx.ctxPKC.dlpParam_q = rq.value ∧
      (readDlpSubjectPublicKey E L s ctx af).ctx.ctxPKC.dlpParam_g = rg.value) :=
  ⟨(dlp_cert_decoded E L s ctx af hE hok).2.2.2.2.1,
    (dlp_cert_decoded E L s ctx af hE hok).2.2.2.2.2⟩

/-- Witness of C11: the sample DSA key, with the parameters in the order
p, q, g, decodes under a DSA context to q = `sampleOrder` and g = 2, and the
sample DH key, in the order p, g, q, decodes under a DH context to the same
two values. -/
theorem dlp_cert_parameter_order_witness :
    (readDlpSubjectPublicKey byteExt sampleLimits (sMemConnect sampleDsaCert)
      (sampleContext .CRYPT_ALGO_DSA) 0).ctx.ctxPKC.dlpParam_q = beValue sampleOrder ∧
    (readDlpSubjectPublicKey byteExt sampleLimits (sMemConnect sampleDsaCert)
      (sampleContext .CRYPT_ALGO_DSA) 0).ctx.ctxPKC.dlpParam_g = 2 ∧
    (readDlpSubjectPublicKey byteExt sampleLimits (sMemConnect sampleDhCert)
      (sampleContext .CRYPT_ALGO_DH) 0).ctx.ctxPKC.dlpParam_g = 2 ∧
    (readDlpSubjectPublicKey byteExt sampleLimits (sMemConnect sampleDhCert)
      (sampleContext .CRYPT_ALGO_DH) 0).ctx.ctxPKC.dlpParam_q = beValue sampleOrder :=
  have h1 := (dlp_cert_parameter_order byteExt sampleLimits (sMemConnect sampleDsaCert)
    (sampleContext .CRYPT_ALGO_DSA) 0 byteExt_readerContract (by decide)).2 rfl
  have h2 := (dlp_cert_parameter_order byteExt sampleLimits (sMemConnect sampleDhCert)
    (sampleContext .CRYPT_ALGO_DH) 0 byteExt_readerContract (by decide)).1 (Or.inl rfl)
  ⟨h1.2.2.1.trans (by decide), h1.2.2.2.trans (by decide), h2.2.2.1.trans (by decide),
    h2.2.2.2.trans (by decide)⟩

/-- C12: under the contract of the integer readers, every DLP decoder that
returns `CRYPT_OK` has stored as `p` the value of its first integer read, a
read by the checked reader with the bounds `DLPPARAM_MIN_P` and
`DLPPARAM_MAX_P` and no modulus, and each of `q`, `g` and `y` that it read is
below that `p`: all three in the certificate format, in the ssh format for DSA
and in the mail-packet format for the DSA byte; `g` alone in the ssl format and
in the ssh format for DH; `g` and `y` in the mail-packet format for the
Elgamal byte. -/
theorem dlp_values_below_p {σ : Type} (E : Ext σ) (L : Limits) (s : σ)
    (ctx : CONTEXT_INFO) (af : Nat) (hE : ReaderContract E) :
    ((readDlpSubjectPublicKey E L s ctx af).status = CRYPT_OK →
      let k := (readDlpSubjectPublicKey E L s ctx af).ctx.ctxPKC
      k.dlpParam_p = (E.readBignumChecked (dlpCertSeq E L s).stream ctx.ctxPKC.dlpParam_p
        L.DLPPARAM_MIN_P L.DLPPARAM_MAX_P none).value ∧
      k.dlpParam_q < k.dlpParam_p ∧ k.dlpParam_g < k.dlpParam_p ∧
      k.dlpParam_y < k.dlpParam_p) ∧
    ((readSshDlpPublicKey E L s ctx af).status = CRYPT_OK →
      let k := (readSshDlpPublicKey E L s ctx af).ctx.ctxPKC
      k.dlpParam_p = (E.readBignumInteger32Checked
        (sshTag E s (if ctx.cryptAlgo = .CRYPT_ALGO_DH then 6 else 7)).stream
        ctx.ctxPKC.dlpParam_p L.DLPPARAM_MIN_P L.DLPPARAM_MAX_P).value ∧
      k.dlpParam_g < k.dlpParam_p ∧
      (ctx.cryptAlgo ≠ .CRYPT_ALGO_DH →
        k.dlpParam_q < k.dlpParam_p ∧ k.dlpParam_y < k.dlpParam_p)) ∧
    ((readSslDlpPublicKey E L s ctx af).status = CRYPT_OK →
      let k := (readSslDlpPublicKey E L s ctx af).ctx.ctxPKC
      k.dlpParam_p = (E.readBignumInteger16UChecked s ctx.ctxPKC.dlpParam_p
        L.DLPPARAM_MIN_P L.DLPPARAM_MAX_P).value ∧
      k.dlpParam_g < k.dlpParam_p) ∧
    ((readPgpDlpPublicKey E L s ctx af).status = CRYPT_OK →
      let k := (readPgpDlpPublicKey E L s ctx af).ctx.ctxPKC
      k.dlpParam_p = (E.readBignumInteger16UbitsChecked (pgpDlpAlgo E s).stream
        ctx.ctxPKC.dlpParam_p (bytesToBits L.DLPPARAM_MIN_P)
        (bytesToBits L.DLPPARAM_MAX_P)).value ∧
      k.dlpParam_g < k.dlpParam_p ∧ k.dlpParam_y < k.dlpParam_p ∧
      ((pgpDlpAlgo E s).status = PGP_ALGO_DSA → k.dlpParam_q < k.dlpParam_p)) := by
  refine ⟨?_, ?_, ?_, ?_⟩
  · intro hok
    obtain ⟨hp, hq, hg, hy, _⟩ := dlp_cert_decoded E L s ctx af hE hok
    exact ⟨hp, hp.symm ▸ hq, hp.symm ▸ hg, hp.symm ▸ hy⟩
  · intro hok
    by_cases hdh : ctx.cryptAlgo = .CRYPT_ALGO_DH
    · obtain ⟨_, hgs, _, hk⟩ := ((ssh_dlp_decoded E L s ctx af).1 hdh).2 hok
      have hgl := contract_lt (hE.readBignumInteger32 _ _ _ _ _) hgs
      refine ⟨by rw [hk], by rw [hk]; exact hgl, fun h => absurd hdh h⟩
    · obtain ⟨_, hqs, hgs, hys, _, hk⟩ := (ssh_dlp_decoded E L s ctx af).2 hdh hok
      have hql := contract_lt (hE.readBignumInteger32 _ _ _ _ _) hqs
      have hgl := contract_lt (hE.readBignumInteger32 _ _ _ _ _) hgs
      have hyl := contract_lt (hE.readBignumInteger32 _ _ _ _ _) hys
      refine ⟨by rw [hk], by rw [hk]; exact hgl, fun _ => ⟨?_, ?_⟩⟩
      · rw [hk]; exact hql
      · rw [hk]; exact hyl
  · intro hok
    obtain ⟨_, hgs, _, hk⟩ := (ssl_dlp_decoded E L s ctx af).2 hok
    have hgl := contract_lt (hE.readBignumInteger16U _ _ _ _ _) hgs
    exact ⟨by rw [hk], by rw [hk]; exact hgl⟩
  · intro hok
    obtain ⟨_, hal, hdsa, helg⟩ := pgp_dlp_decoded E L s ctx af hok
    by_cases hd : (pgpDlpAlgo E s).status = PGP_ALGO_DSA
    · obtain ⟨_, hqs, hgs, hys, _, hk⟩ := hdsa hd
      have hql := contract_lt (hE.readBignumInteger16Ubits _ _ _ _ _) hqs
      have hgl := contract_lt (hE.readBignumInteger16Ubits _ _ _ _ _) hgs
      have hyl := contract_lt (hE.readBignumInteger16Ubits _ _ _ _ _) hys
      refine ⟨by rw [hk], by rw [hk]; exact hgl, by rw [hk]; exact hyl, fun _ => ?_⟩
      rw [hk]; exact hql
    · obtain ⟨_, hgs, hys, _, hk⟩ := helg hd
      have hgl := contract_lt (hE.readBignumInteger16Ubits _ _ _ _ _) hgs
      have hyl := contract_lt (hE.readBignumInteger16Ubits _ _ _ _ _) hys
      exact ⟨by rw [hk], by rw [hk]; exact hgl, by rw [hk]; exact hyl, fun h => absurd h hd⟩
/-- Witness of C12: the sample DSA keys of the certificate, the ssh and the
mail-packet format and the sample DH key of the ssl format decode with
`CRYPT_OK`, and in each of them the values read are below `p`. -/
theorem dlp_values_below_p_witness :
    (readDlpSubjectPublicKey byteExt sampleLimits (sMemConnect sampleDsaCert)
      (sampleContext .CRYPT_ALGO_DSA) 0).ctx.ctxPKC.dlpParam_p = beValue sampleModulus ∧
    (readDlpSubjectPublicKey byteExt sampleLimits (sMemConnect sampleDsaCert)
      (sampleContext .CRYPT_ALGO_DSA) 0).ctx.ctxPKC.dlpParam_y <
      (readDlpSubjectPublicKey byteExt sampleLimits (sMemConnect sampleDsaCert)
        (sampleContext .CRYPT_ALGO_DSA) 0).ctx.ctxPKC.dlpParam_p ∧
    (readSshDlpPublicKey byteExt sampleLimits (sMemConnect sampleSshDss)
      (sampleContext .CRYPT_ALGO_DSA) 0).ctx.ctxPKC.dlpParam_g <
      (readSshDlpPublicKey byteExt sampleLimits (sMemConnect sampleSshDss)
        (sampleContext .CRYPT_ALGO_DSA) 0).ctx.ctxPKC.dlpParam_p ∧
    (readSslDlpPublicKey byteExt sampleLimits (sMemConnect sampleSslDh)
      (sampleContext .CRYPT_ALGO_DH) 0).ctx.ctxPKC.dlpParam_g <
      (readSslDlpPublicKey byteExt sampleLimits (sMemConnect sampleSslDh)
        (sampleContext .CRYPT_ALGO_DH) 0).ctx.ctxPKC.dlpParam_p ∧
    (readPgpDlpPublicKey byteExt sampleLimits (sMemConnect samplePgpDsa)
      (sampleContext .CRYPT_ALGO_DSA) 0).ctx.ctxPKC.dlpParam_q <
      (readPgpDlpPublicKey byteExt sampleLimits (sMemConnect samplePgpDsa)
        (sampleContext .CRYPT_ALGO_DSA) 0).ctx.ctxPKC.dlpParam_p :=
  have h1 := (dlp_values_below_p byteExt sampleLimits (sMemConnect sampleDsaCert)
    (sampleContext .CRYPT_ALGO_DSA) 0 byteExt_readerContract).1 (by decide)
  have h2 := (dlp_values_below_p byteExt sampleLimits (sMemConnect sampleSshDss)
    (sampleContext .CRYPT_ALGO_DSA) 0 byteExt_readerContract).2.1 (by decide)
  have h3 := (dlp_values_below_p byteExt sampleLimits (sMemConnect sampleSslDh)
    (sampleContext .CRYPT_ALGO_DH) 0 byteExt_readerContract).2.2.1 (by decide)
  have h4 := (dlp_values_below_p byteExt sampleLimits (sMemConnect samplePgpDsa)
    (sampleContext .CRYPT_ALGO_DSA) 0 byteExt_readerContract).2.2.2 (by decide)
  ⟨h1.1.trans (by decide), h1.2.2.2, h2.2.1, h3.2, h4.2.2.2 (by decide)⟩

/-- Counterexample to C13: the ssh RSA decoder reads the exponent before the
modulus. It decodes the sample key, whose integers are in the order e, n, and
on the same bytes cut where the modulus starts it fails with the exponent
65537 stored and the modulus not written. -/
theorem ssh_rsa_reads_exponent_first :
    (readSshRsaPublicKey byteExt sampleLimits (sMemConnect sampleSshRsa)
      (sampleContext .CRYPT_ALGO_RSA) 0).status = CRYPT_OK ∧
    (readSshRsaPublicKey byteExt sampleLimits (sMemConnect sampleSshRsa)
      (sampleContext .CRYPT_ALGO_RSA) 0).ctx.ctxPKC.rsaParam_e = 65537 ∧
    (readSshRsaPublicKey byteExt sampleLimits (sMemConnect sampleSshRsa)
      (sampleContext .CRYPT_ALGO_RSA) 0).ctx.ctxPKC.rsaParam_n = beValue sampleModulus ∧
    cryptStatusError (readSshRsaPublicKey byteExt sampleLimits (sMemConnect sampleSshRsaCut)
      (sampleContext .CRYPT_ALGO_RSA) 0).status = true ∧
    (readSshRsaPublicKey byteExt sampleLimits (sMemConnect sampleSshRsaCut)
      (sampleContext .CRYPT_ALGO_RSA) 0).ctx.ctxPKC.rsaParam_e = 65537 ∧
    (readSshRsaPublicKey byteExt sampleLimits (sMemConnect sampleSshRsaCut)
      (sampleContext .CRYPT_ALGO_RSA) 0).ctx.ctxPKC.rsaParam_n =
      (sampleContext .CRYPT_ALGO_RSA).ctxPKC.rsaParam_n := by
  decide

/-- C13, amended: under the contract of the integer readers, the certificate
and the mail-packet RSA decoder that return `CRYPT_OK` have read `n` first, by
the checked reader with the bounds `RSAPARAM_MIN_N` and `RSAPARAM_MAX_N` and no
modulus, and then `e` with `n` as its modulus, so that the stored `e` is below
the stored `n`; the ssh RSA decoder that returns `CRYPT_OK` has read `e`
first, with the bounds `RSAPARAM_MIN_E` and `RSAPARAM_MAX_E` and no modulus,
and then `n` by the checked reader with the bounds of `n`. -/
theorem rsa_decoders_read_order {σ : Type} (E : Ext σ) (L : Limits) (s : σ)
    (ctx : CONTEXT_INFO) (af : Nat) (hE : ReaderContract E) :
    ((readRsaSubjectPublicKey E L s ctx af).status = CRYPT_OK →
      let k := (readRsaSubjectPublicKey E L s ctx af).ctx.ctxPKC
      let rn := E.readBignumChecked (rsaCertSeq E L s).stream ctx.ctxPKC.rsaParam_n
        L.RSAPARAM_MIN_N L.RSAPARAM_MAX_N none
      let re := E.readBignum rn.stream ctx.ctxPKC.rsaParam_e
        L.RSAPARAM_MIN_E L.RSAPARAM_MAX_E (some rn.value)
      k.rsaParam_n = rn.value ∧ k.rsaParam_e = re.value ∧ k.rsaParam_e < k.rsaParam_n) ∧
    ((readPgpRsaPublicKey E L s ctx af).status = CRYPT_OK →
      let k := (readPgpRsaPublicKey E L s ctx af).ctx.ctxPKC
      let rn := E.readBignumInteger16UbitsChecked (pgpRsaUsage E s).stream
        ctx.ctxPKC.rsaParam_n (bytesToBits L.RSAPARAM_MIN_N) (bytesToBits L.RSAPARAM_MAX_N)
      let re := E.readBignumInteger16Ubits rn.stream ctx.ctxPKC.rsaParam_e
        (bytesToBits L.RSAPARAM_MIN_E) (bytesToBits L.RSAPARAM_MAX_E) (some rn.value)
      k.rsaParam_n = rn.value ∧ k.rsaParam_e = re.value ∧ k.rsaParam_e < k.rsaParam_n) ∧
    ((readSshRsaPublicKey E L s ctx af).status = CRYPT_OK →
      let k := (readSshRsaPublicKey E L s ctx af).ctx.ctxPKC
      let re := E.readBignumInteger32 (sshTag E s 7).stream ctx.ctxPKC.rsaParam_e
        L.RSAPARAM_MIN_E L.RSAPARAM_MAX_E none
      let rn := E.readBignumInteger32Checked re.stream ctx.ctxPKC.rsaParam_n
        L.RSAPARAM_MIN_N L.RSAPARAM_MAX_N
      k.rsaParam_e = re.value ∧ k.rsaParam_n = rn.value) := by
  refine ⟨?_, ?_, ?_⟩
  · intro hok
    obtain ⟨_, hes, _, hk⟩ := rsa_cert_decoded E L s ctx af hok
    have hel := contract_lt (hE.readBignum _ _ _ _ _) hes
    exact ⟨by rw [hk], by rw [hk], by rw [hk]; exact hel⟩
  · intro hok
    obtain ⟨_, _, _, hes, _, hk⟩ := pgp_rsa_decoded E L s ctx af hok
    have hel := contract_lt (hE.readBignumInteger16Ubits _ _ _ _ _) hes
    exact ⟨by rw [hk], by rw [hk], by rw [hk]; exact hel⟩
  · intro hok
    obtain ⟨_, _, _, hk⟩ := ssh_rsa_decoded E L s ctx af hok
    exact ⟨by rw [hk], by rw [hk]⟩

/-- Witness of C13: the sample RSA keys of the certificate and the mail-packet
format decode with `CRYPT_OK` to an exponent below the modulus, and the sample
RSA key of the ssh format to the exponent 65537 read first. -/
theorem rsa_decoders_read_order_witness :
    (readRsaSubjectPublicKey byteExt sampleLimits (sMemConnect sampleRsaCert)
      (sampleContext .CRYPT_ALGO_RSA) 0).ctx.ctxPKC.rsaParam_e <
      (readRsaSubjectPublicKey byteExt sampleLimits (sMemConnect sampleRsaCert)
        (sampleContext .CRYPT_ALGO_RSA) 0).ctx.ctxPKC.rsaParam_n ∧
    (readPgpRsaPublicKey byteExt sampleLimits (sMemConnect (samplePgpRsa 1))
      (sampleContext .CRYPT_ALGO_RSA) 0).ctx.ctxPKC.rsaParam_e <
      (readPgpRsaPublicKey byteExt sampleLimits (sMemConnect (samplePgpRsa 1))
        (sampleContext .CRYPT_ALGO_RSA) 0).ctx.ctxPKC.rsaParam_n ∧
    (readSshRsaPublicKey byteExt sampleLimits (sMemConnect sampleSshRsa)
      (sampleContext .CRYPT_ALGO_RSA) 0).ctx.ctxPKC.rsaParam_e = 65537 :=
  have h1 := (rsa_decoders_read_order byteExt sampleLimits (sMemConnect sampleRsaCert)
    (sampleContext .CRYPT_ALGO_RSA) 0 byteExt_readerContract).1 (by decide)
  have h2 := (rsa_decoders_read_order byteExt sampleLimits (sMemConnect (samplePgpRsa 1))
    (sampleContext .CRYPT_ALGO_RSA) 0 byteExt_readerContract).2.1 (by decide)
  have h3 := (rsa_decoders_read_order byteExt sampleLimits (sMemConnect sampleSshRsa)
    (sampleContext .CRYPT_ALGO_RSA) 0 byteExt_readerContract).2.2 (by decide)
  ⟨h1.2.2, h2.2.2, h3.1.trans (by decide)⟩

/-- C14: an ssh decoder that returns `CRYPT_OK` has read, from the stream
after the outer length and the algorithm tag, exactly these integers with a
32-bit length, each from the stream that the one before left, and has left the
stream after the last of them: the RSA decoder `e` and then `n`; the DLP
decoder `p`, `q`, `g` and `y` for a DSA key, and `p` and then `g` for a DH key.
For a DH key `q` and `y` keep their content whatever the status. -/
theorem ssh_integer_order {σ : Type} (E : Ext σ) (L : Limits) (s : σ)
    (ctx : CONTEXT_INFO) (af : Nat) :
    ((readSshRsaPublicKey E L s ctx af).status = CRYPT_OK →
      let re := E.readBignumInteger32 (sshTag E s 7).stream ctx.ctxPKC.rsaParam_e
        L.RSAPARAM_MIN_E L.RSAPARAM_MAX_E none
      let rn := E.readBignumInteger32Checked re.stream ctx.ctxPKC.rsaParam_n
        L.RSAPARAM_MIN_N L.RSAPARAM_MAX_N
      re.status = CRYPT_OK ∧ rn.status = CRYPT_OK ∧
      (readSshRsaPublicKey E L s ctx af).stream = rn.stream ∧
      (readSshRsaPublicKey E L s ctx af).ctx.ctxPKC =
        { ctx.ctxPKC with rsaParam_e := re.value, rsaParam_n := rn.value }) ∧
    (ctx.cryptAlgo = .CRYPT_ALGO_DSA →
      (readSshDlpPublicKey E L s ctx af).status = CRYPT_OK →
      let rp := E.readBignumInteger32Checked (sshTag E s 7).stream ctx.ctxPKC.dlpParam_p
        L.DLPPARAM_MIN_P L.DLPPARAM_MAX_P
      let rq := E.readBignumInteger32 rp.stream ctx.ctxPKC.dlpParam_q
        L.DLPPARAM_MIN_Q L.DLPPARAM_MAX_Q (some rp.value)
      let rg := E.readBignumInteger32 rq.stream ctx.ctxPKC.dlpParam_g
        L.DLPPARAM_MIN_G L.DLPPARAM_MAX_G (some rp.value)
      let ry := E.readBignumInteger32 rg.stream ctx.ctxPKC.dlpParam_y
        L.DLPPARAM_MIN_Y L.DLPPARAM_MAX_Y (some rp.value)
      rp.status = CRYPT_OK ∧ rq.status = CRYPT_OK ∧ rg.status = CRYPT_OK ∧
      ry.status = CRYPT_OK ∧
      (readSshDlpPublicKey E L s ctx af).stream = ry.stream ∧
      (readSshDlpPublicKey E L s ctx af).ctx.ctxPKC =
        { ctx.ctxPKC with dlpParam_p := rp.value, dlpParam_q := rq.value,
                          dlpParam_g := rg.value, dlpParam_y := ry.value }) ∧
    (ctx.cryptAlgo = .CRYPT_ALGO_DH →
      (readSshDlpPublicKey E L s ctx af).ctx.ctxPKC.dlpParam_q = ctx.ctxPKC.dlpParam_q ∧
      (readSshDlpPublicKey E L s ctx af).ctx.ctxPKC.dlpParam_y = ctx.ctxPKC.dlpParam_y ∧
      ((readSshDlpPublicKey E L s ctx af).status = CRYPT_OK →
        let rp := E.readBignumInteger32Checked (sshTag E s 6).stream ctx.ctxPKC.dlpParam_p
          L.DLPPARAM_MIN_P L.DLPPARAM_MAX_P
        let rg := E.readBignumInteger32 rp.stream ctx.ctxPKC.dlpParam_g
          L.DLPPARAM_MIN_G L.DLPPARAM_MAX_G (some rp.value)
        rp.status = CRYPT_OK ∧ rg.status = CRYPT_OK ∧
        (readSshDlpPublicKey E L s ctx af).stream = rg.stream ∧
        (readSshDlpPublicKey E L s ctx af).ctx.ctxPKC =
          { ctx.ctxPKC with dlpParam_p := rp.value, dlpParam_g := rg.value })) := by
  refine ⟨fun hok => ssh_rsa_decoded E L s ctx af hok, ?_, ?_⟩
  · intro hdsa hok
    have hne : ctx.cryptAlgo ≠ .CRYPT_ALGO_DH := by rw [hdsa]; decide
    have h := (ssh_dlp_decoded E L s ctx af).2 hne hok
    rw [if_neg hne] at h
    exact h
  · intro hdh
    have h := (ssh_dlp_decoded E L s ctx af).1 hdh
    rw [if_pos hdh] at h
    exact ⟨h.1.1, h.1.2, h.2⟩

/-- Witness of C14: the sample keys of the ssh format decode with `CRYPT_OK`
to the end of their bytes; the RSA key gives e = 65537 and n =
`sampleModulus`, the DSA key the four values p, q, g and y, and the DH key p
and g with q and y left at their content, zero. -/
theorem ssh_integer_order_witness :
    (readSshRsaPublicKey byteExt sampleLimits (sMemConnect sampleSshRsa)
      (sampleContext .CRYPT_ALGO_RSA) 0).stream.bufPos = sampleSshRsa.length ∧
    (readSshRsaPublicKey byteExt sampleLimits (sMemConnect sampleSshRsa)
      (sampleContext .CRYPT_ALGO_RSA) 0).ctx.ctxPKC =
      { emptyKey with rsaParam_e := 65537, rsaParam_n := beValue sampleModulus } ∧
    (readSshDlpPublicKey byteExt sampleLimits (sMemConnect sampleSshDss)
      (sampleContext .CRYPT_ALGO_DSA) 0).stream.bufPos = sampleSshDss.length ∧
    (readSshDlpPublicKey byteExt sampleLimits (sMemConnect sampleSshDss)
      (sampleContext .CRYPT_ALGO_DSA) 0).ctx.ctxPKC =
      { emptyKey with dlpParam_p := beValue sampleModulus, dlpParam_q := beValue sampleOrder,
                      dlpParam_g := 2, dlpParam_y := beValue samplePublicValue } ∧
    (readSshDlpPublicKey byteExt sampleLimits (sMemConnect sampleSshDh)
      (sampleContext .CRYPT_ALGO_DH) 0).stream.bufPos = sampleSshDh.length ∧
    (readSshDlpPublicKey byteExt sampleLimits (sMemConnect sampleSshDh)
      (sampleContext .CRYPT_ALGO_DH) 0).ctx.ctxPKC =
      { emptyKey with dlpParam_p := beValue sampleModulus, dlpParam_g := 2 } :=
  have h1 := (ssh_integer_order byteExt sampleLimits (sMemConnect sampleSshRsa)
    (sampleContext .CRYPT_ALGO_RSA) 0).1 (by decide)
  have h2 := (ssh_integer_order byteExt sampleLimits (sMemConnect sampleSshDss)
    (sampleContext .CRYPT_ALGO_DSA) 0).2.1 rfl (by decide)
  have h3 := ((ssh_integer_order byteExt sampleLimits (sMemConnect sampleSshDh)
    (sampleContext .CRYPT_ALGO_DH) 0).2.2 rfl).2.2 (by decide)
  ⟨(congrArg STREAM.bufPos h1.2.2.1).trans (by decide), h1.2.2.2.trans (by decide),
    (congrArg STREAM.bufPos h2.2.2.2.2.1).trans (by decide), h2.2.2.2.2.2.trans (by decide),
    (congrArg STREAM.bufPos h3.2.2.1).trans (by decide), h3.2.2.2.trans (by decide)⟩

/-! ### Reads of a byte stream that has the bytes -/

theorem sread_ok (b : List Nat) (pos n : Nat) (h : pos + n ≤ b.length) :
    STREAM.sread ⟨b, pos, CRYPT_OK⟩ n =
      ⟨CRYPT_OK, (b.drop pos).take n, ⟨b, pos + n, CRYPT_OK⟩⟩ := by
  unfold STREAM.sread
  rw [if_neg (by simp [status_ok]), if_neg (by simpa using h)]

theorem sgetc_ok (b : List Nat) (pos : Nat) (h : pos + 1 ≤ b.length) :
    STREAM.sgetc ⟨b, pos, CRYPT_OK⟩ =
      ⟨(beValue ((b.drop pos).take 1) : Int), (), ⟨b, pos + 1, CRYPT_OK⟩⟩ := by
  unfold STREAM.sgetc
  simp only [sread_ok b pos 1 h, status_ok, Bool.false_eq_true, if_false]

theorem readUint32Time_ok (b : List Nat) (pos : Nat) (h : pos + 4 ≤ b.length) :
    STREAM.readUint32Time ⟨b, pos, CRYPT_OK⟩ =
      ⟨CRYPT_OK, (beValue ((b.drop pos).take 4) : Int), ⟨b, pos + 4, CRYPT_OK⟩⟩ := by
  unfold STREAM.readUint32Time
  simp only [sread_ok b pos 4 h, status_ok, Bool.false_eq_true, if_false]

theorem sSkip_ok (b : List Nat) (pos n : Nat) (h : pos + n ≤ b.length) :
    STREAM.sSkip ⟨b, pos, CRYPT_OK⟩ n = ⟨CRYPT_OK, (), ⟨b, pos + n, CRYPT_OK⟩⟩ := by
  unfold STREAM.sSkip
  simp only [sread_ok b pos n h]

theorem readUint16_ok (b : List Nat) (pos : Nat) (h : pos + 2 ≤ b.length) :
    STREAM.readUint16 ⟨b, pos, CRYPT_OK⟩ =
      ⟨(beValue ((b.drop pos).take 2) : Int), (), ⟨b, pos + 2, CRYPT_OK⟩⟩ := by
  unfold STREAM.readUint16
  simp only [sread_ok b pos 2 h, status_ok, Bool.false_eq_true, if_false]

theorem usage_offset_legacy (v t1 t2 t3 t4 d1 d2 u : Nat) (rest : List Nat)
    (hv : v = 2 ∨ v = 3) :
    pgpRsaUsage byteExt (sMemConnect (v :: t1 :: t2 :: t3 :: t4 :: d1 :: d2 :: u :: rest)) =
      ⟨(u : Int), (), ⟨v :: t1 :: t2 :: t3 :: t4 :: d1 :: d2 :: u :: rest, 8, CRYPT_OK⟩⟩ := by
  have hv2 : (v : Int) = PGP_VERSION_2 ∨ (v : Int) = PGP_VERSION_3 := by
    rcases hv with rfl | rfl
    · exact Or.inl rfl
    · exact Or.inr rfl
  simp only [pgpRsaUsage, byteExt, sMemConnect]
  rw [sgetc_ok _ 0 (by simp), readUint32Time_ok _ 1 (by simp)]
  have hb : (beValue (List.take 1 (List.drop 0
      (v :: t1 :: t2 :: t3 :: t4 :: d1 :: d2 :: u :: rest))) : Int) = (v : Int) := by
    simp [beValue]
  rw [hb, if_pos hv2, sSkip_ok _ _ 2 (by simp), sgetc_ok _ _ (by simp)]
  simp [beValue]

theorem usage_offset_openpgp (t1 t2 t3 t4 u : Nat) (rest : List Nat) :
    pgpRsaUsage byteExt (sMemConnect (4 :: t1 :: t2 :: t3 :: t4 :: u :: rest)) =
      ⟨(u : Int), (), ⟨4 :: t1 :: t2 :: t3 :: t4 :: u :: rest, 6, CRYPT_OK⟩⟩ := by
  simp only [pgpRsaUsage, byteExt, sMemConnect]
  rw [sgetc_ok _ 0 (by simp), readUint32Time_ok _ 1 (by simp)]
  have hb : (beValue (List.take 1 (List.drop 0
      (4 :: t1 :: t2 :: t3 :: t4 :: u :: rest))) : Int) = 4 := by
    simp [beValue]
  rw [hb, if_neg (show ¬ ((4 : Int) = PGP_VERSION_2 ∨ (4 : Int) = PGP_VERSION_3) by decide),
    sgetc_ok _ _ (by simp)]
  simp [beValue]

theorem algo_offset_openpgp (v t1 t2 t3 t4 a : Nat) (rest : List Nat) :
    pgpDlpAlgo byteExt (sMemConnect (v :: t1 :: t2 :: t3 :: t4 :: a :: rest)) =
      ⟨(a : Int), (), ⟨v :: t1 :: t2 :: t3 :: t4 :: a :: rest, 6, CRYPT_OK⟩⟩ := by
  simp only [pgpDlpAlgo, byteExt, sMemConnect]
  rw [sgetc_ok _ 0 (by simp), readUint32Time_ok _ 1 (by simp), sgetc_ok _ _ (by simp)]
  simp [beValue]
/-- C15: layout of the mail-packet header. When the precondition holds and the
version byte is read, the RSA decoder returns `CRYPT_ERROR_BADDATA` for a
version other than 2, 3 and the OpenPGP version, and the DLP decoder for a
version other than the OpenPGP version. An RSA decoder that returns `CRYPT_OK`
has read one of the three versions, stored the creation time, read the usage
byte after the two bytes skipped for the versions 2 and 3 only, and then read
`n` and `e`. A DLP decoder that returns `CRYPT_OK` has read the OpenPGP
version, stored the creation time, read the algorithm byte right after it and
then `p`, `q`, `g`, `y` for the DSA byte and `p`, `g`, `y` for the Elgamal
byte, with `q` left at its content. In a byte buffer the usage byte is the
byte at offset 7 for the versions 2 and 3 and at offset 5 for the version 4,
and the algorithm byte of the DLP decoder is the byte at offset 5. -/
theorem pgp_header_layout {σ : Type} (E : Ext σ) (L : Limits) (s : σ)
    (ctx : CONTEXT_INFO) (af : Nat) (hctx : ctx.type = .CONTEXT_PKC) :
    (ctx.cryptAlgo = .CRYPT_ALGO_RSA →
      cryptStatusError (E.sgetc s).status = false →
      (E.sgetc s).status ≠ PGP_VERSION_2 ∧ (E.sgetc s).status ≠ PGP_VERSION_3 ∧
        (E.sgetc s).status ≠ PGP_VERSION_OPENPGP →
      readPgpRsaPublicKey E L s ctx af =
        ⟨CRYPT_ERROR_BADDATA, ACTION_PERM_NONE, (E.sgetc s).stream, ctx⟩) ∧
    ((readPgpRsaPublicKey E L s ctx af).status = CRYPT_OK →
      let ver := E.sgetc s
      let tm := E.readUint32Time ver.stream
      let us := pgpRsaUsage E s
      let rn := E.readBignumInteger16UbitsChecked us.stream ctx.ctxPKC.rsaParam_n
        (bytesToBits L.RSAPARAM_MIN_N) (bytesToBits L.RSAPARAM_MAX_N)
      let re := E.readBignumInteger16Ubits rn.stream ctx.ctxPKC.rsaParam_e
        (bytesToBits L.RSAPARAM_MIN_E) (bytesToBits L.RSAPARAM_MAX_E) (some rn.value)
      (ver.status = PGP_VERSION_2 ∨ ver.status = PGP_VERSION_3 ∨
        ver.status = PGP_VERSION_OPENPGP) ∧
      rn.status = CRYPT_OK ∧ re.status = CRYPT_OK ∧
      (readPgpRsaPublicKey E L s ctx af).stream = re.stream ∧
      (readPgpRsaPublicKey E L s ctx af).ctx.ctxPKC =
        { ctx.ctxPKC with rsaParam_n := rn.value, rsaParam_e := re.value,
                          pgpCreationTime := tm.value }) ∧
    (ctx.cryptAlgo = .CRYPT_ALGO_DSA ∨ ctx.cryptAlgo = .CRYPT_ALGO_ELGAMAL →
      cryptStatusError (E.sgetc s).status = false →
      (E.sgetc s).status ≠ PGP_VERSION_OPENPGP →
      readPgpDlpPublicKey E L s ctx af =
        ⟨CRYPT_ERROR_BADDATA, ACTION_PERM_NONE, (E.sgetc s).stream, ctx⟩) ∧
    ((readPgpDlpPublicKey E L s ctx af).status = CRYPT_OK →
      let ver := E.sgetc s
      let tm := E.readUint32Time ver.stream
      let al := E.sgetc tm.stream
      let rp := E.readBignumInteger16UbitsChecked al.stream ctx.ctxPKC.dlpParam_p
        (bytesToBits L.DLPPARAM_MIN_P) (bytesToBits L.DLPPARAM_MAX_P)
      ver.status = PGP_VERSION_OPENPGP ∧
      (al.status = PGP_ALGO_DSA →
        let rq := E.readBignumInteger16Ubits rp.stream ctx.ctxPKC.dlpParam_q
          (bytesToBits L.DLPPARAM_MIN_Q) (bytesToBits L.DLPPARAM_MAX_Q) (some rp.value)
        let rg := E.readBignumInteger16Ubits rq.stream ctx.ctxPKC.dlpParam_g
          (bytesToBits L.DLPPARAM_MIN_G) (bytesToBits L.DLPPARAM_MAX_G) (some rp.value)
        let ry := E.readBignumInteger16Ubits rg.stream ctx.ctxPKC.dlpParam_y
          (bytesToBits L.DLPPARAM_MIN_Y) (bytesToBits L.DLPPARAM_MAX_Y) (some rp.value)
        rp.status = CRYPT_OK ∧ rq.status = CRYPT_OK ∧ rg.status = CRYPT_OK ∧
        ry.status = CRYPT_OK ∧
        (readPgpDlpPublicKey E L s ctx af).stream = ry.stream ∧
        (readPgpDlpPublicKey E L s ctx af).ctx.ctxPKC =
          { ctx.ctxPKC with dlpParam_p := rp.value, dlpParam_q := rq.value,
                            dlpParam_g := rg.value, dlpParam_y := ry.value,
                            pgpCreationTime := tm.value }) ∧
      (al.status = PGP_ALGO_ELGAMAL →
        let rg := E.readBignumInteger16Ubits rp.stream ctx.ctxPKC.dlpParam_g
          (bytesToBits L.DLPPARAM_MIN_G) (bytesToBits L.DLPPARAM_MAX_G) (some rp.value)
        let ry := E.readBignumInteger16Ubits rg.stream ctx.ctxPKC.dlpParam_y
          (bytesToBits L.DLPPARAM_MIN_Y) (bytesToBits L.DLPPARAM_MAX_Y) (some rp.value)
        rp.status = CRYPT_OK ∧ rg.status = CRYPT_OK ∧ ry.status = CRYPT_OK ∧
        (readPgpDlpPublicKey E L s ctx af).stream = ry.stream ∧
        (readPgpDlpPublicKey E L s ctx af).ctx.ctxPKC =
          { ctx.ctxPKC with dlpParam_p := rp.value, dlpParam_g := rg.value,
                            dlpParam_y := ry.value, pgpCreationTime := tm.value })) ∧
    (∀ (v t1 t2 t3 t4 d1 d2 u : Nat) (rest : List Nat), v = 2 ∨ v = 3 →
      (pgpRsaUsage byteExt
        (sMemConnect (v :: t1 :: t2 :: t3 :: t4 :: d1 :: d2 :: u :: rest))).status = (u : Int)) ∧
    (∀ (t1 t2 t3 t4 u : Nat) (rest : List Nat),
      (pgpRsaUsage byteExt
        (sMemConnect (4 :: t1 :: t2 :: t3 :: t4 :: u :: rest))).status = (u : Int)) ∧
    (∀ (v t1 t2 t3 t4 a : Nat) (rest : List Nat),
      (pgpDlpAlgo byteExt
        (sMemConnect (v :: t1 :: t2 :: t3 :: t4 :: a :: rest))).status = (a : Int)) := by
  refine ⟨?_, ?_, ?_, ?_, ?_, ?_, ?_⟩
  · intro halg hok hne
    unfold readPgpRsaPublicKey
    simp only [hctx, halg, hok, hne, and_self, not_true_eq_false, if_false, if_true, ne_eq,
      not_false_eq_true, Bool.false_eq_true]
  · intro hok
    obtain ⟨hv, _, hn, he, hs, hk⟩ := pgp_rsa_decoded E L s ctx af hok
    exact ⟨hv, hn, he, hs, hk⟩
  · intro halg hok hne
    unfold readPgpDlpPublicKey
    simp only [hctx, halg, hok, hne, true_and, not_true_eq_false, if_false, if_true, ne_eq,
      not_false_eq_true, Bool.false_eq_true]
  · intro hok
    obtain ⟨hv, _, hdsa, helg⟩ := pgp_dlp_decoded E L s ctx af hok
    refine ⟨hv, fun hd => hdsa hd, fun he => helg ?_⟩
    rw [show pgpDlpAlgo E s = E.sgetc (E.readUint32Time (E.sgetc s).stream).stream from rfl, he]
    decide
  · intro v t1 t2 t3 t4 d1 d2 u rest hv
    rw [usage_offset_legacy v t1 t2 t3 t4 d1 d2 u rest hv]
  · intro t1 t2 t3 t4 u rest
    rw [usage_offset_openpgp t1 t2 t3 t4 u rest]
  · intro v t1 t2 t3 t4 a rest
    rw [algo_offset_openpgp v t1 t2 t3 t4 a rest]

/-- Witness of C15: the sample RSA key of version 3 decodes with the usage
byte read at offset 7 and the stream left at the end of the bytes, the sample
Elgamal key decodes under an Elgamal context with `q` not written, and a
header of version 5 is a data-format error in both decoders. -/
theorem pgp_header_layout_witness :
    (readPgpRsaPublicKey byteExt sampleLimits (sMemConnect (samplePgpRsaV3 1))
      (sampleContext .CRYPT_ALGO_RSA) 0).stream.bufPos = (samplePgpRsaV3 1).length ∧
    (readPgpRsaPublicKey byteExt sampleLimits (sMemConnect (samplePgpRsaV3 1))
      (sampleContext .CRYPT_ALGO_RSA) 0).ctx.ctxPKC =
      { emptyKey with rsaParam_n := beValue sampleModulus, rsaParam_e := 65537,
                      pgpCreationTime := 0x5F000000 } ∧
    (readPgpDlpPublicKey byteExt sampleLimits (sMemConnect samplePgpElgamal)
      (sampleContext .CRYPT_ALGO_ELGAMAL) 0).ctx.ctxPKC =
      { emptyKey with dlpParam_p := beValue sampleModulus, dlpParam_g := 243,
                      dlpParam_y := beValue samplePublicValue,
                      pgpCreationTime := 0x5F000000 } ∧
    (readPgpRsaPublicKey byteExt sampleLimits (sMemConnect [5, 0x5F, 0, 0, 0, 1])
      (sampleContext .CRYPT_ALGO_RSA) 0).status = CRYPT_ERROR_BADDATA ∧
    (readPgpDlpPublicKey byteExt sampleLimits (sMemConnect (samplePgpRsaV3 1))
      (sampleContext .CRYPT_ALGO_DSA) 0).status = CRYPT_ERROR_BADDATA :=
  have h1 := (pgp_header_layout byteExt sampleLimits (sMemConnect (samplePgpRsaV3 1))
    (sampleContext .CRYPT_ALGO_RSA) 0 rfl).2.1 (by decide)
  have h2 := ((pgp_header_layout byteExt sampleLimits (sMemConnect samplePgpElgamal)
    (sampleContext .CRYPT_ALGO_ELGAMAL) 0 rfl).2.2.2.1 (by decide)).2.2 (by decide)
  have h3 := (pgp_header_layout byteExt sampleLimits (sMemConnect [5, 0x5F, 0, 0, 0, 1])
    (sampleContext .CRYPT_ALGO_RSA) 0 rfl).1 rfl (by decide) (by decide)
  have h4 := (pgp_header_layout byteExt sampleLimits (sMemConnect (samplePgpRsaV3 1))
    (sampleContext .CRYPT_ALGO_DSA) 0 rfl).2.2.1 (Or.inl rfl) (by decide) (by decide)
  ⟨(congrArg STREAM.bufPos h1.2.2.2.1).trans (by decide), h1.2.2.2.2.trans (by decide),
    h2.2.2.2.2.trans (by decide), congrArg LeafResult.status h3,
    congrArg LeafResult.status h4⟩

theorem sread_pos (t : STREAM) (n : Nat) (h : cryptStatusError (t.sread n).status = false) :
    (t.sread n).stream.bufPos = t.bufPos + n := by
  unfold STREAM.sread at h ⊢
  by_cases h1 : cryptStatusError t.status = true
  · rw [if_pos h1] at h
    exact absurd (h1.symm.trans h) (by decide)
  · rw [if_neg h1] at h ⊢
    by_cases h2 : t.bufPos + n > t.buffer.length
    · rw [if_pos h2] at h
      exact absurd (status_underflow.symm.trans h) (by decide)
    · rw [if_neg h2]

theorem sgetc_pos (t : STREAM) (h : cryptStatusError t.sgetc.status = false) :
    t.sgetc.stream.bufPos = t.bufPos + 1 := by
  unfold STREAM.sgetc at h ⊢
  by_cases h1 : cryptStatusError (t.sread 1).status = true
  · simp only [h1, if_true] at h
    exact absurd h (by decide)
  · simp only [h1, if_false, Bool.false_eq_true]
    exact sread_pos t 1 (Bool.eq_false_iff.mpr h1)

theorem readUint16_pos (t : STREAM) (h : cryptStatusError t.readUint16.status = false) :
    t.readUint16.stream.bufPos = t.bufPos + 2 := by
  unfold STREAM.readUint16 at h ⊢
  by_cases h1 : cryptStatusError (t.sread 2).status = true
  · simp only [h1, if_true] at h
    exact absurd h (by decide)
  · simp only [h1, if_false, Bool.false_eq_true]
    exact sread_pos t 2 (Bool.eq_false_iff.mpr h1)

/-- C16: the ssl decoders do not decode the public value. The DH decoder never
writes `q` and `y`, and when it returns `CRYPT_OK` it has read `p` and then
`g`, each with a 16-bit length, and has left the stream after `g`. The ECDH
decoder never writes the coordinates of the point, and when it returns
`CRYPT_OK` it has read the curve type byte 3 and the 16-bit code, has left the
stream after the code and has changed only the curve selector; on a byte
stream it has then consumed exactly three bytes. -/
theorem ssl_decoders_leave_public_value {σ : Type} (E : Ext σ) (L : Limits) (s : σ)
    (ctx : CONTEXT_INFO) (af : Nat) :
    ((readSslDlpPublicKey E L s ctx af).ctx.ctxPKC.dlpParam_q = ctx.ctxPKC.dlpParam_q ∧
      (readSslDlpPublicKey E L s ctx af).ctx.ctxPKC.dlpParam_y = ctx.ctxPKC.dlpParam_y) ∧
    ((readSslDlpPublicKey E L s ctx af).status = CRYPT_OK →
      let rp := E.readBignumInteger16UChecked s ctx.ctxPKC.dlpParam_p
        L.DLPPARAM_MIN_P L.DLPPARAM_MAX_P
      let rg := E.readBignumInteger16U rp.stream ctx.ctxPKC.dlpParam_g
        L.DLPPARAM_MIN_G L.DLPPARAM_MAX_G (some rp.value)
      rp.status = CRYPT_OK ∧ rg.status = CRYPT_OK ∧
      (readSslDlpPublicKey E L s ctx af).stream = rg.stream ∧
      (readSslDlpPublicKey E L s ctx af).ctx.ctxPKC =
        { ctx.ctxPKC with dlpParam_p := rp.value, dlpParam_g := rg.value }) ∧
    ((readSslEccPublicKey E L s ctx af).ctx.ctxPKC.eccParam_qx = ctx.ctxPKC.eccParam_qx ∧
      (readSslEccPublicKey E L s ctx af).ctx.ctxPKC.eccParam_qy = ctx.ctxPKC.eccParam_qy) ∧
    ((readSslEccPublicKey E L s ctx af).status = CRYPT_OK →
      let ct := E.sgetc s
      let nc := E.readUint16 ct.stream
      ct.status = 0x03 ∧ cryptStatusError nc.status = false ∧
      (readSslEccPublicKey E L s ctx af).stream = nc.stream ∧
      (readSslEccPublicKey E L s ctx af).ctx.ctxPKC =
        { ctx.ctxPKC with curveType :=
            (E.mapValue nc.status DUMMY_INIT getEccSslInfoTbl.2.1 getEccSslInfoTbl.2.2).2 }) ∧
    (∀ (t : STREAM) (c : CONTEXT_INFO) (a : Nat),
      (readSslEccPublicKey byteExt L t c a).status = CRYPT_OK →
      (readSslEccPublicKey byteExt L t c a).stream.bufPos = t.bufPos + 3) := by
  refine ⟨(ssl_dlp_decoded E L s ctx af).1, (ssl_dlp_decoded E L s ctx af).2,
    (ssl_ecc_decoded E L s ctx af).1, (ssl_ecc_decoded E L s ctx af).2, ?_⟩
  intro t c a hok
  obtain ⟨hct, hnc, hs, _⟩ := (ssl_ecc_decoded byteExt L t c a).2 hok
  have h1 : cryptStatusError t.sgetc.status = false := by
    rw [show t.sgetc.status = (3 : Int) from hct]
    decide
  rw [hs]
  exact (readUint16_pos t.sgetc.stream hnc).trans (by rw [sgetc_pos t h1])

/-- Witness of C16: the sample DH key of the ssl format decodes to p and g with
the stream at the end of its bytes, and the sample ECDH key, followed by a
point that is not read, decodes with the stream after its third byte, to the
curve P-256 and no coordinates. -/
theorem ssl_decoders_leave_public_value_witness :
    (readSslDlpPublicKey byteExt sampleLimits (sMemConnect sampleSslDh)
      (sampleContext .CRYPT_ALGO_DH) 0).stream.bufPos = sampleSslDh.length ∧
    (readSslDlpPublicKey byteExt sampleLimits (sMemConnect sampleSslDh)
      (sampleContext .CRYPT_ALGO_DH) 0).ctx.ctxPKC =
      { emptyKey with dlpParam_p := beValue sampleModulus, dlpParam_g := 2 } ∧
    (readSslEccPublicKey byteExt sampleLimits
      (sMemConnect (sampleSslEcdh ++ 65 :: sampleP256Point))
      (sampleContext .CRYPT_ALGO_ECDH) 0).stream.bufPos = 3 ∧
    (readSslEccPublicKey byteExt sampleLimits
      (sMemConnect (sampleSslEcdh ++ 65 :: sampleP256Point))
      (sampleContext .CRYPT_ALGO_ECDH) 0).ctx.ctxPKC =
      { emptyKey with curveType := CRYPT_ECCCURVE_P256 } :=
  have h1 := (ssl_decoders_leave_public_value byteExt sampleLimits (sMemConnect sampleSslDh)
    (sampleContext .CRYPT_ALGO_DH) 0).2.1 (by decide)
  have h2 := (ssl_decoders_leave_public_value byteExt sampleLimits
    (sMemConnect (sampleSslEcdh ++ 65 :: sampleP256Point))
    (sampleContext .CRYPT_ALGO_ECDH) 0).2.2.2.1 (by decide)
  have h3 := (ssl_decoders_leave_public_value byteExt sampleLimits
    (sMemConnect (sampleSslEcdh ++ 65 :: sampleP256Point))
    (sampleContext .CRYPT_ALGO_ECDH) 0).2.2.2.2
    (sMemConnect (sampleSslEcdh ++ 65 :: sampleP256Point))
    (sampleContext .CRYPT_ALGO_ECDH) 0 (by decide)
  ⟨(congrArg STREAM.bufPos h1.2.2.1).trans (by decide), h1.2.2.2.trans (by decide),
    h3, h2.2.2.2.trans (by decide)⟩
theorem memcmp_ne_zero (buffer literal : List Nat) (n : Nat) :
    memcmp buffer literal n ≠ 0 ↔ buffer.take n ≠ literal.take n := by
  unfold memcmp
  by_cases h : buffer.take n = literal.take n
  · simp [h]
  · simp [h]

theorem tag_mismatch (buffer : List Nat) (length : Int) (n : Nat) (literal : List Nat)
    (hlit : literal.take n = literal)
    (h : ¬ (length = (n : Int) ∧ buffer.take n = literal)) :
    length ≠ (n : Int) ∨ memcmp buffer literal n ≠ 0 := by
  by_cases hl : length = (n : Int)
  · right
    rw [memcmp_ne_zero, hlit]
    exact fun hb => h ⟨hl, hb⟩
  · exact Or.inl hl

/-- C17: an ssh decoder whose precondition holds and whose read of the
algorithm tag does not fail returns `CRYPT_ERROR_BADDATA` unless the tag has
the length and the bytes that the key requires: "ssh-rsa" of length 7 in the
RSA decoder, "ssh-dss" of length 7 for a DSA key and "ssh-dh" of length 6 for a
DH key in the DLP decoder. The key object is then unchanged and the stream is
left where the tag ended, so that no integer is read. -/
theorem ssh_tag_mismatch_is_baddata {σ : Type} (E : Ext σ) (L : Limits) (s : σ)
    (ctx : CONTEXT_INFO) (af : Nat) (hctx : ctx.type = .CONTEXT_PKC) :
    (ctx.cryptAlgo = .CRYPT_ALGO_RSA →
      cryptStatusError (sshTag E s 7).status = false →
      ¬ ((sshTag E s 7).value.2 = 7 ∧ (sshTag E s 7).value.1.take 7 = cstr "ssh-rsa") →
      readSshRsaPublicKey E L s ctx af =
        ⟨CRYPT_ERROR_BADDATA, ACTION_PERM_NONE, (sshTag E s 7).stream, ctx⟩) ∧
    (ctx.cryptAlgo = .CRYPT_ALGO_DSA →
      cryptStatusError (sshTag E s 7).status = false →
      ¬ ((sshTag E s 7).value.2 = 7 ∧ (sshTag E s 7).value.1.take 7 = cstr "ssh-dss") →
      readSshDlpPublicKey E L s ctx af =
        ⟨CRYPT_ERROR_BADDATA, ACTION_PERM_NONE, (sshTag E s 7).stream, ctx⟩) ∧
    (ctx.cryptAlgo = .CRYPT_ALGO_DH →
      cryptStatusError (sshTag E s 6).status = false →
      ¬ ((sshTag E s 6).value.2 = 6 ∧ (sshTag E s 6).value.1.take 6 = cstr "ssh-dh") →
      readSshDlpPublicKey E L s ctx af =
        ⟨CRYPT_ERROR_BADDATA, ACTION_PERM_NONE, (sshTag E s 6).stream, ctx⟩) := by
  refine ⟨?_, ?_, ?_⟩
  · intro halg hok hne
    have hbad := tag_mismatch _ _ 7 (cstr "ssh-rsa") (by decide) hne
    unfold sshTag at hok hbad ⊢
    unfold readSshRsaPublicKey
    simp only [hctx, halg, hok, and_self, not_true_eq_false, if_false, Bool.false_eq_true]
    exact if_pos hbad
  · intro halg hok hne
    have hbad := tag_mismatch _ _ 7 (cstr "ssh-dss") (by decide) hne
    unfold sshTag at hok hbad ⊢
    unfold readSshDlpPublicKey
    simp only [hctx, halg, hok, true_and, or_true, not_true_eq_false, if_false,
      Bool.false_eq_true, reduceCtorEq, decide_False]
    exact if_pos hbad
  · intro halg hok hne
    have hbad := tag_mismatch _ _ 6 (cstr "ssh-dh") (by decide) hne
    unfold sshTag at hok hbad ⊢
    unfold readSshDlpPublicKey
    simp only [hctx, halg, hok, true_and, true_or, not_true_eq_false, if_false, if_true,
      Bool.false_eq_true, decide_True]
    exact if_pos hbad

/-- Witness of C17: the ssh RSA decoder rejects the sample DSA key, whose tag
is "ssh-dss", the ssh DLP decoder rejects the sample RSA key under a DSA
context, and under a DH context it rejects a key with the tag "ssh-dx"; each
returns `CRYPT_ERROR_BADDATA` with the key object unchanged. -/
theorem ssh_tag_mismatch_is_baddata_witness :
    (readSshRsaPublicKey byteExt sampleLimits (sMemConnect sampleSshDss)
      (sampleContext .CRYPT_ALGO_RSA) 0).status = CRYPT_ERROR_BADDATA ∧
    (readSshRsaPublicKey byteExt sampleLimits (sMemConnect sampleSshDss)
      (sampleContext .CRYPT_ALGO_RSA) 0).ctx = sampleContext .CRYPT_ALGO_RSA ∧
    (readSshDlpPublicKey byteExt sampleLimits (sMemConnect sampleSshRsa)
      (sampleContext .CRYPT_ALGO_DSA) 0).status = CRYPT_ERROR_BADDATA ∧
    (readSshDlpPublicKey byteExt sampleLimits
      (sMemConnect (sshString (sshString (cstr "ssh-dx") ++ sshString [2])))
      (sampleContext .CRYPT_ALGO_DH) 0).status = CRYPT_ERROR_BADDATA :=
  have h1 := (ssh_tag_mismatch_is_baddata byteExt sampleLimits (sMemConnect sampleSshDss)
    (sampleContext .CRYPT_ALGO_RSA) 0 rfl).1 rfl (by decide) (by decide)
  have h2 := (ssh_tag_mismatch_is_baddata byteExt sampleLimits (sMemConnect sampleSshRsa)
    (sampleContext .CRYPT_ALGO_DSA) 0 rfl).2.1 rfl (by decide) (by decide)
  have h3 := (ssh_tag_mismatch_is_baddata byteExt sampleLimits
    (sMemConnect (sshString (sshString (cstr "ssh-dx") ++ sshString [2])))
    (sampleContext .CRYPT_ALGO_DH) 0 rfl).2.2 rfl (by decide) (by decide)
  ⟨congrArg LeafResult.status h1, congrArg LeafResult.ctx h1, congrArg LeafResult.status h2,
    congrArg LeafResult.status h3⟩

/-- C18 fails in the code: the mail-packet DLP decoder never compares the
algorithm byte with the algorithm of the key object. Under a DSA context it
decodes the sample Elgamal key, whose algorithm byte is 16, with `CRYPT_OK`,
the internal-only encrypt and decrypt bitmask and `q` not written, and the DLP
dispatcher sends that bitmask to the DSA object. -/
theorem pgp_dlp_accepts_other_algorithm :
    (readPgpDlpPublicKey byteExt sampleLimits (sMemConnect samplePgpElgamal)
      (sampleContext .CRYPT_ALGO_DSA) 0).status = CRYPT_OK ∧
    (readPgpDlpPublicKey byteExt sampleLimits (sMemConnect samplePgpElgamal)
      (sampleContext .CRYPT_ALGO_DSA) 0).actionFlags =
      (MK_ACTION_PERM .MESSAGE_CTX_ENCRYPT ACTION_PERM_NONE_EXTERNAL |||
        MK_ACTION_PERM .MESSAGE_CTX_DECRYPT ACTION_PERM_NONE_EXTERNAL) ∧
    (readPgpDlpPublicKey byteExt sampleLimits (sMemConnect samplePgpElgamal)
      (sampleContext .CRYPT_ALGO_DSA) 0).ctx.cryptAlgo = .CRYPT_ALGO_DSA ∧
    (readPgpDlpPublicKey byteExt sampleLimits (sMemConnect samplePgpElgamal)
      (sampleContext .CRYPT_ALGO_DSA) 0).ctx.ctxPKC.dlpParam_q =
      (sampleContext .CRYPT_ALGO_DSA).ctxPKC.dlpParam_q ∧
    pgpDlpAlgoByte byteExt (sMemConnect samplePgpElgamal) = PGP_ALGO_ELGAMAL ∧
    (readPublicKeyDlpFunction byteExt sampleLimits (sMemConnect samplePgpElgamal)
      (sampleContext .CRYPT_ALGO_DSA) .KEYFORMAT_PGP emptyWorld 0).status = CRYPT_OK ∧
    (readPublicKeyDlpFunction byteExt sampleLimits (sMemConnect samplePgpElgamal)
      (sampleContext .CRYPT_ALGO_DSA) .KEYFORMAT_PGP emptyWorld 0).world.sent =
      [⟨5, MK_ACTION_PERM .MESSAGE_CTX_ENCRYPT ACTION_PERM_NONE_EXTERNAL |||
        MK_ACTION_PERM .MESSAGE_CTX_DECRYPT ACTION_PERM_NONE_EXTERNAL⟩] := by
  decide
/-- C19: in each certificate-format decoder whose precondition holds and whose
read of the algorithm identifier does not fail, an algorithm that differs from
the algorithm of the key object gives `CRYPT_ERROR_BADDATA` with the key
object unchanged and the stream left where the identifier ended, so that no
integer is read; the DLP and the ECC decoder return the same for a parameter
length below the required minimum or above `MAX_INTLENGTH_SHORT`. -/
theorem cert_algorithm_mismatch_is_baddata {σ : Type} (E : Ext σ) (L : Limits) (s : σ)
    (ctx : CONTEXT_INFO) (af : Nat) (hctx : ctx.type = .CONTEXT_PKC) :
    (ctx.cryptAlgo = .CRYPT_ALGO_RSA →
      cryptStatusError (rsaCertAlgoID E L s).status = false →
      (rsaCertAlgoID E L s).value ≠ ctx.cryptAlgo →
      readRsaSubjectPublicKey E L s ctx af =
        ⟨CRYPT_ERROR_BADDATA, ACTION_PERM_NONE, (rsaCertAlgoID E L s).stream, ctx⟩) ∧
    (ctx.cryptAlgo = .CRYPT_ALGO_DH ∨ ctx.cryptAlgo = .CRYPT_ALGO_DSA ∨
        ctx.cryptAlgo = .CRYPT_ALGO_ELGAMAL →
      cryptStatusError (dlpCertAlgoID E L s).status = false →
      (dlpCertAlgoID E L s).value.1 ≠ ctx.cryptAlgo ∨
        (dlpCertAlgoID E L s).value.2 <
          ((L.MIN_PKCSIZE_THRESHOLD + L.DLPPARAM_MIN_G + L.DLPPARAM_MIN_Q : Nat) : Int) ∨
        (dlpCertAlgoID E L s).value.2 > (L.MAX_INTLENGTH_SHORT : Int) →
      readDlpSubjectPublicKey E L s ctx af =
        ⟨CRYPT_ERROR_BADDATA, ACTION_PERM_NONE, (dlpCertAlgoID E L s).stream, ctx⟩) ∧
    (ctx.cryptAlgo = .CRYPT_ALGO_ECDSA →
      cryptStatusError (eccCertAlgoID E L s).status = false →
      (eccCertAlgoID E L s).value.1 ≠ ctx.cryptAlgo ∨
        (eccCertAlgoID E L s).value.2 < (L.MIN_OID_SIZE : Int) ∨
        (eccCertAlgoID E L s).value.2 > (L.MAX_INTLENGTH_SHORT : Int) →
      readEccSubjectPublicKey E L s ctx af =
        ⟨CRYPT_ERROR_BADDATA, ACTION_PERM_NONE, (eccCertAlgoID E L s).stream, ctx⟩) := by
  refine ⟨?_, ?_, ?_⟩
  · intro halg hok hne
    rw [halg] at hne
    unfold rsaCertAlgoID rsaCertHole at hok hne ⊢
    unfold readRsaSubjectPublicKey
    simp only [hctx, halg, hok, hne, and_self, not_true_eq_false, if_false, if_true, ne_eq,
      not_false_eq_true, Bool.false_eq_true]
  · intro halg hok hbad
    unfold dlpCertAlgoID dlpCertHole at hok hbad ⊢
    unfold readDlpSubjectPublicKey
    simp only [hctx, halg, hok, true_and, not_true_eq_false, if_false, Bool.false_eq_true]
    by_cases hlen : (E.readAlgoIDparam (E.readGenericHole s
        (8 + L.MIN_PKCSIZE_THRESHOLD + L.DLPPARAM_MIN_G + L.DLPPARAM_MIN_Q +
          L.MIN_PKCSIZE_THRESHOLD)).stream).value.2 <
          ((L.MIN_PKCSIZE_THRESHOLD + L.DLPPARAM_MIN_G + L.DLPPARAM_MIN_Q : Nat) : Int) ∨
        (E.readAlgoIDparam (E.readGenericHole s
        (8 + L.MIN_PKCSIZE_THRESHOLD + L.DLPPARAM_MIN_G + L.DLPPARAM_MIN_Q +
          L.MIN_PKCSIZE_THRESHOLD)).stream).value.2 > (L.MAX_INTLENGTH_SHORT : Int)
    · rw [if_pos hlen]
    · rw [if_neg hlen]
      have hne : ctx.cryptAlgo ≠ (E.readAlgoIDparam (E.readGenericHole s
        (8 + L.MIN_PKCSIZE_THRESHOLD + L.DLPPARAM_MIN_G + L.DLPPARAM_MIN_Q +
          L.MIN_PKCSIZE_THRESHOLD)).stream).value.1 := by
        rcases hbad with h | h | h
        · exact fun e => h e.symm
        · exact absurd (Or.inl h) hlen
        · exact absurd (Or.inr h) hlen
      rw [if_pos hne]
  · intro halg hok hbad
    unfold eccCertAlgoID eccCertHole at hok hbad ⊢
    unfold readEccSubjectPublicKey
    simp only [hctx, halg, hok, and_self, not_true_eq_false, if_false, Bool.false_eq_true]
    by_cases hlen : (E.readAlgoIDparam (E.readGenericHole s
        (8 + L.MIN_OID_SIZE + L.MIN_PKCSIZE_ECCPOINT_THRESHOLD)).stream).value.2 <
          (L.MIN_OID_SIZE : Int) ∨
        (E.readAlgoIDparam (E.readGenericHole s
        (8 + L.MIN_OID_SIZE + L.MIN_PKCSIZE_ECCPOINT_THRESHOLD)).stream).value.2 >
          (L.MAX_INTLENGTH_SHORT : Int)
    · rw [if_pos hlen]
    · rw [if_neg hlen]
      have hne : CRYPT_ALGO_TYPE.CRYPT_ALGO_ECDSA ≠ (E.readAlgoIDparam (E.readGenericHole s
        (8 + L.MIN_OID_SIZE + L.MIN_PKCSIZE_ECCPOINT_THRESHOLD)).stream).value.1 := by
        rcases hbad with h | h | h
        · exact fun e => h (halg ▸ e.symm)
        · exact absurd (Or.inl h) hlen
        · exact absurd (Or.inr h) hlen
      rw [if_pos hne]

/-- Witness of C19: the RSA decoder returns `CRYPT_ERROR_BADDATA` on the RSA
key material under the algorithm identifier of DSA, and the DLP decoder on the
sample DH key under a DSA context; in both the key object is unchanged. -/
theorem cert_algorithm_mismatch_is_baddata_witness :
    (readRsaSubjectPublicKey byteExt sampleLimits (sMemConnect sampleMislabelledCert)
      (sampleContext .CRYPT_ALGO_RSA) 0).status = CRYPT_ERROR_BADDATA ∧
    (readRsaSubjectPublicKey byteExt sampleLimits (sMemConnect sampleMislabelledCert)
      (sampleContext .CRYPT_ALGO_RSA) 0).ctx = sampleContext .CRYPT_ALGO_RSA ∧
    (readDlpSubjectPublicKey byteExt sampleLimits (sMemConnect sampleDhCert)
      (sampleContext .CRYPT_ALGO_DSA) 0).status = CRYPT_ERROR_BADDATA ∧
    (readDlpSubjectPublicKey byteExt sampleLimits (sMemConnect sampleDhCert)
      (sampleContext .CRYPT_ALGO_DSA) 0).ctx = sampleContext .CRYPT_ALGO_DSA :=
  have h1 := (cert_algorithm_mismatch_is_baddata byteExt sampleLimits
    (sMemConnect sampleMislabelledCert) (sampleContext .CRYPT_ALGO_RSA) 0 rfl).1 rfl
    (by decide) (by decide)
  have h2 := (cert_algorithm_mismatch_is_baddata byteExt sampleLimits
    (sMemConnect sampleDhCert) (sampleContext .CRYPT_ALGO_DSA) 0 rfl).2.1
    (Or.inr (Or.inl rfl)) (by decide) (by decide)
  ⟨congrArg LeafResult.status h1, congrArg LeafResult.ctx h1, congrArg LeafResult.status h2,
    congrArg LeafResult.ctx h2⟩

/-! ### A failed wrapper read -/

theorem latch_next {σ α β : Type} {failed : σ → Prop} {s : σ} {a : Out σ α} {b : Out σ β}
    (ha : latched failed s a) (hb : latched failed a.stream b)
    (h : cryptStatusError a.status = true) : cryptStatusError b.status = true :=
  hb.1 (ha.2 h)

theorem latch_skip {σ α β : Type} {failed : σ → Prop} {s : σ} {a : Out σ α} {b : Out σ β}
    (ha : latched failed s a) (hb : latched failed a.stream b)
    (h : failed s) : cryptStatusError b.status = true :=
  hb.1 (ha.2 (ha.1 h))

theorem error_not_ok {st : Int} (h : cryptStatusError st = true) :
    ¬ cryptStatusOK st = true := by
  intro hok
  exact ok_not_error ((statusOK_iff st).mp hok) h

theorem rsa_cert_wrapper {σ : Type} (E : Ext σ) (failed : σ → Prop) (L : Limits) (s : σ)
    (ctx : CONTEXT_INFO) (af : Nat) (hL : ErrorLatch E failed) :
    errorWhen (cryptStatusError (rsaCertHole E L s).status = true ∨
        cryptStatusError (rsaCertBits E L s).status = true ∨
        cryptStatusError (rsaCertSeq E L s).status = true)
      (readRsaSubjectPublicKey E L s ctx af) := by
  unfold readRsaSubjectPublicKey
  lift_lets
  intro rsaKey af0 hole algo af1 bits sq rn key1 re
  apply ite_ind
  · exact fun _ _ => status_internal
  · intro _
    apply ite_ind
    · exact fun he _ => he
    · intro halgo
      apply ite_ind
      · exact fun _ _ => status_baddata
      · intro _
        have hrn : cryptStatusError (rsaCertHole E L s).status = true ∨
            cryptStatusError (rsaCertBits E L s).status = true ∨
            cryptStatusError (rsaCertSeq E L s).status = true →
            cryptStatusError rn.status = true := by
          intro hc
          rcases hc with h | h | h
          · exact absurd (latch_next (hL.readGenericHole _ _) (hL.readAlgoID _) h) halgo
          · exact latch_skip (hL.readSequence _) (hL.readBignumChecked _ _ _ _ _)
              ((hL.readBitStringHole _ _).2 h)
          · exact latch_next (hL.readSequence _) (hL.readBignumChecked _ _ _ _ _) h
        apply ite_ind
        · exact fun hn hc => absurd hn (error_not_ok (hrn hc))
        · exact fun _ hc => hrn hc

theorem dlp_cert_wrapper {σ : Type} (E : Ext σ) (failed : σ → Prop) (L : Limits) (s : σ)
    (ctx : CONTEXT_INFO) (af : Nat) (hL : ErrorLatch E failed) :
    errorWhen (cryptStatusError (dlpCertHole E L s).status = true ∨
        cryptStatusError (dlpCertSeq E L s).status = true ∨
        cryptStatusError (dlpCertBits E L s ctx).status = true)
      (readDlpSubjectPublicKey E L s ctx af) := by
  unfold readDlpSubjectPublicKey
  lift_lets
  intro dlpKey0 actionFlags0 hole algo cryptAlgo extraLength sq rp dlpKey1 rg1 rq1 rq2 rg2
    params dlpKey2 actionFlags1 bits ry
  apply ite_ind
  · exact fun _ _ => status_internal
  · intro _
    apply ite_ind
    · exact fun he _ => he
    · intro halgo
      apply ite_ind
      · exact fun _ _ => status_baddata
      · intro _
        apply ite_ind
        · exact fun _ _ => status_baddata
        · intro _
          apply ite_ind
          · exact fun he _ => he
          · intro hp
            apply ite_ind
            · exact fun he _ => he
            · intro _ hc
              rcases hc with h | h | h
              · exact absurd (latch_next (hL.readGenericHole _ _) (hL.readAlgoIDparam _) h)
                  halgo
              · exact absurd (latch_next (hL.readSequence _) (hL.readBignumChecked _ _ _ _ _) h)
                  hp
              · exact latch_next (hL.readBitStringHole params.stream L.MIN_PKCSIZE_THRESHOLD)
                  (hL.readBignumChecked _ _ _ _ _) h

theorem ecc_cert_wrapper {σ : Type} (E : Ext σ) (failed : σ → Prop) (L : Limits) (s : σ)
    (ctx : CONTEXT_INFO) (af : Nat) (hL : ErrorLatch E failed) :
    errorWhen (cryptStatusError (eccCertHole E L s).status = true ∨
        cryptStatusError (eccCertBits E L s).status = true)
      (readEccSubjectPublicKey E L s ctx af) := by
  unfold readEccSubjectPublicKey
  lift_lets
  intros
  apply ite_ind
  · exact fun _ _ => status_internal
  · intro _
    apply ite_ind
    · exact fun he _ => he
    · intro halgo
      apply ite_ind
      · exact fun _ _ => status_baddata
      · intro _
        apply ite_ind
        · exact fun _ _ => status_baddata
        · intro _
          apply ite_ind
          · exact fun he _ => he
          · intro _
            apply ite_ind
            · exact fun he _ => he
            · intro hbits hc
              rcases hc with h | h
              · exact absurd (latch_next (hL.readGenericHole _ _) (hL.readAlgoIDparam _) h)
                  halgo
              · exact absurd h hbits

theorem dl_values_sequence {σ : Type} (E : Ext σ) (failed : σ → Prop) (L : Limits)
    (buffer : List Nat) (bufSize : Int) (value1 value2 maxRange : Nat)
    (hL : ErrorLatch E failed)
    (h : cryptStatusError (E.readSequence (E.sMemConnect buffer bufSize)).status = true) :
    cryptStatusError (decodeDLValuesFunction E L buffer bufSize value1 value2 maxRange
      .CRYPT_FORMAT_CRYPTLIB).status = true := by
  have h1 := latch_next (hL.readSequence _)
    (hL.readBignum _ value1 L.DLPPARAM_MIN_SIG_R L.CRYPT_MAX_PKCSIZE (some maxRange)) h
  unfold decodeDLValuesFunction
  by_cases hreq : bufSize ≥ 32 ∧ bufSize < (L.MAX_INTLENGTH_SHORT : Int)
  · have hfmt : CRYPT_FORMAT_TYPE.CRYPT_FORMAT_CRYPTLIB.toNat >
          CRYPT_FORMAT_TYPE.CRYPT_FORMAT_NONE.toNat ∧
        CRYPT_FORMAT_TYPE.CRYPT_FORMAT_CRYPTLIB.toNat <
          CRYPT_FORMAT_TYPE.CRYPT_FORMAT_LAST.toNat := by decide
    simp only [hreq, hfmt, and_self, not_true_eq_false, if_false, if_true, h1]
  · simp only [hreq, not_false_eq_true, if_true]
    exact status_internal

/-- C20: with a stream that keeps its error state, a certificate-format decoder
returns an error whenever the read of the enclosing wrapper, of the bit-string
wrapper or of the inner sequence header fails, although the decoder does not
inspect the status of these reads except for the bit-string wrapper of the ECC
decoder: the failure reaches the next read whose status it does inspect. In
the same way the signature-pair decoder returns an error in the
tag-length-value layout whenever the read of the outer sequence fails. -/
theorem failed_wrapper_read_is_error {σ : Type} (E : Ext σ) (failed : σ → Prop) (L : Limits)
    (s : σ) (ctx : CONTEXT_INFO) (af : Nat) (hL : ErrorLatch E failed) :
    (cryptStatusError (rsaCertHole E L s).status = true ∨
        cryptStatusError (rsaCertBits E L s).status = true ∨
        cryptStatusError (rsaCertSeq E L s).status = true →
      cryptStatusError (readRsaSubjectPublicKey E L s ctx af).status = true) ∧
    (cryptStatusError (dlpCertHole E L s).status = true ∨
        cryptStatusError (dlpCertSeq E L s).status = true ∨
        cryptStatusError (dlpCertBits E L s ctx).status = true →
      cryptStatusError (readDlpSubjectPublicKey E L s ctx af).status = true) ∧
    (cryptStatusError (eccCertHole E L s).status = true ∨
        cryptStatusError (eccCertBits E L s).status = true →
      cryptStatusError (readEccSubjectPublicKey E L s ctx af).status = true) ∧
    (∀ (buffer : List Nat) (bufSize : Int) (value1 value2 maxRange : Nat),
      cryptStatusError (E.readSequence (E.sMemConnect buffer bufSize)).status = true →
      cryptStatusError (decodeDLValuesFunction E L buffer bufSize value1 value2 maxRange
        .CRYPT_FORMAT_CRYPTLIB).status = true) :=
  ⟨rsa_cert_wrapper E failed L s ctx af hL, dlp_cert_wrapper E failed L s ctx af hL,
    ecc_cert_wrapper E failed L s ctx af hL,
    fun buffer bufSize value1 value2 maxRange h =>
      dl_values_sequence E failed L buffer bufSize value1 value2 maxRange hL h⟩

/-- Witness of C20: on the bytes of the sample RSA key behind a wrapper that
declares five bytes the read of the wrapper fails and the RSA decoder returns
an error, and on the sample signature with the tag of a set the read of the
outer sequence fails and the signature-pair decoder returns an error. -/
theorem failed_wrapper_read_is_error_witness :
    cryptStatusError (rsaCertHole byteExt sampleLimits
      (sMemConnect sampleShortWrapperCert)).status = true ∧
    cryptStatusError (readRsaSubjectPublicKey byteExt sampleLimits
      (sMemConnect sampleShortWrapperCert) (sampleContext .CRYPT_ALGO_RSA) 0).status = true ∧
    cryptStatusError (byteExt.readSequence
      (byteExt.sMemConnect sampleDlSignatureBadTag 64)).status = true ∧
    cryptStatusError (decodeDLValuesFunction byteExt sampleLimits sampleDlSignatureBadTag 64
      0 0 (beValue sampleOrder) .CRYPT_FORMAT_CRYPTLIB).status = true :=
  have h := failed_wrapper_read_is_error byteExt STREAM.failed sampleLimits
    (sMemConnect sampleShortWrapperCert) (sampleContext .CRYPT_ALGO_RSA) 0 byteExt_errorLatch
  ⟨by decide, h.1 (Or.inl (by decide)), by decide,
    h.2.2.2 sampleDlSignatureBadTag 64 0 0 (beValue sampleOrder) (by decide)⟩

/-! ### Claims C21 to C30 -/

/-- C30 fails in the code of the POSIX build: `directory_exists` returns
`Q_TRUE` for every path for which `access` with `F_OK` returns 0, so it
returns `Q_TRUE` for the regular file `/etc/passwd`; the build with
`Q_PDCURSES_WIN32` tests the directory bit and returns `Q_FALSE` for it. For
the directory `/etc` both return `Q_TRUE` and for a path that names nothing
both return `Q_FALSE`. -/
theorem directory_exists_accepts_regular_file :
    sampleFs "/etc/passwd" = some .regular ∧
    directory_exists (fsOs sampleFs) false "/etc/passwd" = .Q_TRUE ∧
    directory_exists (fsOs sampleFs) true "/etc/passwd" = .Q_FALSE ∧
    directory_exists (fsOs sampleFs) false "/etc" = .Q_TRUE ∧
    directory_exists (fsOs sampleFs) true "/etc" = .Q_TRUE ∧
    directory_exists (fsOs sampleFs) false "/none" = .Q_FALSE ∧
    directory_exists (fsOs sampleFs) true "/none" = .Q_FALSE := by
  decide

/-- C29: for a context of the type `CONTEXT_PKC`, `initPubKeyRead` sets the
pointer to the dispatcher and the pointer to the signature-pair decoder to the
DLP ones for DH, DSA and Elgamal and to the ECC ones for ECDSA and ECDH; for
every other algorithm it sets the pointer to the dispatcher to the RSA one and
leaves the pointer to the signature-pair decoder as it was. Every other field
of the context and of the key is as before, and the values of the pointers
stand for the functions of these names. -/
theorem initPubKeyRead_installs (ctx : CONTEXT_INFO) (hctx : ctx.type = .CONTEXT_PKC) :
    (ctx.cryptAlgo = .CRYPT_ALGO_DH ∨ ctx.cryptAlgo = .CRYPT_ALGO_DSA ∨
        ctx.cryptAlgo = .CRYPT_ALGO_ELGAMAL →
      initPubKeyRead ctx =
        { ctx with ctxPKC := { ctx.ctxPKC with
            readPublicKeyFunction := some .readPublicKeyDlpFunction,
            decodeDLValuesFunction := some .decodeDLValuesFunction } }) ∧
    (ctx.cryptAlgo = .CRYPT_ALGO_ECDSA ∨ ctx.cryptAlgo = .CRYPT_ALGO_ECDH →
      initPubKeyRead ctx =
        { ctx with ctxPKC := { ctx.ctxPKC with
            readPublicKeyFunction := some .readPublicKeyEccFunction,
            decodeDLValuesFunction := some .decodeECDLValuesFunction } }) ∧
    (ctx.cryptAlgo ≠ .CRYPT_ALGO_DH ∧ ctx.cryptAlgo ≠ .CRYPT_ALGO_DSA ∧
        ctx.cryptAlgo ≠ .CRYPT_ALGO_ELGAMAL ∧ ctx.cryptAlgo ≠ .CRYPT_ALGO_ECDSA ∧
        ctx.cryptAlgo ≠ .CRYPT_ALGO_ECDH →
      initPubKeyRead ctx =
        { ctx with ctxPKC := { ctx.ctxPKC with
            readPublicKeyFunction := some .readPublicKeyRsaFunction } }) ∧
    (∀ {σ : Type} (E : Ext σ) (L : Limits) (s : σ) (c : CONTEXT_INFO) (f : KEYFORMAT_TYPE)
        (w : World) (a : Nat),
      READKEY_FUNCTION.readPublicKeyRsaFunction.call E L s c f w a =
        readPublicKeyRsaFunction E L s c f w a ∧
      READKEY_FUNCTION.readPublicKeyDlpFunction.call E L s c f w a =
        readPublicKeyDlpFunction E L s c f w a ∧
      READKEY_FUNCTION.readPublicKeyEccFunction.call E L s c f w a =
        readPublicKeyEccFunction E L s c f w a) ∧
    (∀ {σ : Type} (E : Ext σ) (L : Limits) (b : List Nat) (n : Int) (v1 v2 m : Nat)
        (f : CRYPT_FORMAT_TYPE),
      DECODEDLVALUES_FUNCTION.decodeDLValuesFunction.call E L b n v1 v2 m f =
        decodeDLValuesFunction E L b n v1 v2 m f ∧
      DECODEDLVALUES_FUNCTION.decodeECDLValuesFunction.call E L b n v1 v2 m f =
        decodeECDLValuesFunction E L b n v1 v2 m f) := by
  refine ⟨?_, ?_, ?_, fun _ _ _ _ _ _ _ => ⟨rfl, rfl, rfl⟩, fun _ _ _ _ _ _ _ _ => ⟨rfl, rfl⟩⟩
  · intro h
    unfold initPubKeyRead isDlpAlgo
    rcases h with h | h | h <;> simp [hctx, h]
  · intro h
    unfold initPubKeyRead isDlpAlgo isEccAlgo
    rcases h with h | h <;> simp [hctx, h]
  · intro h
    unfold initPubKeyRead isDlpAlgo isEccAlgo
    simp [hctx, h.1, h.2.1, h.2.2.1, h.2.2.2.1, h.2.2.2.2]

/-- Witness of C29: a DSA context gets the DLP dispatcher and the DLP
signature-pair decoder, an ECDH context the ECC ones, and an RSA context whose
pointer to the signature-pair decoder holds the ECC one gets the RSA
dispatcher and keeps that pointer. -/
theorem initPubKeyRead_installs_witness :
    (initPubKeyRead (sampleContext .CRYPT_ALGO_DSA)).ctxPKC.readPublicKeyFunction =
      some .readPublicKeyDlpFunction ∧
    (initPubKeyRead (sampleContext .CRYPT_ALGO_DSA)).ctxPKC.decodeDLValuesFunction =
      some .decodeDLValuesFunction ∧
    (initPubKeyRead (sampleContext .CRYPT_ALGO_ECDH)).ctxPKC.decodeDLValuesFunction =
      some .decodeECDLValuesFunction ∧
    initPubKeyRead
      { sampleContext .CRYPT_ALGO_RSA with
        ctxPKC := { emptyKey with decodeDLValuesFunction := some .decodeECDLValuesFunction } } =
      { sampleContext .CRYPT_ALGO_RSA with
        ctxPKC := { emptyKey with
          readPublicKeyFunction := some .readPublicKeyRsaFunction,
          decodeDLValuesFunction := some .decodeECDLValuesFunction } } :=
  have h1 := (initPubKeyRead_installs (sampleContext .CRYPT_ALGO_DSA) rfl).1 (Or.inr (Or.inl rfl))
  have h2 := (initPubKeyRead_installs (sampleContext .CRYPT_ALGO_ECDH) rfl).2.1 (Or.inr rfl)
  have h3 := (initPubKeyRead_installs
    { sampleContext .CRYPT_ALGO_RSA with
      ctxPKC := { emptyKey with decodeDLValuesFunction := some .decodeECDLValuesFunction } }
    rfl).2.2.1 (by decide)
  ⟨congrArg (fun c => c.ctxPKC.readPublicKeyFunction) h1,
    congrArg (fun c => c.ctxPKC.decodeDLValuesFunction) h1,
    congrArg (fun c => c.ctxPKC.decodeDLValuesFunction) h2, h3⟩

theorem format_in_range (formatType : CRYPT_FORMAT_TYPE)
    (h : formatType = .CRYPT_FORMAT_CRYPTLIB ∨ formatType = .CRYPT_FORMAT_PGP ∨
      formatType = .CRYPT_IFORMAT_SSH) :
    formatType.toNat > CRYPT_FORMAT_TYPE.CRYPT_FORMAT_NONE.toNat ∧
      formatType.toNat < CRYPT_FORMAT_TYPE.CRYPT_FORMAT_LAST.toNat := by
  rcases h with h | h | h <;> rw [h] <;> decide

theorem ecdl_delegates {σ : Type} (E : Ext σ) (L : Limits) (buffer : List Nat) (bufSize : Int)
    (value1 value2 maxRange : Nat) (formatType : CRYPT_FORMAT_TYPE)
    (h : formatType ≠ .CRYPT_IFORMAT_SSH) :
    decodeECDLValuesFunction E L buffer bufSize value1 value2 maxRange formatType =
      decodeDLValuesFunction E L buffer bufSize value1 value2 maxRange formatType := by
  unfold decodeECDLValuesFunction
  by_cases h1 : bufSize ≥ 32 ∧ bufSize < (L.MAX_INTLENGTH_SHORT : Int)
  · by_cases h2 : formatType.toNat > CRYPT_FORMAT_TYPE.CRYPT_FORMAT_NONE.toNat ∧
        formatType.toNat < CRYPT_FORMAT_TYPE.CRYPT_FORMAT_LAST.toNat
    · simp only [h1, h2, and_self, not_true_eq_false, if_false, h, ne_eq, not_false_eq_true, if_true]
    · unfold decodeDLValuesFunction
      simp only [h1, h2, and_self, not_true_eq_false, not_false_eq_true, if_false, if_true]
  · unfold decodeDLValuesFunction
    simp only [h1, not_false_eq_true, if_true]

theorem ecdl_ssh {σ : Type} (E : Ext σ) (L : Limits) (buffer : List Nat) (bufSize : Int)
    (value1 value2 maxRange : Nat)
    (h1 : bufSize ≥ 32 ∧ bufSize < (L.MAX_INTLENGTH_SHORT : Int)) :
    decodeECDLValuesFunction E L buffer bufSize value1 value2 maxRange .CRYPT_IFORMAT_SSH =
      (let stream := E.sMemConnect buffer bufSize
       let r1 := E.readBignumInteger32 stream value1 L.ECCPARAM_MIN_SIG_R
         L.CRYPT_MAX_PKCSIZE_ECC (some maxRange)
       let r2 := E.readBignumInteger32 r1.stream value2 L.ECCPARAM_MIN_SIG_S
         L.CRYPT_MAX_PKCSIZE_ECC (some maxRange)
       if cryptStatusOK r1.status then ⟨r2.status, r1.value, r2.value⟩
       else ⟨r1.status, r1.value, value2⟩) := by
  have h2 := format_in_range .CRYPT_IFORMAT_SSH (Or.inr (Or.inr rfl))
  unfold decodeECDLValuesFunction
  simp only [h1, h2, and_self, not_true_eq_false, if_false, ne_eq]

theorem dl_ssh {σ : Type} (E : Ext σ) (L : Limits) (buffer : List Nat) (bufSize : Int)
    (value1 value2 maxRange : Nat)
    (h1 : bufSize ≥ 32 ∧ bufSize < (L.MAX_INTLENGTH_SHORT : Int)) :
    decodeDLValuesFunction E L buffer bufSize value1 value2 maxRange .CRYPT_IFORMAT_SSH =
      (let i1 := E.importBignum value1 buffer 20 L.DLPPARAM_MIN_SIG_R 20 (some maxRange)
       let i2 := E.importBignum value2 (buffer.drop 20) 20 L.DLPPARAM_MIN_SIG_S 20
         (some maxRange)
       if cryptStatusError i1.1 then ⟨i1.1, i1.2, value2⟩ else ⟨i2.1, i1.2, i2.2⟩) := by
  have h2 := format_in_range .CRYPT_IFORMAT_SSH (Or.inr (Or.inr rfl))
  unfold decodeDLValuesFunction
  simp only [h1, h2, and_self, not_true_eq_false, if_false, if_true, reduceCtorEq]

theorem dl_cryptlib {σ : Type} (E : Ext σ) (L : Limits) (buffer : List Nat) (bufSize : Int)
    (value1 value2 maxRange : Nat)
    (h1 : bufSize ≥ 32 ∧ bufSize < (L.MAX_INTLENGTH_SHORT : Int)) :
    decodeDLValuesFunction E L buffer bufSize value1 value2 maxRange .CRYPT_FORMAT_CRYPTLIB =
      (let sq := E.readSequence (E.sMemConnect buffer bufSize)
       let r1 := E.readBignum sq.stream value1 L.DLPPARAM_MIN_SIG_R L.CRYPT_MAX_PKCSIZE
         (some maxRange)
       let r2 := E.readBignum r1.stream value2 L.DLPPARAM_MIN_SIG_S L.CRYPT_MAX_PKCSIZE
         (some maxRange)
       if cryptStatusError r1.status then ⟨r1.status, r1.value, value2⟩
       else ⟨r2.status, r1.value, r2.value⟩) := by
  have h2 := format_in_range .CRYPT_FORMAT_CRYPTLIB (Or.inl rfl)
  unfold decodeDLValuesFunction
  simp only [h1, h2, and_self, not_true_eq_false, if_false, if_true]

theorem dl_pgp {σ : Type} (E : Ext σ) (L : Limits) (buffer : List Nat) (bufSize : Int)
    (value1 value2 maxRange : Nat)
    (h1 : bufSize ≥ 32 ∧ bufSize < (L.MAX_INTLENGTH_SHORT : Int)) :
    decodeDLValuesFunction E L buffer bufSize value1 value2 maxRange .CRYPT_FORMAT_PGP =
      (let r1 := E.readBignumInteger16Ubits (E.sMemConnect buffer bufSize) value1
         L.DLPPARAM_MIN_SIG_R (bytesToBits L.CRYPT_MAX_PKCSIZE) (some maxRange)
       let r2 := E.readBignumInteger16Ubits r1.stream value2 L.DLPPARAM_MIN_SIG_S
         (bytesToBits L.CRYPT_MAX_PKCSIZE) (some maxRange)
       if cryptStatusError r1.status then ⟨r1.status, r1.value, value2⟩
       else ⟨r2.status, r1.value, r2.value⟩) := by
  have h2 := format_in_range .CRYPT_FORMAT_PGP (Or.inr (Or.inl rfl))
  unfold decodeDLValuesFunction
  simp only [h1, h2, and_self, not_true_eq_false, if_false, if_true, reduceCtorEq]

theorem byteExt_importContract : ImportContract byteExt := by
  refine ⟨?_, ?_, ?_, ?_⟩
  · intro b buf len mn mx r
    show (importBignum b (buf.take len.toNat) mn mx r).1 = CRYPT_OK ∨
      cryptStatusError (importBignum b (buf.take len.toNat) mn mx r).1 = true
    unfold importBignum
    split_ifs with h
    · exact Or.inr (show cryptStatusError CRYPT_ERROR_BADDATA = true by decide)
    · cases r with
      | none => exact Or.inl rfl
      | some m =>
        show (if beValue _ ≥ m then _ else _ : Int × Nat).1 = CRYPT_OK ∨
          cryptStatusError (if beValue _ ≥ m then _ else _ : Int × Nat).1 = true
        split_ifs
        · exact Or.inr (show cryptStatusError CRYPT_ERROR_BADDATA = true by decide)
        · exact Or.inl rfl
  · intro b buf len mn mx r
    show (importBignum b (buf.take len.toNat) mn mx r).1 = CRYPT_OK →
      (importBignum b (buf.take len.toNat) mn mx r).2 = beValue (buf.take len.toNat)
    unfold importBignum
    split_ifs with h
    · intro hok
      exact absurd hok (show ¬ CRYPT_ERROR_BADDATA = CRYPT_OK by decide)
    · cases r with
      | none => intro _; rfl
      | some m =>
        show (if beValue _ ≥ m then _ else _ : Int × Nat).1 = CRYPT_OK →
          (if beValue _ ≥ m then _ else _ : Int × Nat).2 = _
        split_ifs
        · intro _; rfl
        · intro _; rfl
  · intro b buf len mn mx m
    show (importBignum b (buf.take len.toNat) mn mx (some m)).1 = CRYPT_OK →
      (importBignum b (buf.take len.toNat) mn mx (some m)).2 < m
    unfold importBignum
    split_ifs with h
    · intro hok
      exact absurd hok (show ¬ CRYPT_ERROR_BADDATA = CRYPT_OK by decide)
    · show (if beValue _ ≥ m then _ else _ : Int × Nat).1 = CRYPT_OK →
        (if beValue _ ≥ m then _ else _ : Int × Nat).2 < m
      split_ifs with h2
      · intro hok
        exact absurd hok (show ¬ CRYPT_ERROR_BADDATA = CRYPT_OK by decide)
      · intro _
        exact Nat.lt_of_not_ge h2
  · intro b buf len mn mx r
    show importBignum b (buf.take len.toNat) mn mx r =
      importBignum b ((buf.take len.toNat).take len.toNat) mn mx r
    rw [List.take_take, Nat.min_self]

/-- C25: for every format other than the ssh one `decodeECDLValuesFunction`
returns what `decodeDLValuesFunction` returns on the same arguments, the status
and both integers. For the ssh format, with the size of the buffer in the
required range, the ECC decoder reads two integers with a 32-bit length from
the stream over the buffer, the second only when the first read returned
`CRYPT_OK`, and the DLP decoder validates the block of 20 bytes at the start of
the buffer and the block of 20 bytes after it. -/
theorem ecdl_values_delegate_except_ssh {σ : Type} (E : Ext σ) (L : Limits)
    (buffer : List Nat) (bufSize : Int) (value1 value2 maxRange : Nat)
    (formatType : CRYPT_FORMAT_TYPE) :
    (formatType ≠ .CRYPT_IFORMAT_SSH →
      decodeECDLValuesFunction E L buffer bufSize value1 value2 maxRange formatType =
        decodeDLValuesFunction E L buffer bufSize value1 value2 maxRange formatType) ∧
    (bufSize ≥ 32 ∧ bufSize < (L.MAX_INTLENGTH_SHORT : Int) →
      decodeECDLValuesFunction E L buffer bufSize value1 value2 maxRange .CRYPT_IFORMAT_SSH =
        (let stream := E.sMemConnect buffer bufSize
         let r1 := E.readBignumInteger32 stream value1 L.ECCPARAM_MIN_SIG_R
           L.CRYPT_MAX_PKCSIZE_ECC (some maxRange)
         let r2 := E.readBignumInteger32 r1.stream value2 L.ECCPARAM_MIN_SIG_S
           L.CRYPT_MAX_PKCSIZE_ECC (some maxRange)
         if cryptStatusOK r1.status then ⟨r2.status, r1.value, r2.value⟩
         else ⟨r1.status, r1.value, value2⟩) ∧
      decodeDLValuesFunction E L buffer bufSize value1 value2 maxRange .CRYPT_IFORMAT_SSH =
        (let i1 := E.importBignum value1 buffer 20 L.DLPPARAM_MIN_SIG_R 20 (some maxRange)
         let i2 := E.importBignum value2 (buffer.drop 20) 20 L.DLPPARAM_MIN_SIG_S 20
           (some maxRange)
         if cryptStatusError i1.1 then ⟨i1.1, i1.2, value2⟩ else ⟨i2.1, i1.2, i2.2⟩)) :=
  ⟨ecdl_delegates E L buffer bufSize value1 value2 maxRange formatType,
    fun h => ⟨ecdl_ssh E L buffer bufSize value1 value2 maxRange h,
      dl_ssh E L buffer bufSize value1 value2 maxRange h⟩⟩

/-- Witness of C25: on the DER signature `sampleDlSignature` the two decoders
return the same pair in the format of the toolkit; in the ssh format the DLP
decoder reads `sampleSshDlSignature` as r = 2^158 and s = 2^157 while the ECC
decoder fails on it, and the ECC decoder reads `sampleSshEcdlSignature` as that
pair. -/
theorem ecdl_values_delegate_except_ssh_witness :
    decodeECDLValuesFunction byteExt sampleLimits sampleDlSignature 64 0 0
        (beValue sampleOrder) .CRYPT_FORMAT_CRYPTLIB =
      decodeDLValuesFunction byteExt sampleLimits sampleDlSignature 64 0 0
        (beValue sampleOrder) .CRYPT_FORMAT_CRYPTLIB ∧
    (decodeDLValuesFunction byteExt sampleLimits sampleDlSignature 64 0 0
        (beValue sampleOrder) .CRYPT_FORMAT_CRYPTLIB).status = CRYPT_OK ∧
    decodeDLValuesFunction byteExt sampleLimits sampleSshDlSignature 40 0 0
        (beValue sampleOrder) .CRYPT_IFORMAT_SSH = ⟨CRYPT_OK, 2 ^ 158, 2 ^ 157⟩ ∧
    cryptStatusError (decodeECDLValuesFunction byteExt sampleLimits sampleSshDlSignature 40 0 0
        (beValue sampleOrder) .CRYPT_IFORMAT_SSH).status = true ∧
    decodeECDLValuesFunction byteExt sampleLimits sampleSshEcdlSignature 48 0 0
        (beValue sampleOrder) .CRYPT_IFORMAT_SSH = ⟨CRYPT_OK, 2 ^ 158, 2 ^ 157⟩ :=
  ⟨(ecdl_values_delegate_except_ssh byteExt sampleLimits sampleDlSignature 64 0 0
      (beValue sampleOrder) .CRYPT_FORMAT_CRYPTLIB).1 (by decide),
    by decide, by decide, by decide, by decide⟩

/-- C26: in the ssh layout, with the size of the buffer in the required
range, `decodeDLValuesFunction` returns `CRYPT_OK` exactly when the validation
of the first 20 bytes of the buffer and the validation of the 20 bytes after
them both return it; then r is the big-endian value of the first 20 bytes and
s the big-endian value of the 20 bytes after them, bytes 0..19 and 20..39 of a
buffer of 40 bytes or more, both below the bound. The result is the same for
every buffer with the same first 40 bytes and every size in the required
range. -/
theorem ssh_dl_values_fixed_blocks {σ : Type} (E : Ext σ) (L : Limits) (buffer : List Nat)
    (bufSize : Int) (value1 value2 maxRange : Nat) (hE : ImportContract E)
    (hreq : bufSize ≥ 32 ∧ bufSize < (L.MAX_INTLENGTH_SHORT : Int)) :
    ((decodeDLValuesFunction E L buffer bufSize value1 value2 maxRange
        .CRYPT_IFORMAT_SSH).status = CRYPT_OK ↔
      (E.importBignum value1 (buffer.take 20) 20 L.DLPPARAM_MIN_SIG_R 20
        (some maxRange)).1 = CRYPT_OK ∧
      (E.importBignum value2 ((buffer.drop 20).take 20) 20 L.DLPPARAM_MIN_SIG_S 20
        (some maxRange)).1 = CRYPT_OK) ∧
    ((decodeDLValuesFunction E L buffer bufSize value1 value2 maxRange
        .CRYPT_IFORMAT_SSH).status = CRYPT_OK →
      (decodeDLValuesFunction E L buffer bufSize value1 value2 maxRange
        .CRYPT_IFORMAT_SSH).value1 = beValue (buffer.take 20) ∧
      (decodeDLValuesFunction E L buffer bufSize value1 value2 maxRange
        .CRYPT_IFORMAT_SSH).value2 = beValue ((buffer.drop 20).take 20) ∧
      beValue (buffer.take 20) < maxRange ∧ beValue ((buffer.drop 20).take 20) < maxRange) ∧
    (∀ (buffer2 : List Nat) (bufSize2 : Int),
      bufSize2 ≥ 32 ∧ bufSize2 < (L.MAX_INTLENGTH_SHORT : Int) →
      buffer2.take 40 = buffer.take 40 →
      decodeDLValuesFunction E L buffer2 bufSize2 value1 value2 maxRange .CRYPT_IFORMAT_SSH =
        decodeDLValuesFunction E L buffer bufSize value1 value2 maxRange .CRYPT_IFORMAT_SSH) := by
  have key : ∀ (b : List Nat) (n : Int), n ≥ 32 ∧ n < (L.MAX_INTLENGTH_SHORT : Int) →
      decodeDLValuesFunction E L b n value1 value2 maxRange .CRYPT_IFORMAT_SSH =
        (let i1 := E.importBignum value1 (b.take 20) 20 L.DLPPARAM_MIN_SIG_R 20 (some maxRange)
         let i2 := E.importBignum value2 ((b.drop 20).take 20) 20 L.DLPPARAM_MIN_SIG_S 20
           (some maxRange)
         if cryptStatusError i1.1 then ⟨i1.1, i1.2, value2⟩ else ⟨i2.1, i1.2, i2.2⟩) := by
    intro b n hn
    rw [dl_ssh E L b n value1 value2 maxRange hn]
    have e1 := hE.bytes value1 b 20 L.DLPPARAM_MIN_SIG_R 20 (some maxRange)
    have e2 := hE.bytes value2 (b.drop 20) 20 L.DLPPARAM_MIN_SIG_S 20 (some maxRange)
    have h20 : (20 : Int).toNat = 20 := rfl
    rw [h20] at e1 e2
    show (if cryptStatusError (E.importBignum value1 b 20 L.DLPPARAM_MIN_SIG_R 20
        (some maxRange)).1 then _ else _) = _
    rw [e1, e2]
  have h20 : (20 : Int).toNat = 20 := rfl
  have s1 := hE.sound value1 (buffer.take 20) 20 L.DLPPARAM_MIN_SIG_R 20 (some maxRange)
  have v1 := hE.value value1 (buffer.take 20) 20 L.DLPPARAM_MIN_SIG_R 20 (some maxRange)
  have v2 := hE.value value2 ((buffer.drop 20).take 20) 20 L.DLPPARAM_MIN_SIG_S 20
    (some maxRange)
  have l1 := hE.range value1 (buffer.take 20) 20 L.DLPPARAM_MIN_SIG_R 20 maxRange
  have l2 := hE.range value2 ((buffer.drop 20).take 20) 20 L.DLPPARAM_MIN_SIG_S 20 maxRange
  rw [h20, List.take_take, Nat.min_self] at v1 v2
  refine ⟨?_, ?_, ?_⟩
  · rw [key buffer bufSize hreq]
    by_cases h : cryptStatusError (E.importBignum value1 (buffer.take 20) 20
        L.DLPPARAM_MIN_SIG_R 20 (some maxRange)).1 = true
    · simp only [h, if_true]
      constructor
      · intro hok
        exact absurd h (ok_not_error hok)
      · intro hok
        exact absurd h (ok_not_error hok.1)
    · simp only [h, if_false]
      constructor
      · intro hok
        exact ⟨s1.resolve_right h, hok⟩
      · intro hok
        exact hok.2
  · rw [key buffer bufSize hreq]
    by_cases h : cryptStatusError (E.importBignum value1 (buffer.take 20) 20
        L.DLPPARAM_MIN_SIG_R 20 (some maxRange)).1 = true
    · simp only [h, if_true]
      intro hok
      exact absurd h (ok_not_error hok)
    · simp only [h, if_false]
      intro hok
      have h1 := s1.resolve_right h
      exact ⟨v1 h1, v2 hok, (v1 h1) ▸ l1 h1, (v2 hok) ▸ l2 hok⟩
  · intro buffer2 bufSize2 hreq2 htake
    rw [key buffer bufSize hreq, key buffer2 bufSize2 hreq2]
    have t1 : buffer2.take 20 = buffer.take 20 := by
      have := congrArg (List.take 20) htake
      rwa [List.take_take, List.take_take] at this
    have t2 : (buffer2.drop 20).take 20 = (buffer.drop 20).take 20 := by
      have := congrArg (List.drop 20) htake
      rwa [List.drop_take, List.drop_take] at this
    rw [t1, t2]

/-- Witness of C26: the 40 bytes of `sampleSshDlSignature` decode to r = 2^158
and s = 2^157, and so do these bytes followed by any others. -/
theorem ssh_dl_values_fixed_blocks_witness :
    sampleSshDlSignature.length = 40 ∧
    (decodeDLValuesFunction byteExt sampleLimits sampleSshDlSignature 40 0 0
        (beValue sampleOrder) .CRYPT_IFORMAT_SSH).status = CRYPT_OK ∧
    beValue (sampleSshDlSignature.take 20) = 2 ^ 158 ∧
    beValue ((sampleSshDlSignature.drop 20).take 20) = 2 ^ 157 ∧
    decodeDLValuesFunction byteExt sampleLimits (sampleSshDlSignature ++ [1, 2, 3]) 43 0 0
        (beValue sampleOrder) .CRYPT_IFORMAT_SSH =
      decodeDLValuesFunction byteExt sampleLimits sampleSshDlSignature 40 0 0
        (beValue sampleOrder) .CRYPT_IFORMAT_SSH :=
  have h := ssh_dl_values_fixed_blocks byteExt sampleLimits sampleSshDlSignature 40 0 0
    (beValue sampleOrder) byteExt_importContract (by decide)
  ⟨by decide, by decide, by decide, by decide,
    h.2.2 (sampleSshDlSignature ++ [1, 2, 3]) 43 (by decide) (by decide)⟩

theorem internal_not_ok : ¬ CRYPT_ERROR_INTERNAL = CRYPT_OK := by decide

theorem dl_values_checked {σ : Type} (E : Ext σ) (L : Limits) (buffer : List Nat)
    (bufSize : Int) (value1 value2 maxRange : Nat) (formatType : CRYPT_FORMAT_TYPE)
    (hR : ReaderContract E) (hI : ImportContract E)
    (hok : (decodeDLValuesFunction E L buffer bufSize value1 value2 maxRange
      formatType).status = CRYPT_OK) :
    (decodeDLValuesFunction E L buffer bufSize value1 value2 maxRange formatType).value1 <
        maxRange ∧
      (decodeDLValuesFunction E L buffer bufSize value1 value2 maxRange formatType).value2 <
        maxRange := by
  by_cases hreq : bufSize ≥ 32 ∧ bufSize < (L.MAX_INTLENGTH_SHORT : Int)
  · by_cases hc : formatType = .CRYPT_FORMAT_CRYPTLIB
    · subst hc
      rw [dl_cryptlib E L buffer bufSize value1 value2 maxRange hreq] at hok ⊢
      have c1 := hR.readBignum (E.readSequence (E.sMemConnect buffer bufSize)).stream value1
        L.DLPPARAM_MIN_SIG_R L.CRYPT_MAX_PKCSIZE (some maxRange)
      have c2 := hR.readBignum (E.readBignum (E.readSequence (E.sMemConnect buffer
        bufSize)).stream value1 L.DLPPARAM_MIN_SIG_R L.CRYPT_MAX_PKCSIZE
        (some maxRange)).stream value2 L.DLPPARAM_MIN_SIG_S L.CRYPT_MAX_PKCSIZE (some maxRange)
      by_cases h : cryptStatusError (E.readBignum (E.readSequence (E.sMemConnect buffer
        bufSize)).stream value1 L.DLPPARAM_MIN_SIG_R L.CRYPT_MAX_PKCSIZE
        (some maxRange)).status = true
      · simp only [h, if_true] at hok
        exact absurd h (ok_not_error hok)
      · simp only [h, if_false, Bool.false_eq_true] at hok ⊢
        exact ⟨contract_lt c1 (contract_ok c1 h), contract_lt c2 hok⟩
    · by_cases hp : formatType = .CRYPT_FORMAT_PGP
      · subst hp
        rw [dl_pgp E L buffer bufSize value1 value2 maxRange hreq] at hok ⊢
        have c1 := hR.readBignumInteger16Ubits (E.sMemConnect buffer bufSize) value1
          L.DLPPARAM_MIN_SIG_R (bytesToBits L.CRYPT_MAX_PKCSIZE) (some maxRange)
        have c2 := hR.readBignumInteger16Ubits (E.readBignumInteger16Ubits
          (E.sMemConnect buffer bufSize) value1 L.DLPPARAM_MIN_SIG_R
          (bytesToBits L.CRYPT_MAX_PKCSIZE) (some maxRange)).stream value2
          L.DLPPARAM_MIN_SIG_S (bytesToBits L.CRYPT_MAX_PKCSIZE) (some maxRange)
        by_cases h : cryptStatusError (E.readBignumInteger16Ubits
          (E.sMemConnect buffer bufSize) value1 L.DLPPARAM_MIN_SIG_R
          (bytesToBits L.CRYPT_MAX_PKCSIZE) (some maxRange)).status = true
        · simp only [h, if_true] at hok
          exact absurd h (ok_not_error hok)
        · simp only [h, if_false, Bool.false_eq_true] at hok ⊢
          exact ⟨contract_lt c1 (contract_ok c1 h), contract_lt c2 hok⟩
      · by_cases hs : formatType = .CRYPT_IFORMAT_SSH
        · subst hs
          rw [dl_ssh E L buffer bufSize value1 value2 maxRange hreq] at hok ⊢
          have s1 := hI.sound value1 buffer 20 L.DLPPARAM_MIN_SIG_R 20 (some maxRange)
          have l1 := hI.range value1 buffer 20 L.DLPPARAM_MIN_SIG_R 20 maxRange
          have l2 := hI.range value2 (buffer.drop 20) 20 L.DLPPARAM_MIN_SIG_S 20 maxRange
          by_cases h : cryptStatusError (E.importBignum value1 buffer 20
            L.DLPPARAM_MIN_SIG_R 20 (some maxRange)).1 = true
          · simp only [h, if_true] at hok
            exact absurd h (ok_not_error hok)
          · simp only [h, if_false, Bool.false_eq_true] at hok ⊢
            exact ⟨l1 (s1.resolve_right h), l2 hok⟩
        · unfold decodeDLValuesFunction at hok
          simp only [hreq, and_self, not_true_eq_false, if_false, hc, hp, hs] at hok
          split_ifs at hok
          · exact absurd hok internal_not_ok
          · exact absurd hok internal_not_ok
  · unfold decodeDLValuesFunction at hok
    simp only [hreq, not_false_eq_true, if_true] at hok
    exact absurd hok internal_not_ok

theorem ecdl_values_checked {σ : Type} (E : Ext σ) (L : Limits) (buffer : List Nat)
    (bufSize : Int) (value1 value2 maxRange : Nat) (formatType : CRYPT_FORMAT_TYPE)
    (hR : ReaderContract E) (hI : ImportContract E)
    (hok : (decodeECDLValuesFunction E L buffer bufSize value1 value2 maxRange
      formatType).status = CRYPT_OK) :
    (decodeECDLValuesFunction E L buffer bufSize value1 value2 maxRange formatType).value1 <
        maxRange ∧
      (decodeECDLValuesFunction E L buffer bufSize value1 value2 maxRange formatType).value2 <
        maxRange := by
  by_cases hs : formatType = .CRYPT_IFORMAT_SSH
  · subst hs
    by_cases hreq : bufSize ≥ 32 ∧ bufSize < (L.MAX_INTLENGTH_SHORT : Int)
    · rw [ecdl_ssh E L buffer bufSize value1 value2 maxRange hreq] at hok ⊢
      have c1 := hR.readBignumInteger32 (E.sMemConnect buffer bufSize) value1
        L.ECCPARAM_MIN_SIG_R L.CRYPT_MAX_PKCSIZE_ECC (some maxRange)
      have c2 := hR.readBignumInteger32 (E.readBignumInteger32 (E.sMemConnect buffer bufSize)
        value1 L.ECCPARAM_MIN_SIG_R L.CRYPT_MAX_PKCSIZE_ECC (some maxRange)).stream value2
        L.ECCPARAM_MIN_SIG_S L.CRYPT_MAX_PKCSIZE_ECC (some maxRange)
      by_cases h : cryptStatusOK (E.readBignumInteger32 (E.sMemConnect buffer bufSize)
        value1 L.ECCPARAM_MIN_SIG_R L.CRYPT_MAX_PKCSIZE_ECC (some maxRange)).status = true
      · simp only [h, if_true] at hok ⊢
        exact ⟨contract_lt c1 ((statusOK_iff _).mp h), contract_lt c2 hok⟩
      · simp only [h, if_false, Bool.false_eq_true] at hok
        exact absurd ((statusOK_iff _).mpr hok) h
    · unfold decodeECDLValuesFunction at hok
      simp only [hreq, not_false_eq_true, if_true] at hok
      exact absurd hok internal_not_ok
  · rw [ecdl_delegates E L buffer bufSize value1 value2 maxRange formatType hs] at hok ⊢
    exact dl_values_checked E L buffer bufSize value1 value2 maxRange formatType hR hI hok

theorem first_failure_error {r1 r2 : Int × Nat} {value2 : Nat} :
    firstFailure r1 r2 value2
      (if cryptStatusError r1.1 = true then ⟨r1.1, r1.2, value2⟩ else ⟨r2.1, r1.2, r2.2⟩) := by
  constructor
  · intro h
    rw [if_pos h]
  · intro h
    rw [if_neg (ok_not_error h)]

theorem first_failure_ok {r1 r2 : Int × Nat} {value2 : Nat} :
    firstFailure r1 r2 value2
      (if cryptStatusOK r1.1 = true then ⟨r2.1, r1.2, r2.2⟩ else ⟨r1.1, r1.2, value2⟩) := by
  constructor
  · intro h
    rw [if_neg (error_not_ok h)]
  · intro h
    rw [if_pos ((statusOK_iff _).mpr h)]

/-- C27: when `decodeDLValuesFunction` or `decodeECDLValuesFunction` returns
`CRYPT_OK`, in any format, r and s are both below the bound. With the size of
the buffer in the required range, in each layout (the DER sequence, the two
pgp integers, the two blocks of 20 bytes of ssh for the DLP decoder and the two
integers with a 32-bit length of ssh for the ECC decoder): when the read of r
fails its status is the result and s is as before the call, and when it returns
`CRYPT_OK` the read of s starts where the read of r stopped and its status is
the result. -/
theorem dl_values_below_bound {σ : Type} (E : Ext σ) (L : Limits) (buffer : List Nat)
    (bufSize : Int) (value1 value2 maxRange : Nat) (hR : ReaderContract E)
    (hI : ImportContract E) :
    (∀ formatType : CRYPT_FORMAT_TYPE,
      ((decodeDLValuesFunction E L buffer bufSize value1 value2 maxRange
          formatType).status = CRYPT_OK →
        (decodeDLValuesFunction E L buffer bufSize value1 value2 maxRange
          formatType).value1 < maxRange ∧
        (decodeDLValuesFunction E L buffer bufSize value1 value2 maxRange
          formatType).value2 < maxRange) ∧
      ((decodeECDLValuesFunction E L buffer bufSize value1 value2 maxRange
          formatType).status = CRYPT_OK →
        (decodeECDLValuesFunction E L buffer bufSize value1 value2 maxRange
          formatType).value1 < maxRange ∧
        (decodeECDLValuesFunction E L buffer bufSize value1 value2 maxRange
          formatType).value2 < maxRange)) ∧
    (bufSize ≥ 32 ∧ bufSize < (L.MAX_INTLENGTH_SHORT : Int) →
      (let sq := E.readSequence (E.sMemConnect buffer bufSize)
       let r1 := E.readBignum sq.stream value1 L.DLPPARAM_MIN_SIG_R L.CRYPT_MAX_PKCSIZE
         (some maxRange)
       let r2 := E.readBignum r1.stream value2 L.DLPPARAM_MIN_SIG_S L.CRYPT_MAX_PKCSIZE
         (some maxRange)
       firstFailure (r1.status, r1.value) (r2.status, r2.value) value2
         (decodeDLValuesFunction E L buffer bufSize value1 value2 maxRange
           .CRYPT_FORMAT_CRYPTLIB)) ∧
      (let r1 := E.readBignumInteger16Ubits (E.sMemConnect buffer bufSize) value1
         L.DLPPARAM_MIN_SIG_R (bytesToBits L.CRYPT_MAX_PKCSIZE) (some maxRange)
       let r2 := E.readBignumInteger16Ubits r1.stream value2 L.DLPPARAM_MIN_SIG_S
         (bytesToBits L.CRYPT_MAX_PKCSIZE) (some maxRange)
       firstFailure (r1.status, r1.value) (r2.status, r2.value) value2
         (decodeDLValuesFunction E L buffer bufSize value1 value2 maxRange
           .CRYPT_FORMAT_PGP)) ∧
      firstFailure (E.importBignum value1 buffer 20 L.DLPPARAM_MIN_SIG_R 20 (some maxRange))
        (E.importBignum value2 (buffer.drop 20) 20 L.DLPPARAM_MIN_SIG_S 20 (some maxRange))
        value2
        (decodeDLValuesFunction E L buffer bufSize value1 value2 maxRange
          .CRYPT_IFORMAT_SSH) ∧
      (let r1 := E.readBignumInteger32 (E.sMemConnect buffer bufSize) value1
         L.ECCPARAM_MIN_SIG_R L.CRYPT_MAX_PKCSIZE_ECC (some maxRange)
       let r2 := E.readBignumInteger32 r1.stream value2 L.ECCPARAM_MIN_SIG_S
         L.CRYPT_MAX_PKCSIZE_ECC (some maxRange)
       firstFailure (r1.status, r1.value) (r2.status, r2.value) value2
         (decodeECDLValuesFunction E L buffer bufSize value1 value2 maxRange
           .CRYPT_IFORMAT_SSH))) := by
  refine ⟨fun formatType =>
    ⟨dl_values_checked E L buffer bufSize value1 value2 maxRange formatType hR hI,
      ecdl_values_checked E L buffer bufSize value1 value2 maxRange formatType hR hI⟩, ?_⟩
  intro hreq
  refine ⟨?_, ?_, ?_, ?_⟩
  · rw [dl_cryptlib E L buffer bufSize value1 value2 maxRange hreq]
    exact first_failure_error
  · rw [dl_pgp E L buffer bufSize value1 value2 maxRange hreq]
    exact first_failure_error
  · rw [dl_ssh E L buffer bufSize value1 value2 maxRange hreq]
    exact first_failure_error
  · rw [ecdl_ssh E L buffer bufSize value1 value2 maxRange hreq]
    exact first_failure_ok

/-- Witness of C27: the pair of `sampleDlSignature` decodes with both integers
below the order, and so does the ssh pair of `sampleSshEcdlSignature` with the
ECC decoder; on `sampleSshDlSignature` the ECC decoder fails in the read of r
and leaves s, here 7, as it was. -/
theorem dl_values_below_bound_witness :
    (decodeDLValuesFunction byteExt sampleLimits sampleDlSignature 64 0 0
        (beValue sampleOrder) .CRYPT_FORMAT_CRYPTLIB).status = CRYPT_OK ∧
    ((decodeDLValuesFunction byteExt sampleLimits sampleDlSignature 64 0 0
        (beValue sampleOrder) .CRYPT_FORMAT_CRYPTLIB).value1 < beValue sampleOrder ∧
      (decodeDLValuesFunction byteExt sampleLimits sampleDlSignature 64 0 0
        (beValue sampleOrder) .CRYPT_FORMAT_CRYPTLIB).value2 < beValue sampleOrder) ∧
    ((decodeECDLValuesFunction byteExt sampleLimits sampleSshEcdlSignature 48 0 0
        (beValue sampleOrder) .CRYPT_IFORMAT_SSH).value1 < beValue sampleOrder ∧
      (decodeECDLValuesFunction byteExt sampleLimits sampleSshEcdlSignature 48 0 0
        (beValue sampleOrder) .CRYPT_IFORMAT_SSH).value2 < beValue sampleOrder) ∧
    decodeECDLValuesFunction byteExt sampleLimits sampleSshDlSignature 40 0 7
        (beValue sampleOrder) .CRYPT_IFORMAT_SSH = ⟨CRYPT_ERROR_UNDERFLOW, 0, 7⟩ :=
  ⟨by decide,
    ((dl_values_below_bound byteExt sampleLimits sampleDlSignature 64 0 0 (beValue sampleOrder)
      byteExt_readerContract byteExt_importContract).1 .CRYPT_FORMAT_CRYPTLIB).1 (by decide),
    ((dl_values_below_bound byteExt sampleLimits sampleSshEcdlSignature 48 0 0
      (beValue sampleOrder) byteExt_readerContract byteExt_importContract).1
      .CRYPT_IFORMAT_SSH).2 (by decide),
    by decide⟩

theorem ssl_curve_scan (srcValue destValue : Int) :
    mapValue srcValue destValue getEccSslInfoTbl.2.1 getEccSslInfoTbl.2.2 =
      if srcValue = 19 then (CRYPT_OK, CRYPT_ECCCURVE_P192)
      else if srcValue = 21 then (CRYPT_OK, CRYPT_ECCCURVE_P224)
      else if srcValue = 23 then (CRYPT_OK, CRYPT_ECCCURVE_P256)
      else if srcValue = 24 then (CRYPT_OK, CRYPT_ECCCURVE_P384)
      else if srcValue = 25 then (CRYPT_OK, CRYPT_ECCCURVE_P521)
      else if srcValue = 26 then (CRYPT_OK, CRYPT_ECCCURVE_BRAINPOOL_P256)
      else if srcValue = 27 then (CRYPT_OK, CRYPT_ECCCURVE_BRAINPOOL_P384)
      else if srcValue = 28 then (CRYPT_OK, CRYPT_ECCCURVE_BRAINPOOL_P512)
      else (CRYPT_ERROR_NOTAVAIL, destValue) := by
  have hl : (getEccSslInfoTbl.2.1.take getEccSslInfoTbl.2.2.toNat).takeWhile
      (fun e => e.source ≠ CRYPT_ERROR) =
      [⟨19, CRYPT_ECCCURVE_P192⟩, ⟨21, CRYPT_ECCCURVE_P224⟩, ⟨23, CRYPT_ECCCURVE_P256⟩,
       ⟨24, CRYPT_ECCCURVE_P384⟩, ⟨25, CRYPT_ECCCURVE_P521⟩,
       ⟨26, CRYPT_ECCCURVE_BRAINPOOL_P256⟩, ⟨27, CRYPT_ECCCURVE_BRAINPOOL_P384⟩,
       ⟨28, CRYPT_ECCCURVE_BRAINPOOL_P512⟩] := by decide
  unfold mapValue
  rw [hl]
  by_cases h19 : srcValue = 19
  · subst h19; rfl
  by_cases h21 : srcValue = 21
  · subst h21; rfl
  by_cases h23 : srcValue = 23
  · subst h23; rfl
  by_cases h24 : srcValue = 24
  · subst h24; rfl
  by_cases h25 : srcValue = 25
  · subst h25; rfl
  by_cases h26 : srcValue = 26
  · subst h26; rfl
  by_cases h27 : srcValue = 27
  · subst h27; rfl
  by_cases h28 : srcValue = 28
  · subst h28; rfl
  simp only [h19, h21, h23, h24, h25, h26, h27, h28, if_false]
  have e19 : ¬ (19 : Int) = srcValue := fun h => h19 h.symm
  have e21 : ¬ (21 : Int) = srcValue := fun h => h21 h.symm
  have e23 : ¬ (23 : Int) = srcValue := fun h => h23 h.symm
  have e24 : ¬ (24 : Int) = srcValue := fun h => h24 h.symm
  have e25 : ¬ (25 : Int) = srcValue := fun h => h25 h.symm
  have e26 : ¬ (26 : Int) = srcValue := fun h => h26 h.symm
  have e27 : ¬ (27 : Int) = srcValue := fun h => h27 h.symm
  have e28 : ¬ (28 : Int) = srcValue := fun h => h28 h.symm
  simp only [List.find?, e19, e21, e23, e24, e25, e26, e27, e28, decide_False]

theorem ssl_ecc_result {σ : Type} (E : Ext σ) (L : Limits) (s : σ) (ctx : CONTEXT_INFO)
    (af : Nat) (hctx : ctx.type = .CONTEXT_PKC ∧ ctx.cryptAlgo = .CRYPT_ALGO_ECDH)
    (hct : (E.sgetc s).status = 0x03)
    (hnc : cryptStatusError (E.readUint16 (E.sgetc s).stream).status = false) :
    readSslEccPublicKey E L s ctx af =
      (let nc := E.readUint16 (E.sgetc s).stream
       let mv := E.mapValue nc.status DUMMY_INIT getEccSslInfoTbl.2.1 getEccSslInfoTbl.2.2
       if cryptStatusError mv.1 then ⟨mv.1, permInternalCrypt, nc.stream, ctx⟩
       else ⟨CRYPT_OK, permInternalCrypt, nc.stream,
         { ctx with ctxPKC := { ctx.ctxPKC with curveType := mv.2 } }⟩) := by
  have h3 : cryptStatusError (3 : Int) = false := by decide
  have htbl : cryptStatusError getEccSslInfoTbl.1 = false := by decide
  unfold readSslEccPublicKey
  simp only [hctx, and_self, not_true_eq_false, if_false, hct, h3, hnc, htbl, ne_eq,
    Bool.false_eq_true]
  rfl

/-- C21: in an ECDH context, when the first byte is read and is not 0x03 the
ssl ECC decoder returns `CRYPT_ERROR_BADDATA` with the key as before. When it
is 0x03 and the 16-bit code is read, with `mapValue` the linear scan, each of
the codes 19, 21, 23, 24, 25, 26, 27, 28 gives `CRYPT_OK` with the curve
selector P-192, P-224, P-256, P-384, P-521, Brainpool P-256, Brainpool P-384,
Brainpool P-512 stored in the key, and every other code gives
`CRYPT_ERROR_NOTAVAIL` with the key as before. The entries of `sslCurveInfo`
before its end marker are these 8, with distinct codes and distinct curves. -/
theorem ssl_ecc_curve_table {σ : Type} (E : Ext σ) (L : Limits) (s : σ) (ctx : CONTEXT_INFO)
    (af : Nat) (hM : MapContract E)
    (hctx : ctx.type = .CONTEXT_PKC ∧ ctx.cryptAlgo = .CRYPT_ALGO_ECDH) :
    (cryptStatusError (E.sgetc s).status = false → (E.sgetc s).status ≠ 0x03 →
      readSslEccPublicKey E L s ctx af =
        ⟨CRYPT_ERROR_BADDATA, permInternalCrypt, (E.sgetc s).stream, ctx⟩) ∧
    ((E.sgetc s).status = 0x03 →
      cryptStatusError (E.readUint16 (E.sgetc s).stream).status = false →
      (∀ e ∈ [((19 : Int), CRYPT_ECCCURVE_P192), (21, CRYPT_ECCCURVE_P224),
          (23, CRYPT_ECCCURVE_P256), (24, CRYPT_ECCCURVE_P384), (25, CRYPT_ECCCURVE_P521),
          (26, CRYPT_ECCCURVE_BRAINPOOL_P256), (27, CRYPT_ECCCURVE_BRAINPOOL_P384),
          (28, CRYPT_ECCCURVE_BRAINPOOL_P512)],
        (E.readUint16 (E.sgetc s).stream).status = e.1 →
        readSslEccPublicKey E L s ctx af =
          ⟨CRYPT_OK, permInternalCrypt, (E.readUint16 (E.sgetc s).stream).stream,
            { ctx with ctxPKC := { ctx.ctxPKC with curveType := e.2 } }⟩) ∧
      ((E.readUint16 (E.sgetc s).stream).status ∉ [(19 : Int), 21, 23, 24, 25, 26, 27, 28] →
        readSslEccPublicKey E L s ctx af =
          ⟨CRYPT_ERROR_NOTAVAIL, permInternalCrypt, (E.readUint16 (E.sgetc s).stream).stream,
            ctx⟩)) ∧
    ((getEccSslInfoTbl.2.1.take getEccSslInfoTbl.2.2.toNat).takeWhile
        (fun e => e.source ≠ CRYPT_ERROR)).map (fun e => (e.source, e.destination)) =
      [(19, CRYPT_ECCCURVE_P192), (21, CRYPT_ECCCURVE_P224), (23, CRYPT_ECCCURVE_P256),
       (24, CRYPT_ECCCURVE_P384), (25, CRYPT_ECCCURVE_P521),
       (26, CRYPT_ECCCURVE_BRAINPOOL_P256), (27, CRYPT_ECCCURVE_BRAINPOOL_P384),
       (28, CRYPT_ECCCURVE_BRAINPOOL_P512)] ∧
    (sslCurveInfo.filter (fun e => e.source ≠ CRYPT_ERROR)).length = 8 ∧
    ((sslCurveInfo.filter (fun e => e.source ≠ CRYPT_ERROR)).map
      (fun e => e.source)).Nodup ∧
    ((sslCurveInfo.filter (fun e => e.source ≠ CRYPT_ERROR)).map
      (fun e => e.destination)).Nodup := by
  refine ⟨?_, ?_, by decide, by decide, by decide, by decide⟩
  · intro hct hne
    unfold readSslEccPublicKey
    simp only [hctx, and_self, not_true_eq_false, if_false, hct, ne_eq, hne, not_false_eq_true,
      if_true, Bool.false_eq_true]
    rfl
  · intro hct hnc
    have hres := ssl_ecc_result E L s ctx af hctx hct hnc
    have hscan := fun d => (hM (E.readUint16 (E.sgetc s).stream).status d
      getEccSslInfoTbl.2.1 getEccSslInfoTbl.2.2).trans (ssl_curve_scan _ d)
    constructor
    · intro e he hcode
      rw [hres]
      show (if cryptStatusError (E.mapValue (E.readUint16 (E.sgetc s).stream).status DUMMY_INIT
        getEccSslInfoTbl.2.1 getEccSslInfoTbl.2.2).1 = true then _ else _) = _
      rw [hscan, hcode]
      simp only [List.mem_cons, List.mem_singleton, List.not_mem_nil, or_false] at he
      rcases he with rfl | rfl | rfl | rfl | rfl | rfl | rfl | rfl <;> rfl
    · intro hcode
      rw [hres]
      show (if cryptStatusError (E.mapValue (E.readUint16 (E.sgetc s).stream).status DUMMY_INIT
        getEccSslInfoTbl.2.1 getEccSslInfoTbl.2.2).1 = true then _ else _) = _
      rw [hscan]
      simp only [List.mem_cons, List.mem_singleton, List.not_mem_nil, or_false, not_or] at hcode
      obtain ⟨h19, h21, h23, h24, h25, h26, h27, h28⟩ := hcode
      simp only [h19, h21, h23, h24, h25, h26, h27, h28, if_false]
      rfl

/-- Witness of C21: the sample with the code 23 decodes to the curve P-256, the
code 20 is not available, and the curve type byte 2 is bad data. -/
theorem ssl_ecc_curve_table_witness :
    readSslEccPublicKey byteExt sampleLimits (sMemConnect sampleSslEcdh)
        (sampleContext .CRYPT_ALGO_ECDH) 0 =
      ⟨CRYPT_OK, permInternalCrypt, (sMemConnect sampleSslEcdh).sgetc.stream.readUint16.stream,
        { sampleContext .CRYPT_ALGO_ECDH with
          ctxPKC := { emptyKey with curveType := CRYPT_ECCCURVE_P256 } }⟩ ∧
    readSslEccPublicKey byteExt sampleLimits (sMemConnect [0x03, 0x00, 0x14])
        (sampleContext .CRYPT_ALGO_ECDH) 0 =
      ⟨CRYPT_ERROR_NOTAVAIL, permInternalCrypt,
        (sMemConnect [0x03, 0x00, 0x14]).sgetc.stream.readUint16.stream,
        sampleContext .CRYPT_ALGO_ECDH⟩ ∧
    readSslEccPublicKey byteExt sampleLimits (sMemConnect [0x02, 0x00, 0x17])
        (sampleContext .CRYPT_ALGO_ECDH) 0 =
      ⟨CRYPT_ERROR_BADDATA, permInternalCrypt, (sMemConnect [0x02, 0x00, 0x17]).sgetc.stream,
        sampleContext .CRYPT_ALGO_ECDH⟩ :=
  have h1 := (ssl_ecc_curve_table byteExt sampleLimits (sMemConnect sampleSslEcdh)
    (sampleContext .CRYPT_ALGO_ECDH) 0 (fun _ _ _ _ => rfl) (by decide)).2.1
    (by decide) (by decide)
  have h2 := (ssl_ecc_curve_table byteExt sampleLimits (sMemConnect [0x03, 0x00, 0x14])
    (sampleContext .CRYPT_ALGO_ECDH) 0 (fun _ _ _ _ => rfl) (by decide)).2.1
    (by decide) (by decide)
  have h3 := (ssl_ecc_curve_table byteExt sampleLimits (sMemConnect [0x02, 0x00, 0x17])
    (sampleContext .CRYPT_ALGO_ECDH) 0 (fun _ _ _ _ => rfl) (by decide)).1
    (by decide) (by decide)
  ⟨h1.1 (23, CRYPT_ECCCURVE_P256) (by decide) (by decide), h2.2 (by decide), h3⟩

theorem ecdsa_not_ecdh : decide (CRYPT_ALGO_TYPE.CRYPT_ALGO_ECDSA =
    CRYPT_ALGO_TYPE.CRYPT_ALGO_ECDH) = false := by decide

theorem ssh_ecc_short_name {σ : Type} (E : Ext σ) (L : Limits) (s : σ) (ctx : CONTEXT_INFO)
    (af : Nat) (hctx : ctx.type = .CONTEXT_PKC ∧ ctx.cryptAlgo = .CRYPT_ALGO_ECDSA)
    (hname : cryptStatusError (sshEccName E L s).status = false)
    (hlen : (sshEccName E L s).value.2 < 18) :
    readSshEccPublicKey E L s ctx af =
      ⟨CRYPT_ERROR_BADDATA, permInternalVerify, (sshEccName E L s).stream, ctx⟩ := by
  unfold sshEccName at hname hlen
  unfold readSshEccPublicKey
  simp only [hctx, and_self, not_true_eq_false, if_false, hname, hlen, if_true,
    Bool.false_eq_true, ecdsa_not_ecdh]
  rfl

theorem ssh_ecc_wrong_prefix {σ : Type} (E : Ext σ) (L : Limits) (s : σ) (ctx : CONTEXT_INFO)
    (af : Nat) (hctx : ctx.type = .CONTEXT_PKC ∧ ctx.cryptAlgo = .CRYPT_ALGO_ECDSA)
    (hname : cryptStatusError (sshEccName E L s).status = false)
    (hlen : ¬ (sshEccName E L s).value.2 < 18)
    (hpre : memcmp (sshEccName E L s).value.1 (cstr "ecdsa-sha2-") 11 ≠ 0) :
    readSshEccPublicKey E L s ctx af =
      ⟨CRYPT_ERROR_BADDATA, permInternalVerify, (sshEccName E L s).stream, ctx⟩ := by
  unfold sshEccName at hname hlen hpre
  unfold readSshEccPublicKey
  simp only [hctx, and_self, not_true_eq_false, if_false, hname, hlen, if_true,
    Bool.false_eq_true, ecdsa_not_ecdh, Bool.false_and, Bool.not_false, Bool.true_and,
    ne_eq, hpre, not_false_eq_true, decide_True]
  rfl

theorem ssh_ecc_curve_length {σ : Type} (E : Ext σ) (L : Limits) (s : σ) (ctx : CONTEXT_INFO)
    (af : Nat) (hctx : ctx.type = .CONTEXT_PKC ∧ ctx.cryptAlgo = .CRYPT_ALGO_ECDSA)
    (hname : sshEccNameAccepted E L s)
    (hcurve : cryptStatusError (sshEccCurve E L s).status = false)
    (hlen : (sshEccCurve E L s).value.2 ≠ 8) :
    readSshEccPublicKey E L s ctx af =
      ⟨CRYPT_ERROR_NOTAVAIL, permInternalVerify, (sshEccCurve E L s).stream, ctx⟩ := by
  obtain ⟨hn1, hn2, hn3⟩ := hname
  unfold sshEccCurve at hcurve hlen
  unfold sshEccName at hn1 hn2 hn3 hcurve hlen
  unfold readSshEccPublicKey
  simp only [hctx, and_self, not_true_eq_false, if_false, hn1, hn2, hn3, if_true,
    Bool.false_eq_true, ecdsa_not_ecdh, Bool.false_and, Bool.not_false, Bool.true_and,
    ne_eq, not_false_eq_true, decide_True, decide_False, hcurve, hlen, decide_not,
    Bool.not_true]
  rfl

theorem ssh_ecc_unknown_curve {σ : Type} (E : Ext σ) (L : Limits) (s : σ) (ctx : CONTEXT_INFO)
    (af : Nat) (hctx : ctx.type = .CONTEXT_PKC ∧ ctx.cryptAlgo = .CRYPT_ALGO_ECDSA)
    (hname : sshEccNameAccepted E L s) (hcurve : sshEccCurveRead E L s)
    (hsel : sshEccSelector (sshEccCurve E L s).value.1 = none) :
    readSshEccPublicKey E L s ctx af =
      ⟨CRYPT_ERROR_NOTAVAIL, permInternalVerify, (sshEccCurve E L s).stream, ctx⟩ := by
  obtain ⟨hn1, hn2, hn3⟩ := hname
  obtain ⟨hc1, hc2⟩ := hcurve
  have hm : memcmp (sshEccCurve E L s).value.1 (cstr "nistp256") 8 ≠ 0 ∧
      memcmp (sshEccCurve E L s).value.1 (cstr "nistp384") 8 ≠ 0 ∧
      memcmp (sshEccCurve E L s).value.1 (cstr "nistp521") 8 ≠ 0 := by
    unfold sshEccSelector at hsel
    by_cases h1 : memcmp (sshEccCurve E L s).value.1 (cstr "nistp256") 8 = 0
    · rw [if_pos h1] at hsel
      exact absurd hsel (by simp)
    · rw [if_neg h1] at hsel
      by_cases h2 : memcmp (sshEccCurve E L s).value.1 (cstr "nistp384") 8 = 0
      · rw [if_pos h2] at hsel
        exact absurd hsel (by simp)
      · rw [if_neg h2] at hsel
        by_cases h3 : memcmp (sshEccCurve E L s).value.1 (cstr "nistp521") 8 = 0
        · rw [if_pos h3] at hsel
          exact absurd hsel (by simp)
        · exact ⟨h1, h2, h3⟩
  unfold sshEccCurve at hc1 hc2 hm
  unfold sshEccName at hn1 hn2 hn3 hc1 hc2 hm
  unfold readSshEccPublicKey
  simp only [hctx, and_self, not_true_eq_false, if_false, hn1, hn2, hn3, if_true,
    Bool.false_eq_true, ecdsa_not_ecdh, Bool.false_and, Bool.not_false, Bool.true_and,
    ne_eq, not_false_eq_true, decide_True, decide_False, hc1, hc2, decide_not,
    Bool.not_true, hm]
  rfl

theorem ssh_ecc_resolved {σ : Type} (E : Ext σ) (L : Limits) (s : σ) (ctx : CONTEXT_INFO)
    (af : Nat) (c : Int) (hctx : ctx.type = .CONTEXT_PKC ∧ ctx.cryptAlgo = .CRYPT_ALGO_ECDSA)
    (hname : sshEccNameAccepted E L s) (hcurve : sshEccCurveRead E L s)
    (hsel : sshEccSelector (sshEccCurve E L s).value.1 = some c) :
    readSshEccPublicKey E L s ctx af =
      (let fs := E.getECCFieldSize c DUMMY_INIT
       let pb := sshEccPoint E L s
       if cryptStatusError fs.1 then
         ⟨fs.1, permInternalVerify, (sshEccCurve E L s).stream,
           { ctx with ctxPKC := { ctx.ctxPKC with curveType := c } }⟩
       else if cryptStatusError pb.status then
         ⟨pb.status, permInternalVerify, pb.stream,
           { ctx with ctxPKC := { ctx.ctxPKC with curveType := c } }⟩
       else if pb.value.2 < (L.MIN_PKCSIZE_ECCPOINT_THRESHOLD : Int) ∨
           pb.value.2 > (L.MAX_PKCSIZE_ECCPOINT : Int) then
         ⟨CRYPT_ERROR_BADDATA, permInternalVerify, pb.stream,
           { ctx with ctxPKC := { ctx.ctxPKC with curveType := c } }⟩
       else
         let pt := E.importECCPoint (ctx.ctxPKC.eccParam_qx, ctx.ctxPKC.eccParam_qy)
           pb.value.1 pb.value.2 L.MIN_PKCSIZE_ECC_THRESHOLD L.CRYPT_MAX_PKCSIZE_ECC fs.2
         ⟨pt.1, permInternalVerify, pb.stream,
           { ctx with ctxPKC := { ctx.ctxPKC with
               curveType := c, eccParam_qx := pt.2.1, eccParam_qy := pt.2.2 } }⟩) := by
  obtain ⟨hn1, hn2, hn3⟩ := hname
  obtain ⟨hc1, hc2⟩ := hcurve
  have hm : ¬ (memcmp (sshEccCurve E L s).value.1 (cstr "nistp256") 8 ≠ 0 ∧
      memcmp (sshEccCurve E L s).value.1 (cstr "nistp384") 8 ≠ 0 ∧
      memcmp (sshEccCurve E L s).value.1 (cstr "nistp521") 8 ≠ 0) := by
    rintro ⟨h1, h2, h3⟩
    unfold sshEccSelector at hsel
    rw [if_neg h1, if_neg h2, if_neg h3] at hsel
    exact absurd hsel (by simp)
  have hcv : (if memcmp (sshEccCurve E L s).value.1 (cstr "nistp256") 8 = 0
      then CRYPT_ECCCURVE_P256
      else if memcmp (sshEccCurve E L s).value.1 (cstr "nistp384") 8 = 0
      then CRYPT_ECCCURVE_P384 else CRYPT_ECCCURVE_P521) = c := by
    unfold sshEccSelector at hsel
    by_cases h1 : memcmp (sshEccCurve E L s).value.1 (cstr "nistp256") 8 = 0
    · rw [if_pos h1] at hsel ⊢
      exact Option.some.inj hsel
    · rw [if_neg h1] at hsel ⊢
      by_cases h2 : memcmp (sshEccCurve E L s).value.1 (cstr "nistp384") 8 = 0
      · rw [if_pos h2] at hsel ⊢
        exact Option.some.inj hsel
      · rw [if_neg h2] at hsel ⊢
        by_cases h3 : memcmp (sshEccCurve E L s).value.1 (cstr "nistp521") 8 = 0
        · rw [if_pos h3] at hsel
          exact Option.some.inj hsel
        · rw [if_neg h3] at hsel
          exact absurd hsel (by simp)
  unfold sshEccPoint
  unfold sshEccCurve at hc1 hc2 hm hcv ⊢
  unfold sshEccName at hn1 hn2 hn3 hc1 hc2 hm hcv ⊢
  unfold readSshEccPublicKey
  simp only [hctx, and_self, not_true_eq_false, if_false, hn1, hn2, hn3, if_true,
    Bool.false_eq_true, ecdsa_not_ecdh, Bool.false_and, Bool.not_false, Bool.true_and,
    not_false_eq_true, decide_True, decide_False, hc1, hc2, decide_not,
    Bool.not_true, hm, hcv]
  rfl

theorem memcmp_eq_zero (buffer literal : List Nat) (n : Nat) :
    memcmp buffer literal n = 0 ↔ buffer.take n = literal.take n := by
  unfold memcmp
  by_cases h : buffer.take n = literal.take n
  · simp [h]
  · simp [h]

theorem ssh_ecc_selector (buffer : List Nat) :
    sshEccSelector buffer =
      if buffer.take 8 = cstr "nistp256" then some CRYPT_ECCCURVE_P256
      else if buffer.take 8 = cstr "nistp384" then some CRYPT_ECCCURVE_P384
      else if buffer.take 8 = cstr "nistp521" then some CRYPT_ECCCURVE_P521
      else none := by
  have h1 : (cstr "nistp256").take 8 = cstr "nistp256" := by decide
  have h2 : (cstr "nistp384").take 8 = cstr "nistp384" := by decide
  have h3 : (cstr "nistp521").take 8 = cstr "nistp521" := by decide
  unfold sshEccSelector
  simp only [memcmp_eq_zero, h1, h2, h3]

/-- C22: in an ECDSA context, after an accepted algorithm name and a curve name
of 8 bytes read without an error, the ssh ECC decoder stores the selector of
P-256 for the name "nistp256", of P-384 for "nistp384" and of P-521 for
"nistp521"; for every other name it returns `CRYPT_ERROR_NOTAVAIL` with the
stream where the read of the curve name left it and the key as before, so the
point is neither read nor imported. -/
theorem ssh_ecc_curve_names {σ : Type} (E : Ext σ) (L : Limits) (s : σ) (ctx : CONTEXT_INFO)
    (af : Nat) (hctx : ctx.type = .CONTEXT_PKC ∧ ctx.cryptAlgo = .CRYPT_ALGO_ECDSA)
    (hname : sshEccNameAccepted E L s) (hcurve : sshEccCurveRead E L s) :
    (∀ e ∈ [(cstr "nistp256", CRYPT_ECCCURVE_P256), (cstr "nistp384", CRYPT_ECCCURVE_P384),
          (cstr "nistp521", CRYPT_ECCCURVE_P521)],
      (sshEccCurve E L s).value.1.take 8 = e.1 →
      (readSshEccPublicKey E L s ctx af).ctx.ctxPKC.curveType = e.2) ∧
    ((sshEccCurve E L s).value.1.take 8 ∉
        [cstr "nistp256", cstr "nistp384", cstr "nistp521"] →
      readSshEccPublicKey E L s ctx af =
        ⟨CRYPT_ERROR_NOTAVAIL, permInternalVerify, (sshEccCurve E L s).stream, ctx⟩) := by
  constructor
  · intro e he hb
    have hsel : sshEccSelector (sshEccCurve E L s).value.1 = some e.2 := by
      rw [ssh_ecc_selector, hb]
      simp only [List.mem_cons, List.mem_singleton, List.not_mem_nil, or_false] at he
      rcases he with rfl | rfl | rfl <;> decide
    rw [ssh_ecc_resolved E L s ctx af e.2 hctx hname hcurve hsel]
    show (if _ then _ else if _ then _ else if _ then _ else _ :
      LeafResult σ).ctx.ctxPKC.curveType = _
    split_ifs <;> rfl
  · intro hb
    simp only [List.mem_cons, List.mem_singleton, List.not_mem_nil, or_false, not_or] at hb
    have hsel : sshEccSelector (sshEccCurve E L s).value.1 = none := by
      rw [ssh_ecc_selector, if_neg hb.1, if_neg hb.2.1, if_neg hb.2.2]
    exact ssh_ecc_unknown_curve E L s ctx af hctx hname hcurve hsel

/-- Witness of C22: the sample ECDSA key with the curve name "nistp256" gets the
selector of P-256, and with the curve name "nistp224" the decoder returns
`CRYPT_ERROR_NOTAVAIL` with the stream at the start of the point. -/
theorem ssh_ecc_curve_names_witness :
    (readSshEccPublicKey byteExt sampleLimits (sMemConnect sampleSshEcdsa)
      (sampleContext .CRYPT_ALGO_ECDSA) 0).ctx.ctxPKC.curveType = CRYPT_ECCCURVE_P256 ∧
    (readSshEccPublicKey byteExt sampleLimits (sMemConnect sampleSshEcdsa)
      (sampleContext .CRYPT_ALGO_ECDSA) 0).status = CRYPT_OK ∧
    (readSshEccPublicKey byteExt sampleLimits
      (sMemConnect (sshEccKey (cstr "ecdsa-sha2-nistp224") (cstr "nistp224") sampleP256Point))
      (sampleContext .CRYPT_ALGO_ECDSA) 0).status = CRYPT_ERROR_NOTAVAIL ∧
    (readSshEccPublicKey byteExt sampleLimits
      (sMemConnect (sshEccKey (cstr "ecdsa-sha2-nistp224") (cstr "nistp224") sampleP256Point))
      (sampleContext .CRYPT_ALGO_ECDSA) 0).stream.bufPos = 39 ∧
    (readSshEccPublicKey byteExt sampleLimits
      (sMemConnect (sshEccKey (cstr "ecdsa-sha2-nistp224") (cstr "nistp224") sampleP256Point))
      (sampleContext .CRYPT_ALGO_ECDSA) 0).ctx.ctxPKC = emptyKey :=
  have h1 := (ssh_ecc_curve_names byteExt sampleLimits (sMemConnect sampleSshEcdsa)
    (sampleContext .CRYPT_ALGO_ECDSA) 0 (by decide) (by unfold sshEccNameAccepted; decide)
    (by unfold sshEccCurveRead; decide)).1 (cstr "nistp256", CRYPT_ECCCURVE_P256)
    (by decide) (by decide)
  have h2 := (ssh_ecc_curve_names byteExt sampleLimits
    (sMemConnect (sshEccKey (cstr "ecdsa-sha2-nistp224") (cstr "nistp224") sampleP256Point))
    (sampleContext .CRYPT_ALGO_ECDSA) 0 (by decide) (by unfold sshEccNameAccepted; decide)
    (by unfold sshEccCurveRead; decide)).2 (by decide)
  ⟨h1, by decide, congrArg LeafResult.status h2,
    (congrArg (fun r => r.stream.bufPos) h2).trans (by decide),
    congrArg (fun r => r.ctx.ctxPKC) h2⟩

/-- C23 fails for a curve name of the wrong length: on an ECDSA key in the ssh
format with the algorithm name "ecdsa-sha2-nistp256" and the curve name
"nistp25" of 7 bytes the decoder returns `CRYPT_ERROR_NOTAVAIL`, not
`CRYPT_ERROR_BADDATA`. -/
theorem ssh_ecc_short_curve_name_not_available :
    (readSshEccPublicKey byteExt sampleLimits
      (sMemConnect (sshEccKey (cstr "ecdsa-sha2-nistp256") (cstr "nistp25") sampleP256Point))
      (sampleContext .CRYPT_ALGO_ECDSA) 0).status = CRYPT_ERROR_NOTAVAIL ∧
    (readSshEccPublicKey byteExt sampleLimits
      (sMemConnect (sshEccKey (cstr "ecdsa-sha2-nistp256") (cstr "nistp25") sampleP256Point))
      (sampleContext .CRYPT_ALGO_ECDSA) 0).status ≠ CRYPT_ERROR_BADDATA := by
  decide

/-- C23 as the code has it: in an ECDSA context the ssh ECC decoder returns
`CRYPT_ERROR_BADDATA` for an algorithm name that is read and is shorter than 18
bytes or does not start with "ecdsa-sha2-"; after an accepted algorithm name it
returns `CRYPT_ERROR_NOTAVAIL` for a curve name that is read and does not have
8 bytes, and for a curve name of 8 bytes that is none of the three names. In
each case the key is as before the call. -/
theorem ssh_ecc_name_errors {σ : Type} (E : Ext σ) (L : Limits) (s : σ) (ctx : CONTEXT_INFO)
    (af : Nat) (hctx : ctx.type = .CONTEXT_PKC ∧ ctx.cryptAlgo = .CRYPT_ALGO_ECDSA) :
    (cryptStatusError (sshEccName E L s).status = false →
      (sshEccName E L s).value.2 < 18 ∨
        (sshEccName E L s).value.1.take 11 ≠ cstr "ecdsa-sha2-" →
      readSshEccPublicKey E L s ctx af =
        ⟨CRYPT_ERROR_BADDATA, permInternalVerify, (sshEccName E L s).stream, ctx⟩) ∧
    (sshEccNameAccepted E L s → cryptStatusError (sshEccCurve E L s).status = false →
      (sshEccCurve E L s).value.2 ≠ 8 →
      readSshEccPublicKey E L s ctx af =
        ⟨CRYPT_ERROR_NOTAVAIL, permInternalVerify, (sshEccCurve E L s).stream, ctx⟩) ∧
    (sshEccNameAccepted E L s → sshEccCurveRead E L s →
      (sshEccCurve E L s).value.1.take 8 ∉
        [cstr "nistp256", cstr "nistp384", cstr "nistp521"] →
      readSshEccPublicKey E L s ctx af =
        ⟨CRYPT_ERROR_NOTAVAIL, permInternalVerify, (sshEccCurve E L s).stream, ctx⟩) := by
  refine ⟨?_, ?_, ?_⟩
  · intro hname hbad
    by_cases hlen : (sshEccName E L s).value.2 < 18
    · exact ssh_ecc_short_name E L s ctx af hctx hname hlen
    · have hpre := hbad.resolve_left hlen
      have hlit : (cstr "ecdsa-sha2-").take 11 = cstr "ecdsa-sha2-" := by decide
      refine ssh_ecc_wrong_prefix E L s ctx af hctx hname hlen ?_
      rw [memcmp_ne_zero, hlit]
      exact hpre
  · intro hname hcurve hlen
    exact ssh_ecc_curve_length E L s ctx af hctx hname hcurve hlen
  · intro hname hcurve hb
    simp only [List.mem_cons, List.mem_singleton, List.not_mem_nil, or_false, not_or] at hb
    have hsel : sshEccSelector (sshEccCurve E L s).value.1 = none := by
      rw [ssh_ecc_selector, if_neg hb.1, if_neg hb.2.1, if_neg hb.2.2]
    exact ssh_ecc_unknown_curve E L s ctx af hctx hname hcurve hsel

/-- Witness of C23 as the code has it: the algorithm names "ecdsa-sha2-nist" of
15 bytes and "ecdh-sha2-nistp256" are bad data for an ECDSA key, and the curve
names "nistp25" and "nistp224" are not available. -/
theorem ssh_ecc_name_errors_witness :
    (readSshEccPublicKey byteExt sampleLimits
      (sMemConnect (sshEccKey (cstr "ecdsa-sha2-nist") (cstr "nistp256") sampleP256Point))
      (sampleContext .CRYPT_ALGO_ECDSA) 0).status = CRYPT_ERROR_BADDATA ∧
    (readSshEccPublicKey byteExt sampleLimits
      (sMemConnect (sshEccKey (cstr "ecdh-sha2-nistp256") (cstr "nistp256") sampleP256Point))
      (sampleContext .CRYPT_ALGO_ECDSA) 0).status = CRYPT_ERROR_BADDATA ∧
    (readSshEccPublicKey byteExt sampleLimits
      (sMemConnect (sshEccKey (cstr "ecdsa-sha2-nistp256") (cstr "nistp25") sampleP256Point))
      (sampleContext .CRYPT_ALGO_ECDSA) 0).status = CRYPT_ERROR_NOTAVAIL ∧
    (readSshEccPublicKey byteExt sampleLimits
      (sMemConnect (sshEccKey (cstr "ecdsa-sha2-nistp224") (cstr "nistp224") sampleP256Point))
      (sampleContext .CRYPT_ALGO_ECDSA) 0).status = CRYPT_ERROR_NOTAVAIL :=
  have h1 := (ssh_ecc_name_errors byteExt sampleLimits
    (sMemConnect (sshEccKey (cstr "ecdsa-sha2-nist") (cstr "nistp256") sampleP256Point))
    (sampleContext .CRYPT_ALGO_ECDSA) 0 (by decide)).1 (by decide) (Or.inl (by decide))
  have h2 := (ssh_ecc_name_errors byteExt sampleLimits
    (sMemConnect (sshEccKey (cstr "ecdh-sha2-nistp256") (cstr "nistp256") sampleP256Point))
    (sampleContext .CRYPT_ALGO_ECDSA) 0 (by decide)).1 (by decide) (Or.inr (by decide))
  have h3 := (ssh_ecc_name_errors byteExt sampleLimits
    (sMemConnect (sshEccKey (cstr "ecdsa-sha2-nistp256") (cstr "nistp25") sampleP256Point))
    (sampleContext .CRYPT_ALGO_ECDSA) 0 (by decide)).2.1
    (by unfold sshEccNameAccepted; decide) (by decide) (by decide)
  have h4 := (ssh_ecc_name_errors byteExt sampleLimits
    (sMemConnect (sshEccKey (cstr "ecdsa-sha2-nistp224") (cstr "nistp224") sampleP256Point))
    (sampleContext .CRYPT_ALGO_ECDSA) 0 (by decide)).2.2
    (by unfold sshEccNameAccepted; decide) (by unfold sshEccCurveRead; decide) (by decide)
  ⟨congrArg LeafResult.status h1, congrArg LeafResult.status h2,
    congrArg LeafResult.status h3, congrArg LeafResult.status h4⟩

theorem statusOK_ok : cryptStatusOK CRYPT_OK = true := by decide

theorem ecc_cert_unresolved {σ : Type} (E : Ext σ) (L : Limits) (s : σ) (ctx : CONTEXT_INFO)
    (af : Nat) (hctx : ctx.type = .CONTEXT_PKC ∧ ctx.cryptAlgo = .CRYPT_ALGO_ECDSA)
    (halgo : eccCertAlgoAccepted E L s ctx)
    (hoid : cryptStatusError (eccCertOID E L s).status = true) :
    readEccSubjectPublicKey E L s ctx af =
      ⟨(eccCertOID E L s).status, ACTION_PERM_NONE, (eccCertOID E L s).stream, ctx⟩ := by
  obtain ⟨ha1, ha2, ha3⟩ := halgo
  have hal := ha3.symm.trans hctx.2
  have hnok := error_not_ok hoid
  unfold eccCertOID at hoid hnok ⊢
  unfold eccCertAlgoID at ha1 ha2 hal hoid hnok ⊢
  unfold eccCertHole at ha1 ha2 hal hoid hnok ⊢
  unfold readEccSubjectPublicKey
  simp only [hctx, and_self, not_true_eq_false, if_false, ha1, ha2, hal, ne_eq, if_true,
    Bool.false_eq_true, hoid, hnok]

theorem ecc_cert_resolved {σ : Type} (E : Ext σ) (L : Limits) (s : σ) (ctx : CONTEXT_INFO)
    (af : Nat) (hctx : ctx.type = .CONTEXT_PKC ∧ ctx.cryptAlgo = .CRYPT_ALGO_ECDSA)
    (halgo : eccCertAlgoAccepted E L s ctx)
    (hoid : (eccCertOID E L s).status = CRYPT_OK) :
    readEccSubjectPublicKey E L s ctx af =
      (let c := (eccCertOID E L s).value
       let fs := E.getECCFieldSize c DUMMY_INIT
       let bits := eccCertBits E L s
       let rd := E.sread bits.stream bits.value.toNat
       if cryptStatusError fs.1 then
         ⟨fs.1, ACTION_PERM_NONE, (eccCertOID E L s).stream, ctx⟩
       else if cryptStatusError bits.status then
         ⟨bits.status, permInternalSig, bits.stream,
           { ctx with ctxPKC := { ctx.ctxPKC with curveType := c } }⟩
       else if bits.value < (L.MIN_PKCSIZE_ECCPOINT_THRESHOLD : Int) ∨
           bits.value > (L.MAX_PKCSIZE_ECCPOINT : Int) then
         ⟨CRYPT_ERROR_BADDATA, permInternalSig, bits.stream,
           { ctx with ctxPKC := { ctx.ctxPKC with curveType := c } }⟩
       else if cryptStatusError rd.status then
         ⟨rd.status, permInternalSig, rd.stream,
           { ctx with ctxPKC := { ctx.ctxPKC with curveType := c } }⟩
       else
         let pt := E.importECCPoint (ctx.ctxPKC.eccParam_qx, ctx.ctxPKC.eccParam_qy)
           rd.value bits.value L.MIN_PKCSIZE_ECC_THRESHOLD L.CRYPT_MAX_PKCSIZE_ECC fs.2
         ⟨pt.1, permInternalSig, rd.stream,
           { ctx with ctxPKC := { ctx.ctxPKC with
               curveType := c, eccParam_qx := pt.2.1, eccParam_qy := pt.2.2 } }⟩) := by
  obtain ⟨ha1, ha2, ha3⟩ := halgo
  have hal := ha3.symm.trans hctx.2
  unfold eccCertBits
  unfold eccCertOID at hoid ⊢
  unfold eccCertAlgoID at ha1 ha2 hal hoid ⊢
  unfold eccCertHole at ha1 ha2 hal hoid ⊢
  unfold readEccSubjectPublicKey
  simp only [hctx, and_self, not_true_eq_false, if_false, ha1, ha2, hal, ne_eq, if_true,
    Bool.false_eq_true, hoid, statusOK_ok]
  rfl

/-- C24: in an ECDSA context, with `c` the curve selector that the decoder has
resolved (in the certificate decoder the value of the read of the curve
identifier when its status is `CRYPT_OK`, after an accepted algorithm
identifier; in the ssh decoder the selector of the curve name, after an
accepted algorithm name). When the read of the curve identifier fails the
certificate decoder returns its status with the stream after that read and the
key as before. When `getECCFieldSize` fails for `c` the decoder returns its
status with the stream after the curve identifier and the coordinates as
before. When the bytes of the point are read and their length is outside
[`MIN_PKCSIZE_ECCPOINT_THRESHOLD`, `MAX_PKCSIZE_ECCPOINT`] the decoder returns
`CRYPT_ERROR_BADDATA` with the coordinates as before. Otherwise the key holds
`c` as its curve selector and the status and the coordinates are those that
`importECCPoint` returns on the bytes read with the field size that
`getECCFieldSize` gave for `c`. -/
theorem ecc_point_import_after_curve {σ : Type} (E : Ext σ) (L : Limits) (s : σ)
    (ctx : CONTEXT_INFO) (af : Nat)
    (hctx : ctx.type = .CONTEXT_PKC ∧ ctx.cryptAlgo = .CRYPT_ALGO_ECDSA) :
    (eccCertAlgoAccepted E L s ctx →
      (cryptStatusError (eccCertOID E L s).status = true →
        readEccSubjectPublicKey E L s ctx af =
          ⟨(eccCertOID E L s).status, ACTION_PERM_NONE, (eccCertOID E L s).stream, ctx⟩) ∧
      ((eccCertOID E L s).status = CRYPT_OK →
        let c := (eccCertOID E L s).value
        let fs := E.getECCFieldSize c DUMMY_INIT
        let bits := eccCertBits E L s
        let rd := E.sread bits.stream bits.value.toNat
        let pt := E.importECCPoint (ctx.ctxPKC.eccParam_qx, ctx.ctxPKC.eccParam_qy)
          rd.value bits.value L.MIN_PKCSIZE_ECC_THRESHOLD L.CRYPT_MAX_PKCSIZE_ECC fs.2
        (cryptStatusError fs.1 = true →
          readEccSubjectPublicKey E L s ctx af =
            ⟨fs.1, ACTION_PERM_NONE, (eccCertOID E L s).stream, ctx⟩) ∧
        (cryptStatusError fs.1 = false → cryptStatusError bits.status = true →
          readEccSubjectPublicKey E L s ctx af =
            ⟨bits.status, permInternalSig, bits.stream,
              { ctx with ctxPKC := { ctx.ctxPKC with curveType := c } }⟩) ∧
        (cryptStatusError fs.1 = false → cryptStatusError bits.status = false →
          bits.value < (L.MIN_PKCSIZE_ECCPOINT_THRESHOLD : Int) ∨
            bits.value > (L.MAX_PKCSIZE_ECCPOINT : Int) →
          readEccSubjectPublicKey E L s ctx af =
            ⟨CRYPT_ERROR_BADDATA, permInternalSig, bits.stream,
              { ctx with ctxPKC := { ctx.ctxPKC with curveType := c } }⟩) ∧
        (cryptStatusError fs.1 = false → cryptStatusError bits.status = false →
          ¬ (bits.value < (L.MIN_PKCSIZE_ECCPOINT_THRESHOLD : Int) ∨
            bits.value > (L.MAX_PKCSIZE_ECCPOINT : Int)) →
          cryptStatusError rd.status = true →
          readEccSubjectPublicKey E L s ctx af =
            ⟨rd.status, permInternalSig, rd.stream,
              { ctx with ctxPKC := { ctx.ctxPKC with curveType := c } }⟩) ∧
        (cryptStatusError fs.1 = false → cryptStatusError bits.status = false →
          ¬ (bits.value < (L.MIN_PKCSIZE_ECCPOINT_THRESHOLD : Int) ∨
            bits.value > (L.MAX_PKCSIZE_ECCPOINT : Int)) →
          cryptStatusError rd.status = false →
          readEccSubjectPublicKey E L s ctx af =
            ⟨pt.1, permInternalSig, rd.stream,
              { ctx with ctxPKC := { ctx.ctxPKC with
                  curveType := c, eccParam_qx := pt.2.1, eccParam_qy := pt.2.2 } }⟩))) ∧
    (sshEccNameAccepted E L s → sshEccCurveRead E L s →
      ∀ c : Int, sshEccSelector (sshEccCurve E L s).value.1 = some c →
        let fs := E.getECCFieldSize c DUMMY_INIT
        let pb := sshEccPoint E L s
        let pt := E.importECCPoint (ctx.ctxPKC.eccParam_qx, ctx.ctxPKC.eccParam_qy)
          pb.value.1 pb.value.2 L.MIN_PKCSIZE_ECC_THRESHOLD L.CRYPT_MAX_PKCSIZE_ECC fs.2
        (cryptStatusError fs.1 = true →
          readSshEccPublicKey E L s ctx af =
            ⟨fs.1, permInternalVerify, (sshEccCurve E L s).stream,
              { ctx with ctxPKC := { ctx.ctxPKC with curveType := c } }⟩) ∧
        (cryptStatusError fs.1 = false → cryptStatusError pb.status = true →
          readSshEccPublicKey E L s ctx af =
            ⟨pb.status, permInternalVerify, pb.stream,
              { ctx with ctxPKC := { ctx.ctxPKC with curveType := c } }⟩) ∧
        (cryptStatusError fs.1 = false → cryptStatusError pb.status = false →
          pb.value.2 < (L.MIN_PKCSIZE_ECCPOINT_THRESHOLD : Int) ∨
            pb.value.2 > (L.MAX_PKCSIZE_ECCPOINT : Int) →
          readSshEccPublicKey E L s ctx af =
            ⟨CRYPT_ERROR_BADDATA, permInternalVerify, pb.stream,
              { ctx with ctxPKC := { ctx.ctxPKC with curveType := c } }⟩) ∧
        (cryptStatusError fs.1 = false → cryptStatusError pb.status = false →
          ¬ (pb.value.2 < (L.MIN_PKCSIZE_ECCPOINT_THRESHOLD : Int) ∨
            pb.value.2 > (L.MAX_PKCSIZE_ECCPOINT : Int)) →
          readSshEccPublicKey E L s ctx af =
            ⟨pt.1, permInternalVerify, pb.stream,
              { ctx with ctxPKC := { ctx.ctxPKC with
                  curveType := c, eccParam_qx := pt.2.1, eccParam_qy := pt.2.2 } }⟩)) := by
  constructor
  · intro halgo
    refine ⟨ecc_cert_unresolved E L s ctx af hctx halgo, ?_⟩
    intro hoid
    have hres := ecc_cert_resolved E L s ctx af hctx halgo hoid
    dsimp only at hres ⊢
    refine ⟨?_, ?_, ?_, ?_, ?_⟩
    · intro h1
      rw [hres]
      simp only [h1, if_true]
    · intro h1 h2
      rw [hres]
      simp only [h1, h2, if_true, if_false, Bool.false_eq_true]
    · intro h1 h2 h3
      rw [hres]
      simp only [h1, h2, h3, if_true, if_false, Bool.false_eq_true]
    · intro h1 h2 h3 h4
      rw [hres]
      simp only [h1, h2, h3, h4, if_true, if_false, Bool.false_eq_true]
    · intro h1 h2 h3 h4
      rw [hres]
      simp only [h1, h2, h3, h4, if_true, if_false, Bool.false_eq_true]
  · intro hname hcurve c hsel
    have hres := ssh_ecc_resolved E L s ctx af c hctx hname hcurve hsel
    dsimp only at hres ⊢
    refine ⟨?_, ?_, ?_, ?_⟩
    · intro h1
      rw [hres]
      simp only [h1, if_true]
    · intro h1 h2
      rw [hres]
      simp only [h1, h2, if_true, if_false, Bool.false_eq_true]
    · intro h1 h2 h3
      rw [hres]
      simp only [h1, h2, h3, if_true, if_false, Bool.false_eq_true]
    · intro h1 h2 h3
      rw [hres]
      simp only [h1, h2, h3, if_true, if_false, Bool.false_eq_true]

/-- Witness of C24: the sample ECDSA keys of the certificate format and of the
ssh format decode to the base point of P-256 with the curve selector of P-256;
the certificate with the curve secp256k1 fails with `CRYPT_ERROR_NOTAVAIL` and
the coordinates as before; the ssh key with a point of 10 bytes is bad
data. -/
theorem ecc_point_import_after_curve_witness :
    ((readEccSubjectPublicKey byteExt sampleLimits (sMemConnect sampleEcdsaCert)
        (sampleContext .CRYPT_ALGO_ECDSA) 0).status = CRYPT_OK ∧
      (readEccSubjectPublicKey byteExt sampleLimits (sMemConnect sampleEcdsaCert)
        (sampleContext .CRYPT_ALGO_ECDSA) 0).ctx.ctxPKC =
        { emptyKey with
          curveType := CRYPT_ECCCURVE_P256,
          eccParam_qx := beValue sampleP256X,
          eccParam_qy := beValue sampleP256Y }) ∧
    ((readEccSubjectPublicKey byteExt sampleLimits (sMemConnect sampleUnknownCurveCert)
        (sampleContext .CRYPT_ALGO_ECDSA) 0).status = CRYPT_ERROR_NOTAVAIL ∧
      (readEccSubjectPublicKey byteExt sampleLimits (sMemConnect sampleUnknownCurveCert)
        (sampleContext .CRYPT_ALGO_ECDSA) 0).ctx = sampleContext .CRYPT_ALGO_ECDSA) ∧
    ((readSshEccPublicKey byteExt sampleLimits (sMemConnect sampleSshEcdsa)
        (sampleContext .CRYPT_ALGO_ECDSA) 0).status = CRYPT_OK ∧
      (readSshEccPublicKey byteExt sampleLimits (sMemConnect sampleSshEcdsa)
        (sampleContext .CRYPT_ALGO_ECDSA) 0).ctx.ctxPKC =
        { emptyKey with
          curveType := CRYPT_ECCCURVE_P256,
          eccParam_qx := beValue sampleP256X,
          eccParam_qy := beValue sampleP256Y }) ∧
    (readSshEccPublicKey byteExt sampleLimits
        (sMemConnect (sshEccKey (cstr "ecdsa-sha2-nistp256") (cstr "nistp256")
          (List.replicate 10 4)))
        (sampleContext .CRYPT_ALGO_ECDSA) 0).status = CRYPT_ERROR_BADDATA := by
  have hc := (ecc_point_import_after_curve byteExt sampleLimits (sMemConnect sampleEcdsaCert)
    (sampleContext .CRYPT_ALGO_ECDSA) 0 (by decide)).1 (by unfold eccCertAlgoAccepted; decide)
  have hu := (ecc_point_import_after_curve byteExt sampleLimits
    (sMemConnect sampleUnknownCurveCert) (sampleContext .CRYPT_ALGO_ECDSA) 0 (by decide)).1
    (by unfold eccCertAlgoAccepted; decide)
  have hs := (ecc_point_import_after_curve byteExt sampleLimits (sMemConnect sampleSshEcdsa)
    (sampleContext .CRYPT_ALGO_ECDSA) 0 (by decide)).2 (by unfold sshEccNameAccepted; decide)
    (by unfold sshEccCurveRead; decide) CRYPT_ECCCURVE_P256 (by decide)
  have hb := (ecc_point_import_after_curve byteExt sampleLimits
    (sMemConnect (sshEccKey (cstr "ecdsa-sha2-nistp256") (cstr "nistp256")
      (List.replicate 10 4)))
    (sampleContext .CRYPT_ALGO_ECDSA) 0 (by decide)).2 (by unfold sshEccNameAccepted; decide)
    (by unfold sshEccCurveRead; decide) CRYPT_ECCCURVE_P256 (by decide)
  have hc2 := hc.2 (by decide)
  dsimp only at hc2 hs hb
  have hc3 := hc2.2.2.2.2 (by decide) (by decide) (by decide) (by decide)
  have hu2 := hu.1 (by decide)
  have hs2 := hs.2.2.2 (by decide) (by decide) (by decide)
  have hb2 := hb.2.2.1 (by decide) (by decide) (by decide)
  exact ⟨⟨(congrArg LeafResult.status hc3).trans (by decide),
      (congrArg (fun r => r.ctx.ctxPKC) hc3).trans (by decide)⟩,
    ⟨(congrArg LeafResult.status hu2).trans (by decide), congrArg LeafResult.ctx hu2⟩,
    ⟨(congrArg LeafResult.status hs2).trans (by decide),
      (congrArg (fun r => r.ctx.ctxPKC) hs2).trans (by decide)⟩,
    congrArg LeafResult.status hb2⟩

/-! ### Reads from a shortened input -/

theorem shortRead_fail {σ α : Type} {failed : σ → Prop} {cut : σ → σ → Prop}
    {r t : Out σ α} (he : cryptStatusError t.status = true) (hf : failed t.stream) :
    shortRead failed cut r t :=
  Or.inl ⟨he, hf⟩

theorem shortRead_streams {σ α : Type} {failed : σ → Prop} {cut : σ → σ → Prop}
    {r t : Out σ α} (h : shortRead failed cut r t) : shortOf failed cut r.stream t.stream := by
  rcases h with h | h
  · exact Or.inl h.2
  · exact Or.inr h.2.2.2

/-- A read that is checked: the shortened run returns the failed read as it
is, and both runs go on after a read that has not failed. -/
theorem shortRead_check {σ α β : Type} {failed : σ → Prop} {cut : σ → σ → Prop}
    {r t : Out σ α} {a b b' : Out σ β} {d : β} (h : shortRead failed cut r t)
    (hB : cryptStatusError t.status = false → t.status = r.status → t.value = r.value →
      cut r.stream t.stream → shortRead failed cut b b') :
    shortRead failed cut (if cryptStatusError r.status = true then a else b)
      (if cryptStatusError t.status = true then ⟨t.status, d, t.stream⟩ else b') := by
  rcases h with ⟨he, hf⟩ | ⟨hne, hst, hval, hcut⟩
  · rw [if_pos he]
    exact Or.inl ⟨he, hf⟩
  · have hne2 : cryptStatusError r.status = false := hst ▸ hne
    have e1 : ¬ cryptStatusError r.status = true := by rw [hne2]; decide
    have e2 : ¬ cryptStatusError t.status = true := by rw [hne]; decide
    rw [if_neg e1, if_neg e2]
    exact hB hne hst hval hcut

/-- A test of values that both runs make: the shortened run returns a failure
or both runs go on. -/
theorem shortRead_test {σ β : Type} {failed : σ → Prop} {cut : σ → σ → Prop}
    {c c' : Prop} [Decidable c] [Decidable c'] {a b a' b' : Out σ β}
    (hA : c' → cryptStatusError a'.status = true ∧ failed a'.stream)
    (hB : ¬ c' → ¬ c ∧ shortRead failed cut b b') :
    shortRead failed cut (if c then a else b) (if c' then a' else b') := by
  by_cases h : c'
  · rw [if_pos h]
    exact Or.inl (hA h)
  · rw [if_neg h, if_neg (hB h).1]
    exact (hB h).2

theorem shortRead_same {σ α β : Type} {failed : σ → Prop} {cut : σ → σ → Prop}
    {r t : Out σ α} {v v' : β} (h : shortRead failed cut r t)
    (hv : t.value = r.value → v' = v) :
    shortRead failed cut (⟨r.status, v, r.stream⟩ : Out σ β) ⟨t.status, v', t.stream⟩ := by
  rcases h with ⟨he, hf⟩ | ⟨hne, hst, hval, hcut⟩
  · exact Or.inl ⟨he, hf⟩
  · exact Or.inr ⟨hne, hst, hv hval, hcut⟩

theorem failed_sSetError {α : Type} (s : STREAM) (status : Int) (value : α)
    (h : cryptStatusError status = true) :
    cryptStatusError (sSetError s status value).status = true ∧
      (sSetError s status value).stream.failed :=
  ⟨h, h⟩

theorem take_drop_take (l : List Nat) (n p m : Nat) (h : p + m ≤ (l.take n).length) :
    ((l.take n).drop p).take m = (l.drop p).take m := by
  rw [List.drop_take, List.take_take]
  have hn : p + m ≤ n := le_trans h (by simp)
  congr 1
  omega

theorem sread_short (n : Nat) (s t : STREAM) (m : Nat)
    (h : shortOf STREAM.failed (cutAt n) s t) :
    shortRead STREAM.failed (cutAt n) (s.sread m) (t.sread m) := by
  unfold STREAM.sread
  rcases h with hf | ⟨hb, hp, hs, hl⟩
  · have hf2 : cryptStatusError t.status = true := hf
    rw [if_pos hf2]
    exact Or.inl ⟨hf, hf⟩
  · by_cases he : cryptStatusError t.status = true
    · rw [if_pos he]
      exact Or.inl ⟨he, he⟩
    · have he2 : ¬ cryptStatusError s.status = true := hs ▸ he
      rw [if_neg he, if_neg he2]
      by_cases hu : t.bufPos + m > t.buffer.length
      · rw [if_pos hu]
        exact Or.inl (failed_sSetError t _ _ status_underflow)
      · have hlen : t.buffer.length ≤ s.buffer.length := by
          rw [hb]
          simp
        have hu2 : ¬ s.bufPos + m > s.buffer.length := by
          rw [← hp]
          omega
        rw [if_neg hu, if_neg hu2]
        refine Or.inr ⟨status_ok, rfl, ?_, hb, ?_, hs, ?_⟩
        · show (t.buffer.drop t.bufPos).take m = (s.buffer.drop s.bufPos).take m
          rw [hb, hp]
          apply take_drop_take
          rw [← hb, ← hp]
          omega
        · show t.bufPos + m = s.bufPos + m
          rw [hp]
        · show t.bufPos + m ≤ t.buffer.length
          omega

/-- A choice on values that are the same in both runs. -/
theorem shortRead_ite {σ β : Type} {failed : σ → Prop} {cut : σ → σ → Prop}
    {c : Prop} [Decidable c] {a b a' b' : Out σ β}
    (hA : c → shortRead failed cut a a') (hB : ¬ c → shortRead failed cut b b') :
    shortRead failed cut (if c then a else b) (if c then a' else b') := by
  by_cases h : c
  · rw [if_pos h, if_pos h]
    exact hA h
  · rw [if_neg h, if_neg h]
    exact hB h

theorem status_nat (k : Nat) : cryptStatusError (k : Int) = false := by
  unfold cryptStatusError CRYPT_OK
  simp

theorem sgetc_short (n : Nat) (s t : STREAM) (h : shortOf STREAM.failed (cutAt n) s t) :
    shortRead STREAM.failed (cutAt n) s.sgetc t.sgetc := by
  unfold STREAM.sgetc
  refine shortRead_check (sread_short n s t 1 h) (fun _ _ hval hcut => ?_)
  rw [hval]
  exact Or.inr ⟨status_nat _, rfl, rfl, hcut⟩

theorem sSkip_short (n : Nat) (s t : STREAM) (m : Nat)
    (h : shortOf STREAM.failed (cutAt n) s t) :
    shortRead STREAM.failed (cutAt n) (s.sSkip m) (t.sSkip m) := by
  unfold STREAM.sSkip
  exact shortRead_same (sread_short n s t m h) (fun _ => rfl)

theorem readUint16_short (n : Nat) (s t : STREAM) (h : shortOf STREAM.failed (cutAt n) s t) :
    shortRead STREAM.failed (cutAt n) s.readUint16 t.readUint16 := by
  unfold STREAM.readUint16
  refine shortRead_check (sread_short n s t 2 h) (fun _ _ hval hcut => ?_)
  rw [hval]
  exact Or.inr ⟨status_nat _, rfl, rfl, hcut⟩

theorem readUint32_short (n : Nat) (s t : STREAM) (h : shortOf STREAM.failed (cutAt n) s t) :
    shortRead STREAM.failed (cutAt n) s.readUint32 t.readUint32 := by
  unfold STREAM.readUint32
  refine shortRead_check (sread_short n s t 4 h) (fun _ _ hval hcut => ?_)
  rw [hval]
  refine shortRead_test (fun _ => failed_sSetError _ _ _ status_baddata) (fun hc => ⟨hc, ?_⟩)
  exact Or.inr ⟨status_nat _, rfl, rfl, hcut⟩

theorem readUint32Time_short (n : Nat) (s t : STREAM)
    (h : shortOf STREAM.failed (cutAt n) s t) :
    shortRead STREAM.failed (cutAt n) s.readUint32Time t.readUint32Time := by
  unfold STREAM.readUint32Time
  refine shortRead_check (sread_short n s t 4 h) (fun _ _ hval hcut => ?_)
  rw [hval]
  exact Or.inr ⟨status_ok, rfl, rfl, hcut⟩

theorem readString32_short (n : Nat) (s t : STREAM) (maxLength : Nat)
    (h : shortOf STREAM.failed (cutAt n) s t) :
    shortRead STREAM.failed (cutAt n) (s.readString32 maxLength)
      (t.readString32 maxLength) := by
  unfold STREAM.readString32
  refine shortRead_check (readUint32_short n s t h) (fun _ hst _ hcut => ?_)
  rw [hst]
  refine shortRead_test (fun _ => failed_sSetError _ _ _ status_baddata) (fun hc => ⟨hc, ?_⟩)
  refine shortRead_check (sread_short n _ _ _ (Or.inr hcut)) (fun _ _ hval2 hcut2 => ?_)
  rw [hval2]
  exact Or.inr ⟨status_ok, rfl, rfl, hcut2⟩

theorem finishBignum_short (n : Nat) (s t : STREAM) (bignum : Nat) (bytes : List Nat)
    (minLength maxLength : Nat) (maxRange : Option Nat) (h : cutAt n s t) :
    shortRead STREAM.failed (cutAt n)
      (finishBignum s bignum bytes minLength maxLength maxRange)
      (finishBignum t bignum bytes minLength maxLength maxRange) := by
  unfold finishBignum
  by_cases he : cryptStatusError (importBignum bignum bytes minLength maxLength maxRange).1
      = true
  · simp only [he, if_true]
    exact Or.inl (failed_sSetError _ _ _ he)
  · simp only [he, if_false, Bool.false_eq_true]
    exact Or.inr ⟨by simpa using he, rfl, rfl, h⟩

theorem readBignumInteger32_short (n : Nat) (s t : STREAM) (bignum minLength maxLength : Nat)
    (maxRange : Option Nat) (h : shortOf STREAM.failed (cutAt n) s t) :
    shortRead STREAM.failed (cutAt n)
      (s.readBignumInteger32 bignum minLength maxLength maxRange)
      (t.readBignumInteger32 bignum minLength maxLength maxRange) := by
  unfold STREAM.readBignumInteger32
  refine shortRead_check (readUint32_short n s t h) (fun _ hst _ hcut => ?_)
  rw [hst]
  refine shortRead_check (sread_short n _ _ _ (Or.inr hcut)) (fun _ _ hval2 hcut2 => ?_)
  rw [hval2]
  exact finishBignum_short n _ _ _ _ _ _ _ hcut2

theorem readBignumInteger16U_short (n : Nat) (s t : STREAM) (bignum minLength maxLength : Nat)
    (maxRange : Option Nat) (h : shortOf STREAM.failed (cutAt n) s t) :
    shortRead STREAM.failed (cutAt n)
      (s.readBignumInteger16U bignum minLength maxLength maxRange)
      (t.readBignumInteger16U bignum minLength maxLength maxRange) := by
  unfold STREAM.readBignumInteger16U
  refine shortRead_check (readUint16_short n s t h) (fun _ hst _ hcut => ?_)
  rw [hst]
  refine shortRead_check (sread_short n _ _ _ (Or.inr hcut)) (fun _ _ hval2 hcut2 => ?_)
  rw [hval2]
  exact finishBignum_short n _ _ _ _ _ _ _ hcut2

theorem readBignumInteger16UChecked_short (n : Nat) (s t : STREAM)
    (bignum minLength maxLength : Nat) (h : shortOf STREAM.failed (cutAt n) s t) :
    shortRead STREAM.failed (cutAt n)
      (s.readBignumInteger16UChecked bignum minLength maxLength)
      (t.readBignumInteger16UChecked bignum minLength maxLength) := by
  unfold STREAM.readBignumInteger16UChecked
  refine shortRead_check (readUint16_short n s t h) (fun _ hst _ hcut => ?_)
  rw [hst]
  refine shortRead_check (sread_short n _ _ _ (Or.inr hcut)) (fun _ _ hval2 hcut2 => ?_)
  rw [hval2]
  refine shortRead_test (fun _ => failed_sSetError _ _ _ status_baddata) (fun hc => ⟨hc, ?_⟩)
  exact finishBignum_short n _ _ _ _ _ _ _ hcut2

theorem readBignumInteger16Ubits_short (n : Nat) (s t : STREAM) (bignum minBits maxBits : Nat)
    (maxRange : Option Nat) (h : shortOf STREAM.failed (cutAt n) s t) :
    shortRead STREAM.failed (cutAt n)
      (s.readBignumInteger16Ubits bignum minBits maxBits maxRange)
      (t.readBignumInteger16Ubits bignum minBits maxBits maxRange) := by
  unfold STREAM.readBignumInteger16Ubits
  refine shortRead_check (readUint16_short n s t h) (fun _ hst _ hcut => ?_)
  rw [hst]
  refine shortRead_check (sread_short n _ _ _ (Or.inr hcut)) (fun _ _ hval2 hcut2 => ?_)
  rw [hval2]
  exact finishBignum_short n _ _ _ _ _ _ _ hcut2

theorem readBignumInteger16UbitsChecked_short (n : Nat) (s t : STREAM)
    (bignum minBits maxBits : Nat) (h : shortOf STREAM.failed (cutAt n) s t) :
    shortRead STREAM.failed (cutAt n)
      (s.readBignumInteger16UbitsChecked bignum minBits maxBits)
      (t.readBignumInteger16UbitsChecked bignum minBits maxBits) := by
  unfold STREAM.readBignumInteger16UbitsChecked
  refine shortRead_check (readUint16_short n s t h) (fun _ hst _ hcut => ?_)
  rw [hst]
  refine shortRead_check (sread_short n _ _ _ (Or.inr hcut)) (fun _ _ hval2 hcut2 => ?_)
  rw [hval2]
  refine shortRead_test (fun _ => failed_sSetError _ _ _ status_baddata) (fun hc => ⟨hc, ?_⟩)
  exact finishBignum_short n _ _ _ _ _ _ _ hcut2

theorem readLength_short (n : Nat) (s t : STREAM) (h : shortOf STREAM.failed (cutAt n) s t) :
    shortRead STREAM.failed (cutAt n) s.readLength t.readLength := by
  unfold STREAM.readLength
  refine shortRead_check (sgetc_short n s t h) (fun _ hst _ hcut => ?_)
  rw [hst]
  refine shortRead_ite (fun _ => Or.inr ⟨status_ok, rfl, rfl, hcut⟩) (fun _ => ?_)
  refine shortRead_ite (fun _ => ?_) (fun _ => ?_)
  · refine shortRead_check (sread_short n _ _ _ (Or.inr hcut)) (fun _ _ hval2 hcut2 => ?_)
    rw [hval2]
    exact Or.inr ⟨status_ok, rfl, rfl, hcut2⟩
  · refine shortRead_ite (fun _ => ?_) (fun _ => ?_)
    · refine shortRead_check (sread_short n _ _ _ (Or.inr hcut)) (fun _ _ hval2 hcut2 => ?_)
      rw [hval2]
      exact Or.inr ⟨status_ok, rfl, rfl, hcut2⟩
    · exact Or.inl (failed_sSetError _ _ _ status_baddata)

theorem readHeader_short (n : Nat) (s t : STREAM) (tag : Option Int)
    (h : shortOf STREAM.failed (cutAt n) s t) :
    shortRead STREAM.failed (cutAt n) (s.readHeader tag) (t.readHeader tag) := by
  unfold STREAM.readHeader
  refine shortRead_check (sgetc_short n s t h) (fun _ hst _ hcut => ?_)
  rw [hst]
  refine shortRead_test (fun _ => failed_sSetError _ _ _ status_baddata) (fun hc => ⟨hc, ?_⟩)
  exact readLength_short n _ _ (Or.inr hcut)

theorem readGenericHole_short (n : Nat) (s t : STREAM) (minLength : Nat)
    (h : shortOf STREAM.failed (cutAt n) s t) :
    shortRead STREAM.failed (cutAt n) (s.readGenericHole minLength)
      (t.readGenericHole minLength) := by
  unfold STREAM.readGenericHole
  refine shortRead_check (readHeader_short n s t none h) (fun _ _ hval hcut => ?_)
  rw [hval]
  refine shortRead_test (fun _ => failed_sSetError _ _ _ status_baddata) (fun hc => ⟨hc, ?_⟩)
  exact Or.inr ⟨status_ok, rfl, rfl, hcut⟩

theorem readSequence_short (n : Nat) (s t : STREAM)
    (h : shortOf STREAM.failed (cutAt n) s t) :
    shortRead STREAM.failed (cutAt n) s.readSequence t.readSequence := by
  unfold STREAM.readSequence
  exact shortRead_same (readHeader_short n s t _ h) (fun _ => rfl)

theorem readBitStringHole_short (n : Nat) (s t : STREAM) (minLength : Nat)
    (h : shortOf STREAM.failed (cutAt n) s t) :
    shortRead STREAM.failed (cutAt n) (s.readBitStringHole minLength)
      (t.readBitStringHole minLength) := by
  unfold STREAM.readBitStringHole
  refine shortRead_check (readHeader_short n s t _ h) (fun _ _ hval hcut => ?_)
  rw [hval]
  refine shortRead_check (sgetc_short n _ _ (Or.inr hcut)) (fun _ hst2 _ hcut2 => ?_)
  rw [hst2]
  refine shortRead_test (fun _ => failed_sSetError _ _ _ status_baddata) (fun hc => ⟨hc, ?_⟩)
  exact Or.inr ⟨status_ok, rfl, rfl, hcut2⟩

theorem readRawOID_short (n : Nat) (s t : STREAM) (h : shortOf STREAM.failed (cutAt n) s t) :
    shortRead STREAM.failed (cutAt n) s.readRawOID t.readRawOID := by
  unfold STREAM.readRawOID
  refine shortRead_check (readHeader_short n s t _ h) (fun _ _ hval hcut => ?_)
  rw [hval]
  refine shortRead_check (sread_short n _ _ _ (Or.inr hcut)) (fun _ _ hval2 hcut2 => ?_)
  rw [hval2]
  exact Or.inr ⟨status_ok, rfl, rfl, hcut2⟩

theorem readAlgoIDparam_short (n : Nat) (s t : STREAM)
    (h : shortOf STREAM.failed (cutAt n) s t) :
    shortRead STREAM.failed (cutAt n) s.readAlgoIDparam t.readAlgoIDparam := by
  unfold STREAM.readAlgoIDparam
  refine shortRead_check (readHeader_short n s t _ h) (fun _ _ hval hcut => ?_)
  rw [hval]
  refine shortRead_check (readRawOID_short n _ _ (Or.inr hcut)) (fun _ _ hval2 hcut2 => ?_)
  rw [hval2]
  cases algoOidTbl.lookup (s.readHeader (some 0x30)).stream.readRawOID.value with
  | none => exact Or.inl (failed_sSetError _ _ _ status_notavail)
  | some algo => exact Or.inr ⟨status_ok, rfl, rfl, hcut2⟩

theorem readAlgoID_short (n : Nat) (s t : STREAM) (h : shortOf STREAM.failed (cutAt n) s t) :
    shortRead STREAM.failed (cutAt n) s.readAlgoID t.readAlgoID := by
  unfold STREAM.readAlgoID
  refine shortRead_check (readAlgoIDparam_short n s t h) (fun _ _ hval hcut => ?_)
  rw [hval]
  refine shortRead_ite (fun _ => Or.inr ⟨status_ok, rfl, rfl, hcut⟩) (fun _ => ?_)
  refine shortRead_test (fun _ => failed_sSetError _ _ _ status_baddata) (fun hc => ⟨hc, ?_⟩)
  refine shortRead_check (sread_short n _ _ _ (Or.inr hcut)) (fun _ _ hval2 hcut2 => ?_)
  rw [hval2]
  refine shortRead_test (fun _ => failed_sSetError _ _ _ status_baddata) (fun hc => ⟨hc, ?_⟩)
  exact Or.inr ⟨status_ok, rfl, rfl, hcut2⟩

theorem readOID_short (n : Nat) (s t : STREAM) (oidTbl : List OID_INFO) (oidTblSize : Int)
    (selectionID : Int) (h : shortOf STREAM.failed (cutAt n) s t) :
    shortRead STREAM.failed (cutAt n) (s.readOID oidTbl oidTblSize selectionID)
      (t.readOID oidTbl oidTblSize selectionID) := by
  unfold STREAM.readOID
  refine shortRead_check (readRawOID_short n s t h) (fun _ _ hval hcut => ?_)
  rw [hval]
  cases (oidTbl.take oidTblSize.toNat).find? (fun e => e.oid = s.readRawOID.value) with
  | none => exact Or.inl (failed_sSetError _ _ _ status_notavail)
  | some e => exact Or.inr ⟨status_ok, rfl, rfl, hcut⟩

theorem readBignum_short (n : Nat) (s t : STREAM) (bignum minLength maxLength : Nat)
    (maxRange : Option Nat) (h : shortOf STREAM.failed (cutAt n) s t) :
    shortRead STREAM.failed (cutAt n) (s.readBignum bignum minLength maxLength maxRange)
      (t.readBignum bignum minLength maxLength maxRange) := by
  unfold STREAM.readBignum
  refine shortRead_check (readHeader_short n s t _ h) (fun _ _ hval hcut => ?_)
  rw [hval]
  refine shortRead_check (sread_short n _ _ _ (Or.inr hcut)) (fun _ _ hval2 hcut2 => ?_)
  rw [hval2]
  exact finishBignum_short n _ _ _ _ _ _ _ hcut2

theorem byteExt_prefixContract (n : Nat) :
    PrefixContract byteExt STREAM.failed (cutAt n) where
  sgetc := fun s t h => sgetc_short n s t h
  sread := fun s t m h => sread_short n s t m h
  sSkip := fun s t m h => sSkip_short n s t m h
  readUint16 := fun s t h => readUint16_short n s t h
  readUint32 := fun s t h => readUint32_short n s t h
  readUint32Time := fun s t h => readUint32Time_short n s t h
  readString32 := fun s t m h => readString32_short n s t m h
  readGenericHole := fun s t m h => readGenericHole_short n s t m h
  readBitStringHole := fun s t m h => readBitStringHole_short n s t m h
  readSequence := fun s t h => readSequence_short n s t h
  readAlgoID := fun s t h => readAlgoID_short n s t h
  readAlgoIDparam := fun s t h => readAlgoIDparam_short n s t h
  readOID := fun s t tbl m d h => readOID_short n s t tbl m d h
  readBignum := fun s t b mn mx r h => readBignum_short n s t b mn mx r h
  readBignumChecked := fun s t b mn mx r h => readBignum_short n s t b mn mx r h
  readBignumInteger16U := fun s t b mn mx r h => readBignumInteger16U_short n s t b mn mx r h
  readBignumInteger16UChecked := fun s t b mn mx h =>
    readBignumInteger16UChecked_short n s t b mn mx h
  readBignumInteger16Ubits := fun s t b mn mx r h =>
    readBignumInteger16Ubits_short n s t b mn mx r h
  readBignumInteger16UbitsChecked := fun s t b mn mx h =>
    readBignumInteger16UbitsChecked_short n s t b mn mx h
  readBignumInteger32 := fun s t b mn mx r h => readBignumInteger32_short n s t b mn mx r h
  readBignumInteger32Checked := fun s t b mn mx h =>
    readBignumInteger32_short n s t b mn mx none h

/-! ### Decoders on a shortened input -/

theorem shortLeaf_check {σ α : Type} {failed : σ → Prop} {cut : σ → σ → Prop}
    {r t : Out σ α} {a b a' b' : LeafResult σ} (h : shortRead failed cut r t)
    (ha : a'.status = t.status)
    (hB : cryptStatusError t.status = false → t.status = r.status → t.value = r.value →
      cut r.stream t.stream → shortLeaf cut b b') :
    shortLeaf cut (if cryptStatusError r.status = true then a else b)
      (if cryptStatusError t.status = true then a' else b') := by
  rcases h with ⟨he, _⟩ | ⟨hne, hst, hval, hcut⟩
  · rw [if_pos he]
    exact Or.inl (ha ▸ he)
  · have hne2 : cryptStatusError r.status = false := hst ▸ hne
    have e1 : ¬ cryptStatusError r.status = true := by rw [hne2]; decide
    have e2 : ¬ cryptStatusError t.status = true := by rw [hne]; decide
    rw [if_neg e1, if_neg e2]
    exact hB hne hst hval hcut

theorem shortLeaf_test {σ : Type} {cut : σ → σ → Prop} {c c' : Prop} [Decidable c]
    [Decidable c'] {a b a' b' : LeafResult σ} (hA : c' → cryptStatusError a'.status = true)
    (hB : ¬ c' → ¬ c ∧ shortLeaf cut b b') :
    shortLeaf cut (if c then a else b) (if c' then a' else b') := by
  by_cases h : c'
  · rw [if_pos h]
    exact Or.inl (hA h)
  · rw [if_neg h, if_neg (hB h).1]
    exact (hB h).2

theorem shortLeaf_ite {σ : Type} {cut : σ → σ → Prop} {c : Prop} [Decidable c]
    {a b a' b' : LeafResult σ} (hA : c → shortLeaf cut a a') (hB : ¬ c → shortLeaf cut b b') :
    shortLeaf cut (if c then a else b) (if c then a' else b') := by
  by_cases h : c
  · rw [if_pos h, if_pos h]
    exact hA h
  · rw [if_neg h, if_neg h]
    exact hB h

theorem shortLeaf_done {σ α : Type} {failed : σ → Prop} {cut : σ → σ → Prop}
    {r t : Out σ α} {f f' : Nat} {c c' : CONTEXT_INFO} (h : shortRead failed cut r t) :
    shortLeaf cut ⟨r.status, f, r.stream, c⟩ ⟨t.status, f', t.stream, c'⟩ := by
  rcases h with ⟨he, _⟩ | ⟨_, hst, _, hcut⟩
  · exact Or.inl he
  · exact Or.inr ⟨hst, hcut⟩

/-- A read that is followed by another only when it returned `CRYPT_OK`. -/
theorem shortLeaf_okThen {σ α : Type} {failed : σ → Prop} {cut : σ → σ → Prop}
    {r t : Out σ α} {b b' : LeafResult σ} {f f' : Nat} {c c' : CONTEXT_INFO}
    (h : shortRead failed cut r t)
    (hB : cryptStatusError t.status = false → t.status = r.status → t.value = r.value →
      cut r.stream t.stream → shortLeaf cut b b') :
    shortLeaf cut (if cryptStatusOK r.status = true then b else ⟨r.status, f, r.stream, c⟩)
      (if cryptStatusOK t.status = true then b' else ⟨t.status, f', t.stream, c'⟩) := by
  rcases h with ⟨he, _⟩ | ⟨hne, hst, hval, hcut⟩
  · rw [if_neg (error_not_ok he)]
    exact Or.inl he
  · rw [hst]
    by_cases hok : cryptStatusOK r.status = true
    · rw [if_pos hok, if_pos hok]
      exact hB hne hst hval hcut
    · rw [if_neg hok, if_neg hok]
      exact Or.inr ⟨rfl, hcut⟩

theorem shortRead_okAnd {σ α β : Type} {failed : σ → Prop} {cut : σ → σ → Prop}
    {r t : Out σ α} {x x' : Out σ β} {v v' : β} {g : Bool} (h : shortRead failed cut r t)
    (hv : t.value = r.value → v' = v)
    (hB : cryptStatusError t.status = false → t.status = r.status → t.value = r.value →
      cut r.stream t.stream → shortRead failed cut x x') :
    shortRead failed cut
      (if (cryptStatusOK r.status && g) = true then x else ⟨r.status, v, r.stream⟩)
      (if (cryptStatusOK t.status && g) = true then x' else ⟨t.status, v', t.stream⟩) := by
  rcases h with ⟨he, hf⟩ | ⟨hne, hst, hval, hcut⟩
  · have hnok : cryptStatusOK t.status = false := by
      simpa using error_not_ok he
    rw [hnok, Bool.false_and, if_neg Bool.false_ne_true]
    exact Or.inl ⟨he, hf⟩
  · rw [hst]
    by_cases hok : (cryptStatusOK r.status && g) = true
    · rw [if_pos hok, if_pos hok]
      exact hB hne hst hval hcut
    · rw [if_neg hok, if_neg hok]
      exact Or.inr ⟨hst ▸ hne, rfl, hv hval, hcut⟩

theorem shortRead_okThen {σ α β : Type} {failed : σ → Prop} {cut : σ → σ → Prop}
    {r t : Out σ α} {x x' : Out σ β} {v v' : β} (h : shortRead failed cut r t)
    (hv : t.value = r.value → v' = v)
    (hB : cryptStatusError t.status = false → t.status = r.status → t.value = r.value →
      cut r.stream t.stream → shortRead failed cut x x') :
    shortRead failed cut
      (if cryptStatusOK r.status = true then x else ⟨r.status, v, r.stream⟩)
      (if cryptStatusOK t.status = true then x' else ⟨t.status, v', t.stream⟩) := by
  rcases h with ⟨he, hf⟩ | ⟨hne, hst, hval, hcut⟩
  · rw [if_neg (error_not_ok he)]
    exact Or.inl ⟨he, hf⟩
  · rw [hst]
    by_cases hok : cryptStatusOK r.status = true
    · rw [if_pos hok, if_pos hok]
      exact hB hne hst hval hcut
    · rw [if_neg hok, if_neg hok]
      exact Or.inr ⟨hst ▸ hne, rfl, hv hval, hcut⟩

theorem shortOf_ite {σ : Type} {failed : σ → Prop} {cut : σ → σ → Prop} {c : Prop}
    [Decidable c] {a b a' b' : σ} (hA : shortOf failed cut a a') (hB : shortOf failed cut b b') :
    shortOf failed cut (if c then a else b) (if c then a' else b') := by
  by_cases h : c
  · rw [if_pos h, if_pos h]
    exact hA
  · rw [if_neg h, if_neg h]
    exact hB

theorem readSslEccPublicKey_short {σ : Type} (E : Ext σ) (failed : σ → Prop)
    (cut : σ → σ → Prop) (hC : PrefixContract E failed cut) (L : Limits) (s t : σ)
    (ctx : CONTEXT_INFO) (af : Nat) (h : shortOf failed cut s t) :
    shortLeaf cut (readSslEccPublicKey E L s ctx af) (readSslEccPublicKey E L t ctx af) := by
  unfold readSslEccPublicKey
  refine shortLeaf_test (fun _ => status_internal) (fun hc => ⟨hc, ?_⟩)
  refine shortLeaf_check (hC.sgetc _ _ h) rfl (fun _ hst _ hcut => ?_)
  rw [hst]
  refine shortLeaf_test (fun _ => status_baddata) (fun hc => ⟨hc, ?_⟩)
  refine shortLeaf_check (hC.readUint16 _ _ (Or.inr hcut)) rfl (fun _ hst2 _ hcut2 => ?_)
  rw [hst2]
  refine shortLeaf_test (fun he => he) (fun hc => ⟨hc, ?_⟩)
  refine shortLeaf_test (fun he => he) (fun hc => ⟨hc, ?_⟩)
  exact Or.inr ⟨rfl, hcut2⟩

theorem readSslDlpPublicKey_short {σ : Type} (E : Ext σ) (failed : σ → Prop)
    (cut : σ → σ → Prop) (hC : PrefixContract E failed cut) (L : Limits) (s t : σ)
    (ctx : CONTEXT_INFO) (af : Nat) (h : shortOf failed cut s t) :
    shortLeaf cut (readSslDlpPublicKey E L s ctx af) (readSslDlpPublicKey E L t ctx af) := by
  unfold readSslDlpPublicKey
  refine shortLeaf_test (fun _ => status_internal) (fun hc => ⟨hc, ?_⟩)
  refine shortLeaf_okThen (hC.readBignumInteger16UChecked _ _ _ _ _ h)
    (fun _ _ hval hcut => ?_)
  rw [hval]
  exact shortLeaf_done (hC.readBignumInteger16U _ _ _ _ _ _ (Or.inr hcut))

theorem readSshRsaPublicKey_short {σ : Type} (E : Ext σ) (failed : σ → Prop)
    (cut : σ → σ → Prop) (hC : PrefixContract E failed cut) (L : Limits) (s t : σ)
    (ctx : CONTEXT_INFO) (af : Nat) (h : shortOf failed cut s t) :
    shortLeaf cut (readSshRsaPublicKey E L s ctx af) (readSshRsaPublicKey E L t ctx af) := by
  unfold readSshRsaPublicKey
  refine shortLeaf_test (fun _ => status_internal) (fun hc => ⟨hc, ?_⟩)
  refine shortLeaf_check
    (hC.readString32 _ _ _ (shortRead_streams (hC.readUint32 _ _ h))) rfl
    (fun _ _ hval hcut => ?_)
  rw [hval]
  refine shortLeaf_test (fun _ => status_baddata) (fun hc => ⟨hc, ?_⟩)
  refine shortLeaf_okThen (hC.readBignumInteger32 _ _ _ _ _ _ (Or.inr hcut))
    (fun _ _ hval2 hcut2 => ?_)
  exact shortLeaf_done (hC.readBignumInteger32Checked _ _ _ _ _ (Or.inr hcut2))

theorem readRsaSubjectPublicKey_short {σ : Type} (E : Ext σ) (failed : σ → Prop)
    (cut : σ → σ → Prop) (hC : PrefixContract E failed cut) (L : Limits) (s t : σ)
    (ctx : CONTEXT_INFO) (af : Nat) (h : shortOf failed cut s t) :
    shortLeaf cut (readRsaSubjectPublicKey E L s ctx af)
      (readRsaSubjectPublicKey E L t ctx af) := by
  unfold readRsaSubjectPublicKey
  refine shortLeaf_test (fun _ => status_internal) (fun hc => ⟨hc, ?_⟩)
  refine shortLeaf_check
    (hC.readAlgoID _ _ (shortRead_streams (hC.readGenericHole _ _ _ h))) rfl
    (fun _ _ hval hcut => ?_)
  rw [hval]
  refine shortLeaf_test (fun _ => status_baddata) (fun hc => ⟨hc, ?_⟩)
  refine shortLeaf_okThen
    (hC.readBignumChecked _ _ _ _ _ _ (shortRead_streams (hC.readSequence _ _
      (shortRead_streams (hC.readBitStringHole _ _ _ (Or.inr hcut))))))
    (fun _ _ hval2 hcut2 => ?_)
  rw [hval2]
  exact shortLeaf_done (hC.readBignum _ _ _ _ _ _ (Or.inr hcut2))

theorem readSshEccPublicKey_short {σ : Type} (E : Ext σ) (failed : σ → Prop)
    (cut : σ → σ → Prop) (hC : PrefixContract E failed cut) (L : Limits) (s t : σ)
    (ctx : CONTEXT_INFO) (af : Nat) (h : shortOf failed cut s t) :
    shortLeaf cut (readSshEccPublicKey E L s ctx af) (readSshEccPublicKey E L t ctx af) := by
  unfold readSshEccPublicKey
  refine shortLeaf_test (fun _ => status_internal) (fun hc => ⟨hc, ?_⟩)
  refine shortLeaf_check
    (hC.readString32 _ _ _ (shortRead_streams (hC.readUint32 _ _ h))) rfl
    (fun _ _ hval hcut => ?_)
  rw [hval]
  refine shortLeaf_test (fun _ => status_baddata) (fun hc => ⟨hc, ?_⟩)
  refine shortLeaf_test (fun _ => status_baddata) (fun hc => ⟨hc, ?_⟩)
  refine shortLeaf_test (fun _ => status_baddata) (fun hc => ⟨hc, ?_⟩)
  refine shortLeaf_check (hC.readString32 _ _ _ (Or.inr hcut)) rfl
    (fun _ _ hval2 hcut2 => ?_)
  rw [hval2]
  refine shortLeaf_test (fun _ => status_notavail) (fun hc => ⟨hc, ?_⟩)
  refine shortLeaf_test (fun _ => status_notavail) (fun hc => ⟨hc, ?_⟩)
  refine shortLeaf_test (fun he => he) (fun hc => ⟨hc, ?_⟩)
  refine shortLeaf_check (hC.readString32 _ _ _ (Or.inr hcut2)) rfl
    (fun _ _ hval3 hcut3 => ?_)
  rw [hval3]
  refine shortLeaf_test (fun _ => status_baddata) (fun hc => ⟨hc, ?_⟩)
  exact Or.inr ⟨rfl, hcut3⟩

theorem readPgpRsaPublicKey_short {σ : Type} (E : Ext σ) (failed : σ → Prop)
    (cut : σ → σ → Prop) (hC : PrefixContract E failed cut) (L : Limits) (s t : σ)
    (ctx : CONTEXT_INFO) (af : Nat) (h : shortOf failed cut s t) :
    shortLeaf cut (readPgpRsaPublicKey E L s ctx af) (readPgpRsaPublicKey E L t ctx af) := by
  unfold readPgpRsaPublicKey
  refine shortLeaf_test (fun _ => status_internal) (fun hc => ⟨hc, ?_⟩)
  refine shortLeaf_check (hC.sgetc _ _ h) rfl (fun _ hst _ hcut => ?_)
  rw [hst]
  refine shortLeaf_test (fun _ => status_baddata) (fun hc => ⟨hc, ?_⟩)
  refine shortLeaf_check (hC.readUint32Time _ _ (Or.inr hcut)) rfl
    (fun _ _ hval2 hcut2 => ?_)
  rw [hval2]
  refine shortLeaf_check
    (hC.sgetc _ _ (shortOf_ite (shortRead_streams (hC.sSkip _ _ _ (Or.inr hcut2)))
      (Or.inr hcut2))) rfl
    (fun _ hst3 _ hcut3 => ?_)
  rw [hst3]
  refine shortLeaf_test (fun _ => status_baddata) (fun hc => ⟨hc, ?_⟩)
  refine shortLeaf_okThen (hC.readBignumInteger16UbitsChecked _ _ _ _ _ (Or.inr hcut3))
    (fun _ _ hval4 hcut4 => ?_)
  rw [hval4]
  exact shortLeaf_done (hC.readBignumInteger16Ubits _ _ _ _ _ _ (Or.inr hcut4))

theorem readSshDlpPublicKey_short {σ : Type} (E : Ext σ) (failed : σ → Prop)
    (cut : σ → σ → Prop) (hC : PrefixContract E failed cut) (L : Limits) (s t : σ)
    (ctx : CONTEXT_INFO) (af : Nat) (h : shortOf failed cut s t) :
    shortLeaf cut (readSshDlpPublicKey E L s ctx af) (readSshDlpPublicKey E L t ctx af) := by
  unfold readSshDlpPublicKey
  refine shortLeaf_test (fun _ => status_internal) (fun hc => ⟨hc, ?_⟩)
  refine shortLeaf_ite (fun _ => ?_) (fun _ => ?_)
  · refine shortLeaf_check
      (hC.readString32 _ _ _ (shortRead_streams (hC.readUint32 _ _ h))) rfl
      (fun _ _ hval hcut => ?_)
    rw [hval]
    refine shortLeaf_test (fun _ => status_baddata) (fun hc => ⟨hc, ?_⟩)
    refine shortLeaf_okThen (hC.readBignumInteger32Checked _ _ _ _ _ (Or.inr hcut))
      (fun _ _ hval2 hcut2 => ?_)
    rw [hval2]
    exact shortLeaf_done (hC.readBignumInteger32 _ _ _ _ _ _ (Or.inr hcut2))
  · refine shortLeaf_check
      (hC.readString32 _ _ _ (shortRead_streams (hC.readUint32 _ _ h))) rfl
      (fun _ _ hval hcut => ?_)
    rw [hval]
    refine shortLeaf_test (fun _ => status_baddata) (fun hc => ⟨hc, ?_⟩)
    dsimp only
    rcases hC.readBignumInteger32Checked _ _ ctx.ctxPKC.dlpParam_p L.DLPPARAM_MIN_P
      L.DLPPARAM_MAX_P (Or.inr hcut) with ⟨he, _⟩ | ⟨hne, hst, hvalp, hcutp⟩
    · refine Or.inl ?_
      have hnok := error_not_ok he
      simp only [hnok, if_false, Bool.false_and, Bool.false_eq_true]
      exact he
    · rw [hvalp]
      exact shortLeaf_done (shortRead_okAnd
        (shortRead_okThen
          (shortRead_okThen (Or.inr ⟨hne, hst, hvalp, hcutp⟩) (fun _ => rfl)
            (fun _ _ _ hc => hC.readBignumInteger32 _ _ _ _ _ _ (Or.inr hc)))
          (fun _ => rfl) (fun _ _ _ hc => hC.readBignumInteger32 _ _ _ _ _ _ (Or.inr hc)))
        (fun _ => rfl) (fun _ _ _ hc => hC.readBignumInteger32 _ _ _ _ _ _ (Or.inr hc)))

theorem readPgpDlpPublicKey_short {σ : Type} (E : Ext σ) (failed : σ → Prop)
    (cut : σ → σ → Prop) (hC : PrefixContract E failed cut) (L : Limits) (s t : σ)
    (ctx : CONTEXT_INFO) (af : Nat) (h : shortOf failed cut s t) :
    shortLeaf cut (readPgpDlpPublicKey E L s ctx af) (readPgpDlpPublicKey E L t ctx af) := by
  unfold readPgpDlpPublicKey
  refine shortLeaf_test (fun _ => status_internal) (fun hc => ⟨hc, ?_⟩)
  refine shortLeaf_check (hC.sgetc _ _ h) rfl (fun _ hst _ hcut => ?_)
  rw [hst]
  refine shortLeaf_test (fun _ => status_baddata) (fun hc => ⟨hc, ?_⟩)
  refine shortLeaf_check (hC.readUint32Time _ _ (Or.inr hcut)) rfl
    (fun _ _ hval2 hcut2 => ?_)
  rw [hval2]
  refine shortLeaf_check (hC.sgetc _ _ (Or.inr hcut2)) rfl (fun _ hst3 _ hcut3 => ?_)
  rw [hst3]
  refine shortLeaf_test (fun _ => status_baddata) (fun hc => ⟨hc, ?_⟩)
  dsimp only
  rcases hC.readBignumInteger16UbitsChecked _ _ ctx.ctxPKC.dlpParam_p
    (bytesToBits L.DLPPARAM_MIN_P) (bytesToBits L.DLPPARAM_MAX_P) (Or.inr hcut3) with
    ⟨he, _⟩ | ⟨hne, hst, hvalp, hcutp⟩
  · refine Or.inl ?_
    have hnok := error_not_ok he
    simp only [hnok, if_false, Bool.false_and, Bool.false_eq_true]
    exact he
  · rw [hvalp]
    exact shortLeaf_done (shortRead_okThen
      (shortRead_okThen
        (shortRead_okAnd (Or.inr ⟨hne, hst, hvalp, hcutp⟩) (fun _ => rfl)
          (fun _ _ _ hc => hC.readBignumInteger16Ubits _ _ _ _ _ _ (Or.inr hc)))
        (fun _ => rfl) (fun _ _ _ hc => hC.readBignumInteger16Ubits _ _ _ _ _ _ (Or.inr hc)))
      (fun _ => rfl) (fun _ _ _ hc => hC.readBignumInteger16Ubits _ _ _ _ _ _ (Or.inr hc)))

theorem readDlpSubjectPublicKey_short {σ : Type} (E : Ext σ) (failed : σ → Prop)
    (cut : σ → σ → Prop) (hC : PrefixContract E failed cut) (L : Limits) (s t : σ)
    (ctx : CONTEXT_INFO) (af : Nat) (h : shortOf failed cut s t) :
    shortLeaf cut (readDlpSubjectPublicKey E L s ctx af)
      (readDlpSubjectPublicKey E L t ctx af) := by
  unfold readDlpSubjectPublicKey
  refine shortLeaf_test (fun _ => status_internal) (fun hc => ⟨hc, ?_⟩)
  refine shortLeaf_check
    (hC.readAlgoIDparam _ _ (shortRead_streams (hC.readGenericHole _ _ _ h))) rfl
    (fun _ _ hval hcut => ?_)
  rw [hval]
  refine shortLeaf_test (fun _ => status_baddata) (fun hc => ⟨hc, ?_⟩)
  refine shortLeaf_test (fun _ => status_baddata) (fun hc => ⟨hc, ?_⟩)
  refine shortLeaf_check
    (hC.readBignumChecked _ _ _ _ _ _ (shortRead_streams (hC.readSequence _ _ (Or.inr hcut))))
    rfl (fun _ _ hvalp hcutp => ?_)
  rw [hvalp]
  refine shortLeaf_check (?_ : shortRead failed cut _ _) rfl (fun _ _ hval3 hcut3 => ?_)
  · refine shortRead_ite (fun _ => ?_) (fun _ => ?_)
    · refine shortRead_okThen (hC.readBignum _ _ _ _ _ _ (Or.inr hcutp))
        (fun e => by rw [e]) (fun _ _ hvalg hcutg => ?_)
      rw [hvalg]
      exact shortRead_same (hC.readBignum _ _ _ _ _ _ (Or.inr hcutg)) (fun e => by rw [e])
    · refine shortRead_okThen (hC.readBignum _ _ _ _ _ _ (Or.inr hcutp))
        (fun e => by rw [e]) (fun _ _ hvalq hcutq => ?_)
      rw [hvalq]
      exact shortRead_same (hC.readBignum _ _ _ _ _ _ (Or.inr hcutq)) (fun e => by rw [e])
  · rw [hval3]
    exact shortLeaf_done (hC.readBignumChecked _ _ _ _ _ _
      (shortRead_streams (hC.readBitStringHole _ _ _ (Or.inr hcut3))))

theorem readEccSubjectPublicKey_short {σ : Type} (E : Ext σ) (failed : σ → Prop)
    (cut : σ → σ → Prop) (hC : PrefixContract E failed cut) (L : Limits) (s t : σ)
    (ctx : CONTEXT_INFO) (af : Nat) (h : shortOf failed cut s t) :
    shortLeaf cut (readEccSubjectPublicKey E L s ctx af)
      (readEccSubjectPublicKey E L t ctx af) := by
  unfold readEccSubjectPublicKey
  refine shortLeaf_test (fun _ => status_internal) (fun hc => ⟨hc, ?_⟩)
  refine shortLeaf_check
    (hC.readAlgoIDparam _ _ (shortRead_streams (hC.readGenericHole _ _ _ h))) rfl
    (fun _ _ hval hcut => ?_)
  rw [hval]
  refine shortLeaf_test (fun _ => status_baddata) (fun hc => ⟨hc, ?_⟩)
  refine shortLeaf_test (fun _ => status_baddata) (fun hc => ⟨hc, ?_⟩)
  dsimp only
  by_cases htbl : cryptStatusOK E.getECCOidTbl.1 = true
  · simp only [htbl, if_true]
    rcases hC.readOID _ _ E.getECCOidTbl.2.1 E.getECCOidTbl.2.2 DUMMY_INIT (Or.inr hcut) with
      ⟨he, _⟩ | ⟨_, hst, hvalo, hcuto⟩
    · refine Or.inl ?_
      have hnok := error_not_ok he
      simp only [hnok, Bool.false_eq_true, if_false, he, if_true]
    · rw [hst, hvalo]
      refine shortLeaf_test (fun he => he) (fun hc => ⟨hc, ?_⟩)
      refine shortLeaf_check (hC.readBitStringHole _ _ _ (Or.inr hcuto)) rfl
        (fun _ _ hvalb hcutb => ?_)
      rw [hvalb]
      refine shortLeaf_test (fun _ => status_baddata) (fun hc => ⟨hc, ?_⟩)
      refine shortLeaf_check (hC.sread _ _ _ (Or.inr hcutb)) rfl (fun _ _ hvalr hcutr => ?_)
      rw [hvalr]
      exact Or.inr ⟨rfl, hcutr⟩
  · simp only [htbl, if_false]
    refine shortLeaf_test (fun he => he) (fun hc => ⟨hc, ?_⟩)
    refine shortLeaf_check (hC.readBitStringHole _ _ _ (Or.inr hcut)) rfl
      (fun _ _ hvalb hcutb => ?_)
    rw [hvalb]
    refine shortLeaf_test (fun _ => status_baddata) (fun hc => ⟨hc, ?_⟩)
    refine shortLeaf_check (hC.sread _ _ _ (Or.inr hcutb)) rfl (fun _ _ hvalr hcutr => ?_)
    rw [hvalr]
    exact Or.inr ⟨rfl, hcutr⟩

theorem runLeaf_short {σ : Type} (E : Ext σ) (failed : σ → Prop) (cut : σ → σ → Prop)
    (hC : PrefixContract E failed cut) (id : LeafId) (L : Limits) (s t : σ)
    (ctx : CONTEXT_INFO) (af : Nat) (h : shortOf failed cut s t) :
    shortLeaf cut (runLeaf id E L s ctx af) (runLeaf id E L t ctx af) := by
  cases id
  · exact readRsaSubjectPublicKey_short E failed cut hC L s t ctx af h
  · exact readDlpSubjectPublicKey_short E failed cut hC L s t ctx af h
  · exact readEccSubjectPublicKey_short E failed cut hC L s t ctx af h
  · exact readSshRsaPublicKey_short E failed cut hC L s t ctx af h
  · exact readSshDlpPublicKey_short E failed cut hC L s t ctx af h
  · exact readSshEccPublicKey_short E failed cut hC L s t ctx af h
  · exact readSslDlpPublicKey_short E failed cut hC L s t ctx af h
  · exact readSslEccPublicKey_short E failed cut hC L s t ctx af h
  · exact readPgpRsaPublicKey_short E failed cut hC L s t ctx af h
  · exact readPgpDlpPublicKey_short E failed cut hC L s t ctx af h

/-- C28: for each of the ten leaf decoders. Under the contract of the stream
readers on a shortened input, the run on a stream that has failed or is the
shortened form of another returns an error, or returns the status of the run
on the other stream and leaves the shortened form of its stream; a failed read
whose status the decoder does not inspect leaves a failed stream, from which
the next inspected read fails. On the byte stream, for every input on which
the decoder leaves the stream at position k and every n below k, the decoder
returns an error on the first n bytes of the input; so it does for every
strict prefix of the k bytes of an input that decodes with `CRYPT_OK`. -/
theorem truncated_input_is_error (id : LeafId) (L : Limits) (ctx : CONTEXT_INFO) (af : Nat) :
    (∀ {σ : Type} (E : Ext σ) (failed : σ → Prop) (cut : σ → σ → Prop),
      PrefixContract E failed cut → ∀ s t : σ, failed t ∨ cut s t →
        cryptStatusError (runLeaf id E L t ctx af).status = true ∨
        ((runLeaf id E L t ctx af).status = (runLeaf id E L s ctx af).status ∧
          cut (runLeaf id E L s ctx af).stream (runLeaf id E L t ctx af).stream)) ∧
    (∀ (input : List Nat) (n : Nat),
      n < (runLeaf id byteExt L (sMemConnect input) ctx af).stream.bufPos →
      cryptStatusError (runLeaf id byteExt L (sMemConnect (input.take n)) ctx af).status =
        true) := by
  constructor
  · intro σ E failed cut hC s t h
    exact runLeaf_short E failed cut hC id L s t ctx af h
  · intro input n hn
    have h : shortOf STREAM.failed (cutAt n) (sMemConnect input) (sMemConnect (input.take n)) :=
      Or.inr ⟨rfl, rfl, rfl, Nat.zero_le _⟩
    rcases runLeaf_short byteExt STREAM.failed (cutAt n) (byteExt_prefixContract n) id L _ _
      ctx af h with he | ⟨_, hb, hp, _, hl⟩
    · exact he
    · exfalso
      rw [hb, hp] at hl
      have hlen := List.length_take_le n
        (runLeaf id byteExt L (sMemConnect input) ctx af).stream.buffer
      omega

/-- Witness of C28: the sample RSA key of the ssh format decodes with the
stream at byte 155 and fails on its first 154 bytes; the sample RSA key of the
mail-packet format with version 3 fails on its first 6 bytes, which end inside
the validity period that the decoder skips without a check; the sample RSA key
of the certificate format fails on its first 2 bytes, which end inside the
header of the wrapper. -/
theorem truncated_input_is_error_witness :
    (runLeaf .readSshRsaPublicKey byteExt sampleLimits (sMemConnect sampleSshRsa)
      (sampleContext .CRYPT_ALGO_RSA) 0).status = CRYPT_OK ∧
    (runLeaf .readSshRsaPublicKey byteExt sampleLimits (sMemConnect sampleSshRsa)
      (sampleContext .CRYPT_ALGO_RSA) 0).stream.bufPos = 155 ∧
    cryptStatusError (runLeaf .readSshRsaPublicKey byteExt sampleLimits
      (sMemConnect (sampleSshRsa.take 154)) (sampleContext .CRYPT_ALGO_RSA) 0).status = true ∧
    (runLeaf .readPgpRsaPublicKey byteExt sampleLimits (sMemConnect (samplePgpRsaV3 1))
      (sampleContext .CRYPT_ALGO_RSA) 0).status = CRYPT_OK ∧
    cryptStatusError (runLeaf .readPgpRsaPublicKey byteExt sampleLimits
      (sMemConnect ((samplePgpRsaV3 1).take 6)) (sampleContext .CRYPT_ALGO_RSA) 0).status =
        true ∧
    (runLeaf .readRsaSubjectPublicKey byteExt sampleLimits (sMemConnect sampleRsaCert)
      (sampleContext .CRYPT_ALGO_RSA) 0).status = CRYPT_OK ∧
    cryptStatusError (runLeaf .readRsaSubjectPublicKey byteExt sampleLimits
      (sMemConnect (sampleRsaCert.take 2)) (sampleContext .CRYPT_ALGO_RSA) 0).status = true :=
  ⟨by decide, by decide,
    (truncated_input_is_error .readSshRsaPublicKey sampleLimits
      (sampleContext .CRYPT_ALGO_RSA) 0).2 sampleSshRsa 154 (by decide),
    by decide,
    (truncated_input_is_error .readPgpRsaPublicKey sampleLimits
      (sampleContext .CRYPT_ALGO_RSA) 0).2 (samplePgpRsaV3 1) 6 (by decide),
    by decide,
    (truncated_input_is_error .readRsaSubjectPublicKey sampleLimits
      (sampleContext .CRYPT_ALGO_RSA) 0).2 sampleRsaCert 2 (by decide)⟩

/-! ### Claims C31 to C37 -/

/-- C31: `file_exists` returns `Q_FALSE` exactly when `stat` returns a negative
value and leaves `ENOENT` in `errno`; when `stat` does not return a negative
value, or returns one with any other value in `errno`, it returns `Q_TRUE`. On
the sample file system it returns `Q_TRUE` for the regular file and for the
directory, `Q_FALSE` for a path that names nothing and `Q_TRUE` for the path
on which `stat` fails with `EACCES`. -/
theorem file_exists_false_iff_enoent (os : Os) (filename : String) :
    (file_exists os filename = .Q_FALSE ↔
      (os.stat filename).1 < 0 ∧ (os.stat filename).2 = ENOENT) ∧
    (file_exists os filename = .Q_TRUE ↔
      ¬ ((os.stat filename).1 < 0 ∧ (os.stat filename).2 = ENOENT)) ∧
    file_exists (fsOs sampleFs) "/etc/passwd" = .Q_TRUE ∧
    file_exists (fsOs sampleFs) "/etc" = .Q_TRUE ∧
    file_exists (fsOs sampleFs) "/none" = .Q_FALSE ∧
    file_exists deniedOs "/root/secret" = .Q_TRUE := by
  refine ⟨?_, ?_, by decide, by decide, by decide, by decide⟩
  · unfold file_exists
    by_cases h1 : (os.stat filename).1 < 0
    · by_cases h2 : (os.stat filename).2 = ENOENT
      · simp [h1, h2]
      · simp [h1, h2]
    · simp [h1]
  · unfold file_exists
    by_cases h1 : (os.stat filename).1 < 0
    · by_cases h2 : (os.stat filename).2 = ENOENT
      · simp [h1, h2]
      · simp [h1, h2]
    · simp [h1]

/-- C32 fails in the code: in the ssh layout `decodeDLValuesFunction` passes
`buffer + 20` with the length 20 to `importBignum` whatever the size of the
buffer, for every implementation of the external routines. With `bufSize` 32,
on two memories that hold the same 32 bytes of the buffer and differ in a byte
behind it, the call returns `CRYPT_OK` with s = 2^157 + 1 on the one and
s = 2^157 + 2 on the other: s is the value of the bytes 20..39, of which the
bytes 32..39 lie behind the buffer. -/
theorem ssh_dl_values_read_past_buffer :
    (∀ {σ : Type} (E : Ext σ) (buffer : List Nat) (value1 value2 maxRange : Nat),
      decodeDLValuesFunction E sampleLimits buffer 32 value1 value2 maxRange
          .CRYPT_IFORMAT_SSH =
        (let i1 := E.importBignum value1 buffer 20 sampleLimits.DLPPARAM_MIN_SIG_R 20
           (some maxRange)
         let i2 := E.importBignum value2 (buffer.drop 20) 20 sampleLimits.DLPPARAM_MIN_SIG_S 20
           (some maxRange)
         if cryptStatusError i1.1 then ⟨i1.1, i1.2, value2⟩ else ⟨i2.1, i1.2, i2.2⟩)) ∧
    (sampleShortSshDlSignature [0, 0, 0, 0, 0, 0, 0, 1]).take 32 =
      (sampleShortSshDlSignature [0, 0, 0, 0, 0, 0, 0, 2]).take 32 ∧
    decodeDLValuesFunction byteExt sampleLimits
        (sampleShortSshDlSignature [0, 0, 0, 0, 0, 0, 0, 1]) 32 0 0 (beValue sampleOrder)
        .CRYPT_IFORMAT_SSH = ⟨CRYPT_OK, 2 ^ 158, 2 ^ 157 + 1⟩ ∧
    decodeDLValuesFunction byteExt sampleLimits
        (sampleShortSshDlSignature [0, 0, 0, 0, 0, 0, 0, 2]) 32 0 0 (beValue sampleOrder)
        .CRYPT_IFORMAT_SSH = ⟨CRYPT_OK, 2 ^ 158, 2 ^ 157 + 2⟩ ∧
    (32 : Int) ≥ 32 ∧ (32 : Int) < (sampleLimits.MAX_INTLENGTH_SHORT : Int) := by
  refine ⟨?_, by decide, by decide, by decide, by decide, by decide⟩
  intro σ E buffer value1 value2 maxRange
  exact dl_ssh E sampleLimits buffer 32 value1 value2 maxRange (by decide)

/-- C33 fails in the code: in the mail-packet layout `decodeDLValuesFunction`
passes the byte counts `DLPPARAM_MIN_SIG_R` and `DLPPARAM_MIN_SIG_S` as the
minimum of the bit-count reader, next to the maximum
`bytesToBits( CRYPT_MAX_PKCSIZE )` in bits. With the minimum of 16 bytes the
bit-count reader gets the minimum 16, not `bytesToBits 16` = 128: the pair
r = s = 65537 of 17 bits is read with `CRYPT_OK` in the mail-packet layout and
is an error in the layout of the DER sequence. -/
theorem pgp_dl_values_minimum_in_bytes :
    (∀ {σ : Type} (E : Ext σ) (buffer : List Nat) (value1 value2 maxRange : Nat),
      decodeDLValuesFunction E sampleLimits buffer 32 value1 value2 maxRange
          .CRYPT_FORMAT_PGP =
        (let r1 := E.readBignumInteger16Ubits (E.sMemConnect buffer 32) value1
           sampleLimits.DLPPARAM_MIN_SIG_R (bytesToBits sampleLimits.CRYPT_MAX_PKCSIZE)
           (some maxRange)
         let r2 := E.readBignumInteger16Ubits r1.stream value2
           sampleLimits.DLPPARAM_MIN_SIG_S (bytesToBits sampleLimits.CRYPT_MAX_PKCSIZE)
           (some maxRange)
         if cryptStatusError r1.status then ⟨r1.status, r1.value, value2⟩
         else ⟨r2.status, r1.value, r2.value⟩)) ∧
    sampleLimits.DLPPARAM_MIN_SIG_R = 16 ∧ sampleLimits.DLPPARAM_MIN_SIG_S = 16 ∧
    bytesToBits sampleLimits.DLPPARAM_MIN_SIG_R = 128 ∧
    decodeDLValuesFunction byteExt sampleLimits samplePgpSmallSignature 32 0 0
        (beValue sampleOrder) .CRYPT_FORMAT_PGP = ⟨CRYPT_OK, 65537, 65537⟩ ∧
    decodeDLValuesFunction byteExt sampleLimits sampleDerSmallSignature 32 0 0
        (beValue sampleOrder) .CRYPT_FORMAT_CRYPTLIB = ⟨CRYPT_ERROR_BADDATA, 0, 0⟩ := by
  refine ⟨?_, by decide, by decide, by decide, by decide, by decide⟩
  intro σ E buffer value1 value2 maxRange
  exact dl_pgp E sampleLimits buffer 32 value1 value2 maxRange (by decide)

/-- C34: an ssh-format decode that does not fail yields exactly internal-only
verify (`0x80`) from `readSshRsaPublicKey`, from `readSshDlpPublicKey` for a
DSA key and from `readSshEccPublicKey`, whose key is then an ECDSA key: in
that bitmask the field of the verify action is internal-only and the field of
every other action, sign, encrypt and decrypt among them, is empty, and no
field holds the unrestricted permission. -/
theorem ssh_signature_keys_verify_only {σ : Type} (E : Ext σ) (L : Limits) (s : σ)
    (ctx : CONTEXT_INFO) (af : Nat) :
    (cryptStatusError (readSshRsaPublicKey E L s ctx af).status = false →
      ctx.cryptAlgo = .CRYPT_ALGO_RSA ∧
      (readSshRsaPublicKey E L s ctx af).actionFlags = permInternalVerify) ∧
    (ctx.cryptAlgo = .CRYPT_ALGO_DSA →
      cryptStatusError (readSshDlpPublicKey E L s ctx af).status = false →
      (readSshDlpPublicKey E L s ctx af).actionFlags = permInternalVerify) ∧
    (cryptStatusError (readSshEccPublicKey E L s ctx af).status = false →
      ctx.cryptAlgo = .CRYPT_ALGO_ECDSA ∧
      (readSshEccPublicKey E L s ctx af).actionFlags = permInternalVerify) ∧
    permInternalVerify = 0x80 ∧
    (∀ action : MESSAGE_TYPE,
      actionPerm permInternalVerify action =
        (if action = .MESSAGE_CTX_SIGCHECK
          then ACTION_PERM_NONE_EXTERNAL else ACTION_PERM_NOTAVAIL) ∧
      actionPerm permInternalVerify action ≠ ACTION_PERM_ALL) := by
  refine ⟨?_, ?_, ?_, by decide, ?_⟩
  · intro hok
    exact ⟨(success_rsa_ssh E L s ctx af hok).1.2, (success_rsa_ssh E L s ctx af hok).2⟩
  · intro hd hok
    have h : (readSshDlpPublicKey E L s ctx af).actionFlags =
        if ctx.cryptAlgo = .CRYPT_ALGO_DH then permInternalCrypt else permInternalVerify :=
      (success_dlp_ssh E L s ctx af hok).2
    rw [h, if_neg (by rw [hd]; decide)]
  · intro hok
    exact ⟨(success_ecc_ssh E L s ctx af hok).1.2, (success_ecc_ssh E L s ctx af hok).2⟩
  · intro action
    cases action <;> decide

/-- Witness of C34: the sample RSA, DSA and ECDSA keys in the ssh format. -/
theorem ssh_signature_keys_verify_only_witness :
    cryptStatusError (readSshRsaPublicKey byteExt sampleLimits (sMemConnect sampleSshRsa)
      (sampleContext .CRYPT_ALGO_RSA) 0).status = false ∧
    (readSshRsaPublicKey byteExt sampleLimits (sMemConnect sampleSshRsa)
      (sampleContext .CRYPT_ALGO_RSA) 0).actionFlags = permInternalVerify ∧
    cryptStatusError (readSshDlpPublicKey byteExt sampleLimits (sMemConnect sampleSshDss)
      (sampleContext .CRYPT_ALGO_DSA) 0).status = false ∧
    (readSshDlpPublicKey byteExt sampleLimits (sMemConnect sampleSshDss)
      (sampleContext .CRYPT_ALGO_DSA) 0).actionFlags = permInternalVerify ∧
    cryptStatusError (readSshEccPublicKey byteExt sampleLimits (sMemConnect sampleSshEcdsa)
      (sampleContext .CRYPT_ALGO_ECDSA) 0).status = false ∧
    (readSshEccPublicKey byteExt sampleLimits (sMemConnect sampleSshEcdsa)
      (sampleContext .CRYPT_ALGO_ECDSA) 0).actionFlags = permInternalVerify :=
  ⟨by decide,
   ((ssh_signature_keys_verify_only byteExt sampleLimits (sMemConnect sampleSshRsa)
      (sampleContext .CRYPT_ALGO_RSA) 0).1 (by decide)).2,
   by decide,
   (ssh_signature_keys_verify_only byteExt sampleLimits (sMemConnect sampleSshDss)
      (sampleContext .CRYPT_ALGO_DSA) 0).2.1 rfl (by decide),
   by decide,
   ((ssh_signature_keys_verify_only byteExt sampleLimits (sMemConnect sampleSshEcdsa)
      (sampleContext .CRYPT_ALGO_ECDSA) 0).2.2.1 (by decide)).2⟩

/-- C35: a leaf decoder that returns a status that is not an error returns a
bitmask above `ACTION_PERM_FLAG_NONE` and below `ACTION_PERM_FLAG_MAX`, so
`completePubkeyRead` on its result passes its precondition: it returns
`CRYPT_OK` for a context flagged static and otherwise the status of the
message to the kernel. The dispatcher that selects the leaf decoder then
returns `CRYPT_OK` or the status of that message, so it returns the internal
error only when the kernel returned it for the message. -/
theorem successful_leaf_flags_in_range {σ : Type} (id : LeafId) (E : Ext σ) (L : Limits)
    (s : σ) (ctx : CONTEXT_INFO) (w : World) (af : Nat)
    (hok : cryptStatusError (runLeaf id E L s ctx af).status = false) :
    (runLeaf id E L s ctx af).actionFlags > ACTION_PERM_FLAG_NONE ∧
    (runLeaf id E L s ctx af).actionFlags < ACTION_PERM_FLAG_MAX ∧
    (completePubkeyRead E L (runLeaf id E L s ctx af).ctx
        (runLeaf id E L s ctx af).actionFlags w).1 =
      (if ctx.flags &&& L.CONTEXT_FLAG_STATICCONTEXT ≠ 0 then CRYPT_OK
       else E.krnlSendMessage w.sent
         ⟨ctx.objectHandle, (runLeaf id E L s ctx af).actionFlags⟩) ∧
    (∀ (fam : Family) (fmt : KEYFORMAT_TYPE), selectedLeaf fam fmt = some id →
      (readPublicKeyFunction fam E L s ctx fmt w af).status =
        (if ctx.flags &&& L.CONTEXT_FLAG_STATICCONTEXT ≠ 0 then CRYPT_OK
         else E.krnlSendMessage w.sent
           ⟨ctx.objectHandle, (runLeaf id E L s ctx af).actionFlags⟩) ∧
      ((readPublicKeyFunction fam E L s ctx fmt w af).status = CRYPT_ERROR_INTERNAL →
        ctx.flags &&& L.CONTEXT_FLAG_STATICCONTEXT = 0 ∧
        E.krnlSendMessage w.sent
          ⟨ctx.objectHandle, (runLeaf id E L s ctx af).actionFlags⟩ =
            CRYPT_ERROR_INTERNAL)) := by
  have hs := runLeaf_success id E L s ctx af hok
  have hk := (runLeaf_kept id E L s ctx af).1
  have hr := leafFlags_range id E s ctx
  rw [← hs.2] at hr
  have hc : (completePubkeyRead E L (runLeaf id E L s ctx af).ctx
        (runLeaf id E L s ctx af).actionFlags w).1 =
      (if ctx.flags &&& L.CONTEXT_FLAG_STATICCONTEXT ≠ 0 then CRYPT_OK
       else E.krnlSendMessage w.sent
         ⟨ctx.objectHandle, (runLeaf id E L s ctx af).actionFlags⟩) := by
    simp only [completePubkeyRead, hk.2.2.1, hk.2.2.2, hr.1, hr.2,
      and_self, not_true_eq_false, if_false]
    split_ifs <;> rfl
  have hd : ∀ (fam : Family) (fmt : KEYFORMAT_TYPE), selectedLeaf fam fmt = some id →
      (readPublicKeyFunction fam E L s ctx fmt w af).status =
        (if ctx.flags &&& L.CONTEXT_FLAG_STATICCONTEXT ≠ 0 then CRYPT_OK
         else E.krnlSendMessage w.sent
           ⟨ctx.objectHandle, (runLeaf id E L s ctx af).actionFlags⟩) := by
    intro fam fmt hsel
    have hf : familyContext fam ctx :=
      selectedLeaf_family fam fmt id hsel ▸ leafRequires_family id ctx hs.1
    rw [dispatch_eq fam E L s ctx fmt w af hf, hsel]
    simp only [finishRead, hok, completePubkeyRead, hk.2.2.1, hk.2.2.2, hr.1, hr.2,
      and_self, not_true_eq_false, if_false, Bool.false_eq_true]
    split_ifs <;> rfl
  refine ⟨hr.1, hr.2, hc, ?_⟩
  intro fam fmt hsel
  refine ⟨hd fam fmt hsel, ?_⟩
  intro hi
  rw [hd fam fmt hsel] at hi
  by_cases h0 : ctx.flags &&& L.CONTEXT_FLAG_STATICCONTEXT = 0
  · rw [if_neg (not_not.mpr h0)] at hi
    exact ⟨h0, hi⟩
  · rw [if_pos h0] at hi
    exact absurd hi.symm internal_not_ok

/-- Witness of C35: the ssh-format decode of the sample RSA key does not fail,
its bitmask `0x80` is in the range, and the RSA dispatcher returns `CRYPT_OK`
for the context that is not flagged static and for the one that is. -/
theorem successful_leaf_flags_in_range_witness :
    cryptStatusError (runLeaf .readSshRsaPublicKey byteExt sampleLimits
      (sMemConnect sampleSshRsa) (sampleContext .CRYPT_ALGO_RSA) 0).status = false ∧
    (runLeaf .readSshRsaPublicKey byteExt sampleLimits
      (sMemConnect sampleSshRsa) (sampleContext .CRYPT_ALGO_RSA) 0).actionFlags = 0x80 ∧
    (runLeaf .readSshRsaPublicKey byteExt sampleLimits
      (sMemConnect sampleSshRsa) (sampleContext .CRYPT_ALGO_RSA) 0).actionFlags <
        ACTION_PERM_FLAG_MAX ∧
    (readPublicKeyFunction .rsa byteExt sampleLimits (sMemConnect sampleSshRsa)
      (sampleContext .CRYPT_ALGO_RSA) .KEYFORMAT_SSH emptyWorld 0).status = CRYPT_OK ∧
    (readPublicKeyFunction .rsa byteExt sampleLimits (sMemConnect sampleSshRsa)
      (sampleStaticContext .CRYPT_ALGO_RSA) .KEYFORMAT_SSH emptyWorld 0).status = CRYPT_OK :=
  have h := successful_leaf_flags_in_range .readSshRsaPublicKey byteExt sampleLimits
    (sMemConnect sampleSshRsa) (sampleContext .CRYPT_ALGO_RSA) emptyWorld 0 (by decide)
  have hs := successful_leaf_flags_in_range .readSshRsaPublicKey byteExt sampleLimits
    (sMemConnect sampleSshRsa) (sampleStaticContext .CRYPT_ALGO_RSA) emptyWorld 0 (by decide)
  ⟨by decide, by decide, h.2.1,
   ((h.2.2.2 .rsa .KEYFORMAT_SSH rfl).1).trans (by decide),
   ((hs.2.2.2 .rsa .KEYFORMAT_SSH rfl).1).trans (by decide)⟩

/-! ### Runs on inputs with the same rest -/

theorem sameLeaf_ite {σ : Type} {rel : σ → σ → Prop} {c : Prop} [Decidable c]
    {a b a' b' : LeafResult σ} (h1 : c → sameLeaf rel a a') (h2 : ¬ c → sameLeaf rel b b') :
    sameLeaf rel (if c then a else b) (if c then a' else b') := by
  by_cases h : c
  · rw [if_pos h, if_pos h]
    exact h1 h
  · rw [if_neg h, if_neg h]
    exact h2 h

theorem sameRead_ite {σ α : Type} {rel : σ → σ → Prop} {c : Prop} [Decidable c]
    {a b a' b' : Out σ α} (h1 : c → sameRead rel a a') (h2 : ¬ c → sameRead rel b b') :
    sameRead rel (if c then a else b) (if c then a' else b') := by
  by_cases h : c
  · rw [if_pos h, if_pos h]
    exact h1 h
  · rw [if_neg h, if_neg h]
    exact h2 h

theorem sameRest_sSetError {α : Type} (s t : STREAM) (status : Int) (value : α)
    (h : sameRest s t) :
    sameRead sameRest (sSetError s status value) (sSetError t status value) :=
  ⟨rfl, rfl, rfl, h.2.1, h.2.2.1, h.2.2.2⟩

theorem sread_rest (s t : STREAM) (n : Nat) (h : sameRest s t) :
    sameRead sameRest (s.sread n) (t.sread n) := by
  obtain ⟨hst, hd, hs, ht⟩ := h
  have hl : t.buffer.length - t.bufPos = s.buffer.length - s.bufPos := by
    have := congrArg List.length hd
    simpa [List.length_drop] using this
  have hc : (t.bufPos + n > t.buffer.length) ↔ (s.bufPos + n > s.buffer.length) := by
    omega
  unfold STREAM.sread
  rw [hst]
  refine sameRead_ite (fun _ => ⟨rfl, rfl, hst, hd, hs, ht⟩) (fun _ => ?_)
  by_cases h1 : s.bufPos + n > s.buffer.length
  · rw [if_pos h1, if_pos (hc.mpr h1)]
    exact ⟨rfl, rfl, rfl, hd, hs, ht⟩
  · rw [if_neg h1, if_neg (fun h2 => h1 (hc.mp h2))]
    refine ⟨rfl, ?_, rfl, ?_, ?_, ?_⟩
    · show (t.buffer.drop t.bufPos).take n = (s.buffer.drop s.bufPos).take n
      rw [hd]
    · show t.buffer.drop (t.bufPos + n) = s.buffer.drop (s.bufPos + n)
      rw [← List.drop_drop, ← List.drop_drop, hd]
    · show s.bufPos + n ≤ s.buffer.length
      omega
    · show t.bufPos + n ≤ t.buffer.length
      omega

theorem readUint32_rest (s t : STREAM) (h : sameRest s t) :
    sameRead sameRest s.readUint32 t.readUint32 := by
  obtain ⟨e, v, r⟩ := sread_rest s t 4 h
  unfold STREAM.readUint32
  dsimp only
  rw [e, v]
  refine sameRead_ite (fun _ => ⟨rfl, rfl, r⟩) (fun _ => ?_)
  refine sameRead_ite (fun _ => sameRest_sSetError _ _ _ _ r) (fun _ => ⟨rfl, rfl, r⟩)

theorem readString32_rest (s t : STREAM) (maxLength : Nat) (h : sameRest s t) :
    sameRead sameRest (s.readString32 maxLength) (t.readString32 maxLength) := by
  obtain ⟨e, _, r⟩ := readUint32_rest s t h
  unfold STREAM.readString32
  dsimp only
  rw [e]
  refine sameRead_ite (fun _ => ⟨rfl, rfl, r⟩) (fun _ => ?_)
  refine sameRead_ite (fun _ => sameRest_sSetError _ _ _ _ r) (fun _ => ?_)
  obtain ⟨e2, v2, r2⟩ := sread_rest _ _ s.readUint32.status.toNat r
  rw [e2, v2]
  exact sameRead_ite (fun _ => ⟨rfl, rfl, r2⟩) (fun _ => ⟨rfl, rfl, r2⟩)

theorem finishBignum_rest (s t : STREAM) (bignum : Nat) (bytes : List Nat)
    (minLength maxLength : Nat) (maxRange : Option Nat) (h : sameRest s t) :
    sameRead sameRest (finishBignum s bignum bytes minLength maxLength maxRange)
      (finishBignum t bignum bytes minLength maxLength maxRange) := by
  unfold finishBignum
  exact sameRead_ite (fun _ => sameRest_sSetError _ _ _ _ h) (fun _ => ⟨rfl, rfl, h⟩)

theorem readBignumInteger32_rest (s t : STREAM) (bignum minLength maxLength : Nat)
    (maxRange : Option Nat) (h : sameRest s t) :
    sameRead sameRest (s.readBignumInteger32 bignum minLength maxLength maxRange)
      (t.readBignumInteger32 bignum minLength maxLength maxRange) := by
  obtain ⟨e, _, r⟩ := readUint32_rest s t h
  unfold STREAM.readBignumInteger32
  dsimp only
  rw [e]
  refine sameRead_ite (fun _ => ⟨rfl, rfl, r⟩) (fun _ => ?_)
  obtain ⟨e2, v2, r2⟩ := sread_rest _ _ s.readUint32.status.toNat r
  rw [e2, v2]
  exact sameRead_ite (fun _ => ⟨rfl, rfl, r2⟩) (fun _ => finishBignum_rest _ _ _ _ _ _ _ r2)

/-- The byte-buffer readers satisfy the contract on streams with the same
rest. -/
theorem byteExt_restContract : RestContract byteExt sameRest where
  readString32 := fun s t n h => readString32_rest s t n h
  readBignumInteger32 := fun s t b mn mx r h => readBignumInteger32_rest s t b mn mx r h
  readBignumInteger32Checked := fun s t b mn mx h =>
    readBignumInteger32_rest s t b mn mx none h

theorem readSshRsaPublicKey_rest {σ : Type} (E : Ext σ) (rel : σ → σ → Prop)
    (hC : RestContract E rel) (L : Limits) (s t : σ) (ctx : CONTEXT_INFO) (af : Nat)
    (hreq : ctx.type = .CONTEXT_PKC ∧ ctx.cryptAlgo = .CRYPT_ALGO_RSA)
    (h0 : rel (E.readUint32 s).stream (E.readUint32 t).stream) :
    sameLeaf rel (readSshRsaPublicKey E L s ctx af) (readSshRsaPublicKey E L t ctx af) := by
  unfold readSshRsaPublicKey
  dsimp only
  rw [if_neg (not_not.mpr hreq), if_neg (not_not.mpr hreq)]
  obtain ⟨e1, v1, r1⟩ := hC.readString32 _ _ 7 h0
  rw [e1, v1]
  refine sameLeaf_ite (fun _ => ⟨rfl, rfl, rfl, r1⟩) (fun _ => ?_)
  refine sameLeaf_ite (fun _ => ⟨rfl, rfl, rfl, r1⟩) (fun _ => ?_)
  obtain ⟨e2, v2, r2⟩ := hC.readBignumInteger32 _ _ ctx.ctxPKC.rsaParam_e
    L.RSAPARAM_MIN_E L.RSAPARAM_MAX_E none r1
  rw [e2, v2]
  refine sameLeaf_ite (fun _ => ?_) (fun _ => ⟨rfl, rfl, rfl, r2⟩)
  obtain ⟨e3, v3, r3⟩ := hC.readBignumInteger32Checked _ _ ctx.ctxPKC.rsaParam_n
    L.RSAPARAM_MIN_N L.RSAPARAM_MAX_N r2
  rw [e3, v3]
  exact ⟨rfl, rfl, rfl, r3⟩

theorem sshEccAfterName_rest {σ : Type} (E : Ext σ) (rel : σ → σ → Prop)
    (hC : RestContract E rel) (L : Limits) (u v : σ) (ctx : CONTEXT_INFO) (af : Nat)
    (h0 : rel u v) :
    sameLeaf rel (sshEccAfterName E L u ctx af) (sshEccAfterName E L v ctx af) := by
  unfold sshEccAfterName
  dsimp only
  obtain ⟨e1, v1, r1⟩ := hC.readString32 _ _ L.CRYPT_MAX_TEXTSIZE h0
  rw [e1, v1]
  refine sameLeaf_ite (fun _ => ⟨rfl, rfl, rfl, r1⟩) (fun _ => ?_)
  refine sameLeaf_ite (fun _ => ⟨rfl, rfl, rfl, r1⟩) (fun _ => ?_)
  refine sameLeaf_ite (fun _ => ⟨rfl, rfl, rfl, r1⟩) (fun _ => ?_)
  refine sameLeaf_ite (fun _ => ⟨rfl, rfl, rfl, r1⟩) (fun _ => ?_)
  obtain ⟨e2, v2, r2⟩ := hC.readString32 _ _ L.MAX_PKCSIZE_ECCPOINT r1
  rw [e2, v2]
  refine sameLeaf_ite (fun _ => ⟨rfl, rfl, rfl, r2⟩) (fun _ => ?_)
  refine sameLeaf_ite (fun _ => ⟨rfl, rfl, rfl, r2⟩) (fun _ => ?_)
  exact ⟨rfl, rfl, rfl, r2⟩

/-- In an ECDSA context the ssh ECC decoder continues after an accepted
algorithm name with `sshEccAfterName` on the stream that the read of the name
has left. -/
theorem readSshEccPublicKey_afterName {σ : Type} (E : Ext σ) (L : Limits) (s : σ)
    (ctx : CONTEXT_INFO) (af : Nat)
    (hctx : ctx.type = .CONTEXT_PKC ∧ ctx.cryptAlgo = .CRYPT_ALGO_ECDSA)
    (hname : sshEccNameAccepted E L s) :
    readSshEccPublicKey E L s ctx af =
      sshEccAfterName E L (sshEccName E L s).stream ctx permInternalVerify := by
  obtain ⟨hn1, hn2, hn3⟩ := hname
  unfold sshEccName at hn1 hn2 hn3 ⊢
  unfold readSshEccPublicKey sshEccAfterName
  simp only [hctx, and_self, not_true_eq_false, if_false, hn1, hn2, hn3, if_true,
    Bool.false_eq_true, ecdsa_not_ecdh, Bool.false_and, Bool.not_false, Bool.true_and,
    not_false_eq_true, decide_True, decide_False, decide_not, Bool.not_true]
  rfl

theorem readSshEccPublicKey_rest {σ : Type} (E : Ext σ) (rel : σ → σ → Prop)
    (hC : RestContract E rel) (L : Limits) (s t : σ) (ctx : CONTEXT_INFO) (af : Nat)
    (hreq : ctx.type = .CONTEXT_PKC ∧ ctx.cryptAlgo = .CRYPT_ALGO_ECDSA)
    (h0 : rel (E.readUint32 s).stream (E.readUint32 t).stream) :
    sameLeaf rel (readSshEccPublicKey E L s ctx af) (readSshEccPublicKey E L t ctx af) := by
  unfold readSshEccPublicKey
  dsimp only
  rw [if_neg (not_not.mpr hreq), if_neg (not_not.mpr hreq)]
  obtain ⟨e1, v1, r1⟩ := hC.readString32 _ _ L.CRYPT_MAX_TEXTSIZE h0
  rw [e1, v1]
  refine sameLeaf_ite (fun _ => ⟨rfl, rfl, rfl, r1⟩) (fun _ => ?_)
  refine sameLeaf_ite (fun _ => ⟨rfl, rfl, rfl, r1⟩) (fun _ => ?_)
  refine sameLeaf_ite (fun _ => ⟨rfl, rfl, rfl, r1⟩) (fun _ => ?_)
  refine sameLeaf_ite (fun _ => ⟨rfl, rfl, rfl, r1⟩) (fun _ => ?_)
  exact sshEccAfterName_rest E rel hC L _ _ ctx _ r1

theorem readSshDlpPublicKey_rest {σ : Type} (E : Ext σ) (rel : σ → σ → Prop)
    (hC : RestContract E rel) (L : Limits) (s t : σ) (ctx : CONTEXT_INFO) (af : Nat)
    (hreq : ctx.type = .CONTEXT_PKC ∧
      (ctx.cryptAlgo = .CRYPT_ALGO_DH ∨ ctx.cryptAlgo = .CRYPT_ALGO_DSA))
    (h0 : rel (E.readUint32 s).stream (E.readUint32 t).stream) :
    sameLeaf rel (readSshDlpPublicKey E L s ctx af) (readSshDlpPublicKey E L t ctx af) := by
  unfold readSshDlpPublicKey
  dsimp only
  rw [if_neg (not_not.mpr hreq), if_neg (not_not.mpr hreq)]
  refine sameLeaf_ite (fun _ => ?_) (fun hdh => ?_)
  · obtain ⟨e1, v1, r1⟩ := hC.readString32 _ _ 6 h0
    rw [e1, v1]
    refine sameLeaf_ite (fun _ => ⟨rfl, rfl, rfl, r1⟩) (fun _ => ?_)
    refine sameLeaf_ite (fun _ => ⟨rfl, rfl, rfl, r1⟩) (fun _ => ?_)
    obtain ⟨e2, v2, r2⟩ := hC.readBignumInteger32Checked _ _ ctx.ctxPKC.dlpParam_p
      L.DLPPARAM_MIN_P L.DLPPARAM_MAX_P r1
    rw [e2, v2]
    refine sameLeaf_ite (fun _ => ?_) (fun _ => ⟨rfl, rfl, rfl, r2⟩)
    obtain ⟨e3, v3, r3⟩ := hC.readBignumInteger32 _ _ ctx.ctxPKC.dlpParam_g
      L.DLPPARAM_MIN_G L.DLPPARAM_MAX_G
      (some (E.readBignumInteger32Checked (E.readString32 (E.readUint32 s).stream 6).stream
        ctx.ctxPKC.dlpParam_p L.DLPPARAM_MIN_P L.DLPPARAM_MAX_P).value) r2
    rw [e3, v3]
    exact ⟨rfl, rfl, rfl, r3⟩
  · obtain ⟨e1, v1, r1⟩ := hC.readString32 _ _ 7 h0
    rw [e1, v1]
    refine sameLeaf_ite (fun _ => ⟨rfl, rfl, rfl, r1⟩) (fun _ => ?_)
    refine sameLeaf_ite (fun _ => ⟨rfl, rfl, rfl, r1⟩) (fun _ => ?_)
    obtain ⟨e2, v2, r2⟩ := hC.readBignumInteger32Checked _ _ ctx.ctxPKC.dlpParam_p
      L.DLPPARAM_MIN_P L.DLPPARAM_MAX_P r1
    rw [e2, v2]
    have hnd : (!decide (ctx.cryptAlgo = CRYPT_ALGO_TYPE.CRYPT_ALGO_DH)) = true := by
      simpa using hdh
    by_cases hp : cryptStatusOK (E.readBignumInteger32Checked
        (E.readString32 (E.readUint32 s).stream 7).stream ctx.ctxPKC.dlpParam_p
        L.DLPPARAM_MIN_P L.DLPPARAM_MAX_P).status = true
    · simp only [hp, if_true]
      obtain ⟨e3, v3, r3⟩ := hC.readBignumInteger32 _ _ ctx.ctxPKC.dlpParam_q
        L.DLPPARAM_MIN_Q L.DLPPARAM_MAX_Q
        (some (E.readBignumInteger32Checked (E.readString32 (E.readUint32 s).stream 7).stream
          ctx.ctxPKC.dlpParam_p L.DLPPARAM_MIN_P L.DLPPARAM_MAX_P).value) r2
      rw [e3, v3]
      by_cases hq : cryptStatusOK (E.readBignumInteger32
          (E.readBignumInteger32Checked (E.readString32 (E.readUint32 s).stream 7).stream
            ctx.ctxPKC.dlpParam_p L.DLPPARAM_MIN_P L.DLPPARAM_MAX_P).stream
          ctx.ctxPKC.dlpParam_q L.DLPPARAM_MIN_Q L.DLPPARAM_MAX_Q
          (some (E.readBignumInteger32Checked (E.readString32 (E.readUint32 s).stream 7).stream
            ctx.ctxPKC.dlpParam_p L.DLPPARAM_MIN_P L.DLPPARAM_MAX_P).value)).status = true
      · simp only [hq, if_true]
        obtain ⟨e4, v4, r4⟩ := hC.readBignumInteger32 _ _ ctx.ctxPKC.dlpParam_g
          L.DLPPARAM_MIN_G L.DLPPARAM_MAX_G
          (some (E.readBignumInteger32Checked
            (E.readString32 (E.readUint32 s).stream 7).stream
            ctx.ctxPKC.dlpParam_p L.DLPPARAM_MIN_P L.DLPPARAM_MAX_P).value) r3
        rw [e4, v4]
        by_cases hg : cryptStatusOK (E.readBignumInteger32
            (E.readBignumInteger32
              (E.readBignumInteger32Checked (E.readString32 (E.readUint32 s).stream 7).stream
                ctx.ctxPKC.dlpParam_p L.DLPPARAM_MIN_P L.DLPPARAM_MAX_P).stream
              ctx.ctxPKC.dlpParam_q L.DLPPARAM_MIN_Q L.DLPPARAM_MAX_Q
              (some (E.readBignumInteger32Checked
                (E.readString32 (E.readUint32 s).stream 7).stream
                ctx.ctxPKC.dlpParam_p L.DLPPARAM_MIN_P L.DLPPARAM_MAX_P).value)).stream
            ctx.ctxPKC.dlpParam_g L.DLPPARAM_MIN_G L.DLPPARAM_MAX_G
            (some (E.readBignumInteger32Checked
              (E.readString32 (E.readUint32 s).stream 7).stream
              ctx.ctxPKC.dlpParam_p L.DLPPARAM_MIN_P L.DLPPARAM_MAX_P).value)).status = true
        · simp only [hg, hnd, Bool.and_self, if_true]
          obtain ⟨e5, v5, r5⟩ := hC.readBignumInteger32 _ _ ctx.ctxPKC.dlpParam_y
            L.DLPPARAM_MIN_Y L.DLPPARAM_MAX_Y
            (some (E.readBignumInteger32Checked
              (E.readString32 (E.readUint32 s).stream 7).stream
              ctx.ctxPKC.dlpParam_p L.DLPPARAM_MIN_P L.DLPPARAM_MAX_P).value) r4
          rw [e5, v5]
          exact ⟨rfl, rfl, rfl, r5⟩
        · simp only [hg, if_false, Bool.false_eq_true, Bool.false_and]
          exact ⟨rfl, rfl, rfl, r4⟩
      · simp only [hq, if_false, Bool.false_eq_true, Bool.false_and]
        exact ⟨rfl, rfl, rfl, r3⟩
    · simp only [hp, if_false, Bool.false_eq_true, Bool.false_and]
      exact ⟨rfl, rfl, rfl, r2⟩

theorem sameLeaf_outcome {σ : Type} {rel : σ → σ → Prop} {r t : LeafResult σ}
    (h : sameLeaf rel r t) : sameOutcome r t :=
  ⟨h.1, h.2.1, h.2.2.1⟩

/-- The three ssh decoders return the same status, bitmask and context from two
streams that `readUint32` leaves related. -/
theorem ssh_rest_outcome {σ : Type} (E : Ext σ) (rel : σ → σ → Prop)
    (hC : RestContract E rel) (L : Limits) (s t : σ) (ctx : CONTEXT_INFO) (af : Nat)
    (h0 : rel (E.readUint32 s).stream (E.readUint32 t).stream) :
    sameOutcome (readSshRsaPublicKey E L s ctx af) (readSshRsaPublicKey E L t ctx af) ∧
    sameOutcome (readSshDlpPublicKey E L s ctx af) (readSshDlpPublicKey E L t ctx af) ∧
    sameOutcome (readSshEccPublicKey E L s ctx af) (readSshEccPublicKey E L t ctx af) := by
  refine ⟨?_, ?_, ?_⟩
  · by_cases hreq : leafRequires .readSshRsaPublicKey ctx
    · exact sameLeaf_outcome (readSshRsaPublicKey_rest E rel hC L s t ctx af hreq h0)
    · have e1 := runLeaf_rejects .readSshRsaPublicKey E L s ctx af hreq
      have e2 := runLeaf_rejects .readSshRsaPublicKey E L t ctx af hreq
      simp only [runLeaf] at e1 e2
      rw [e1, e2]
      exact ⟨rfl, rfl, rfl⟩
  · by_cases hreq : leafRequires .readSshDlpPublicKey ctx
    · exact sameLeaf_outcome (readSshDlpPublicKey_rest E rel hC L s t ctx af hreq h0)
    · have e1 := runLeaf_rejects .readSshDlpPublicKey E L s ctx af hreq
      have e2 := runLeaf_rejects .readSshDlpPublicKey E L t ctx af hreq
      simp only [runLeaf] at e1 e2
      rw [e1, e2]
      exact ⟨rfl, rfl, rfl⟩
  · by_cases hreq : leafRequires .readSshEccPublicKey ctx
    · exact sameLeaf_outcome (readSshEccPublicKey_rest E rel hC L s t ctx af hreq h0)
    · have e1 := runLeaf_rejects .readSshEccPublicKey E L s ctx af hreq
      have e2 := runLeaf_rejects .readSshEccPublicKey E L t ctx af hreq
      simp only [runLeaf] at e1 e2
      rw [e1, e2]
      exact ⟨rfl, rfl, rfl⟩

/-- The read of the outer length from the start of a byte buffer: the stream
is left after the four bytes, in the error state when their value does not fit
a non-negative `int`. -/
theorem readUint32_at_start (outer rest : List Nat) (h : outer.length = 4) :
    (sMemConnect (outer ++ rest)).readUint32.stream =
      ⟨outer ++ rest, 4, if beValue outer ≥ 2 ^ 31 then CRYPT_ERROR_BADDATA else CRYPT_OK⟩ := by
  have h1 : ¬ (0 + 4 > (outer ++ rest).length) := by
    rw [List.length_append, h]
    omega
  have h2 : ((outer ++ rest).drop 0).take 4 = outer := by
    rw [List.drop_zero, ← h, List.take_left]
  unfold STREAM.readUint32 STREAM.sread sMemConnect
  simp only [status_ok, Bool.false_eq_true, if_false, h1, h2]
  by_cases hv : beValue outer ≥ 2 ^ 31
  · rw [if_pos hv, if_pos hv]
    rfl
  · rw [if_neg hv, if_neg hv]

theorem readUint32_outer (outer1 outer2 rest : List Nat) (h1 : outer1.length = 4)
    (h2 : outer2.length = 4) (h : beValue outer1 < 2 ^ 31 ↔ beValue outer2 < 2 ^ 31) :
    sameRest (sMemConnect (outer1 ++ rest)).readUint32.stream
      (sMemConnect (outer2 ++ rest)).readUint32.stream := by
  rw [readUint32_at_start outer1 rest h1, readUint32_at_start outer2 rest h2]
  have hc : beValue outer2 ≥ 2 ^ 31 ↔ beValue outer1 ≥ 2 ^ 31 := by
    constructor <;> intro h3 <;> omega
  refine ⟨?_, ?_, ?_, ?_⟩
  · show (if beValue outer2 ≥ 2 ^ 31 then CRYPT_ERROR_BADDATA else CRYPT_OK) =
      (if beValue outer1 ≥ 2 ^ 31 then CRYPT_ERROR_BADDATA else CRYPT_OK)
    by_cases hv : beValue outer1 ≥ 2 ^ 31
    · rw [if_pos hv, if_pos (hc.mpr hv)]
    · rw [if_neg hv, if_neg (fun h3 => hv (hc.mp h3))]
  · show (outer2 ++ rest).drop 4 = (outer1 ++ rest).drop 4
    rw [← h1, List.drop_left, h1, ← h2, List.drop_left]
  · show 4 ≤ (outer1 ++ rest).length
    rw [List.length_append, h1]
    omega
  · show 4 ≤ (outer2 ++ rest).length
    rw [List.length_append, h2]
    omega

/-- C36 fails for an outer length that the reader rejects: the sample RSA, DSA
and ECDSA keys of the ssh format with the four bytes `00 00 00 00` in the
place of the outer length are decoded with `CRYPT_OK`; with the four bytes
`80 00 00 00`, a value that does not fit a non-negative `int`, the read of the
outer length leaves the stream in the error state and the decoders return
`CRYPT_ERROR_BADDATA`. The two inputs differ only in the first four bytes. -/
theorem ssh_outer_length_rejected_by_reader :
    (sampleSshRsaOuter [0, 0, 0, 0]).drop 4 = (sampleSshRsaOuter [0x80, 0, 0, 0]).drop 4 ∧
    (readSshRsaPublicKey byteExt sampleLimits (sMemConnect (sampleSshRsaOuter [0, 0, 0, 0]))
      (sampleContext .CRYPT_ALGO_RSA) 0).status = CRYPT_OK ∧
    (readSshRsaPublicKey byteExt sampleLimits
      (sMemConnect (sampleSshRsaOuter [0x80, 0, 0, 0]))
      (sampleContext .CRYPT_ALGO_RSA) 0).status = CRYPT_ERROR_BADDATA ∧
    (sampleSshDssOuter [0, 0, 0, 0]).drop 4 = (sampleSshDssOuter [0x80, 0, 0, 0]).drop 4 ∧
    (readSshDlpPublicKey byteExt sampleLimits (sMemConnect (sampleSshDssOuter [0, 0, 0, 0]))
      (sampleContext .CRYPT_ALGO_DSA) 0).status = CRYPT_OK ∧
    (readSshDlpPublicKey byteExt sampleLimits
      (sMemConnect (sampleSshDssOuter [0x80, 0, 0, 0]))
      (sampleContext .CRYPT_ALGO_DSA) 0).status = CRYPT_ERROR_BADDATA ∧
    (sampleSshEcdsaOuter [0, 0, 0, 0]).drop 4 =
      (sampleSshEcdsaOuter [0x80, 0, 0, 0]).drop 4 ∧
    (readSshEccPublicKey byteExt sampleLimits
      (sMemConnect (sampleSshEcdsaOuter [0, 0, 0, 0]))
      (sampleContext .CRYPT_ALGO_ECDSA) 0).status = CRYPT_OK ∧
    (readSshEccPublicKey byteExt sampleLimits
      (sMemConnect (sampleSshEcdsaOuter [0x80, 0, 0, 0]))
      (sampleContext .CRYPT_ALGO_ECDSA) 0).status = CRYPT_ERROR_BADDATA := by
  refine ⟨by decide, by decide, by decide, by decide, by decide, by decide, by decide,
    by decide, by decide⟩

/-- The amended C36: the three ssh decoders do not use the value that the read
of the leading 32-bit outer length returns. For every implementation of the
readers that satisfies the contract on streams with the same rest, from two
streams that the read of the outer length leaves related the decoders return
the same status, the same bitmask and the same context with the same decoded
fields. On byte buffers this holds for every two inputs that differ only in
the first four bytes and whose four bytes are both values that `readUint32`
returns or both values that it rejects: the outer length is never compared
with the content that follows. -/
theorem ssh_outer_length_ignored :
    (∀ {σ : Type} (E : Ext σ) (rel : σ → σ → Prop) (L : Limits) (s t : σ) (ctx : CONTEXT_INFO)
        (af : Nat), RestContract E rel →
      rel (E.readUint32 s).stream (E.readUint32 t).stream →
      sameOutcome (readSshRsaPublicKey E L s ctx af) (readSshRsaPublicKey E L t ctx af) ∧
      sameOutcome (readSshDlpPublicKey E L s ctx af) (readSshDlpPublicKey E L t ctx af) ∧
      sameOutcome (readSshEccPublicKey E L s ctx af) (readSshEccPublicKey E L t ctx af)) ∧
    (∀ (outer1 outer2 rest : List Nat) (L : Limits) (ctx : CONTEXT_INFO) (af : Nat),
      outer1.length = 4 → outer2.length = 4 →
      (beValue outer1 < 2 ^ 31 ↔ beValue outer2 < 2 ^ 31) →
      sameOutcome (readSshRsaPublicKey byteExt L (sMemConnect (outer1 ++ rest)) ctx af)
        (readSshRsaPublicKey byteExt L (sMemConnect (outer2 ++ rest)) ctx af) ∧
      sameOutcome (readSshDlpPublicKey byteExt L (sMemConnect (outer1 ++ rest)) ctx af)
        (readSshDlpPublicKey byteExt L (sMemConnect (outer2 ++ rest)) ctx af) ∧
      sameOutcome (readSshEccPublicKey byteExt L (sMemConnect (outer1 ++ rest)) ctx af)
        (readSshEccPublicKey byteExt L (sMemConnect (outer2 ++ rest)) ctx af)) := by
  constructor
  · intro σ E rel L s t ctx af hC h0
    exact ssh_rest_outcome E rel hC L s t ctx af h0
  · intro outer1 outer2 rest L ctx af h1 h2 h
    exact ssh_rest_outcome byteExt sameRest byteExt_restContract L _ _ ctx af
      (readUint32_outer outer1 outer2 rest h1 h2 h)

/-- Witness of the amended C36: the sample RSA, DSA and ECDSA keys in the ssh
format with the outer length 0 and with the outer length `0x7FFFFFFF` in the
place of their outer length are decoded with `CRYPT_OK` to the same key. -/
theorem ssh_outer_length_ignored_witness :
    (readSshRsaPublicKey byteExt sampleLimits
      (sMemConnect (sampleSshRsaOuter [0x7F, 0xFF, 0xFF, 0xFF]))
      (sampleContext .CRYPT_ALGO_RSA) 0).status = CRYPT_OK ∧
    sameOutcome
      (readSshRsaPublicKey byteExt sampleLimits (sMemConnect (sampleSshRsaOuter [0, 0, 0, 0]))
        (sampleContext .CRYPT_ALGO_RSA) 0)
      (readSshRsaPublicKey byteExt sampleLimits
        (sMemConnect (sampleSshRsaOuter [0x7F, 0xFF, 0xFF, 0xFF]))
        (sampleContext .CRYPT_ALGO_RSA) 0) ∧
    (readSshDlpPublicKey byteExt sampleLimits
      (sMemConnect (sampleSshDssOuter [0x7F, 0xFF, 0xFF, 0xFF]))
      (sampleContext .CRYPT_ALGO_DSA) 0).status = CRYPT_OK ∧
    sameOutcome
      (readSshDlpPublicKey byteExt sampleLimits (sMemConnect (sampleSshDssOuter [0, 0, 0, 0]))
        (sampleContext .CRYPT_ALGO_DSA) 0)
      (readSshDlpPublicKey byteExt sampleLimits
        (sMemConnect (sampleSshDssOuter [0x7F, 0xFF, 0xFF, 0xFF]))
        (sampleContext .CRYPT_ALGO_DSA) 0) ∧
    (readSshEccPublicKey byteExt sampleLimits
      (sMemConnect (sampleSshEcdsaOuter [0x7F, 0xFF, 0xFF, 0xFF]))
      (sampleContext .CRYPT_ALGO_ECDSA) 0).status = CRYPT_OK ∧
    sameOutcome
      (readSshEccPublicKey byteExt sampleLimits
        (sMemConnect (sampleSshEcdsaOuter [0, 0, 0, 0])) (sampleContext .CRYPT_ALGO_ECDSA) 0)
      (readSshEccPublicKey byteExt sampleLimits
        (sMemConnect (sampleSshEcdsaOuter [0x7F, 0xFF, 0xFF, 0xFF]))
        (sampleContext .CRYPT_ALGO_ECDSA) 0) :=
  ⟨by decide,
   (ssh_outer_length_ignored.2 [0, 0, 0, 0] [0x7F, 0xFF, 0xFF, 0xFF] (sampleSshRsa.drop 4)
      sampleLimits (sampleContext .CRYPT_ALGO_RSA) 0 rfl rfl (by decide)).1,
   by decide,
   (ssh_outer_length_ignored.1 byteExt sameRest sampleLimits
      (sMemConnect (sampleSshDssOuter [0, 0, 0, 0]))
      (sMemConnect (sampleSshDssOuter [0x7F, 0xFF, 0xFF, 0xFF]))
      (sampleContext .CRYPT_ALGO_DSA) 0 byteExt_restContract
      (by unfold sameRest; decide)).2.1,
   by decide,
   (ssh_outer_length_ignored.2 [0, 0, 0, 0] [0x7F, 0xFF, 0xFF, 0xFF] (sampleSshEcdsa.drop 4)
      sampleLimits (sampleContext .CRYPT_ALGO_ECDSA) 0 rfl rfl (by decide)).2.2⟩

/-- C37: in an ECDSA context, after an algorithm name that the ssh ECC decoder
accepts (read without an error, of at least 18 bytes, starting with
"ecdsa-sha2-"), the decoder is `sshEccAfterName` on the stream that the read of
the name has left: the bytes of the name after the prefix are not used. For
every implementation of the readers that satisfies the contract on streams
with the same rest, two runs with accepted names that leave related streams
return the same status, the same bitmask and the same context, so they store
the same curve, the one of the curve-name string. -/
theorem ssh_ecc_curve_from_curve_name {σ : Type} (E : Ext σ) (rel : σ → σ → Prop)
    (L : Limits) (s t : σ) (ctx : CONTEXT_INFO) (af : Nat) (hC : RestContract E rel)
    (hctx : ctx.type = .CONTEXT_PKC ∧ ctx.cryptAlgo = .CRYPT_ALGO_ECDSA)
    (hs : sshEccNameAccepted E L s) (ht : sshEccNameAccepted E L t)
    (hrel : rel (sshEccName E L s).stream (sshEccName E L t).stream) :
    readSshEccPublicKey E L s ctx af =
      sshEccAfterName E L (sshEccName E L s).stream ctx permInternalVerify ∧
    readSshEccPublicKey E L t ctx af =
      sshEccAfterName E L (sshEccName E L t).stream ctx permInternalVerify ∧
    sameOutcome (readSshEccPublicKey E L s ctx af) (readSshEccPublicKey E L t ctx af) ∧
    (readSshEccPublicKey E L t ctx af).ctx.ctxPKC.curveType =
      (readSshEccPublicKey E L s ctx af).ctx.ctxPKC.curveType := by
  have e1 := readSshEccPublicKey_afterName E L s ctx af hctx hs
  have e2 := readSshEccPublicKey_afterName E L t ctx af hctx ht
  have h := sshEccAfterName_rest E rel hC L _ _ ctx permInternalVerify hrel
  rw [← e1, ← e2] at h
  exact ⟨e1, e2, sameLeaf_outcome h, congrArg (fun c => c.ctxPKC.curveType) h.2.2.1⟩

/-- Witness of C37: the ECDSA keys in the ssh format with the algorithm names
"ecdsa-sha2-nistp256" and "ecdsa-sha2-nistp384", both followed by the curve
name "nistp384" and a point of P-384, are both decoded with `CRYPT_OK` to a key
on the curve P-384. -/
theorem ssh_ecc_curve_from_curve_name_witness :
    (readSshEccPublicKey byteExt sampleLimits
      (sMemConnect (sampleSshEcdsaP384 "ecdsa-sha2-nistp256"))
      (sampleContext .CRYPT_ALGO_ECDSA) 0).status = CRYPT_OK ∧
    (readSshEccPublicKey byteExt sampleLimits
      (sMemConnect (sampleSshEcdsaP384 "ecdsa-sha2-nistp256"))
      (sampleContext .CRYPT_ALGO_ECDSA) 0).ctx.ctxPKC.curveType = CRYPT_ECCCURVE_P384 ∧
    (readSshEccPublicKey byteExt sampleLimits
      (sMemConnect (sampleSshEcdsaP384 "ecdsa-sha2-nistp384"))
      (sampleContext .CRYPT_ALGO_ECDSA) 0).ctx.ctxPKC.curveType = CRYPT_ECCCURVE_P384 ∧
    sameOutcome
      (readSshEccPublicKey byteExt sampleLimits
        (sMemConnect (sampleSshEcdsaP384 "ecdsa-sha2-nistp256"))
        (sampleContext .CRYPT_ALGO_ECDSA) 0)
      (readSshEccPublicKey byteExt sampleLimits
        (sMemConnect (sampleSshEcdsaP384 "ecdsa-sha2-nistp384"))
        (sampleContext .CRYPT_ALGO_ECDSA) 0) :=
  have h := ssh_ecc_curve_from_curve_name byteExt sameRest sampleLimits
    (sMemConnect (sampleSshEcdsaP384 "ecdsa-sha2-nistp256"))
    (sMemConnect (sampleSshEcdsaP384 "ecdsa-sha2-nistp384"))
    (sampleContext .CRYPT_ALGO_ECDSA) 0 byteExt_restContract (by decide)
    (by unfold sshEccNameAccepted; decide) (by unfold sshEccNameAccepted; decide)
    (by unfold sameRest; decide)
  ⟨by decide, by decide, h.2.2.2.trans (by decide), h.2.2.1⟩

end KeyRdPub
